import Mathlib

/-!
# Wallet-manager client bridge and transfer state machine

A shallow embedding of `WalletKitCore/src/crypto/BRCryptoWalletManagerClient.c`: the backend
event handlers (`cwmWalletManagerEventAsBTC`, `cwmWalletEventAsBTC`,
`cwmTransactionEventAsBTC`, `cwmWalletManagerEventAsETH`, `cwmPeerEventAsETH`,
`cwmWalletEventAsETH`, `cwmEventTokenAsETH`, `cwmTransactionEventAsETH`), the request
callbacks of the three families (`cwmGetBlockNumberAsBTC` to `cwmSubmitTransactionAsGEN`),
the token and its release, and the announce functions (`cwmAnnounceGetBlockNumberSuccess` to
`cwmAnnounceEstimateTransactionFeeFailure`).

Conventions of the embedding.

* Pointers are natural numbers.  A `BRCryptoWallet` pointer is represented by the native
  handle (`BRWallet *`, `BREthereumWallet`) of the wallet record it points to: the handlers
  only ever obtain a wallet through a lookup by native handle or through `cwm->wallet`.
  A `BRCryptoTransfer` pointer is an address into the manager's store of transfer records
  (`BRCryptoWalletManagerRecord.transfers`); a wallet holds a list of such addresses.
* A handler is a function from the manager record before the call to an `Outcome`: either the
  manager record at the normal return, or the manager record at the moment an `assert` failed.
* Every call of a listener callback is appended to `events`, together with the wallets of the
  manager as the listener finds them during that call.  Every `cryptoWalletManagerTake (cwm)`
  passed to a listener raises `ref` by one.
* Every `cryptoTransferSetState` is also recorded in `stores`.
* A request callback or an announce function is a function from a `Bridge`, the manager
  record together with the calls made out of the bridge so far, to a `BridgeOutcome`.  The
  calls recorded are those of the Client table, those of the native manager behind `cwm->u`,
  the allocation and the release of a token, the manager's lock, and the two routines of the
  generic family that incorporate a transfer.  A token is a record passed by value.
* What the functions outside the sources answer (`Natives`) is a parameter of the request
  callbacks and of the announce functions.
* Reference counts of wallets, transfers, units, currencies and fee bases are not modelled.
* The types of the data model are declared in headers that are not among the sources; they
  are reconstructed from the spec (section 3) and from the fields and enumerators that the
  handlers use.
-/

namespace WalletKit

/-! ## Data model -/

/-- The backend family of a wallet manager (`BRCryptoBlockChainType`). -/
inductive BRCryptoBlockChainType where
  | BLOCK_CHAIN_TYPE_BTC
  | BLOCK_CHAIN_TYPE_ETH
  | BLOCK_CHAIN_TYPE_GEN
  deriving DecidableEq

/-- A fee basis (`BRCryptoFeeBasis`), as built by `cryptoFeeBasisCreateAsBTC` or
`cryptoFeeBasisCreateAsETH`; the first component is the fee unit. -/
inductive BRCryptoFeeBasis where
  | asBTC (unit feePerKB sizeInByte : Nat)
  | asETH (unit gasLimit gasPrice : Nat)
  deriving DecidableEq

/-- Modelled from the spec: `cryptoFeeBasisCreateAsBTC` (declared in BRCryptoBTC.h, defined
elsewhere) builds a fee basis, "the parameters used to compute a transaction's fee", from a
fee unit and two `uint32_t` numbers. -/
def cryptoFeeBasisCreateAsBTC (unit feePerKB sizeInByte : Nat) : BRCryptoFeeBasis :=
  .asBTC unit feePerKB sizeInByte

/-- Modelled from the spec: `cryptoFeeBasisCreateAsETH` (BRCryptoFeeBasisP.h) builds a fee basis
from a fee unit, a gas limit and a gas price. -/
def cryptoFeeBasisCreateAsETH (unit gasLimit gasPrice : Nat) : BRCryptoFeeBasis :=
  .asETH unit gasLimit gasPrice

/-- An amount (`BRCryptoAmount`): a unit, a sign and a magnitude. -/
structure BRCryptoAmount where
  unit : Nat
  isNegative : Bool
  value : Nat
  deriving DecidableEq

/-- Modelled from the spec: `cryptoAmountCreate` (BRCryptoAmountP.h) builds the amount with the
given unit, sign and magnitude. -/
def cryptoAmountCreate (unit : Nat) (isNegative : Bool) (value : Nat) : BRCryptoAmount :=
  { unit := unit, isNegative := isNegative, value := value }

/-- Modelled from the spec: `cryptoAmountCreateInteger` (BRCryptoAmountP.h) builds the amount
of a signed 64-bit integer: its sign and its magnitude. -/
def cryptoAmountCreateInteger (value : Int) (unit : Nat) : BRCryptoAmount :=
  cryptoAmountCreate unit (decide (value < 0)) value.natAbs

/-- The C cast `(int64_t) x` of a `uint64_t`. -/
def castInt64 (x : Nat) : Int :=
  if x % 2 ^ 64 < 2 ^ 63 then (x % 2 ^ 64 : Nat) else ((x % 2 ^ 64 : Nat) : Int) - 2 ^ 64

/-- The C cast `(uint32_t) x`. -/
def castUInt32 (x : Nat) : Nat := x % 2 ^ 32

/-- The tag of a transfer state (`BRCryptoTransferStateType`). -/
inductive BRCryptoTransferStateType where
  | CRYPTO_TRANSFER_STATE_CREATED
  | CRYPTO_TRANSFER_STATE_SIGNED
  | CRYPTO_TRANSFER_STATE_SUBMITTED
  | CRYPTO_TRANSFER_STATE_INCLUDED
  | CRYPTO_TRANSFER_STATE_ERRORED
  | CRYPTO_TRANSFER_STATE_DELETED
  deriving DecidableEq

/-- The reason carried by an errored transfer (`BRCryptoTransferSubmitError`). -/
inductive BRCryptoTransferSubmitError where
  | unknown
  | posix (errnum : Int)
  deriving DecidableEq

/-- Modelled from the spec: `cryptoTransferSubmitErrorUnknown` (BRCryptoTransferP.h), the
submit error of unknown cause. -/
def cryptoTransferSubmitErrorUnknown : BRCryptoTransferSubmitError := .unknown

/-- The state of a transfer (`BRCryptoTransferState`): the tagged variant
`Created | Signed | Submitted | Included (...) | Errored (...) | Deleted`.
A fee basis is a pointer in the source and may be `NULL`, here `none`; so may the error text. -/
inductive BRCryptoTransferState where
  | created
  | signed
  | submitted
  | included (blockNumber transactionIndex timestamp : Nat) (feeBasis : Option BRCryptoFeeBasis)
      (success : Bool) (error : Option String)
  | errored (error : BRCryptoTransferSubmitError)
  | deleted
  deriving DecidableEq

/-- The tag of a state: the field `type` of the C struct. -/
def BRCryptoTransferState.type : BRCryptoTransferState → BRCryptoTransferStateType
  | .created => .CRYPTO_TRANSFER_STATE_CREATED
  | .signed => .CRYPTO_TRANSFER_STATE_SIGNED
  | .submitted => .CRYPTO_TRANSFER_STATE_SUBMITTED
  | .included _ _ _ _ _ _ => .CRYPTO_TRANSFER_STATE_INCLUDED
  | .errored _ => .CRYPTO_TRANSFER_STATE_ERRORED
  | .deleted => .CRYPTO_TRANSFER_STATE_DELETED

/-- Modelled from the spec: `cryptoTransferStateInit` (declared in BRCryptoTransferP.h,
which is not among the sources) builds the state of the given tag without data.  The handlers call
it with the tags SIGNED, SUBMITTED and DELETED only; the two tags that carry data are given
zeroed data. -/
def cryptoTransferStateInit : BRCryptoTransferStateType → BRCryptoTransferState
  | .CRYPTO_TRANSFER_STATE_CREATED => .created
  | .CRYPTO_TRANSFER_STATE_SIGNED => .signed
  | .CRYPTO_TRANSFER_STATE_SUBMITTED => .submitted
  | .CRYPTO_TRANSFER_STATE_INCLUDED => .included 0 0 0 none false none
  | .CRYPTO_TRANSFER_STATE_ERRORED => .errored .unknown
  | .CRYPTO_TRANSFER_STATE_DELETED => .deleted

/-- Modelled from the spec: `cryptoTransferStateIncludedInit` (BRCryptoTransferP.h) builds
`Included{blockNumber, blockTransactionIndex, timestamp, confirmedFeeBasis, success, error}`
from its six arguments. -/
def cryptoTransferStateIncludedInit (blockNumber transactionIndex timestamp : Nat)
    (feeBasis : Option BRCryptoFeeBasis) (success : Bool) (error : Option String) :
    BRCryptoTransferState :=
  .included blockNumber transactionIndex timestamp feeBasis success error

/-- Modelled from the spec: `cryptoTransferStateErroredInit` (BRCryptoTransferP.h) builds
`Errored{reason}` from the given submit error. -/
def cryptoTransferStateErroredInit (error : BRCryptoTransferSubmitError) :
    BRCryptoTransferState :=
  .errored error

/-- A transfer record (`struct BRCryptoTransferRecord`): the native transaction or transfer
it wraps (`tid`), its units, its state and its estimated fee basis. -/
structure BRCryptoTransferRecord where
  tid : Nat
  unit : Nat
  unitForFee : Nat
  state : BRCryptoTransferState
  feeBasisEstimated : Option BRCryptoFeeBasis
  deriving DecidableEq

/-- A wallet record (`struct BRCryptoWalletRecord`): the native wallet it wraps (`wid`), its
units, its balance and the transfers it holds (addresses of transfer records). -/
structure BRCryptoWalletRecord where
  wid : Nat
  unit : Nat
  unitForFee : Nat
  balance : BRCryptoAmount
  transfers : List Nat
  deriving DecidableEq

/-- Why a manager is disconnected (`BRCryptoWalletManagerDisconnectReason`). -/
inductive BRCryptoWalletManagerDisconnectReason where
  | requested
  | unknown
  | posix (errnum : Int)
  deriving DecidableEq

/-- Modelled from the spec: `cryptoWalletManagerDisconnectReasonUnknown`
(BRCryptoWalletManagerP.h), the disconnect reason of unknown cause. -/
def cryptoWalletManagerDisconnectReasonUnknown : BRCryptoWalletManagerDisconnectReason :=
  .unknown

/-- The tag of a manager state (`BRCryptoWalletManagerStateType`). -/
inductive BRCryptoWalletManagerStateType where
  | CRYPTO_WALLET_MANAGER_STATE_CREATED
  | CRYPTO_WALLET_MANAGER_STATE_DISCONNECTED
  | CRYPTO_WALLET_MANAGER_STATE_CONNECTED
  | CRYPTO_WALLET_MANAGER_STATE_SYNCING
  | CRYPTO_WALLET_MANAGER_STATE_DELETED
  deriving DecidableEq

/-- The lifecycle state of a manager (`BRCryptoWalletManagerState`): a tag and, as in the C
struct, the member `u.disconnected.reason`, which is zeroed (`none`) unless the state was
built by `cryptoWalletManagerStateDisconnectedInit`. -/
structure BRCryptoWalletManagerState where
  type : BRCryptoWalletManagerStateType
  reason : Option BRCryptoWalletManagerDisconnectReason
  deriving DecidableEq

/-- Modelled from the spec: `cryptoWalletManagerStateInit` (BRCryptoWalletManagerP.h) builds
the manager state of the given tag, its other member zeroed. -/
def cryptoWalletManagerStateInit (type : BRCryptoWalletManagerStateType) :
    BRCryptoWalletManagerState :=
  { type := type, reason := none }

/-- Modelled from the spec: `cryptoWalletManagerStateDisconnectedInit`
(BRCryptoWalletManagerP.h) builds the disconnected manager state carrying a reason. -/
def cryptoWalletManagerStateDisconnectedInit (reason : BRCryptoWalletManagerDisconnectReason) :
    BRCryptoWalletManagerState :=
  { type := .CRYPTO_WALLET_MANAGER_STATE_DISCONNECTED, reason := some reason }

/-- The network of a manager as far as the handlers read and write it: its height, its native
currency, the base and default unit of each currency, and the currency of each ERC20 token
(association lists; an absent key is a `NULL` result). -/
structure BRCryptoNetworkRecord where
  height : Nat
  currency : Nat
  unitAsBase : List (Nat × Nat)
  unitAsDefault : List (Nat × Nat)
  currencyForTokenETH : List (Nat × Nat)
  deriving DecidableEq

/-! ## Listener events -/

/-- Why a sync stopped (`BRCryptoSyncStoppedReason`). -/
inductive BRCryptoSyncStoppedReason where
  | complete
  | requested
  | unknown
  | posix (errnum : Int)
  deriving DecidableEq

/-- Modelled from the spec: `cryptoSyncStoppedReasonComplete` (not among the sources), the
reason of a sync that ran to its end. -/
def cryptoSyncStoppedReasonComplete : BRCryptoSyncStoppedReason := .complete

/-- The status of a native account-family event (`BREthereumStatus`). -/
inductive BREthereumStatus where
  | SUCCESS
  | ERROR (code : Nat)
  deriving DecidableEq

/-- A manager event handed to the listener (`BRCryptoWalletManagerEvent`). -/
inductive BRCryptoWalletManagerEvent where
  | CRYPTO_WALLET_MANAGER_EVENT_CREATED
  | CRYPTO_WALLET_MANAGER_EVENT_CHANGED (oldValue newValue : BRCryptoWalletManagerState)
  | CRYPTO_WALLET_MANAGER_EVENT_DELETED
  | CRYPTO_WALLET_MANAGER_EVENT_WALLET_ADDED (wallet : Nat)
  | CRYPTO_WALLET_MANAGER_EVENT_WALLET_CHANGED (wallet : Nat)
  | CRYPTO_WALLET_MANAGER_EVENT_WALLET_DELETED (wallet : Nat)
  | CRYPTO_WALLET_MANAGER_EVENT_SYNC_STARTED
  | CRYPTO_WALLET_MANAGER_EVENT_SYNC_CONTINUES (timestamp percentComplete : Nat)
  | CRYPTO_WALLET_MANAGER_EVENT_SYNC_STOPPED (reason : BRCryptoSyncStoppedReason)
  | CRYPTO_WALLET_MANAGER_EVENT_SYNC_RECOMMENDED (depth : Nat)
  | CRYPTO_WALLET_MANAGER_EVENT_BLOCK_HEIGHT_UPDATED (value : Nat)
  deriving DecidableEq

/-- The status of a fee estimate: success, or the image of a native status. -/
inductive BRCryptoStatus where
  | CRYPTO_SUCCESS
  | fromETH (status : BREthereumStatus)
  deriving DecidableEq

/-- Modelled from the spec: `cryptoStatusFromETH` (BRCryptoStatusP.h), the image of a native
status. -/
def cryptoStatusFromETH (status : BREthereumStatus) : BRCryptoStatus := .fromETH status

/-- A wallet event handed to the listener (`BRCryptoWalletEvent`); only the kinds the
handlers build. -/
inductive BRCryptoWalletEvent where
  | CRYPTO_WALLET_EVENT_CREATED
  | CRYPTO_WALLET_EVENT_DELETED
  | CRYPTO_WALLET_EVENT_TRANSFER_ADDED (transfer : Nat)
  | CRYPTO_WALLET_EVENT_TRANSFER_DELETED (transfer : Nat)
  | CRYPTO_WALLET_EVENT_BALANCE_UPDATED (amount : BRCryptoAmount)
  | CRYPTO_WALLET_EVENT_FEE_BASIS_UPDATED (basis : BRCryptoFeeBasis)
  | CRYPTO_WALLET_EVENT_FEE_BASIS_ESTIMATED (status : BRCryptoStatus) (cookie : Nat)
      (basis : Option BRCryptoFeeBasis)
  deriving DecidableEq

/-- A transfer event handed to the listener (`BRCryptoTransferEvent`). -/
inductive BRCryptoTransferEvent where
  | CRYPTO_TRANSFER_EVENT_CREATED
  | CRYPTO_TRANSFER_EVENT_CHANGED (oldState newState : BRCryptoTransferState)
  | CRYPTO_TRANSFER_EVENT_DELETED
  deriving DecidableEq

/-- One call of a callback of the listener table, with the wallet and transfer it is given. -/
inductive ListenerEvent where
  | walletManagerEvent (event : BRCryptoWalletManagerEvent)
  | walletEvent (wallet : Nat) (event : BRCryptoWalletEvent)
  | transferEvent (wallet transfer : Nat) (event : BRCryptoTransferEvent)
  deriving DecidableEq

/-- A listener call as recorded: the event, and the wallets of the manager during the call. -/
structure ListenerCall where
  event : ListenerEvent
  wallets : List BRCryptoWalletRecord
  deriving DecidableEq

/-- The wallet manager (`struct BRCryptoWalletManagerRecord`): reference count, family,
native manager (`u.btc` / `u.eth`, `none` for `NULL`), state, network, primary wallet,
wallets, the store of transfer records, and the two recordings described above. -/
structure BRCryptoWalletManagerRecord where
  ref : Nat
  type : BRCryptoBlockChainType
  u : Option Nat
  state : BRCryptoWalletManagerState
  network : BRCryptoNetworkRecord
  wallet : Nat
  wallets : List BRCryptoWalletRecord
  transfers : List BRCryptoTransferRecord
  stores : List (Nat × BRCryptoTransferState)
  events : List ListenerCall
  deriving DecidableEq

/-- How a handler ends: by returning, or in a failed `assert` (the process aborts). -/
inductive Outcome where
  | returned (cwm : BRCryptoWalletManagerRecord)
  | aborted (cwm : BRCryptoWalletManagerRecord)
  deriving DecidableEq

/-! ## Operations on the manager, its wallets and its transfers

The functions of this section are declared in BRCryptoWalletManagerP.h, BRCryptoWalletP.h
and BRCryptoTransferP.h, which the source includes and which are not among the sources; the
lookups by native wallet are the exception (BRCryptoBTC.h). -/

/-- A pointer to a manager record: the record itself, passed along. -/
abbrev BRCryptoWalletManager := BRCryptoWalletManagerRecord

/-- Modelled from the spec: the strong take of `cryptoWalletManagerTake` "increments
unconditionally". -/
def cryptoWalletManagerTake (cwm : BRCryptoWalletManager) : BRCryptoWalletManager :=
  { cwm with ref := cwm.ref + 1 }

/-- Modelled from the spec: the weak take of `cryptoWalletManagerTakeWeak` "increments only
if the count is currently greater than zero, signaling no longer live otherwise" (`NULL`,
here `none`). -/
def cryptoWalletManagerTakeWeak (context : BRCryptoWalletManager) :
    Option BRCryptoWalletManager :=
  if context.ref = 0 then none else some { context with ref := context.ref + 1 }

/-- Modelled from the spec: `cryptoWalletManagerGive` gives one reference back.  What the
release at count zero does is outside the handlers. -/
def cryptoWalletManagerGive (cwm : BRCryptoWalletManager) : BRCryptoWalletManager :=
  { cwm with ref := cwm.ref - 1 }

/-- The call `cwm->listener.walletManagerEventCallback (context, cryptoWalletManagerTake
(cwm), event)`. -/
def walletManagerEventCallback (cwm : BRCryptoWalletManager)
    (event : BRCryptoWalletManagerEvent) : BRCryptoWalletManager :=
  let cwm := cryptoWalletManagerTake cwm
  { cwm with events := cwm.events ++ [{ event := .walletManagerEvent event,
                                        wallets := cwm.wallets }] }

/-- The call `cwm->listener.walletEventCallback (context, cryptoWalletManagerTake (cwm),
wallet, event)`. -/
def walletEventCallback (cwm : BRCryptoWalletManager) (wallet : Nat)
    (event : BRCryptoWalletEvent) : BRCryptoWalletManager :=
  let cwm := cryptoWalletManagerTake cwm
  { cwm with events := cwm.events ++ [{ event := .walletEvent wallet event,
                                        wallets := cwm.wallets }] }

/-- The call `cwm->listener.transferEventCallback (context, cryptoWalletManagerTake (cwm),
wallet, transfer, event)`. -/
def transferEventCallback (cwm : BRCryptoWalletManager) (wallet transfer : Nat)
    (event : BRCryptoTransferEvent) : BRCryptoWalletManager :=
  let cwm := cryptoWalletManagerTake cwm
  { cwm with events := cwm.events ++ [{ event := .transferEvent wallet transfer event,
                                        wallets := cwm.wallets }] }

/-- The first wallet of the manager that wraps the native wallet `btc`
(`cryptoWalletManagerFindWalletAsBTC`, BRCryptoBTC.h: a scan of `cwm->wallets`). -/
def cryptoWalletManagerFindWalletAsBTC (cwm : BRCryptoWalletManager) (btc : Nat) :
    Option BRCryptoWalletRecord :=
  cwm.wallets.find? (fun w => w.wid == btc)

/-- The first wallet of the manager that wraps the native wallet `eth`
(`cryptoWalletManagerFindWalletAsETH`, BRCryptoBTC.h). -/
def cryptoWalletManagerFindWalletAsETH (cwm : BRCryptoWalletManager) (eth : Nat) :
    Option BRCryptoWalletRecord :=
  cwm.wallets.find? (fun w => w.wid == eth)

/-- Whether the record at address `transfer` of a store of transfer records wraps the native
transaction `tid` (`cryptoTransferHasBTC`, `cryptoTransferHasETH`). -/
def transferHas (store : List BRCryptoTransferRecord) (tid : Nat) (transfer : Nat) : Bool :=
  match store[transfer]? with
  | some r => r.tid == tid
  | none => false

/-- The first transfer held by the wallet `wallet` that wraps the native transaction `tid`:
a scan of `wallet->transfers`, like the scan of `cwm->wallets` in BRCryptoBTC.h. -/
def findTransfer (wallets : List BRCryptoWalletRecord) (store : List BRCryptoTransferRecord)
    (wallet tid : Nat) : Option Nat :=
  match wallets.find? (fun w => w.wid == wallet) with
  | some w => w.transfers.find? (transferHas store tid)
  | none => none

/-- Modelled from the spec: `cryptoWalletFindTransferAsBTC` (declared in BRCryptoBTC.h,
defined elsewhere) looks the wallet's Transfer set up by "backend-native transfer
identity": the first transfer of the wallet that wraps the native transaction `btc`. -/
def cryptoWalletFindTransferAsBTC (cwm : BRCryptoWalletManager) (wallet : Nat) (btc : Nat) :
    Option Nat :=
  findTransfer cwm.wallets cwm.transfers wallet btc

/-- Modelled from the spec: `cryptoWalletFindTransferAsETH` (BRCryptoWalletP.h), the same
lookup for the account family. -/
def cryptoWalletFindTransferAsETH (cwm : BRCryptoWalletManager) (wallet : Nat) (eth : Nat) :
    Option Nat :=
  findTransfer cwm.wallets cwm.transfers wallet eth

/-- The state of the record at an address of a store.  Reading through an address that
holds no record is undefined in C; the handlers never do. -/
def stateAt (store : List BRCryptoTransferRecord) (transfer : Nat) : BRCryptoTransferState :=
  match store[transfer]? with
  | some r => r.state
  | none => .created

/-- Modelled from the spec: `cryptoTransferGetState` (BRCryptoTransferP.h) reads the
TransferState that the transfer holds. -/
def cryptoTransferGetState (cwm : BRCryptoWalletManager) (transfer : Nat) :
    BRCryptoTransferState :=
  stateAt cwm.transfers transfer

/-- Modelled from the spec: `cryptoTransferGetEstimatedFeeBasis` (BRCryptoTransferP.h) reads
the estimated FeeBasis that the transfer holds. -/
def cryptoTransferGetEstimatedFeeBasis (cwm : BRCryptoWalletManager) (transfer : Nat) :
    Option BRCryptoFeeBasis :=
  (cwm.transfers[transfer]?).bind (fun r => r.feeBasisEstimated)

/-- Modelled from the spec: `cryptoTransferGetUnitForFee` (BRCryptoTransferP.h) reads the fee
unit of the transfer. -/
def cryptoTransferGetUnitForFee (cwm : BRCryptoWalletManager) (transfer : Nat) : Nat :=
  match cwm.transfers[transfer]? with
  | some r => r.unitForFee
  | none => 0

/-- Store a state in the record at an address of a store. -/
def storeState (store : List BRCryptoTransferRecord) (transfer : Nat)
    (state : BRCryptoTransferState) : List BRCryptoTransferRecord :=
  match store[transfer]? with
  | some r => store.set transfer { r with state := state }
  | none => store

/-- Modelled from the spec: `cryptoTransferSetState` (BRCryptoTransferP.h) stores a
TransferState in the transfer.  The call is also recorded in `stores`. -/
def cryptoTransferSetState (cwm : BRCryptoWalletManager) (transfer : Nat)
    (state : BRCryptoTransferState) : BRCryptoWalletManager :=
  { cwm with
    transfers := storeState cwm.transfers transfer state
    stores := cwm.stores ++ [(transfer, state)] }

/-- Modelled from the spec: a transfer is constructed in the state `Created`
(`cryptoTransferCreateAsBTC`, `cryptoTransferCreateAsETH`).  The new record is placed at the
next free address, which is returned.  Its estimated fee basis is computed by the chain
backend from the native transaction and is an argument here. -/
def cryptoTransferCreate (cwm : BRCryptoWalletManager) (unit unitForFee tid : Nat)
    (feeBasisEstimated : Option BRCryptoFeeBasis) : Nat × BRCryptoWalletManager :=
  (cwm.transfers.length,
   { cwm with transfers := cwm.transfers ++ [{ tid := tid, unit := unit,
                                               unitForFee := unitForFee, state := .created,
                                               feeBasisEstimated := feeBasisEstimated }] })

/-- Apply `f` to the first wallet of the list that wraps the native wallet `wid`: a write
through a wallet pointer. -/
def modifyWallet (wid : Nat) (f : BRCryptoWalletRecord → BRCryptoWalletRecord) :
    List BRCryptoWalletRecord → List BRCryptoWalletRecord
  | [] => []
  | w :: ws => if w.wid == wid then f w :: ws else w :: modifyWallet wid f ws

/-- A wallet record with one more member in its Transfer set; a set holds a member once. -/
def addTransfer (transfer : Nat) (w : BRCryptoWalletRecord) : BRCryptoWalletRecord :=
  if transfer ∈ w.transfers then w else { w with transfers := w.transfers ++ [transfer] }

/-- Modelled from the spec: `cryptoWalletAddTransfer` (BRCryptoWalletP.h) makes the wallet's
Transfer set include the transfer. -/
def cryptoWalletAddTransfer (cwm : BRCryptoWalletManager) (wallet transfer : Nat) :
    BRCryptoWalletManager :=
  { cwm with wallets := modifyWallet wallet (addTransfer transfer) cwm.wallets }

/-- Modelled from the spec: `cryptoWalletRemTransfer` (BRCryptoWalletP.h) removes the
transfer from the wallet's Transfer set; the record itself lives on while it is referenced. -/
def cryptoWalletRemTransfer (cwm : BRCryptoWalletManager) (wallet transfer : Nat) :
    BRCryptoWalletManager :=
  let rem := fun (w : BRCryptoWalletRecord) =>
    { w with transfers := w.transfers.erase transfer }
  { cwm with wallets := modifyWallet wallet rem cwm.wallets }

/-- Modelled from the spec: `cryptoWalletGetBalance` (BRCryptoWalletP.h) reads the balance
Amount that the wallet holds; a wallet the manager no longer holds reads as the zero amount. -/
def cryptoWalletGetBalance (cwm : BRCryptoWalletManager) (wallet : Nat) : BRCryptoAmount :=
  match cwm.wallets.find? (fun w => w.wid == wallet) with
  | some w => w.balance
  | none => cryptoAmountCreate 0 false 0

/-- Modelled from the spec: `cryptoWalletManagerHasWallet` (BRCryptoWalletManagerP.h) tells
whether the manager's Wallet set contains the wallet. -/
def cryptoWalletManagerHasWallet (cwm : BRCryptoWalletManager) (wallet : Nat) : Bool :=
  cwm.wallets.any (fun w => w.wid == wallet)

/-- Modelled from the spec: `cryptoWalletManagerAddWallet` makes the manager's Wallet set
include the wallet. -/
def cryptoWalletManagerAddWallet (cwm : BRCryptoWalletManager)
    (wallet : BRCryptoWalletRecord) : BRCryptoWalletManager :=
  if cryptoWalletManagerHasWallet cwm wallet.wid then cwm
  else { cwm with wallets := cwm.wallets ++ [wallet] }

/-- Remove the first wallet of the list that wraps the native wallet `wid`. -/
def removeWallet (wid : Nat) : List BRCryptoWalletRecord → List BRCryptoWalletRecord
  | [] => []
  | w :: ws => if w.wid == wid then ws else w :: removeWallet wid ws

/-- Modelled from the spec: `cryptoWalletManagerRemWallet` removes the wallet from the
manager's Wallet set. -/
def cryptoWalletManagerRemWallet (cwm : BRCryptoWalletManager) (wallet : Nat) :
    BRCryptoWalletManager :=
  { cwm with wallets := removeWallet wallet cwm.wallets }

/-- Modelled from the spec: `cryptoWalletManagerSetState` (BRCryptoWalletManagerP.h) records a
new lifecycle State in the manager. -/
def cryptoWalletManagerSetState (cwm : BRCryptoWalletManager)
    (state : BRCryptoWalletManagerState) : BRCryptoWalletManager :=
  { cwm with state := state }

/-- Modelled from the spec: `cryptoNetworkSetHeight` (BRCryptoNetworkP.h), applied to the
manager's network, records a new height. -/
def cryptoNetworkSetHeight (cwm : BRCryptoWalletManager) (height : Nat) :
    BRCryptoWalletManager :=
  { cwm with network := { cwm.network with height := height } }

/-! ## The UTXO family: native events and their handlers -/

/-- The native UTXO manager (`BRWalletManager`) as far as the handlers consult it: its
address, its wallet (`BRWalletManagerGetWallet`), whether it handles BTC
(`BRWalletManagerHandlesBTC`), and the estimated fee basis that the chain backend derives
from a native transaction when a transfer is created for it. -/
structure BRWalletManager where
  ptr : Nat
  wallet : Nat
  handlesBTC : Bool
  transactionFeeBasis : Nat → Option BRCryptoFeeBasis

/-- A native manager event of the UTXO family (`BRWalletManagerEvent`). -/
inductive BRWalletManagerEvent where
  | BITCOIN_WALLET_MANAGER_CREATED
  | BITCOIN_WALLET_MANAGER_CONNECTED
  | BITCOIN_WALLET_MANAGER_DISCONNECTED (reason : BRCryptoWalletManagerDisconnectReason)
  | BITCOIN_WALLET_MANAGER_SYNC_STARTED
  | BITCOIN_WALLET_MANAGER_SYNC_PROGRESS (timestamp percentComplete : Nat)
  | BITCOIN_WALLET_MANAGER_SYNC_STOPPED (reason : BRCryptoSyncStoppedReason)
  | BITCOIN_WALLET_MANAGER_SYNC_RECOMMENDED (depth : Nat)
  | BITCOIN_WALLET_MANAGER_BLOCK_HEIGHT_UPDATED (value : Nat)
  deriving DecidableEq

/-- A native wallet event of the UTXO family (`BRWalletEvent`). -/
inductive BRWalletEvent where
  | BITCOIN_WALLET_CREATED
  | BITCOIN_WALLET_BALANCE_UPDATED (satoshi : Nat)
  | BITCOIN_WALLET_FEE_PER_KB_UPDATED (value : Nat)
  | BITCOIN_WALLET_TRANSACTION_SUBMIT_SUCCEEDED (transaction : Nat)
  | BITCOIN_WALLET_TRANSACTION_SUBMIT_FAILED (transaction : Nat)
      (error : BRCryptoTransferSubmitError)
  | BITCOIN_WALLET_FEE_ESTIMATED (cookie feePerKb sizeInByte : Nat)
  | BITCOIN_WALLET_DELETED
  deriving DecidableEq

/-- A native transaction event of the UTXO family (`BRTransactionEvent`). -/
inductive BRTransactionEvent where
  | BITCOIN_TRANSACTION_CREATED
  | BITCOIN_TRANSACTION_SIGNED
  | BITCOIN_TRANSACTION_ADDED
  | BITCOIN_TRANSACTION_UPDATED (blockHeight timestamp : Nat)
  | BITCOIN_TRANSACTION_DELETED
  deriving DecidableEq

/-- The statement `if (NULL == cwm->u.btc) cwm->u.btc = btcManager;` (and its account-family
twin). -/
def ensureNative (cwm : BRCryptoWalletManager) (native : Nat) : BRCryptoWalletManager :=
  { cwm with u := if cwm.u = none then some native else cwm.u }

/-- The end of the two manager-event handlers: `if (needEvent) walletManagerEventCallback
(..., cwmEvent); cryptoWalletManagerGive (cwm);`. -/
def finishManagerEvent (cwm : BRCryptoWalletManager) (needEvent : Bool)
    (cwmEvent : BRCryptoWalletManagerEvent) : Outcome :=
  let cwm := if needEvent then walletManagerEventCallback cwm cwmEvent else cwm
  .returned (cryptoWalletManagerGive cwm)

/-- The handler of native manager events of the UTXO family (lines 171-312). -/
def cwmWalletManagerEventAsBTC (context : BRCryptoWalletManager) (btcManager : BRWalletManager)
    (event : BRWalletManagerEvent) : Outcome :=
  match cryptoWalletManagerTakeWeak context with
  | none => .returned context
  | some cwm =>
    let cwm := ensureNative cwm btcManager.ptr
    if cwm.type ≠ .BLOCK_CHAIN_TYPE_BTC then .aborted cwm else
    match event with
    | .BITCOIN_WALLET_MANAGER_CREATED =>
      match cryptoWalletManagerFindWalletAsBTC cwm btcManager.wallet with
      | none => .aborted cwm
      | some _ =>
        let cwm := walletManagerEventCallback cwm .CRYPTO_WALLET_MANAGER_EVENT_CREATED
        let cwm := walletEventCallback cwm cwm.wallet .CRYPTO_WALLET_EVENT_CREATED
        let cwm := walletManagerEventCallback cwm
          (.CRYPTO_WALLET_MANAGER_EVENT_WALLET_ADDED cwm.wallet)
        finishManagerEvent cwm false .CRYPTO_WALLET_MANAGER_EVENT_CREATED
    | .BITCOIN_WALLET_MANAGER_CONNECTED =>
      let state := cryptoWalletManagerStateInit .CRYPTO_WALLET_MANAGER_STATE_CONNECTED
      let cwmEvent := BRCryptoWalletManagerEvent.CRYPTO_WALLET_MANAGER_EVENT_CHANGED
        cwm.state state
      let cwm := cryptoWalletManagerSetState cwm state
      finishManagerEvent cwm true cwmEvent
    | .BITCOIN_WALLET_MANAGER_DISCONNECTED reason =>
      let state := cryptoWalletManagerStateDisconnectedInit reason
      let cwmEvent := BRCryptoWalletManagerEvent.CRYPTO_WALLET_MANAGER_EVENT_CHANGED
        cwm.state state
      let cwm := cryptoWalletManagerSetState cwm state
      finishManagerEvent cwm true cwmEvent
    | .BITCOIN_WALLET_MANAGER_SYNC_STARTED =>
      let cwm := walletManagerEventCallback cwm .CRYPTO_WALLET_MANAGER_EVENT_SYNC_STARTED
      let state := cryptoWalletManagerStateInit .CRYPTO_WALLET_MANAGER_STATE_SYNCING
      let cwmEvent := BRCryptoWalletManagerEvent.CRYPTO_WALLET_MANAGER_EVENT_CHANGED
        cwm.state state
      let cwm := cryptoWalletManagerSetState cwm state
      finishManagerEvent cwm true cwmEvent
    | .BITCOIN_WALLET_MANAGER_SYNC_PROGRESS timestamp percentComplete =>
      finishManagerEvent cwm true
        (.CRYPTO_WALLET_MANAGER_EVENT_SYNC_CONTINUES timestamp percentComplete)
    | .BITCOIN_WALLET_MANAGER_SYNC_STOPPED reason =>
      let cwm := walletManagerEventCallback cwm
        (.CRYPTO_WALLET_MANAGER_EVENT_SYNC_STOPPED reason)
      let state := cryptoWalletManagerStateInit .CRYPTO_WALLET_MANAGER_STATE_CONNECTED
      let cwmEvent := BRCryptoWalletManagerEvent.CRYPTO_WALLET_MANAGER_EVENT_CHANGED
        cwm.state state
      let cwm := cryptoWalletManagerSetState cwm state
      finishManagerEvent cwm true cwmEvent
    | .BITCOIN_WALLET_MANAGER_SYNC_RECOMMENDED depth =>
      finishManagerEvent cwm true (.CRYPTO_WALLET_MANAGER_EVENT_SYNC_RECOMMENDED depth)
    | .BITCOIN_WALLET_MANAGER_BLOCK_HEIGHT_UPDATED value =>
      let cwm := cryptoNetworkSetHeight cwm value
      finishManagerEvent cwm true (.CRYPTO_WALLET_MANAGER_EVENT_BLOCK_HEIGHT_UPDATED value)

/-- The handler of native wallet events of the UTXO family (lines 314-537). -/
def cwmWalletEventAsBTC (context : BRCryptoWalletManager) (btcManager : BRWalletManager)
    (btcWallet : Nat) (event : BRWalletEvent) : Outcome :=
  match cryptoWalletManagerTakeWeak context with
  | none => .returned context
  | some cwm =>
    let cwm := ensureNative cwm btcManager.ptr
    if cwm.type ≠ .BLOCK_CHAIN_TYPE_BTC then .aborted cwm else
    -- every case starts with "Demand 'wallet'"
    match cryptoWalletManagerFindWalletAsBTC cwm btcWallet with
    | none => .aborted cwm
    | some wallet =>
      match event with
      | .BITCOIN_WALLET_CREATED => .returned (cryptoWalletManagerGive cwm)
      | .BITCOIN_WALLET_BALANCE_UPDATED satoshi =>
        let unit := (cwm.network.unitAsBase.lookup cwm.network.currency).getD 0
        let amount := cryptoAmountCreateInteger (castInt64 satoshi) unit
        let cwm := walletEventCallback cwm wallet.wid
          (.CRYPTO_WALLET_EVENT_BALANCE_UPDATED amount)
        let cwm := walletManagerEventCallback cwm
          (.CRYPTO_WALLET_MANAGER_EVENT_WALLET_CHANGED wallet.wid)
        .returned (cryptoWalletManagerGive cwm)
      | .BITCOIN_WALLET_FEE_PER_KB_UPDATED value =>
        let feeUnit := wallet.unitForFee
        let feeBasis := cryptoFeeBasisCreateAsBTC feeUnit (castUInt32 value) 1000
        let cwm := walletEventCallback cwm wallet.wid
          (.CRYPTO_WALLET_EVENT_FEE_BASIS_UPDATED feeBasis)
        let cwm := walletManagerEventCallback cwm
          (.CRYPTO_WALLET_MANAGER_EVENT_WALLET_CHANGED wallet.wid)
        .returned (cryptoWalletManagerGive cwm)
      | .BITCOIN_WALLET_TRANSACTION_SUBMIT_SUCCEEDED transaction =>
        match cryptoWalletFindTransferAsBTC cwm wallet.wid transaction with
        | none => .aborted cwm
        | some transfer =>
          let oldState := cryptoTransferGetState cwm transfer
          if oldState.type = .CRYPTO_TRANSFER_STATE_SUBMITTED then .aborted cwm else
          let newState := cryptoTransferStateInit .CRYPTO_TRANSFER_STATE_SUBMITTED
          let cwm := cryptoTransferSetState cwm transfer newState
          let cwm := transferEventCallback cwm wallet.wid transfer
            (.CRYPTO_TRANSFER_EVENT_CHANGED oldState newState)
          .returned (cryptoWalletManagerGive cwm)
      | .BITCOIN_WALLET_TRANSACTION_SUBMIT_FAILED transaction error =>
        match cryptoWalletFindTransferAsBTC cwm wallet.wid transaction with
        | none => .aborted cwm
        | some transfer =>
          let oldState := cryptoTransferGetState cwm transfer
          let newState := cryptoTransferStateErroredInit error
          let cwm := cryptoTransferSetState cwm transfer newState
          let cwm := transferEventCallback cwm wallet.wid transfer
            (.CRYPTO_TRANSFER_EVENT_CHANGED oldState newState)
          .returned (cryptoWalletManagerGive cwm)
      | .BITCOIN_WALLET_FEE_ESTIMATED cookie feePerKb sizeInByte =>
        let feeUnit := wallet.unitForFee
        let feeBasis := cryptoFeeBasisCreateAsBTC feeUnit (castUInt32 feePerKb) sizeInByte
        let cwm := walletEventCallback cwm wallet.wid
          (.CRYPTO_WALLET_EVENT_FEE_BASIS_ESTIMATED .CRYPTO_SUCCESS cookie (some feeBasis))
        .returned (cryptoWalletManagerGive cwm)
      | .BITCOIN_WALLET_DELETED =>
        if cryptoWalletManagerHasWallet cwm wallet.wid = false then .aborted cwm else
        let cwm := cryptoWalletManagerRemWallet cwm wallet.wid
        let cwm := walletManagerEventCallback cwm
          (.CRYPTO_WALLET_MANAGER_EVENT_WALLET_DELETED wallet.wid)
        let cwm := walletEventCallback cwm wallet.wid .CRYPTO_WALLET_EVENT_DELETED
        .returned (cryptoWalletManagerGive cwm)

/-- The handler of native transaction events of the UTXO family (lines 539-793).  The
first argument is the value of the macro `TX_UNCONFIRMED` (bitcoin/BRTransaction.h, not among
the sources): the block height that the backend reports for an unconfirmed transaction. -/
def cwmTransactionEventAsBTC (TX_UNCONFIRMED : Nat) (context : BRCryptoWalletManager)
    (btcManager : BRWalletManager) (btcWallet btcTransaction : Nat)
    (event : BRTransactionEvent) : Outcome :=
  match cryptoWalletManagerTakeWeak context with
  | none => .returned context
  | some cwm =>
    let cwm := ensureNative cwm btcManager.ptr
    if cwm.type ≠ .BLOCK_CHAIN_TYPE_BTC then .aborted cwm else
    match cryptoWalletManagerFindWalletAsBTC cwm btcWallet with
    | none => .aborted cwm
    | some wallet =>
      if btcWallet ≠ wallet.wid then .aborted cwm else
      match event with
      | .BITCOIN_TRANSACTION_CREATED =>
        match cryptoWalletFindTransferAsBTC cwm wallet.wid btcTransaction with
        | some _ => .aborted cwm
        | none =>
          let (transfer, cwm) := cryptoTransferCreate cwm wallet.unit wallet.unitForFee
            btcTransaction (btcManager.transactionFeeBasis btcTransaction)
          let cwm := transferEventCallback cwm wallet.wid transfer
            .CRYPTO_TRANSFER_EVENT_CREATED
          let cwm := cryptoWalletAddTransfer cwm wallet.wid transfer
          let cwm := walletEventCallback cwm wallet.wid
            (.CRYPTO_WALLET_EVENT_TRANSFER_ADDED transfer)
          .returned (cryptoWalletManagerGive cwm)
      | .BITCOIN_TRANSACTION_SIGNED =>
        match cryptoWalletFindTransferAsBTC cwm wallet.wid btcTransaction with
        | none => .aborted cwm
        | some transfer =>
          let oldState := cryptoTransferGetState cwm transfer
          if oldState.type = .CRYPTO_TRANSFER_STATE_SIGNED then .aborted cwm else
          let newState := cryptoTransferStateInit .CRYPTO_TRANSFER_STATE_SIGNED
          let cwm := cryptoTransferSetState cwm transfer newState
          let cwm := transferEventCallback cwm wallet.wid transfer
            (.CRYPTO_TRANSFER_EVENT_CHANGED oldState newState)
          .returned (cryptoWalletManagerGive cwm)
      | .BITCOIN_TRANSACTION_ADDED =>
        match cryptoWalletFindTransferAsBTC cwm wallet.wid btcTransaction with
        | none =>
          let (transfer, cwm) := cryptoTransferCreate cwm wallet.unit wallet.unitForFee
            btcTransaction (btcManager.transactionFeeBasis btcTransaction)
          let cwm := transferEventCallback cwm wallet.wid transfer
            .CRYPTO_TRANSFER_EVENT_CREATED
          let cwm := cryptoWalletAddTransfer cwm wallet.wid transfer
          let cwm := walletEventCallback cwm wallet.wid
            (.CRYPTO_WALLET_EVENT_TRANSFER_ADDED transfer)
          .returned (cryptoWalletManagerGive cwm)
        | some _ => .returned (cryptoWalletManagerGive cwm)
      | .BITCOIN_TRANSACTION_UPDATED blockHeight timestamp =>
        match cryptoWalletFindTransferAsBTC cwm wallet.wid btcTransaction with
        | none => .aborted cwm
        | some transfer =>
          let oldState := cryptoTransferGetState cwm transfer
          if oldState.type ≠ .CRYPTO_TRANSFER_STATE_SUBMITTED ∧
              (0 = timestamp ∨ TX_UNCONFIRMED = blockHeight) then
            let newState := cryptoTransferStateInit .CRYPTO_TRANSFER_STATE_SUBMITTED
            let cwm := cryptoTransferSetState cwm transfer newState
            let cwm := transferEventCallback cwm wallet.wid transfer
              (.CRYPTO_TRANSFER_EVENT_CHANGED oldState newState)
            .returned (cryptoWalletManagerGive cwm)
          else if oldState.type ≠ .CRYPTO_TRANSFER_STATE_INCLUDED ∧
              0 ≠ timestamp ∧ TX_UNCONFIRMED ≠ blockHeight then
            let feeBasisConfirmed := cryptoTransferGetEstimatedFeeBasis cwm transfer
            let newState := cryptoTransferStateIncludedInit blockHeight 0 timestamp
              feeBasisConfirmed true none
            let cwm := cryptoTransferSetState cwm transfer newState
            let cwm := transferEventCallback cwm wallet.wid transfer
              (.CRYPTO_TRANSFER_EVENT_CHANGED oldState newState)
            .returned (cryptoWalletManagerGive cwm)
          else
            .returned (cryptoWalletManagerGive cwm)
      | .BITCOIN_TRANSACTION_DELETED =>
        match cryptoWalletFindTransferAsBTC cwm wallet.wid btcTransaction with
        | none => .aborted cwm
        | some transfer =>
          let cwm := walletEventCallback cwm wallet.wid
            (.CRYPTO_WALLET_EVENT_TRANSFER_DELETED transfer)
          let cwm := cryptoWalletRemTransfer cwm wallet.wid transfer
          let cwm := transferEventCallback cwm wallet.wid transfer
            .CRYPTO_TRANSFER_EVENT_DELETED
          .returned (cryptoWalletManagerGive cwm)

/-! ## The account family: native events and their handlers -/

/-- A native balance of the account family (`BREthereumAmount`): ether or a token quantity. -/
inductive BREthereumAmount where
  | AMOUNT_ETHER (valueInWEI : Nat)
  | AMOUNT_TOKEN (valueAsInteger : Nat)
  deriving DecidableEq

/-- The native account manager (`BREthereumEWM`) as far as the handlers consult it: its
address, its wallet (`ewmGetWallet`), and the answers of `ewmWalletGetToken`,
`ewmWalletGetBalance`, `ewmWalletGetDefaultGasLimit`, `ewmWalletGetDefaultGasPrice`,
`ewmTransferGetFeeBasis` (gas limit, gas price) and `ewmTransferExtractStatusIncluded`
(block number, transaction index, timestamp).  The handlers read it through their
argument `ewm` and through `cwm->u.eth`, which point to the same manager. -/
structure BREthereumEWM where
  ptr : Nat
  wallet : Nat
  walletGetToken : Nat → Option Nat
  walletGetBalance : Nat → BREthereumAmount
  walletGetDefaultGasLimit : Nat → Nat
  walletGetDefaultGasPrice : Nat → Nat
  transferGetFeeBasis : Nat → Nat × Nat
  transferExtractStatusIncluded : Nat → Nat × Nat × Nat

/-- The state of the native account manager (`BREthereumEWMState`). -/
inductive BREthereumEWMState where
  | EWM_STATE_CREATED
  | EWM_STATE_CONNECTED
  | EWM_STATE_SYNCING
  | EWM_STATE_DISCONNECTED
  | EWM_STATE_DELETED
  deriving DecidableEq

/-- A native manager event of the account family (`BREthereumEWMEvent`). -/
inductive BREthereumEWMEvent where
  | EWM_EVENT_CREATED
  | EWM_EVENT_CHANGED (oldState newState : BREthereumEWMState)
  | EWM_EVENT_SYNC_PROGRESS (timestamp percentComplete : Nat)
  | EWM_EVENT_NETWORK_UNAVAILABLE
  | EWM_EVENT_BLOCK_HEIGHT_UPDATED (value : Nat)
  | EWM_EVENT_DELETED
  deriving DecidableEq

/-- The kind of a native wallet event of the account family. -/
inductive BREthereumWalletEventType where
  | WALLET_EVENT_CREATED
  | WALLET_EVENT_BALANCE_UPDATED
  | WALLET_EVENT_DEFAULT_GAS_LIMIT_UPDATED
  | WALLET_EVENT_DEFAULT_GAS_PRICE_UPDATED
  | WALLET_EVENT_FEE_ESTIMATED
  | WALLET_EVENT_DELETED
  deriving DecidableEq

/-- A native wallet event of the account family (`BREthereumWalletEvent`): its kind, its
status and the member `u.feeEstimate`. -/
structure BREthereumWalletEvent where
  type : BREthereumWalletEventType
  status : BREthereumStatus
  cookie : Nat
  gasEstimate : Nat
  gasPrice : Nat
  deriving DecidableEq

/-- The kind of a native token event (`BREthereumTokenEvent`). -/
inductive BREthereumTokenEvent where
  | TOKEN_EVENT_CREATED
  | TOKEN_EVENT_DELETED
  deriving DecidableEq

/-- The kind of a native transfer event of the account family (`BREthereumTransferEvent`). -/
inductive BREthereumTransferEvent where
  | TRANSFER_EVENT_CREATED
  | TRANSFER_EVENT_SIGNED
  | TRANSFER_EVENT_SUBMITTED
  | TRANSFER_EVENT_INCLUDED
  | TRANSFER_EVENT_ERRORED
  | TRANSFER_EVENT_GAS_ESTIMATE_UPDATED
  | TRANSFER_EVENT_DELETED
  deriving DecidableEq

/-- The manager state that stands for a native state (`cwmStateFromETH`, lines 797-806). -/
def cwmStateFromETH : BREthereumEWMState → BRCryptoWalletManagerState
  | .EWM_STATE_CREATED => cryptoWalletManagerStateInit .CRYPTO_WALLET_MANAGER_STATE_CREATED
  | .EWM_STATE_CONNECTED => cryptoWalletManagerStateInit .CRYPTO_WALLET_MANAGER_STATE_CONNECTED
  | .EWM_STATE_SYNCING => cryptoWalletManagerStateInit .CRYPTO_WALLET_MANAGER_STATE_SYNCING
  | .EWM_STATE_DISCONNECTED =>
    cryptoWalletManagerStateDisconnectedInit cryptoWalletManagerDisconnectReasonUnknown
  | .EWM_STATE_DELETED => cryptoWalletManagerStateInit .CRYPTO_WALLET_MANAGER_STATE_DELETED

/-- The handler of native manager events of the account family (lines 808-929). -/
def cwmWalletManagerEventAsETH (context : BRCryptoWalletManager) (ewm : BREthereumEWM)
    (event : BREthereumEWMEvent) : Outcome :=
  match cryptoWalletManagerTakeWeak context with
  | none => .returned context
  | some cwm =>
    let cwm := ensureNative cwm ewm.ptr
    match event with
    | .EWM_EVENT_CREATED =>
      match cryptoWalletManagerFindWalletAsETH cwm ewm.wallet with
      | none => .aborted cwm
      | some _ =>
        let cwm := walletManagerEventCallback cwm .CRYPTO_WALLET_MANAGER_EVENT_CREATED
        let cwm := walletEventCallback cwm cwm.wallet .CRYPTO_WALLET_EVENT_CREATED
        let cwm := walletManagerEventCallback cwm
          (.CRYPTO_WALLET_MANAGER_EVENT_WALLET_ADDED cwm.wallet)
        finishManagerEvent cwm false .CRYPTO_WALLET_MANAGER_EVENT_CREATED
    | .EWM_EVENT_CHANGED oldState newState =>
      if newState = .EWM_STATE_SYNCING ∧ oldState ≠ .EWM_STATE_CONNECTED then .aborted cwm else
      let cwm := if newState = .EWM_STATE_SYNCING
        then walletManagerEventCallback cwm .CRYPTO_WALLET_MANAGER_EVENT_SYNC_STARTED
        else cwm
      if oldState = .EWM_STATE_SYNCING ∧ newState ≠ .EWM_STATE_CONNECTED then .aborted cwm else
      let cwm := if oldState = .EWM_STATE_SYNCING
        then walletManagerEventCallback cwm
          (.CRYPTO_WALLET_MANAGER_EVENT_SYNC_STOPPED cryptoSyncStoppedReasonComplete)
        else cwm
      finishManagerEvent cwm true
        (.CRYPTO_WALLET_MANAGER_EVENT_CHANGED (cwmStateFromETH oldState)
          (cwmStateFromETH newState))
    | .EWM_EVENT_SYNC_PROGRESS timestamp percentComplete =>
      finishManagerEvent cwm true
        (.CRYPTO_WALLET_MANAGER_EVENT_SYNC_CONTINUES timestamp percentComplete)
    | .EWM_EVENT_NETWORK_UNAVAILABLE =>
      let cwmEvent := BRCryptoWalletManagerEvent.CRYPTO_WALLET_MANAGER_EVENT_CHANGED
        cwm.state (cryptoWalletManagerStateInit .CRYPTO_WALLET_MANAGER_STATE_DISCONNECTED)
      let cwm := cryptoWalletManagerSetState cwm
        (cryptoWalletManagerStateDisconnectedInit cryptoWalletManagerDisconnectReasonUnknown)
      finishManagerEvent cwm true cwmEvent
    | .EWM_EVENT_BLOCK_HEIGHT_UPDATED value =>
      let cwm := cryptoNetworkSetHeight cwm value
      finishManagerEvent cwm true (.CRYPTO_WALLET_MANAGER_EVENT_BLOCK_HEIGHT_UPDATED value)
    | .EWM_EVENT_DELETED =>
      finishManagerEvent cwm true .CRYPTO_WALLET_MANAGER_EVENT_DELETED

/-- The handler of native peer events of the account family (lines 931-943). -/
def cwmPeerEventAsETH (context : BRCryptoWalletManager) (ewm : BREthereumEWM) : Outcome :=
  match cryptoWalletManagerTakeWeak context with
  | none => .returned context
  | some cwm =>
    let cwm := ensureNative cwm ewm.ptr
    .returned (cryptoWalletManagerGive cwm)

/-- Modelled from the spec: `cryptoWalletCreateAsETH` (BRCryptoWalletP.h) builds the wallet
of a native wallet with the given unit and fee unit; it holds no transfer yet and its
balance is zero. -/
def cryptoWalletCreateAsETH (unit unitForFee wid : Nat) : BRCryptoWalletRecord :=
  { wid := wid, unit := unit, unitForFee := unitForFee,
    balance := cryptoAmountCreate unit false 0, transfers := [] }

/-- The handler of native wallet events of the account family (lines 945-1148). -/
def cwmWalletEventAsETH (context : BRCryptoWalletManager) (ewm : BREthereumEWM) (wid : Nat)
    (event : BREthereumWalletEvent) : Outcome :=
  match cryptoWalletManagerTakeWeak context with
  | none => .returned context
  | some cwm =>
    let cwm := ensureNative cwm ewm.ptr
    match event.type with
    | .WALLET_EVENT_CREATED =>
      match cryptoWalletManagerFindWalletAsETH cwm wid with
      | some _ => .returned (cryptoWalletManagerGive cwm)
      | none =>
        match ewm.walletGetToken wid with
        | none => .aborted cwm
        | some token =>
          match cwm.network.currencyForTokenETH.lookup token with
          | none => .returned cwm  -- `if (NULL == currency) return;`
          | some currency =>
            match cwm.network.unitAsDefault.lookup currency with
            | none => .aborted cwm
            | some unit =>
              match cwm.network.unitAsDefault.lookup cwm.network.currency with
              | none => .aborted cwm
              | some feeUnit =>
                let wallet := cryptoWalletCreateAsETH unit feeUnit wid
                let cwm := cryptoWalletManagerAddWallet cwm wallet
                let cwm := walletEventCallback cwm wallet.wid .CRYPTO_WALLET_EVENT_CREATED
                let cwm := walletManagerEventCallback cwm
                  (.CRYPTO_WALLET_MANAGER_EVENT_WALLET_ADDED wallet.wid)
                .returned (cryptoWalletManagerGive cwm)
    | .WALLET_EVENT_BALANCE_UPDATED =>
      match cryptoWalletManagerFindWalletAsETH cwm wid with
      | none => .returned (cryptoWalletManagerGive cwm)
      | some wallet =>
        let value := match ewm.walletGetBalance wid with
          | .AMOUNT_ETHER valueInWEI => valueInWEI
          | .AMOUNT_TOKEN valueAsInteger => valueAsInteger
        let cryptoAmount := cryptoAmountCreate wallet.unit false value
        let cwm := walletEventCallback cwm wallet.wid
          (.CRYPTO_WALLET_EVENT_BALANCE_UPDATED cryptoAmount)
        let cwm := walletManagerEventCallback cwm
          (.CRYPTO_WALLET_MANAGER_EVENT_WALLET_CHANGED wallet.wid)
        .returned (cryptoWalletManagerGive cwm)
    | .WALLET_EVENT_DEFAULT_GAS_LIMIT_UPDATED
    | .WALLET_EVENT_DEFAULT_GAS_PRICE_UPDATED =>
      match cryptoWalletManagerFindWalletAsETH cwm wid with
      | none => .returned (cryptoWalletManagerGive cwm)
      | some wallet =>
        let feeBasis := cryptoFeeBasisCreateAsETH wallet.unitForFee
          (ewm.walletGetDefaultGasLimit wid) (ewm.walletGetDefaultGasPrice wid)
        let cwm := walletEventCallback cwm wallet.wid
          (.CRYPTO_WALLET_EVENT_FEE_BASIS_UPDATED feeBasis)
        let cwm := walletManagerEventCallback cwm
          (.CRYPTO_WALLET_MANAGER_EVENT_WALLET_CHANGED wallet.wid)
        .returned (cryptoWalletManagerGive cwm)
    | .WALLET_EVENT_FEE_ESTIMATED =>
      match cryptoWalletManagerFindWalletAsETH cwm wid with
      | none => .returned (cryptoWalletManagerGive cwm)
      | some wallet =>
        if event.status = .SUCCESS then
          let feeBasis := cryptoFeeBasisCreateAsETH wallet.unitForFee event.gasEstimate
            event.gasPrice
          let cwm := walletEventCallback cwm wallet.wid
            (.CRYPTO_WALLET_EVENT_FEE_BASIS_ESTIMATED .CRYPTO_SUCCESS event.cookie
              (some feeBasis))
          .returned (cryptoWalletManagerGive cwm)
        else
          let cwm := walletEventCallback cwm wallet.wid
            (.CRYPTO_WALLET_EVENT_FEE_BASIS_ESTIMATED (cryptoStatusFromETH event.status)
              event.cookie none)
          .returned (cryptoWalletManagerGive cwm)
    | .WALLET_EVENT_DELETED =>
      match cryptoWalletManagerFindWalletAsETH cwm wid with
      | none => .returned (cryptoWalletManagerGive cwm)
      | some wallet =>
        let cwm := walletManagerEventCallback cwm
          (.CRYPTO_WALLET_MANAGER_EVENT_WALLET_DELETED wallet.wid)
        let cwm := walletEventCallback cwm wallet.wid .CRYPTO_WALLET_EVENT_DELETED
        .returned (cryptoWalletManagerGive cwm)

/-- The handler of native token events of the account family (lines 1150-1191).  Its one
effect besides the reference count is the request `ewmGetWalletHoldingToken` to the native
manager, which leaves the manager record as it is. -/
def cwmEventTokenAsETH (context : BRCryptoWalletManager) (ewm : BREthereumEWM)
    (_token : Nat) (_event : BREthereumTokenEvent) : Outcome :=
  match cryptoWalletManagerTakeWeak context with
  | none => .returned context
  | some cwm =>
    let cwm := ensureNative cwm ewm.ptr
    .returned (cryptoWalletManagerGive cwm)

/-- The handler of native transfer events of the account family (lines 1194-1421). -/
def cwmTransactionEventAsETH (context : BRCryptoWalletManager) (ewm : BREthereumEWM)
    (wid tid : Nat) (event : BREthereumTransferEvent) : Outcome :=
  match cryptoWalletManagerTakeWeak context with
  | none => .returned context
  | some cwm =>
    let cwm := ensureNative cwm ewm.ptr
    match cryptoWalletManagerFindWalletAsETH cwm wid with
    | none => .returned cwm  -- `if (NULL == wallet) return;`
    | some wallet =>
      match event, cryptoWalletFindTransferAsETH cwm wallet.wid tid with
      | .TRANSFER_EVENT_CREATED, some _ => .aborted cwm
      | .TRANSFER_EVENT_CREATED, none =>
        let (transfer, cwm) := cryptoTransferCreate cwm wallet.unit wallet.unitForFee tid none
        let cwm := transferEventCallback cwm wallet.wid transfer
          .CRYPTO_TRANSFER_EVENT_CREATED
        let cwm := cryptoWalletAddTransfer cwm wallet.wid transfer
        let cwm := walletEventCallback cwm wallet.wid
          (.CRYPTO_WALLET_EVENT_TRANSFER_ADDED transfer)
        let cwm := walletEventCallback cwm wallet.wid
          (.CRYPTO_WALLET_EVENT_BALANCE_UPDATED (cryptoWalletGetBalance cwm wallet.wid))
        .returned (cryptoWalletManagerGive cwm)
      | _, none => .aborted cwm
      | .TRANSFER_EVENT_SIGNED, some transfer =>
        let oldState := cryptoTransferGetState cwm transfer
        let newState := cryptoTransferStateInit .CRYPTO_TRANSFER_STATE_SIGNED
        let cwm := cryptoTransferSetState cwm transfer newState
        let cwm := transferEventCallback cwm wallet.wid transfer
          (.CRYPTO_TRANSFER_EVENT_CHANGED oldState newState)
        .returned (cryptoWalletManagerGive cwm)
      | .TRANSFER_EVENT_SUBMITTED, some transfer =>
        let oldState := cryptoTransferGetState cwm transfer
        let newState := cryptoTransferStateInit .CRYPTO_TRANSFER_STATE_SUBMITTED
        let cwm := cryptoTransferSetState cwm transfer newState
        let cwm := transferEventCallback cwm wallet.wid transfer
          (.CRYPTO_TRANSFER_EVENT_CHANGED oldState newState)
        .returned (cryptoWalletManagerGive cwm)
      | .TRANSFER_EVENT_INCLUDED, some transfer =>
        let oldState := cryptoTransferGetState cwm transfer
        let ethFeeBasis := ewm.transferGetFeeBasis tid
        let unit := cryptoTransferGetUnitForFee cwm transfer
        let feeBasisConfirmed := cryptoFeeBasisCreateAsETH unit ethFeeBasis.1 ethFeeBasis.2
        let included := ewm.transferExtractStatusIncluded tid
        let newState := cryptoTransferStateIncludedInit included.1 included.2.1 included.2.2
          (some feeBasisConfirmed) true none
        let cwm := cryptoTransferSetState cwm transfer newState
        let cwm := transferEventCallback cwm wallet.wid transfer
          (.CRYPTO_TRANSFER_EVENT_CHANGED oldState newState)
        .returned (cryptoWalletManagerGive cwm)
      | .TRANSFER_EVENT_ERRORED, some transfer =>
        let oldState := cryptoTransferGetState cwm transfer
        let newState := cryptoTransferStateErroredInit cryptoTransferSubmitErrorUnknown
        let cwm := cryptoTransferSetState cwm transfer newState
        let cwm := transferEventCallback cwm wallet.wid transfer
          (.CRYPTO_TRANSFER_EVENT_CHANGED oldState newState)
        .returned (cryptoWalletManagerGive cwm)
      | .TRANSFER_EVENT_GAS_ESTIMATE_UPDATED, some _ =>
        .returned (cryptoWalletManagerGive cwm)
      | .TRANSFER_EVENT_DELETED, some transfer =>
        let cwm := cryptoWalletRemTransfer cwm wallet.wid transfer
        let cwm := walletEventCallback cwm wallet.wid
          (.CRYPTO_WALLET_EVENT_TRANSFER_DELETED transfer)
        let cwm := walletEventCallback cwm wallet.wid
          (.CRYPTO_WALLET_EVENT_BALANCE_UPDATED (cryptoWalletGetBalance cwm wallet.wid))
        let oldState := cryptoTransferGetState cwm transfer
        let newState := cryptoTransferStateInit .CRYPTO_TRANSFER_STATE_DELETED
        let cwm := cryptoTransferSetState cwm transfer newState
        let cwm := transferEventCallback cwm wallet.wid transfer
          (.CRYPTO_TRANSFER_EVENT_CHANGED oldState newState)
        let cwm := transferEventCallback cwm wallet.wid transfer
          .CRYPTO_TRANSFER_EVENT_DELETED
        .returned (cryptoWalletManagerGive cwm)

/-! ## The event callbacks of the two client tables -/

/-- A call of one of the event callbacks that `cryptoWalletManagerClientCreateBTCClient` and
`cryptoWalletManagerClientCreateETHClient` (lines 1768-1805) install in a native manager,
with its arguments. -/
inductive BackendEvent where
  | walletManagerEventAsBTC (btcManager : BRWalletManager) (event : BRWalletManagerEvent)
  | walletEventAsBTC (btcManager : BRWalletManager) (btcWallet : Nat) (event : BRWalletEvent)
  | transactionEventAsBTC (btcManager : BRWalletManager) (btcWallet btcTransaction : Nat)
      (event : BRTransactionEvent)
  | walletManagerEventAsETH (ewm : BREthereumEWM) (event : BREthereumEWMEvent)
  | peerEventAsETH (ewm : BREthereumEWM)
  | walletEventAsETH (ewm : BREthereumEWM) (wid : Nat) (event : BREthereumWalletEvent)
  | eventTokenAsETH (ewm : BREthereumEWM) (token : Nat) (event : BREthereumTokenEvent)
  | transactionEventAsETH (ewm : BREthereumEWM) (wid tid : Nat)
      (event : BREthereumTransferEvent)

/-- The handler that a call of an event callback runs. -/
def handleBackendEvent (TX_UNCONFIRMED : Nat) (context : BRCryptoWalletManager) :
    BackendEvent → Outcome
  | .walletManagerEventAsBTC btcManager event =>
    cwmWalletManagerEventAsBTC context btcManager event
  | .walletEventAsBTC btcManager btcWallet event =>
    cwmWalletEventAsBTC context btcManager btcWallet event
  | .transactionEventAsBTC btcManager btcWallet btcTransaction event =>
    cwmTransactionEventAsBTC TX_UNCONFIRMED context btcManager btcWallet btcTransaction event
  | .walletManagerEventAsETH ewm event => cwmWalletManagerEventAsETH context ewm event
  | .peerEventAsETH ewm => cwmPeerEventAsETH context ewm
  | .walletEventAsETH ewm wid event => cwmWalletEventAsETH context ewm wid event
  | .eventTokenAsETH ewm token event => cwmEventTokenAsETH context ewm token event
  | .transactionEventAsETH ewm wid tid event =>
    cwmTransactionEventAsETH context ewm wid tid event

/-- The manager record a handler ends with, however it ends. -/
def Outcome.cwm : Outcome → BRCryptoWalletManager
  | .returned cwm => cwm
  | .aborted cwm => cwm

/-! ## What a handler did: observations on the manager before and after -/

/-- The listener calls made between two manager records of one run, oldest first. -/
def newCalls (before after : BRCryptoWalletManager) : List ListenerCall :=
  after.events.drop before.events.length

/-- The listener events between two manager records of one run, oldest first. -/
def newEvents (before after : BRCryptoWalletManager) : List ListenerEvent :=
  (newCalls before after).map (fun c => c.event)

/-- The `cryptoTransferSetState` calls between two manager records of one run. -/
def newStores (before after : BRCryptoWalletManager) : List (Nat × BRCryptoTransferState) :=
  after.stores.drop before.stores.length

/-- The TransferChanged events of a list of listener events: for each, the transfer and the
old and new state it carries. -/
def transferChanged : List ListenerEvent →
    List (Nat × BRCryptoTransferState × BRCryptoTransferState)
  | [] => []
  | .transferEvent _ transfer (.CRYPTO_TRANSFER_EVENT_CHANGED oldState newState) :: rest =>
    (transfer, oldState, newState) :: transferChanged rest
  | _ :: rest => transferChanged rest

/-- An "updated" notification is unconfirmed when its timestamp is zero or its block height
is `TX_UNCONFIRMED` (line 708), and confirmed otherwise (line 723). -/
def unconfirmed (TX_UNCONFIRMED blockHeight timestamp : Nat) : Prop :=
  timestamp = 0 ∨ blockHeight = TX_UNCONFIRMED

instance (TX_UNCONFIRMED blockHeight timestamp : Nat) :
    Decidable (unconfirmed TX_UNCONFIRMED blockHeight timestamp) :=
  inferInstanceAs (Decidable (timestamp = 0 ∨ blockHeight = TX_UNCONFIRMED))

/-- The steps of feeding a sequence of "updated" notifications (block height, timestamp) for
one native transaction to `cwmTransactionEventAsBTC`: for each notification handled, the
manager before, the notification, and the manager after.  The run ends at an abort. -/
def updatedSteps (TX_UNCONFIRMED : Nat) (btcManager : BRWalletManager)
    (btcWallet btcTransaction : Nat) :
    BRCryptoWalletManager → List (Nat × Nat) →
      List (BRCryptoWalletManager × (Nat × Nat) × BRCryptoWalletManager)
  | _, [] => []
  | cwm, update :: rest =>
    match cwmTransactionEventAsBTC TX_UNCONFIRMED cwm btcManager btcWallet btcTransaction
        (.BITCOIN_TRANSACTION_UPDATED update.1 update.2) with
    | .returned cwm' =>
      (cwm, update, cwm') ::
        updatedSteps TX_UNCONFIRMED btcManager btcWallet btcTransaction cwm' rest
    | .aborted _ => []

/-- The native identity behind a transfer address, if the address holds a record. -/
def nativeId (store : List BRCryptoTransferRecord) (transfer : Nat) : Option Nat :=
  (store[transfer]?).map (fun r => r.tid)

/-- Every transfer address held by a wallet of the manager holds a record. -/
def TransfersValid (cwm : BRCryptoWalletManager) : Prop :=
  ∀ w ∈ cwm.wallets, ∀ t ∈ w.transfers, t < cwm.transfers.length

instance (cwm : BRCryptoWalletManager) : Decidable (TransfersValid cwm) :=
  inferInstanceAs (Decidable (∀ w ∈ cwm.wallets, ∀ t ∈ w.transfers, t < cwm.transfers.length))

/-- No duplicate transfers: in every wallet of the manager, the transfers have pairwise
distinct native identities. -/
def NoDuplicateTransfers (cwm : BRCryptoWalletManager) : Prop :=
  ∀ w ∈ cwm.wallets, (w.transfers.map (nativeId cwm.transfers)).Nodup

instance (cwm : BRCryptoWalletManager) : Decidable (NoDuplicateTransfers cwm) :=
  inferInstanceAs
    (Decidable (∀ w ∈ cwm.wallets, (w.transfers.map (nativeId cwm.transfers)).Nodup))

/-- What a run of a handler stored and announced: nothing stored and no TransferChanged
announced, or a normal return after one store and one TransferChanged for the same transfer,
carrying the state before the run and the state after it. -/
def StoresMatchChanged (context : BRCryptoWalletManager) (out : Outcome) : Prop :=
  (newStores context out.cwm = [] ∧ transferChanged (newEvents context out.cwm) = []) ∨
  (∃ cwm' t, out = .returned cwm' ∧
    newStores context cwm' = [(t, cryptoTransferGetState cwm' t)] ∧
    transferChanged (newEvents context cwm') =
      [(t, cryptoTransferGetState context t, cryptoTransferGetState cwm' t)])

/-- The backend events that report a transfer signed: BITCOIN_TRANSACTION_SIGNED and
TRANSFER_EVENT_SIGNED. -/
def BackendEvent.reportsSigned : BackendEvent → Prop
  | .transactionEventAsBTC _ _ _ .BITCOIN_TRANSACTION_SIGNED => True
  | .transactionEventAsETH _ _ _ .TRANSFER_EVENT_SIGNED => True
  | _ => False

/-- The backend events that report a transfer submitted or unconfirmed:
BITCOIN_WALLET_TRANSACTION_SUBMIT_SUCCEEDED, TRANSFER_EVENT_SUBMITTED, and an unconfirmed
BITCOIN_TRANSACTION_UPDATED. -/
def BackendEvent.reportsSubmitted (TX_UNCONFIRMED : Nat) : BackendEvent → Prop
  | .walletEventAsBTC _ _ (.BITCOIN_WALLET_TRANSACTION_SUBMIT_SUCCEEDED _) => True
  | .transactionEventAsBTC _ _ _ (.BITCOIN_TRANSACTION_UPDATED blockHeight timestamp) =>
    unconfirmed TX_UNCONFIRMED blockHeight timestamp
  | .transactionEventAsETH _ _ _ .TRANSFER_EVENT_SUBMITTED => True
  | _ => False

/-- Where a transfer that was Included may be after a backend event: still Included (perhaps
with other confirmation data), Errored or Deleted; or Submitted, when the event reported it
submitted or unconfirmed; or Signed, when the event reported it signed. -/
def AfterIncluded (TX_UNCONFIRMED : Nat) (event : BackendEvent)
    (state : BRCryptoTransferState) : Prop :=
  state.type = .CRYPTO_TRANSFER_STATE_INCLUDED ∨
  state.type = .CRYPTO_TRANSFER_STATE_ERRORED ∨
  state.type = .CRYPTO_TRANSFER_STATE_DELETED ∨
  (state = .submitted ∧ event.reportsSubmitted TX_UNCONFIRMED) ∨
  (state = .signed ∧ event.reportsSigned)

/-! ## Sample inputs -/

/-- A network with one native currency and one token currency. -/
def sampleNetwork : BRCryptoNetworkRecord :=
  { height := 0, currency := 1, unitAsBase := [(1, 10)], unitAsDefault := [(1, 11), (2, 21)],
    currencyForTokenETH := [(5, 2)] }

/-- A live manager of the given family whose primary wallet (native wallet 7) holds one
transfer, at address 0, for the native transaction 42, in the given state. -/
def sampleManager (type : BRCryptoBlockChainType) (state : BRCryptoTransferState) :
    BRCryptoWalletManager :=
  { ref := 1, type := type, u := some 100,
    state := cryptoWalletManagerStateInit .CRYPTO_WALLET_MANAGER_STATE_CONNECTED,
    network := sampleNetwork, wallet := 7,
    wallets := [{ wid := 7, unit := 11, unitForFee := 11,
                  balance := cryptoAmountCreate 11 false 0, transfers := [0] }],
    transfers := [{ tid := 42, unit := 11, unitForFee := 11, state := state,
                    feeBasisEstimated := some (.asBTC 11 1000 250) }],
    stores := [], events := [] }

/-- The native UTXO manager behind `sampleManager`. -/
def sampleBTC : BRWalletManager :=
  { ptr := 100, wallet := 7, handlesBTC := true,
    transactionFeeBasis := fun _ => some (.asBTC 11 1000 250) }

/-- The native account manager behind `sampleManager`. -/
def sampleETH : BREthereumEWM :=
  { ptr := 100, wallet := 7, walletGetToken := fun _ => some 5,
    walletGetBalance := fun _ => .AMOUNT_ETHER 0,
    walletGetDefaultGasLimit := fun _ => 21000, walletGetDefaultGasPrice := fun _ => 2,
    transferGetFeeBasis := fun _ => (21000, 2),
    transferExtractStatusIncluded := fun _ => (500, 3, 1000) }

/-- An included state: block 500, index 0, timestamp 1000. -/
def sampleIncluded : BRCryptoTransferState :=
  .included 500 0 1000 (some (.asBTC 11 1000 250)) true none

/-! ## The correlation token and the generic family

The enumeration and the record of the token are lines 32-77 of the source.  The types of the
generic family are declared in generic/BRGeneric.h, which is not among the sources; they are
reconstructed from the functions that the announce functions call on them. -/

/-- The request kind recorded in a token (`BRCryptoCWMCallbackType`, lines 32-48). -/
inductive BRCryptoCWMCallbackType where
  | CWM_CALLBACK_TYPE_BTC_GET_BLOCK_NUMBER
  | CWM_CALLBACK_TYPE_BTC_GET_TRANSACTIONS
  | CWM_CALLBACK_TYPE_BTC_SUBMIT_TRANSACTION
  | CWM_CALLBACK_TYPE_ETH_GET_BLOCK_NUMBER
  | CWM_CALLBACK_TYPE_ETH_GET_TRANSACTIONS
  | CWM_CALLBACK_TYPE_ETH_GET_LOGS
  | CWM_CALLBACK_TYPE_ETH_SUBMIT_TRANSACTION
  | CWM_CALLBACK_TYPE_ETH_ESTIMATE_GAS
  | CWM_CALLBACK_TYPE_GEN_GET_BLOCK_NUMBER
  | CWM_CALLBACK_TYPE_GEN_GET_TRANSACTIONS
  | CWM_CALLBACK_TYPE_GEN_GET_TRANSFERS
  | CWM_CALLBACK_TYPE_GEN_SUBMIT_TRANSACTION
  deriving DecidableEq

/-- A fee basis of the generic family (`BRGenericFeeBasis`). -/
structure BRGenericFeeBasis where
  pricePerCostFactor : Nat
  costFactor : Nat
  deriving DecidableEq

/-- The tag of the state of a generic transfer (`BRGenericTransferStateType`). -/
inductive BRGenericTransferStateType where
  | GENERIC_TRANSFER_STATE_CREATED
  | GENERIC_TRANSFER_STATE_SIGNED
  | GENERIC_TRANSFER_STATE_SUBMITTED
  | GENERIC_TRANSFER_STATE_INCLUDED
  | GENERIC_TRANSFER_STATE_ERRORED
  | GENERIC_TRANSFER_STATE_DELETED
  deriving DecidableEq

/-- The submit error of a generic transfer (`BRGenericTransferSubmitError`); the one
enumerator that the source uses. -/
inductive BRGenericTransferSubmitError where
  | GENERIC_TRANSFER_SUBMIT_ERROR_ONE
  deriving DecidableEq

/-- The state of a generic transfer (`BRGenericTransferState`), as built by
`genTransferStateCreateOther`, `genTransferStateCreateIncluded` and
`genTransferStateCreateErrored`. -/
inductive BRGenericTransferState where
  | other (type : BRGenericTransferStateType)
  | included (blockNumber transactionIndex timestamp : Nat) (feeBasis : BRGenericFeeBasis)
      (success : Bool) (error : Option String)
  | errored (error : BRGenericTransferSubmitError)
  deriving DecidableEq

/-- Modelled from the spec: `genTransferStateCreateOther` builds the state of a tag that
carries no data. -/
def genTransferStateCreateOther (type : BRGenericTransferStateType) : BRGenericTransferState :=
  .other type

/-- Modelled from the spec: `genTransferStateCreateIncluded` builds
`Included{blockNumber, blockTransactionIndex, timestamp, confirmedFeeBasis, success, error}`
from its six arguments. -/
def genTransferStateCreateIncluded (blockNumber transactionIndex timestamp : Nat)
    (feeBasis : BRGenericFeeBasis) (success : Bool) (error : Option String) :
    BRGenericTransferState :=
  .included blockNumber transactionIndex timestamp feeBasis success error

/-- Modelled from the spec: `genTransferStateCreateErrored` builds `Errored{reason}`. -/
def genTransferStateCreateErrored (error : BRGenericTransferSubmitError) :
    BRGenericTransferState :=
  .errored error

/-- An attribute of a generic transfer (`BRGenericTransferAttribute`), as built by
`genTransferAttributeCreate` from a key, a value and whether it is required. -/
structure BRGenericTransferAttribute where
  key : String
  value : Option String
  isRequired : Bool
  deriving DecidableEq

/-- A generic transfer (`BRGenericTransfer`): the ledger's own transfer behind it (`ref`), the
fee basis that `genTransferGetFeeBasis` answers, its state and its attributes. -/
structure BRGenericTransfer where
  ref : Nat
  feeBasis : BRGenericFeeBasis
  state : BRGenericTransferState
  attributes : List BRGenericTransferAttribute
  deriving DecidableEq

/-- Modelled from the spec: `genTransferGetFeeBasis` reads the fee basis of the transfer. -/
def genTransferGetFeeBasis (transfer : BRGenericTransfer) : BRGenericFeeBasis :=
  transfer.feeBasis

/-- Modelled from the spec: `genTransferSetState` stores a state in the generic transfer. -/
def genTransferSetState (transfer : BRGenericTransfer) (state : BRGenericTransferState) :
    BRGenericTransfer :=
  { transfer with state := state }

/-- Modelled from the spec: `genTransferSetAttributes` replaces the attributes of the generic
transfer. -/
def genTransferSetAttributes (transfer : BRGenericTransfer)
    (attributes : List BRGenericTransferAttribute) : BRGenericTransfer :=
  { transfer with attributes := attributes }

/-- Modelled from the spec: `genTransferCopy` makes a copy of the generic transfer. -/
def genTransferCopy (transfer : BRGenericTransfer) : BRGenericTransfer := transfer

/-- The token (`struct BRCryptoClientCallbackStateRecord`, lines 50-77): the request kind,
the members of the union `u`, and the request id.  The members of the union are kept apart:
`txHash` is `u.btcSubmit.txHash` (32 bytes), `wid` the member `wid` of the five other
variants, `cookie` is `u.ethWithWalletAndCookie.cookie`, `tid` is
`u.ethWithTransaction.tid` and `genTid` is `u.genWithTransaction.tid` (`none` for `NULL`).
Every function of the source reads only the member that the creator of a token of that kind
wrote. -/
structure BRCryptoClientCallbackStateRecord where
  type : BRCryptoCWMCallbackType
  txHash : List Nat
  wid : Nat
  cookie : Nat
  tid : Nat
  genTid : Option BRGenericTransfer
  rid : Int
  deriving DecidableEq

/-- A pointer to a token: the record itself. -/
abbrev BRCryptoClientCallbackState := BRCryptoClientCallbackStateRecord

/-- The zeroed record that `calloc (1, sizeof (struct BRCryptoClientCallbackStateRecord))`
returns; the enumerator of value zero is the first one. -/
def callocCallbackState : BRCryptoClientCallbackState :=
  { type := .CWM_CALLBACK_TYPE_BTC_GET_BLOCK_NUMBER, txHash := List.replicate 32 0, wid := 0,
    cookie := 0, tid := 0, genTid := none, rid := 0 }

/-- The two statuses that the estimate announces hand to the native account manager
(`ERROR_NUMERIC_PARSE`, `ERROR_FAILED` of `BREthereumStatus`, ethereum/BREthereum.h); the
codes stand for the enumerators and only need to differ. -/
def ERROR_NUMERIC_PARSE : BREthereumStatus := .ERROR 1

/-- See `ERROR_NUMERIC_PARSE`. -/
def ERROR_FAILED : BREthereumStatus := .ERROR 2

/-! ## Calls that leave the bridge -/

/-- A call that the request callbacks and the announce functions make out of the bridge, with
its arguments: the allocation and the release of a token, the functions of the Client table
(`cwm->client`), the functions of the native manager behind `cwm->u` (given as first
argument, `none` for `NULL`), the manager's lock, and the two routines of the generic family
that incorporate a transfer into the manager.  In `calloc` the token is given as the callback
has filled it in. -/
inductive Call where
  | calloc (callbackState : BRCryptoClientCallbackState)
  | free (callbackState : BRCryptoClientCallbackState)
  | genTransferRelease (transfer : Option BRGenericTransfer)
  | funcGetBlockNumber (callbackState : BRCryptoClientCallbackState)
  | funcGetTransactions (callbackState : BRCryptoClientCallbackState)
      (addresses : List (Option String)) (currency : String)
      (begBlockNumber endBlockNumber : Nat)
  | funcGetTransfers (callbackState : BRCryptoClientCallbackState)
      (addresses : List (Option String)) (currency : String)
      (begBlockNumber endBlockNumber : Nat)
  | funcSubmitTransaction (callbackState : BRCryptoClientCallbackState)
      (transaction : List Nat) (hashAsHex : String)
  | funcEstimateTransactionFee (callbackState : BRCryptoClientCallbackState)
      (transaction : List Nat) (hashAsHex : String)
  | bwmAnnounceBlockNumber (manager : Option Nat) (rid : Int) (blockNumber : Nat)
  | bwmAnnounceTransaction (manager : Option Nat) (rid : Int) (transaction : List Nat)
      (timestamp blockHeight : Nat) (error : Bool)
  | bwmAnnounceTransactionComplete (manager : Option Nat) (rid : Int) (success : Bool)
  | bwmAnnounceSubmit (manager : Option Nat) (rid : Int) (txHash : List Nat) (error : Int)
  | ewmAnnounceBlockNumber (ewm : Option Nat) (blockNumber : Nat) (rid : Int)
  | ewmAnnounceLog (ewm : Option Nat) (rid : Int) (hash : Option String) (contract : String)
      (topics : List String) (amount : Option String) (gasPrice gasUsed logIndex : Nat)
      (blockNumber blockTransactionIndex blockTimestamp : Nat)
  | ewmAnnounceTransaction (ewm : Option Nat) (rid : Int) (hash sender receiver : Option String)
      (contract : Option String) (value gasLimit gasPrice : Nat) (data : String)
      (nonce gasUsed blockNumber : Nat) (blockHash : Option String)
      (blockConfirmations blockTransactionIndex blockTimestamp : Nat) (error : Bool)
  | ewmAnnounceTransactionComplete (ewm : Option Nat) (rid : Int) (success : Bool)
  | ewmAnnounceLogComplete (ewm : Option Nat) (rid : Int) (success : Bool)
  | ewmAnnounceSubmitTransfer (ewm : Option Nat) (wid tid : Nat) (hash : Option String)
      (errorCode : Int) (errorMessage : Option String) (rid : Int)
  | ewmAnnounceGasEstimateFailure (ewm : Option Nat) (wid cookie : Nat)
      (status : BREthereumStatus) (rid : Int)
  | ewmAnnounceGasEstimateSuccess (ewm : Option Nat) (wid cookie : Nat)
      (gasEstimate gasPrice : String) (rid : Int)
  | ewmSignalAnnounceNonce (ewm address nonce : Nat) (rid : Int)
  | genManagerAnnounceBlockNumber (gen : Option Nat) (rid : Int) (blockNumber : Nat)
  | genManagerAnnounceTransferComplete (gen : Option Nat) (rid : Int) (success : Bool)
  | genManagerAnnounceSubmit (gen : Option Nat) (rid : Int) (tid : Option BRGenericTransfer)
      (error : Int)
  | genManagerRecoverTransfersFromRawTransaction (gen : Option Nat) (transaction : List Nat)
      (timestamp blockHeight : Nat) (error : Bool)
  | genManagerRecoverTransfer (gen : Option Nat) (genWallet : Nat)
      (hash uids sender receiver amount currency fee : Option String)
      (blockTimestamp blockNumber : Nat) (error : Bool)
  | pthread_mutex_lock
  | pthread_mutex_unlock
  | cryptoWalletManagerHandleTransferGEN (transfer : BRGenericTransfer)
  | cryptoWalletManagerSetTransferStateGEN (wallet transfer : Nat)
      (state : BRGenericTransferState)
  deriving DecidableEq

/-- The bridge between two of its steps: the manager record, and the calls made out of the
bridge so far, oldest first. -/
structure Bridge where
  cwm : BRCryptoWalletManager
  calls : List Call
  deriving DecidableEq

/-- How a request callback or an announce function ends: by returning, or in a failed
`assert`. -/
inductive BridgeOutcome where
  | returned (s : Bridge)
  | aborted (s : Bridge)
  deriving DecidableEq

/-- The bridge a callback or announce ends with, however it ends. -/
def BridgeOutcome.bridge : BridgeOutcome → Bridge
  | .returned s => s
  | .aborted s => s

/-- Make a call out of the bridge. -/
def Bridge.call (s : Bridge) (c : Call) : Bridge :=
  { s with calls := s.calls ++ [c] }

/-- Apply an operation to the manager record. -/
def Bridge.onManager (s : Bridge) (f : BRCryptoWalletManager → BRCryptoWalletManager) :
    Bridge :=
  { s with cwm := f s.cwm }

/-! ## What lies outside the sources

The announce functions and the request callbacks consult the native managers, the network
and the generic half of the crypto layer through functions that are not among the sources.
Their answers are parameters of the embedding. -/

/-- The answers of the functions outside the sources, as far as the request callbacks and
the announce functions use them.

* The native account manager: `ewmTransferGetRLPEncoding` (the bytes, and whether it
  encoded), `ethHashAsString (ewmTransferGetOriginatingTransactionHash (...))`,
  `ewmWalletGetAddress`, `ewmWalletGetTransferNonce`,
  `ewmWalletGetTransferByOriginatingTransactionHash` (on the hash text; `none` for `NULL`),
  `ethEtherGetValueString` of `ewmTransferGetGasPrice`, the selector of `ethEventERC20Transfer`
  and `ethEventERC20TransferEncodeAddress`.
* The network and its currencies: `cryptoNetworkGetCurrencyForUids`, `cryptoCurrencyGetIssuer`.
* The C library and support: `strtoull (string, NULL, 0)`, `uint256CreateParse` (`none` when
  the status is not `CORE_PARSE_OK`), `genericHashAsString`, and the value of `EIO`.
* The native generic manager: `genManagerRecoverTransfersFromRawTransaction` (`none` for
  `NULL`), `genManagerRecoverTransfer`, `genTransferGetTargetAddress`,
  `genWalletHasTransferAttributeForKey` (the key found and whether it is required, `none`
  when the key names no attribute), and the values of the macros `BLOCK_HEIGHT_UNBOUND` and
  `GENERIC_TRANSFER_TRANSACTION_INDEX_UNKNOWN`.
* The generic half of the crypto layer: `cryptoWalletManagerGetWalletForCurrency` (the
  native handle of the wallet found, `none` for `NULL`), and what
  `cryptoWalletManagerHandleTransferGEN` and `cryptoWalletManagerSetTransferStateGEN` do to
  the manager record; that each of the two was called is recorded among the calls. -/
structure Natives where
  ewmTransferGetRLPEncoding : Nat → Nat → List Nat × Bool
  ewmTransferGetOriginatingTransactionHash : Nat → String
  ewmWalletGetAddress : Nat → Nat
  ewmWalletGetTransferNonce : Nat → Nat
  ewmWalletGetTransferByOriginatingTransactionHash : Nat → String → Option Nat
  ewmTransferGetGasPrice : Nat → String
  ethEventGetSelector : String
  ethEventERC20TransferEncodeAddress : Option String → String
  cryptoNetworkGetCurrencyForUids : BRCryptoNetworkRecord → Option String → Option Nat
  cryptoCurrencyGetIssuer : Nat → Option String
  strtoull : String → Nat
  uint256CreateParse : String → Option Nat
  genericHashAsString : List Nat → String
  EIO : Int
  genManagerRecoverTransfersFromRawTransaction :
    List Nat → Nat → Nat → Bool → Option (List BRGenericTransfer)
  genManagerRecoverTransfer : Nat → Option String → Option String → Option String →
    Option String → Option String → Option String → Option String → Nat → Nat → Bool →
    BRGenericTransfer
  genTransferGetTargetAddress : BRGenericTransfer → Nat
  genWalletHasTransferAttributeForKey : Nat → Nat → String → Option (String × Bool)
  BLOCK_HEIGHT_UNBOUND : Nat
  GENERIC_TRANSFER_TRANSACTION_INDEX_UNKNOWN : Nat
  cryptoWalletManagerGetWalletForCurrency : BRCryptoWalletManager → Nat → Option Nat
  cryptoWalletManagerHandleTransferGEN :
    BRCryptoWalletManager → BRGenericTransfer → BRCryptoWalletManager
  cryptoWalletManagerSetTransferStateGEN :
    BRCryptoWalletManager → Nat → Nat → BRGenericTransferState → BRCryptoWalletManager

/-- The first wallet of the manager that wraps the generic wallet `gen`
(`cryptoWalletManagerFindWalletAsGEN`, BRCryptoBTC.h). -/
def cryptoWalletManagerFindWalletAsGEN (cwm : BRCryptoWalletManager) (gen : Nat) :
    Option BRCryptoWalletRecord :=
  cwm.wallets.find? (fun w => w.wid == gen)

/-- Modelled from the spec: `cryptoWalletFindTransferAsGEN`, the lookup of the wallet's
Transfer set by "backend-native transfer identity" for the generic family. -/
def cryptoWalletFindTransferAsGEN (cwm : BRCryptoWalletManager) (wallet : Nat)
    (gen : BRGenericTransfer) : Option Nat :=
  findTransfer cwm.wallets cwm.transfers wallet gen.ref

/-- The call `cryptoWalletManagerHandleTransferGEN (cwm, transfer)`: the routine acts on the
manager record and is recorded among the calls. -/
def cryptoWalletManagerHandleTransferGEN (natives : Natives) (s : Bridge)
    (transfer : BRGenericTransfer) : Bridge :=
  { cwm := natives.cryptoWalletManagerHandleTransferGEN s.cwm transfer,
    calls := s.calls ++ [.cryptoWalletManagerHandleTransferGEN transfer] }

/-- The call `cryptoWalletManagerSetTransferStateGEN (cwm, wallet, transfer, state)`. -/
def cryptoWalletManagerSetTransferStateGEN (natives : Natives) (s : Bridge)
    (wallet transfer : Nat) (state : BRGenericTransferState) : Bridge :=
  { cwm := natives.cryptoWalletManagerSetTransferStateGEN s.cwm wallet transfer state,
    calls := s.calls ++ [.cryptoWalletManagerSetTransferStateGEN wallet transfer state] }

/-! ## The announce functions (lines 1820-2481)

In the source `assert (cwm); assert (callbackState);` opens every announce function; the
two pointers are records here and never `NULL`. -/

/-- The release of a token (`cwmClientCallbackStateRelease`, lines 79-89). -/
def cwmClientCallbackStateRelease (s : Bridge) (state : BRCryptoClientCallbackState) :
    Bridge :=
  let s := match state.type with
    | .CWM_CALLBACK_TYPE_GEN_SUBMIT_TRANSACTION => s.call (.genTransferRelease state.genTid)
    | _ => s
  s.call (.free state)

/-- Announce a block number (`cwmAnnounceGetBlockNumberSuccess`, lines 1820-1870). -/
def cwmAnnounceGetBlockNumberSuccess (s : Bridge)
    (callbackState : BRCryptoClientCallbackState) (blockNumber : Nat) : BridgeOutcome :=
  if ¬ (.CWM_CALLBACK_TYPE_BTC_GET_BLOCK_NUMBER = callbackState.type ∨
        .CWM_CALLBACK_TYPE_ETH_GET_BLOCK_NUMBER = callbackState.type ∨
        .CWM_CALLBACK_TYPE_GEN_GET_BLOCK_NUMBER = callbackState.type) then .aborted s else
  let s := s.onManager cryptoWalletManagerTake
  let s := match callbackState.type with
    | .CWM_CALLBACK_TYPE_BTC_GET_BLOCK_NUMBER =>
      s.call (.bwmAnnounceBlockNumber s.cwm.u callbackState.rid blockNumber)
    | .CWM_CALLBACK_TYPE_ETH_GET_BLOCK_NUMBER =>
      s.call (.ewmAnnounceBlockNumber s.cwm.u blockNumber callbackState.rid)
    | .CWM_CALLBACK_TYPE_GEN_GET_BLOCK_NUMBER =>
      let s := s.call (.genManagerAnnounceBlockNumber s.cwm.u callbackState.rid blockNumber)
      -- GEN does not signal events; so we must do it ourselves.
      let s := s.onManager (fun cwm => cryptoNetworkSetHeight cwm blockNumber)
      s.onManager (fun cwm => walletManagerEventCallback cwm
        (.CRYPTO_WALLET_MANAGER_EVENT_BLOCK_HEIGHT_UPDATED blockNumber))
    | _ => s
  let s := s.onManager cryptoWalletManagerGive
  .returned (cwmClientCallbackStateRelease s callbackState)

/-- Announce that the block number could not be had (`cwmAnnounceGetBlockNumberFailure`,
lines 1872-1880). -/
def cwmAnnounceGetBlockNumberFailure (s : Bridge)
    (callbackState : BRCryptoClientCallbackState) : BridgeOutcome :=
  if ¬ (.CWM_CALLBACK_TYPE_BTC_GET_BLOCK_NUMBER = callbackState.type ∨
        .CWM_CALLBACK_TYPE_ETH_GET_BLOCK_NUMBER = callbackState.type ∨
        .CWM_CALLBACK_TYPE_GEN_GET_BLOCK_NUMBER = callbackState.type) then .aborted s else
  .returned (cwmClientCallbackStateRelease s callbackState)

/-- Announce one raw transaction (`cwmAnnounceGetTransactionsItem`, lines 1882-1942).  The
token is not released ("DON'T free (callbackState)"). -/
def cwmAnnounceGetTransactionsItem (natives : Natives) (s : Bridge)
    (callbackState : BRCryptoClientCallbackState) (status : BRCryptoTransferStateType)
    (transaction : List Nat) (timestamp blockHeight : Nat) : BridgeOutcome :=
  let s := s.onManager cryptoWalletManagerTake
  match s.cwm.type with
  | .BLOCK_CHAIN_TYPE_BTC =>
    if .CWM_CALLBACK_TYPE_BTC_GET_TRANSACTIONS ≠ callbackState.type then .aborted s else
    let s := s.call (.bwmAnnounceTransaction s.cwm.u callbackState.rid transaction timestamp
      blockHeight (decide (.CRYPTO_TRANSFER_STATE_ERRORED = status)))
    .returned (s.onManager cryptoWalletManagerGive)
  | .BLOCK_CHAIN_TYPE_ETH => .aborted s
  | .BLOCK_CHAIN_TYPE_GEN =>
    if .CWM_CALLBACK_TYPE_GEN_GET_TRANSACTIONS ≠ callbackState.type then .aborted s else
    let error := decide (BRCryptoTransferStateType.CRYPTO_TRANSFER_STATE_ERRORED = status)
    let s := s.call (.genManagerRecoverTransfersFromRawTransaction s.cwm.u transaction
      timestamp blockHeight error)
    let transfers := natives.genManagerRecoverTransfersFromRawTransaction transaction
      timestamp blockHeight error
    let s := match transfers with
      | none => s
      | some transfers =>
        let s := s.call .pthread_mutex_lock
        let s := transfers.foldl (cryptoWalletManagerHandleTransferGEN natives) s
        s.call .pthread_mutex_unlock
    .returned (s.onManager cryptoWalletManagerGive)

/-- The state of a generic transfer that stands for an announced status
(`cwmAnnounceGetTransferStateGEN`, lines 1944-1976). -/
def cwmAnnounceGetTransferStateGEN (natives : Natives) (transfer : BRGenericTransfer)
    (status : BRCryptoTransferStateType) (timestamp blockHeight : Nat) :
    BRGenericTransferState :=
  match status with
  | .CRYPTO_TRANSFER_STATE_CREATED =>
    genTransferStateCreateOther .GENERIC_TRANSFER_STATE_CREATED
  | .CRYPTO_TRANSFER_STATE_SIGNED =>
    genTransferStateCreateOther .GENERIC_TRANSFER_STATE_SIGNED
  | .CRYPTO_TRANSFER_STATE_SUBMITTED =>
    genTransferStateCreateOther .GENERIC_TRANSFER_STATE_SUBMITTED
  | .CRYPTO_TRANSFER_STATE_INCLUDED =>
    genTransferStateCreateIncluded blockHeight
      natives.GENERIC_TRANSFER_TRANSACTION_INDEX_UNKNOWN timestamp
      (genTransferGetFeeBasis transfer) true none
  | .CRYPTO_TRANSFER_STATE_ERRORED =>
    if natives.BLOCK_HEIGHT_UNBOUND = blockHeight then
      genTransferStateCreateErrored .GENERIC_TRANSFER_SUBMIT_ERROR_ONE
    else
      genTransferStateCreateIncluded blockHeight
        natives.GENERIC_TRANSFER_TRANSACTION_INDEX_UNKNOWN timestamp
        (genTransferGetFeeBasis transfer) false none
  | .CRYPTO_TRANSFER_STATE_DELETED =>
    genTransferStateCreateOther .GENERIC_TRANSFER_STATE_DELETED

/-- Announce one raw transaction of the generic family
(`cwmAnnounceGetTransactionsItemGEN`, lines 1978-2019).  Neither the kind of the token nor
the family of the manager is looked at, and the token is not released. -/
def cwmAnnounceGetTransactionsItemGEN (natives : Natives) (s : Bridge)
    (_callbackState : BRCryptoClientCallbackState) (status : BRCryptoTransferStateType)
    (transaction : List Nat) (timestamp blockHeight : Nat) : BridgeOutcome :=
  let s := s.onManager cryptoWalletManagerTake
  let s := s.call (.genManagerRecoverTransfersFromRawTransaction s.cwm.u transaction
    timestamp blockHeight false)
  let transfers := natives.genManagerRecoverTransfersFromRawTransaction transaction
    timestamp blockHeight false
  let s := match transfers with
    | none => s
    | some transfers =>
      let s := s.call .pthread_mutex_lock
      let s := transfers.foldl (fun s genTransfer =>
        -- Update the GEN state based on the status, then generate required events.
        cryptoWalletManagerHandleTransferGEN natives s
          (genTransferSetState genTransfer
            (cwmAnnounceGetTransferStateGEN natives genTransfer status timestamp
              blockHeight))) s
      s.call .pthread_mutex_unlock
  .returned (s.onManager cryptoWalletManagerGive)

/-- Announce the end of the raw transactions (`cwmAnnounceGetTransactionsComplete`,
lines 2021-2052). -/
def cwmAnnounceGetTransactionsComplete (s : Bridge)
    (callbackState : BRCryptoClientCallbackState) (success : Bool) : BridgeOutcome :=
  if ¬ (.CWM_CALLBACK_TYPE_BTC_GET_TRANSACTIONS = callbackState.type ∨
        .CWM_CALLBACK_TYPE_GEN_GET_TRANSACTIONS = callbackState.type) then .aborted s else
  let s := s.onManager cryptoWalletManagerTake
  match callbackState.type with
  | .CWM_CALLBACK_TYPE_BTC_GET_TRANSACTIONS =>
    if .BLOCK_CHAIN_TYPE_BTC ≠ s.cwm.type then .aborted s else
    let s := s.call (.bwmAnnounceTransactionComplete s.cwm.u callbackState.rid success)
    let s := s.onManager cryptoWalletManagerGive
    .returned (cwmClientCallbackStateRelease s callbackState)
  | .CWM_CALLBACK_TYPE_GEN_GET_TRANSACTIONS =>
    if .BLOCK_CHAIN_TYPE_GEN ≠ s.cwm.type then .aborted s else
    let s := s.call (.genManagerAnnounceTransferComplete s.cwm.u callbackState.rid success)
    let s := s.onManager cryptoWalletManagerGive
    .returned (cwmClientCallbackStateRelease s callbackState)
  | _ => .aborted s

/-- The value of the first attribute whose key is `key`, case ignored
(`cwmLookupAttributeValueForKey`, lines 2054-2060; `strcasecmp` compares ignoring case). -/
def cwmLookupAttributeValueForKey (key : String) (attributes : List (String × Option String)) :
    Option String :=
  match attributes.find? (fun kv => key.map Char.toLower == kv.1.map Char.toLower) with
  | some kv => kv.2
  | none => none

/-- Parse a 64-bit number (`cwmParseUInt64`, lines 2062-2066): the value, and the error flag
`*error` after the call. -/
def cwmParseUInt64 (natives : Natives) (string : Option String) (error : Bool) : Nat × Bool :=
  match string with
  | none => (0, true)
  | some string => (natives.strtoull string, error)

/-- Parse a 256-bit number (`cwmParseUInt256`, lines 2068-2077): the value, and the error
flag `*error` after the call. -/
def cwmParseUInt256 (natives : Natives) (string : Option String) (error : Bool) : Nat × Bool :=
  match string with
  | none => (0, true)
  | some string =>
    match natives.uint256CreateParse string with
    | none => (0, true)
    | some result => (result, error)

/-- The arguments of `cwmAnnounceGetTransferItem` after the token (lines 2082-2097); the
source's `from` is `sender` and its `to` is `receiver`, and the two attribute arrays are one
list of pairs. -/
structure TransferItem where
  status : BRCryptoTransferStateType
  hash : Option String
  uids : Option String
  sender : Option String
  receiver : Option String
  amount : Option String
  currency : Option String
  fee : Option String
  blockTimestamp : Nat
  blockNumber : Nat
  blockConfirmations : Nat
  blockTransactionIndex : Nat
  blockHash : Option String
  attributes : List (String × Option String)
  deriving DecidableEq

/-- Announce one transfer (`cwmAnnounceGetTransferItem`, lines 2079-2240).  The token is not
released ("DON'T free (callbackState)"). -/
def cwmAnnounceGetTransferItem (natives : Natives) (s : Bridge)
    (callbackState : BRCryptoClientCallbackState) (item : TransferItem) : BridgeOutcome :=
  if ¬ (.CWM_CALLBACK_TYPE_GEN_GET_TRANSFERS = callbackState.type ∨
        .CWM_CALLBACK_TYPE_ETH_GET_TRANSACTIONS = callbackState.type) then .aborted s else
  let s := s.onManager cryptoWalletManagerTake
  -- Lookup the network's currency
  match natives.cryptoNetworkGetCurrencyForUids s.cwm.network item.currency with
  | none => .returned (s.onManager cryptoWalletManagerGive)
  | some walletCurrency =>
    match callbackState.type with
    | .CWM_CALLBACK_TYPE_GEN_GET_TRANSFERS =>
      match natives.cryptoWalletManagerGetWalletForCurrency s.cwm walletCurrency with
      | none => .aborted s
      | some genWallet =>
        let error := decide (BRCryptoTransferStateType.CRYPTO_TRANSFER_STATE_ERRORED =
          item.status)
        let s := s.call (.genManagerRecoverTransfer s.cwm.u genWallet item.hash item.uids
          item.sender item.receiver item.amount item.currency item.fee item.blockTimestamp
          item.blockNumber error)
        let genTransfer := natives.genManagerRecoverTransfer genWallet item.hash item.uids
          item.sender item.receiver item.amount item.currency item.fee item.blockTimestamp
          item.blockNumber error
        let genTransfer := genTransferSetState genTransfer
          (cwmAnnounceGetTransferStateGEN natives genTransfer item.status item.blockTimestamp
            item.blockNumber)
        let genTransfer :=
          if item.attributes.length > 0 then
            let genTarget := natives.genTransferGetTargetAddress genTransfer
            let genAttributes := item.attributes.filterMap (fun kv =>
              (natives.genWalletHasTransferAttributeForKey genWallet genTarget kv.1).map
                (fun found => BRGenericTransferAttribute.mk found.1 kv.2 found.2))
            genTransferSetAttributes genTransfer genAttributes
          else genTransfer
        let s := cryptoWalletManagerHandleTransferGEN natives s genTransfer
        .returned (s.onManager cryptoWalletManagerGive)
    | .CWM_CALLBACK_TYPE_ETH_GET_TRANSACTIONS =>
      let error := false
      let (value, error) := cwmParseUInt256 natives item.amount error
      let contract := natives.cryptoCurrencyGetIssuer walletCurrency
      let (gasLimit, error) := cwmParseUInt64 natives
        (cwmLookupAttributeValueForKey "gasLimit" item.attributes) error
      let (gasUsed, error) := cwmParseUInt64 natives
        (cwmLookupAttributeValueForKey "gasUsed" item.attributes) error
      let (gasPrice, error) := cwmParseUInt256 natives
        (cwmLookupAttributeValueForKey "gasPrice" item.attributes) error
      let (nonce, error) := cwmParseUInt64 natives
        (cwmLookupAttributeValueForKey "nonce" item.attributes) error
      let error := error || decide (BRCryptoTransferStateType.CRYPTO_TRANSFER_STATE_ERRORED =
        item.status)
      let s := match contract with
        | some contract =>
          let topics := [natives.ethEventGetSelector,
            natives.ethEventERC20TransferEncodeAddress item.sender,
            natives.ethEventERC20TransferEncodeAddress item.receiver]
          s.call (.ewmAnnounceLog s.cwm.u callbackState.rid item.hash contract topics
            item.amount gasPrice gasUsed 0 item.blockNumber item.blockTransactionIndex
            item.blockTimestamp)
        | none =>
          s.call (.ewmAnnounceTransaction s.cwm.u callbackState.rid item.hash item.sender
            item.receiver contract value gasLimit gasPrice "" nonce gasUsed item.blockNumber
            item.blockHash item.blockConfirmations item.blockTransactionIndex
            item.blockTimestamp error)
      .returned (s.onManager cryptoWalletManagerGive)
    | _ => .aborted s

/-- Announce the end of the transfers (`cwmAnnounceGetTransfersComplete`, lines 2242-2295). -/
def cwmAnnounceGetTransfersComplete (s : Bridge)
    (callbackState : BRCryptoClientCallbackState) (success : Bool) : BridgeOutcome :=
  if ¬ (.CWM_CALLBACK_TYPE_GEN_GET_TRANSFERS = callbackState.type ∨
        .CWM_CALLBACK_TYPE_ETH_GET_TRANSACTIONS = callbackState.type ∨
        .CWM_CALLBACK_TYPE_ETH_GET_LOGS = callbackState.type) then .aborted s else
  let s := s.onManager cryptoWalletManagerTake
  match callbackState.type with
  | .CWM_CALLBACK_TYPE_GEN_GET_TRANSFERS =>
    if .BLOCK_CHAIN_TYPE_GEN ≠ s.cwm.type then .aborted s else
    let s := s.call (.genManagerAnnounceTransferComplete s.cwm.u callbackState.rid success)
    -- Synchronizing of transfers is complete - calculate the new balance
    let balance := cryptoWalletGetBalance s.cwm s.cwm.wallet
    -- ... and announce the balance
    let s := s.onManager (fun cwm => walletEventCallback cwm cwm.wallet
      (.CRYPTO_WALLET_EVENT_BALANCE_UPDATED balance))
    let s := s.onManager cryptoWalletManagerGive
    .returned (cwmClientCallbackStateRelease s callbackState)
  | .CWM_CALLBACK_TYPE_ETH_GET_TRANSACTIONS =>
    if .BLOCK_CHAIN_TYPE_ETH ≠ s.cwm.type then .aborted s else
    let s := s.call (.ewmAnnounceTransactionComplete s.cwm.u callbackState.rid success)
    let s := s.onManager cryptoWalletManagerGive
    .returned (cwmClientCallbackStateRelease s callbackState)
  | .CWM_CALLBACK_TYPE_ETH_GET_LOGS =>
    if .BLOCK_CHAIN_TYPE_ETH ≠ s.cwm.type then .aborted s else
    let s := s.call (.ewmAnnounceLogComplete s.cwm.u callbackState.rid success)
    let s := s.onManager cryptoWalletManagerGive
    .returned (cwmClientCallbackStateRelease s callbackState)
  | _ => .aborted s

/-- The result of a submit in the generic family (`cwmAnnounceSubmitTransferResultGEN`,
lines 2297-2326); the manager is taken already. -/
def cwmAnnounceSubmitTransferResultGEN (natives : Natives) (s : Bridge)
    (callbackState : BRCryptoClientCallbackState) (error : Int) : BridgeOutcome :=
  if .CWM_CALLBACK_TYPE_GEN_SUBMIT_TRANSACTION ≠ callbackState.type then .aborted s else
  let s := s.call (.genManagerAnnounceSubmit s.cwm.u callbackState.rid callbackState.genTid
    error)
  let wallet := cryptoWalletManagerFindWalletAsGEN s.cwm callbackState.wid
  let transfer := match wallet, callbackState.genTid with
    | some wallet, some tid => cryptoWalletFindTransferAsGEN s.cwm wallet.wid tid
    | _, _ => none
  match wallet, transfer with
  | some wallet, some transfer =>
    .returned (cryptoWalletManagerSetTransferStateGEN natives s wallet.wid transfer
      (if error ≠ 0 then genTransferStateCreateErrored .GENERIC_TRANSFER_SUBMIT_ERROR_ONE
       else genTransferStateCreateOther .GENERIC_TRANSFER_STATE_SUBMITTED))
  | _, _ => .returned s

/-- Announce that a submit succeeded (`cwmAnnounceSubmitTransferSuccess`,
lines 2328-2371). -/
def cwmAnnounceSubmitTransferSuccess (natives : Natives) (s : Bridge)
    (callbackState : BRCryptoClientCallbackState) (hash : Option String) : BridgeOutcome :=
  if ¬ (.CWM_CALLBACK_TYPE_BTC_SUBMIT_TRANSACTION = callbackState.type ∨
        .CWM_CALLBACK_TYPE_ETH_SUBMIT_TRANSACTION = callbackState.type ∨
        .CWM_CALLBACK_TYPE_GEN_SUBMIT_TRANSACTION = callbackState.type) then .aborted s else
  let s := s.onManager cryptoWalletManagerTake
  match callbackState.type with
  | .CWM_CALLBACK_TYPE_BTC_SUBMIT_TRANSACTION =>
    if .BLOCK_CHAIN_TYPE_BTC ≠ s.cwm.type then .aborted s else
    let s := s.call (.bwmAnnounceSubmit s.cwm.u callbackState.rid callbackState.txHash 0)
    let s := s.onManager cryptoWalletManagerGive
    .returned (cwmClientCallbackStateRelease s callbackState)
  | .CWM_CALLBACK_TYPE_ETH_SUBMIT_TRANSACTION =>
    if .BLOCK_CHAIN_TYPE_ETH ≠ s.cwm.type then .aborted s else
    let s := s.call (.ewmAnnounceSubmitTransfer s.cwm.u callbackState.wid callbackState.tid
      hash (-1) none callbackState.rid)
    let s := s.onManager cryptoWalletManagerGive
    .returned (cwmClientCallbackStateRelease s callbackState)
  | .CWM_CALLBACK_TYPE_GEN_SUBMIT_TRANSACTION =>
    if .BLOCK_CHAIN_TYPE_GEN ≠ s.cwm.type then .aborted s else
    match cwmAnnounceSubmitTransferResultGEN natives s callbackState 0 with
    | .aborted s => .aborted s
    | .returned s =>
      let s := s.onManager cryptoWalletManagerGive
      .returned (cwmClientCallbackStateRelease s callbackState)
  | _ => .aborted s

/-- Announce that a submit failed (`cwmAnnounceSubmitTransferFailure`, lines 2373-2408). -/
def cwmAnnounceSubmitTransferFailure (natives : Natives) (s : Bridge)
    (callbackState : BRCryptoClientCallbackState) : BridgeOutcome :=
  if ¬ (.CWM_CALLBACK_TYPE_BTC_SUBMIT_TRANSACTION = callbackState.type ∨
        .CWM_CALLBACK_TYPE_ETH_SUBMIT_TRANSACTION = callbackState.type ∨
        .CWM_CALLBACK_TYPE_GEN_SUBMIT_TRANSACTION = callbackState.type) then .aborted s else
  let s := s.onManager cryptoWalletManagerTake
  if .CWM_CALLBACK_TYPE_BTC_SUBMIT_TRANSACTION = callbackState.type ∧
      .BLOCK_CHAIN_TYPE_BTC = s.cwm.type then
    let s := s.call (.bwmAnnounceSubmit s.cwm.u callbackState.rid callbackState.txHash
      natives.EIO)
    let s := s.onManager cryptoWalletManagerGive
    .returned (cwmClientCallbackStateRelease s callbackState)
  else if .CWM_CALLBACK_TYPE_ETH_SUBMIT_TRANSACTION = callbackState.type ∧
      .BLOCK_CHAIN_TYPE_ETH = s.cwm.type then
    let s := s.call (.ewmAnnounceSubmitTransfer s.cwm.u callbackState.wid callbackState.tid
      none 0 (some "unknown failure") callbackState.rid)
    let s := s.onManager cryptoWalletManagerGive
    .returned (cwmClientCallbackStateRelease s callbackState)
  else if .CWM_CALLBACK_TYPE_GEN_SUBMIT_TRANSACTION = callbackState.type ∧
      .BLOCK_CHAIN_TYPE_GEN = s.cwm.type then
    match cwmAnnounceSubmitTransferResultGEN natives s callbackState natives.EIO with
    | .aborted s => .aborted s
    | .returned s =>
      let s := s.onManager cryptoWalletManagerGive
      .returned (cwmClientCallbackStateRelease s callbackState)
  else .aborted s

/-- Announce a fee estimate (`cwmAnnounceEstimateTransactionFeeSuccess`, lines 2410-2457).
`sprintf` returns the number of characters it wrote, here the length of the decimal
rendering of the 64-bit cost. -/
def cwmAnnounceEstimateTransactionFeeSuccess (natives : Natives) (s : Bridge)
    (callbackState : BRCryptoClientCallbackState) (strHash : String) (costUnits : Nat) :
    BridgeOutcome :=
  let s := s.onManager cryptoWalletManagerTake
  match callbackState.type with
  | .CWM_CALLBACK_TYPE_ETH_ESTIMATE_GAS =>
    let transfer := natives.ewmWalletGetTransferByOriginatingTransactionHash
      callbackState.wid strHash
    let strGasEstimate := toString (costUnits % 2 ^ 64)
    let error := decide ((strGasEstimate.length : Int) < 0)
    let s := match transfer, error with
      | some transfer, false =>
        s.call (.ewmAnnounceGasEstimateSuccess s.cwm.u callbackState.wid
          callbackState.cookie strGasEstimate (natives.ewmTransferGetGasPrice transfer)
          callbackState.rid)
      | _, _ =>
        -- `if (NULL == transfer || error)`
        s.call (.ewmAnnounceGasEstimateFailure s.cwm.u callbackState.wid
          callbackState.cookie (if error then ERROR_NUMERIC_PARSE else ERROR_FAILED)
          callbackState.rid)
    let s := s.onManager cryptoWalletManagerGive
    .returned (cwmClientCallbackStateRelease s callbackState)
  | _ => .aborted s

/-- Announce that a fee estimate failed (`cwmAnnounceEstimateTransactionFeeFailure`,
lines 2459-2481). -/
def cwmAnnounceEstimateTransactionFeeFailure (s : Bridge)
    (callbackState : BRCryptoClientCallbackState) (_hash : Option String) : BridgeOutcome :=
  let s := s.onManager cryptoWalletManagerTake
  match callbackState.type with
  | .CWM_CALLBACK_TYPE_ETH_ESTIMATE_GAS =>
    let s := s.call (.ewmAnnounceGasEstimateFailure s.cwm.u callbackState.wid
      callbackState.cookie ERROR_FAILED callbackState.rid)
    let s := s.onManager cryptoWalletManagerGive
    .returned (cwmClientCallbackStateRelease s callbackState)
  | _ => .aborted s

/-! ## The request callbacks (lines 93-169 and 1423-1741) -/

/-- The call `cwm->client.funcGetBlockNumber (cwm->client.context, cryptoWalletManagerTake
(cwm), callbackState)`. -/
def funcGetBlockNumber (s : Bridge) (callbackState : BRCryptoClientCallbackState) : Bridge :=
  (s.onManager cryptoWalletManagerTake).call (.funcGetBlockNumber callbackState)

/-- The call `cwm->client.funcGetTransactions (cwm->client.context, cryptoWalletManagerTake
(cwm), callbackState, addresses, addressCount, currency, begBlockNumber, endBlockNumber)`. -/
def funcGetTransactions (s : Bridge) (callbackState : BRCryptoClientCallbackState)
    (addresses : List (Option String)) (currency : String)
    (begBlockNumber endBlockNumber : Nat) : Bridge :=
  (s.onManager cryptoWalletManagerTake).call
    (.funcGetTransactions callbackState addresses currency begBlockNumber endBlockNumber)

/-- The call `cwm->client.funcGetTransfers (...)`, with the arguments of
`funcGetTransactions`. -/
def funcGetTransfers (s : Bridge) (callbackState : BRCryptoClientCallbackState)
    (addresses : List (Option String)) (currency : String)
    (begBlockNumber endBlockNumber : Nat) : Bridge :=
  (s.onManager cryptoWalletManagerTake).call
    (.funcGetTransfers callbackState addresses currency begBlockNumber endBlockNumber)

/-- The call `cwm->client.funcSubmitTransaction (cwm->client.context,
cryptoWalletManagerTake (cwm), callbackState, transaction, transactionLength, hashAsHex)`. -/
def funcSubmitTransaction (s : Bridge) (callbackState : BRCryptoClientCallbackState)
    (transaction : List Nat) (hashAsHex : String) : Bridge :=
  (s.onManager cryptoWalletManagerTake).call
    (.funcSubmitTransaction callbackState transaction hashAsHex)

/-- The call `cwm->client.funcEstimateTransactionFee (...)`, with the arguments of
`funcSubmitTransaction`. -/
def funcEstimateTransactionFee (s : Bridge) (callbackState : BRCryptoClientCallbackState)
    (transaction : List Nat) (hashAsHex : String) : Bridge :=
  (s.onManager cryptoWalletManagerTake).call
    (.funcEstimateTransactionFee callbackState transaction hashAsHex)

/-- Modelled from the spec: `UInt256Reverse` (support/BRInt.h) reverses the order of the 32
bytes of a hash; the token keeps "the original un-reversed transaction hash". -/
def UInt256Reverse (u : List Nat) : List Nat := u.reverse

/-- Modelled from the spec: `hexEncodeCreate` renders bytes as hexadecimal text, two digits
a byte. -/
def hexEncodeCreate (bytes : List Nat) : String :=
  String.mk (bytes.flatMap (fun b => [Nat.digitChar (b / 16 % 16), Nat.digitChar (b % 16)]))

/-- The request for the block number of the UTXO family (`cwmGetBlockNumberAsBTC`,
lines 93-110). -/
def cwmGetBlockNumberAsBTC (context : Bridge) (_manager : BRWalletManager) (rid : Int) :
    BridgeOutcome :=
  match cryptoWalletManagerTakeWeak context.cwm with
  | none => .returned context
  | some cwm =>
    let s : Bridge := { context with cwm := cwm }
    let callbackState : BRCryptoClientCallbackState :=
      { callocCallbackState with
        type := .CWM_CALLBACK_TYPE_BTC_GET_BLOCK_NUMBER
        rid := rid }
    let s := s.call (.calloc callbackState)
    let s := funcGetBlockNumber s callbackState
    .returned (s.onManager cryptoWalletManagerGive)

/-- The request for transactions of the UTXO family (`cwmGetTransactionsAsBTC`,
lines 112-138). -/
def cwmGetTransactionsAsBTC (context : Bridge) (_manager : BRWalletManager)
    (addresses : List String) (begBlockNumber endBlockNumber : Nat) (rid : Int) :
    BridgeOutcome :=
  match cryptoWalletManagerTakeWeak context.cwm with
  | none => .returned context
  | some cwm =>
    let s : Bridge := { context with cwm := cwm }
    let callbackState : BRCryptoClientCallbackState :=
      { callocCallbackState with
        type := .CWM_CALLBACK_TYPE_BTC_GET_TRANSACTIONS
        rid := rid }
    let s := s.call (.calloc callbackState)
    let s := funcGetTransactions s callbackState (addresses.map some) "__native__"
      begBlockNumber endBlockNumber
    .returned (s.onManager cryptoWalletManagerGive)

/-- The request to submit a transaction of the UTXO family (`cwmSubmitTransactionAsBTC`,
lines 140-169). -/
def cwmSubmitTransactionAsBTC (context : Bridge) (_manager : BRWalletManager) (_wallet : Nat)
    (transaction : List Nat) (transactionHash : List Nat) (rid : Int) : BridgeOutcome :=
  match cryptoWalletManagerTakeWeak context.cwm with
  | none => .returned context
  | some cwm =>
    let s : Bridge := { context with cwm := cwm }
    let callbackState : BRCryptoClientCallbackState :=
      { callocCallbackState with
        type := .CWM_CALLBACK_TYPE_BTC_SUBMIT_TRANSACTION
        txHash := transactionHash
        rid := rid }
    let s := s.call (.calloc callbackState)
    let txHash := UInt256Reverse transactionHash
    let hashAsHex := hexEncodeCreate txHash
    let s := funcSubmitTransaction s callbackState transaction hashAsHex
    .returned (s.onManager cryptoWalletManagerGive)

/-- The request for a balance of the account family (`cwmGetBalanceAsETH`,
lines 1423-1430): `return;`. -/
def cwmGetBalanceAsETH (context : Bridge) (_ewm : BREthereumEWM) (_wid : Nat)
    (_address : String) (_rid : Int) : BridgeOutcome :=
  .returned context

/-- The request for the gas price (`cwmGetGasPriceAsETH`, lines 1432-1438): `return;`. -/
def cwmGetGasPriceAsETH (context : Bridge) (_ewm : BREthereumEWM) (_wid : Nat) (_rid : Int) :
    BridgeOutcome :=
  .returned context

/-- The request for a gas estimate (`cwmGetGasEstimateAsETH`, lines 1440-1479). -/
def cwmGetGasEstimateAsETH (natives : Natives) (context : Bridge) (_ewm : BREthereumEWM)
    (wid tid cookie : Nat) (_sender _receiver _amount _price _data : String) (rid : Int) :
    BridgeOutcome :=
  match cryptoWalletManagerTakeWeak context.cwm with
  | none => .returned context
  | some cwm =>
    let s : Bridge := { context with cwm := cwm }
    let callbackState : BRCryptoClientCallbackState :=
      { callocCallbackState with
        type := .CWM_CALLBACK_TYPE_ETH_ESTIMATE_GAS
        wid := wid
        cookie := cookie
        rid := rid }
    let s := s.call (.calloc callbackState)
    let transactionData := natives.ewmTransferGetRLPEncoding wid tid
    if transactionData.2 = false then .aborted s else
    let transactionHash := natives.ewmTransferGetOriginatingTransactionHash tid
    let s := funcEstimateTransactionFee s callbackState transactionData.1 transactionHash
    .returned (s.onManager cryptoWalletManagerGive)

/-- The request to submit a transfer of the account family (`cwmSubmitTransactionAsETH`,
lines 1481-1508). -/
def cwmSubmitTransactionAsETH (context : Bridge) (_ewm : BREthereumEWM) (wid tid : Nat)
    (transactionBytes : List Nat) (transactionHash : String) (rid : Int) : BridgeOutcome :=
  match cryptoWalletManagerTakeWeak context.cwm with
  | none => .returned context
  | some cwm =>
    let s : Bridge := { context with cwm := cwm }
    let callbackState : BRCryptoClientCallbackState :=
      { callocCallbackState with
        type := .CWM_CALLBACK_TYPE_ETH_SUBMIT_TRANSACTION
        wid := wid
        tid := tid
        rid := rid }
    let s := s.call (.calloc callbackState)
    let s := funcSubmitTransaction s callbackState transactionBytes transactionHash
    .returned (s.onManager cryptoWalletManagerGive)

/-- A copy of a text in upper or in lower case, `NULL` for `NULL` (`strcase`,
lines 1510-1517). -/
def strcase (s : Option String) (upper : Bool) : Option String :=
  s.map (fun s => s.map (fun c => if upper then c.toUpper else c.toLower))

/-- The request for transactions of the account family (`cwmGetTransactionsAsETH`,
lines 1519-1559): the address goes to the Client in lower case. -/
def cwmGetTransactionsAsETH (context : Bridge) (_ewm : BREthereumEWM)
    (address : Option String) (begBlockNumber endBlockNumber : Nat) (rid : Int) :
    BridgeOutcome :=
  match cryptoWalletManagerTakeWeak context.cwm with
  | none => .returned context
  | some cwm =>
    let s : Bridge := { context with cwm := cwm }
    let callbackState : BRCryptoClientCallbackState :=
      { callocCallbackState with
        type := .CWM_CALLBACK_TYPE_ETH_GET_TRANSACTIONS
        rid := rid }
    let s := s.call (.calloc callbackState)
    let addresses := [strcase address false]
    let s := funcGetTransfers s callbackState addresses "__native__" begBlockNumber
      endBlockNumber
    .returned (s.onManager cryptoWalletManagerGive)

/-- The request for logs of the account family (`cwmGetLogsAsETH`, lines 1561-1582): no
Client call; the end of the transfers is announced at once. -/
def cwmGetLogsAsETH (context : Bridge) (_ewm : BREthereumEWM) (_contract : Option String)
    (_address _event : String) (_begBlockNumber _endBlockNumber : Nat) (rid : Int) :
    BridgeOutcome :=
  match cryptoWalletManagerTakeWeak context.cwm with
  | none => .returned context
  | some cwm =>
    let s : Bridge := { context with cwm := cwm }
    let callbackState : BRCryptoClientCallbackState :=
      { callocCallbackState with
        type := .CWM_CALLBACK_TYPE_ETH_GET_LOGS
        rid := rid }
    let s := s.call (.calloc callbackState)
    match cwmAnnounceGetTransfersComplete s callbackState true with
    | .aborted s => .aborted s
    | .returned s => .returned (s.onManager cryptoWalletManagerGive)

/-- The request for blocks of the account family (`cwmGetBlocksAsETH`, lines 1584-1593):
`return;`. -/
def cwmGetBlocksAsETH (context : Bridge) (_ewm : BREthereumEWM) (_address : String)
    (_interests _blockNumberStart _blockNumberStop : Nat) (_rid : Int) : BridgeOutcome :=
  .returned context

/-- The request for tokens of the account family (`cwmGetTokensAsETH`, lines 1595-1600):
`return;`. -/
def cwmGetTokensAsETH (context : Bridge) (_ewm : BREthereumEWM) (_rid : Int) : BridgeOutcome :=
  .returned context

/-- The request for the block number of the account family (`cwmGetBlockNumberAsETH`,
lines 1602-1619). -/
def cwmGetBlockNumberAsETH (context : Bridge) (_ewm : BREthereumEWM) (rid : Int) :
    BridgeOutcome :=
  match cryptoWalletManagerTakeWeak context.cwm with
  | none => .returned context
  | some cwm =>
    let s : Bridge := { context with cwm := cwm }
    let callbackState : BRCryptoClientCallbackState :=
      { callocCallbackState with
        type := .CWM_CALLBACK_TYPE_ETH_GET_BLOCK_NUMBER
        rid := rid }
    let s := s.call (.calloc callbackState)
    let s := funcGetBlockNumber s callbackState
    .returned (s.onManager cryptoWalletManagerGive)

/-- The request for the nonce of the account family (`cwmGetNonceAsETH`, lines 1627-1640):
the manager is not looked at; the nonce of the primary native wallet goes back to the native
manager. -/
def cwmGetNonceAsETH (natives : Natives) (context : Bridge) (ewm : BREthereumEWM)
    (_address : String) (rid : Int) : BridgeOutcome :=
  let wallet := ewm.wallet
  .returned (context.call (.ewmSignalAnnounceNonce ewm.ptr
    (natives.ewmWalletGetAddress wallet) (natives.ewmWalletGetTransferNonce wallet) rid))

/-- The request for the block number of the generic family (`cwmGetBlockNumberAsGEN`,
lines 1644-1661). -/
def cwmGetBlockNumberAsGEN (context : Bridge) (_manager : Nat) (rid : Int) : BridgeOutcome :=
  match cryptoWalletManagerTakeWeak context.cwm with
  | none => .returned context
  | some cwm =>
    let s : Bridge := { context with cwm := cwm }
    let callbackState : BRCryptoClientCallbackState :=
      { callocCallbackState with
        type := .CWM_CALLBACK_TYPE_GEN_GET_BLOCK_NUMBER
        rid := rid }
    let s := s.call (.calloc callbackState)
    let s := funcGetBlockNumber s callbackState
    .returned (s.onManager cryptoWalletManagerGive)

/-- The request for transactions of the generic family (`cwmGetTransactionsAsGEN`,
lines 1663-1686). -/
def cwmGetTransactionsAsGEN (context : Bridge) (_manager : Nat) (address : Option String)
    (begBlockNumber endBlockNumber : Nat) (rid : Int) : BridgeOutcome :=
  match cryptoWalletManagerTakeWeak context.cwm with
  | none => .returned context
  | some cwm =>
    let s : Bridge := { context with cwm := cwm }
    let callbackState : BRCryptoClientCallbackState :=
      { callocCallbackState with
        type := .CWM_CALLBACK_TYPE_GEN_GET_TRANSACTIONS
        rid := rid }
    let s := s.call (.calloc callbackState)
    let s := funcGetTransactions s callbackState [address] "__native__" begBlockNumber
      endBlockNumber
    .returned (s.onManager cryptoWalletManagerGive)

/-- The request for transfers of the generic family (`cwmGetTransfersAsGEN`,
lines 1688-1709): the manager is taken by `cryptoWalletManagerTake`, whatever its count. -/
def cwmGetTransfersAsGEN (context : Bridge) (_manager : Nat) (address : Option String)
    (begBlockNumber endBlockNumber : Nat) (rid : Int) : BridgeOutcome :=
  let s := context.onManager cryptoWalletManagerTake
  let callbackState : BRCryptoClientCallbackState :=
    { callocCallbackState with
      type := .CWM_CALLBACK_TYPE_GEN_GET_TRANSFERS
      rid := rid }
  let s := s.call (.calloc callbackState)
  let s := funcGetTransfers s callbackState [address] "__native__" begBlockNumber
    endBlockNumber
  .returned (s.onManager cryptoWalletManagerGive)

/-- The request to submit a transfer of the generic family (`cwmSubmitTransactionAsGEN`,
lines 1711-1741). -/
def cwmSubmitTransactionAsGEN (natives : Natives) (context : Bridge) (_manager : Nat)
    (wallet : Nat) (transfer : BRGenericTransfer) (tx : List Nat) (hash : List Nat)
    (rid : Int) : BridgeOutcome :=
  match cryptoWalletManagerTakeWeak context.cwm with
  | none => .returned context
  | some cwm =>
    let s : Bridge := { context with cwm := cwm }
    let callbackState : BRCryptoClientCallbackState :=
      { callocCallbackState with
        type := .CWM_CALLBACK_TYPE_GEN_SUBMIT_TRANSACTION
        wid := wallet
        genTid := some (genTransferCopy transfer)
        rid := rid }
    let s := s.call (.calloc callbackState)
    let hashAsHex := natives.genericHashAsString hash
    let s := funcSubmitTransaction s callbackState tx hashAsHex
    .returned (s.onManager cryptoWalletManagerGive)

/-! ## The announce functions and the callbacks, each as one function -/

/-- A call of an announce function, with its arguments after the manager and the token. -/
inductive Announce where
  | getBlockNumberSuccess (blockNumber : Nat)
  | getBlockNumberFailure
  | getTransactionsItem (status : BRCryptoTransferStateType) (transaction : List Nat)
      (timestamp blockHeight : Nat)
  | getTransactionsItemGEN (status : BRCryptoTransferStateType) (transaction : List Nat)
      (timestamp blockHeight : Nat)
  | getTransactionsComplete (success : Bool)
  | getTransferItem (item : TransferItem)
  | getTransfersComplete (success : Bool)
  | submitTransferSuccess (hash : Option String)
  | submitTransferFailure
  | estimateTransactionFeeSuccess (strHash : String) (costUnits : Nat)
  | estimateTransactionFeeFailure (hash : Option String)
  deriving DecidableEq

/-- The announce function that a call runs. -/
def announce (natives : Natives) (s : Bridge) (callbackState : BRCryptoClientCallbackState) :
    Announce → BridgeOutcome
  | .getBlockNumberSuccess blockNumber =>
    cwmAnnounceGetBlockNumberSuccess s callbackState blockNumber
  | .getBlockNumberFailure => cwmAnnounceGetBlockNumberFailure s callbackState
  | .getTransactionsItem status transaction timestamp blockHeight =>
    cwmAnnounceGetTransactionsItem natives s callbackState status transaction timestamp
      blockHeight
  | .getTransactionsItemGEN status transaction timestamp blockHeight =>
    cwmAnnounceGetTransactionsItemGEN natives s callbackState status transaction timestamp
      blockHeight
  | .getTransactionsComplete success => cwmAnnounceGetTransactionsComplete s callbackState success
  | .getTransferItem item => cwmAnnounceGetTransferItem natives s callbackState item
  | .getTransfersComplete success => cwmAnnounceGetTransfersComplete s callbackState success
  | .submitTransferSuccess hash => cwmAnnounceSubmitTransferSuccess natives s callbackState hash
  | .submitTransferFailure => cwmAnnounceSubmitTransferFailure natives s callbackState
  | .estimateTransactionFeeSuccess strHash costUnits =>
    cwmAnnounceEstimateTransactionFeeSuccess natives s callbackState strHash costUnits
  | .estimateTransactionFeeFailure hash =>
    cwmAnnounceEstimateTransactionFeeFailure s callbackState hash

/-- The item announces: those that stream one item of a response. -/
def Announce.isItem : Announce → Bool
  | .getTransactionsItem _ _ _ _ => true
  | .getTransactionsItemGEN _ _ _ _ => true
  | .getTransferItem _ => true
  | _ => false

/-- The request kinds that an announce function answers: the kinds named in its asserts
and in the cases of its `switch`.  `cwmAnnounceGetTransactionsItemGEN` names none and looks
at none: it lets every kind through. -/
def Announce.kinds : Announce → List BRCryptoCWMCallbackType
  | .getBlockNumberSuccess _ | .getBlockNumberFailure =>
    [.CWM_CALLBACK_TYPE_BTC_GET_BLOCK_NUMBER, .CWM_CALLBACK_TYPE_ETH_GET_BLOCK_NUMBER,
     .CWM_CALLBACK_TYPE_GEN_GET_BLOCK_NUMBER]
  | .getTransactionsItem _ _ _ _ | .getTransactionsComplete _ =>
    [.CWM_CALLBACK_TYPE_BTC_GET_TRANSACTIONS, .CWM_CALLBACK_TYPE_GEN_GET_TRANSACTIONS]
  | .getTransactionsItemGEN _ _ _ _ =>
    [.CWM_CALLBACK_TYPE_BTC_GET_BLOCK_NUMBER, .CWM_CALLBACK_TYPE_BTC_GET_TRANSACTIONS,
     .CWM_CALLBACK_TYPE_BTC_SUBMIT_TRANSACTION, .CWM_CALLBACK_TYPE_ETH_GET_BLOCK_NUMBER,
     .CWM_CALLBACK_TYPE_ETH_GET_TRANSACTIONS, .CWM_CALLBACK_TYPE_ETH_GET_LOGS,
     .CWM_CALLBACK_TYPE_ETH_SUBMIT_TRANSACTION, .CWM_CALLBACK_TYPE_ETH_ESTIMATE_GAS,
     .CWM_CALLBACK_TYPE_GEN_GET_BLOCK_NUMBER, .CWM_CALLBACK_TYPE_GEN_GET_TRANSACTIONS,
     .CWM_CALLBACK_TYPE_GEN_GET_TRANSFERS, .CWM_CALLBACK_TYPE_GEN_SUBMIT_TRANSACTION]
  | .getTransferItem _ =>
    [.CWM_CALLBACK_TYPE_GEN_GET_TRANSFERS, .CWM_CALLBACK_TYPE_ETH_GET_TRANSACTIONS]
  | .getTransfersComplete _ =>
    [.CWM_CALLBACK_TYPE_GEN_GET_TRANSFERS, .CWM_CALLBACK_TYPE_ETH_GET_TRANSACTIONS,
     .CWM_CALLBACK_TYPE_ETH_GET_LOGS]
  | .submitTransferSuccess _ | .submitTransferFailure =>
    [.CWM_CALLBACK_TYPE_BTC_SUBMIT_TRANSACTION, .CWM_CALLBACK_TYPE_ETH_SUBMIT_TRANSACTION,
     .CWM_CALLBACK_TYPE_GEN_SUBMIT_TRANSACTION]
  | .estimateTransactionFeeSuccess _ _ | .estimateTransactionFeeFailure _ =>
    [.CWM_CALLBACK_TYPE_ETH_ESTIMATE_GAS]

/-- The backend family of a request kind: the `BTC`, `ETH` or `GEN` of its name. -/
def familyOf : BRCryptoCWMCallbackType → BRCryptoBlockChainType
  | .CWM_CALLBACK_TYPE_BTC_GET_BLOCK_NUMBER => .BLOCK_CHAIN_TYPE_BTC
  | .CWM_CALLBACK_TYPE_BTC_GET_TRANSACTIONS => .BLOCK_CHAIN_TYPE_BTC
  | .CWM_CALLBACK_TYPE_BTC_SUBMIT_TRANSACTION => .BLOCK_CHAIN_TYPE_BTC
  | .CWM_CALLBACK_TYPE_ETH_GET_BLOCK_NUMBER => .BLOCK_CHAIN_TYPE_ETH
  | .CWM_CALLBACK_TYPE_ETH_GET_TRANSACTIONS => .BLOCK_CHAIN_TYPE_ETH
  | .CWM_CALLBACK_TYPE_ETH_GET_LOGS => .BLOCK_CHAIN_TYPE_ETH
  | .CWM_CALLBACK_TYPE_ETH_SUBMIT_TRANSACTION => .BLOCK_CHAIN_TYPE_ETH
  | .CWM_CALLBACK_TYPE_ETH_ESTIMATE_GAS => .BLOCK_CHAIN_TYPE_ETH
  | .CWM_CALLBACK_TYPE_GEN_GET_BLOCK_NUMBER => .BLOCK_CHAIN_TYPE_GEN
  | .CWM_CALLBACK_TYPE_GEN_GET_TRANSACTIONS => .BLOCK_CHAIN_TYPE_GEN
  | .CWM_CALLBACK_TYPE_GEN_GET_TRANSFERS => .BLOCK_CHAIN_TYPE_GEN
  | .CWM_CALLBACK_TYPE_GEN_SUBMIT_TRANSACTION => .BLOCK_CHAIN_TYPE_GEN

/-- The announce functions in which the family tag of the manager is compared with the
kind of the token (`switch (cwm->type)` with an assert on the kind, or an assert on
`cwm->type` under a case of the kind). -/
def Announce.checksFamily : Announce → Bool
  | .getTransactionsItem _ _ _ _ => true
  | .getTransactionsComplete _ => true
  | .getTransfersComplete _ => true
  | .submitTransferSuccess _ => true
  | .submitTransferFailure => true
  | _ => false

/-- A call of one of the request callbacks that the three client-creation functions
(lines 1768-1816) install in a native manager, with its arguments. -/
inductive BackendRequest where
  | getBlockNumberAsBTC (manager : BRWalletManager) (rid : Int)
  | getTransactionsAsBTC (manager : BRWalletManager) (addresses : List String)
      (begBlockNumber endBlockNumber : Nat) (rid : Int)
  | submitTransactionAsBTC (manager : BRWalletManager) (wallet : Nat)
      (transaction transactionHash : List Nat) (rid : Int)
  | getBalanceAsETH (ewm : BREthereumEWM) (wid : Nat) (address : String) (rid : Int)
  | getGasPriceAsETH (ewm : BREthereumEWM) (wid : Nat) (rid : Int)
  | getGasEstimateAsETH (ewm : BREthereumEWM) (wid tid cookie : Nat)
      (sender receiver amount price data : String) (rid : Int)
  | submitTransactionAsETH (ewm : BREthereumEWM) (wid tid : Nat)
      (transactionBytes : List Nat) (transactionHash : String) (rid : Int)
  | getTransactionsAsETH (ewm : BREthereumEWM) (address : Option String)
      (begBlockNumber endBlockNumber : Nat) (rid : Int)
  | getLogsAsETH (ewm : BREthereumEWM) (contract : Option String) (address event : String)
      (begBlockNumber endBlockNumber : Nat) (rid : Int)
  | getBlocksAsETH (ewm : BREthereumEWM) (address : String)
      (interests blockNumberStart blockNumberStop : Nat) (rid : Int)
  | getTokensAsETH (ewm : BREthereumEWM) (rid : Int)
  | getBlockNumberAsETH (ewm : BREthereumEWM) (rid : Int)
  | getNonceAsETH (ewm : BREthereumEWM) (address : String) (rid : Int)
  | getBlockNumberAsGEN (manager : Nat) (rid : Int)
  | getTransactionsAsGEN (manager : Nat) (address : Option String)
      (begBlockNumber endBlockNumber : Nat) (rid : Int)
  | getTransfersAsGEN (manager : Nat) (address : Option String)
      (begBlockNumber endBlockNumber : Nat) (rid : Int)
  | submitTransactionAsGEN (manager wallet : Nat) (transfer : BRGenericTransfer)
      (tx hash : List Nat) (rid : Int)

/-- The request callback that a call runs. -/
def handleBackendRequest (natives : Natives) (context : Bridge) :
    BackendRequest → BridgeOutcome
  | .getBlockNumberAsBTC manager rid => cwmGetBlockNumberAsBTC context manager rid
  | .getTransactionsAsBTC manager addresses begBlockNumber endBlockNumber rid =>
    cwmGetTransactionsAsBTC context manager addresses begBlockNumber endBlockNumber rid
  | .submitTransactionAsBTC manager wallet transaction transactionHash rid =>
    cwmSubmitTransactionAsBTC context manager wallet transaction transactionHash rid
  | .getBalanceAsETH ewm wid address rid => cwmGetBalanceAsETH context ewm wid address rid
  | .getGasPriceAsETH ewm wid rid => cwmGetGasPriceAsETH context ewm wid rid
  | .getGasEstimateAsETH ewm wid tid cookie sender receiver amount price data rid =>
    cwmGetGasEstimateAsETH natives context ewm wid tid cookie sender receiver amount price
      data rid
  | .submitTransactionAsETH ewm wid tid transactionBytes transactionHash rid =>
    cwmSubmitTransactionAsETH context ewm wid tid transactionBytes transactionHash rid
  | .getTransactionsAsETH ewm address begBlockNumber endBlockNumber rid =>
    cwmGetTransactionsAsETH context ewm address begBlockNumber endBlockNumber rid
  | .getLogsAsETH ewm contract address event begBlockNumber endBlockNumber rid =>
    cwmGetLogsAsETH context ewm contract address event begBlockNumber endBlockNumber rid
  | .getBlocksAsETH ewm address interests blockNumberStart blockNumberStop rid =>
    cwmGetBlocksAsETH context ewm address interests blockNumberStart blockNumberStop rid
  | .getTokensAsETH ewm rid => cwmGetTokensAsETH context ewm rid
  | .getBlockNumberAsETH ewm rid => cwmGetBlockNumberAsETH context ewm rid
  | .getNonceAsETH ewm address rid => cwmGetNonceAsETH natives context ewm address rid
  | .getBlockNumberAsGEN manager rid => cwmGetBlockNumberAsGEN context manager rid
  | .getTransactionsAsGEN manager address begBlockNumber endBlockNumber rid =>
    cwmGetTransactionsAsGEN context manager address begBlockNumber endBlockNumber rid
  | .getTransfersAsGEN manager address begBlockNumber endBlockNumber rid =>
    cwmGetTransfersAsGEN context manager address begBlockNumber endBlockNumber rid
  | .submitTransactionAsGEN manager wallet transfer tx hash rid =>
    cwmSubmitTransactionAsGEN natives context manager wallet transfer tx hash rid

/-- A call of a callback of one of the three client tables: a request callback or an event
callback. -/
inductive BackendCallback where
  | request (request : BackendRequest)
  | event (event : BackendEvent)

/-- The outcome of an event handler as an outcome of the bridge: the event handlers make no
call out of the bridge. -/
def Outcome.withCalls (calls : List Call) : Outcome → BridgeOutcome
  | .returned cwm => .returned { cwm := cwm, calls := calls }
  | .aborted cwm => .aborted { cwm := cwm, calls := calls }

/-- The callback that a call runs. -/
def handleBackendCallback (TX_UNCONFIRMED : Nat) (natives : Natives) (context : Bridge) :
    BackendCallback → BridgeOutcome
  | .request request => handleBackendRequest natives context request
  | .event event => (handleBackendEvent TX_UNCONFIRMED context.cwm event).withCalls context.calls

/-- The one callback that takes the manager by `cryptoWalletManagerTake`. -/
def BackendCallback.isGetTransfersAsGEN : BackendCallback → Bool
  | .request (.getTransfersAsGEN _ _ _ _ _) => true
  | _ => false

/-- The one callback that never touches the manager and answers the native manager itself. -/
def BackendCallback.isGetNonceAsETH : BackendCallback → Bool
  | .request (.getNonceAsETH _ _ _) => true
  | _ => false

/-! ## What a callback or an announce did: observations on the bridge -/

/-- The calls made out of the bridge between two of its states, oldest first. -/
def newBridgeCalls (before after : Bridge) : List Call :=
  after.calls.drop before.calls.length

/-- Whether a call is the release of this token (`free (state)` at the end of
`cwmClientCallbackStateRelease`). -/
def Call.isFreeOf (callbackState : BRCryptoClientCallbackState) : Call → Bool
  | .free state => decide (state = callbackState)
  | _ => false

/-- How many times a list of calls releases this token. -/
def released (callbackState : BRCryptoClientCallbackState) (calls : List Call) : Nat :=
  calls.countP (Call.isFreeOf callbackState)

/-- The calls of the Client table. -/
def Call.isClient : Call → Bool
  | .funcGetBlockNumber _ => true
  | .funcGetTransactions _ _ _ _ _ => true
  | .funcGetTransfers _ _ _ _ _ => true
  | .funcSubmitTransaction _ _ _ => true
  | .funcEstimateTransactionFee _ _ _ => true
  | _ => false

/-- The creation of a token. -/
def Call.isCalloc : Call → Bool
  | .calloc _ => true
  | _ => false

/-! ## Sample inputs of the announce functions -/

/-- Answers of the functions outside the sources: one currency (`"eth"`, number 1, no
issuer), decimal parsing left to `String.toNat?`, an empty generic ledger, and routines of
the generic family that leave the manager as it is. -/
def sampleNatives : Natives :=
  { ewmTransferGetRLPEncoding := fun _ _ => ([1, 2, 3], true)
    ewmTransferGetOriginatingTransactionHash := fun _ => "0xabc"
    ewmWalletGetAddress := fun _ => 77
    ewmWalletGetTransferNonce := fun _ => 4
    ewmWalletGetTransferByOriginatingTransactionHash := fun _ _ => some 42
    ewmTransferGetGasPrice := fun _ => "2"
    ethEventGetSelector := "0xddf252ad"
    ethEventERC20TransferEncodeAddress := fun a => a.getD ""
    cryptoNetworkGetCurrencyForUids := fun _ uids => if uids = some "eth" then some 1 else none
    cryptoCurrencyGetIssuer := fun _ => none
    strtoull := fun s => s.toNat?.getD 0
    uint256CreateParse := fun s => s.toNat?
    genericHashAsString := hexEncodeCreate
    EIO := 5
    genManagerRecoverTransfersFromRawTransaction := fun _ _ _ _ => none
    genManagerRecoverTransfer := fun _ _ _ _ _ _ _ _ _ _ _ =>
      { ref := 42, feeBasis := { pricePerCostFactor := 10, costFactor := 1 },
        state := .other .GENERIC_TRANSFER_STATE_CREATED, attributes := [] }
    genTransferGetTargetAddress := fun _ => 0
    genWalletHasTransferAttributeForKey := fun _ _ _ => none
    BLOCK_HEIGHT_UNBOUND := 2 ^ 64 - 1
    GENERIC_TRANSFER_TRANSACTION_INDEX_UNKNOWN := 2 ^ 64 - 1
    cryptoWalletManagerGetWalletForCurrency := fun cwm _ => some cwm.wallet
    cryptoWalletManagerHandleTransferGEN := fun cwm _ => cwm
    cryptoWalletManagerSetTransferStateGEN := fun cwm _ _ _ => cwm }

/-- A token of the given kind for the request 3, as `calloc` and the request callback leave
it when the request carries no context. -/
def sampleToken (type : BRCryptoCWMCallbackType) : BRCryptoClientCallbackState :=
  { callocCallbackState with
    type := type
    rid := 3 }

/-- A bridge that made no call yet, around `sampleManager` with the given reference
count. -/
def sampleBridge (type : BRCryptoBlockChainType) (ref : Nat) : Bridge :=
  { cwm := { sampleManager type .created with ref := ref }, calls := [] }

/-! ## The announce of a fee estimate, with the conversion of the cost left open -/

/-- The function `cwmAnnounceEstimateTransactionFeeSuccess` (lines 2410-2457) with the call
`sprintf (strGasEstimate, "%" PRIu64, costUnits)` left open: `sprintf costUnits` is the text
written to `strGasEstimate` and the value returned, which is negative when the conversion
fails.  `cwmAnnounceEstimateTransactionFeeSuccess` is the case in which the text is the
decimal rendering of the 64-bit cost and the value its length. -/
def cwmAnnounceEstimateTransactionFeeSuccessWith (sprintf : Nat → String × Int)
    (natives : Natives) (s : Bridge) (callbackState : BRCryptoClientCallbackState)
    (strHash : String) (costUnits : Nat) : BridgeOutcome :=
  let s := s.onManager cryptoWalletManagerTake
  match callbackState.type with
  | .CWM_CALLBACK_TYPE_ETH_ESTIMATE_GAS =>
    let transfer := natives.ewmWalletGetTransferByOriginatingTransactionHash
      callbackState.wid strHash
    let strGasEstimate := (sprintf costUnits).1
    let error := decide ((sprintf costUnits).2 < 0)
    let s := match transfer, error with
      | some transfer, false =>
        s.call (.ewmAnnounceGasEstimateSuccess s.cwm.u callbackState.wid
          callbackState.cookie strGasEstimate (natives.ewmTransferGetGasPrice transfer)
          callbackState.rid)
      | _, _ =>
        -- `if (NULL == transfer || error)`
        s.call (.ewmAnnounceGasEstimateFailure s.cwm.u callbackState.wid
          callbackState.cookie (if error then ERROR_NUMERIC_PARSE else ERROR_FAILED)
          callbackState.rid)
    let s := s.onManager cryptoWalletManagerGive
    .returned (cwmClientCallbackStateRelease s callbackState)
  | _ => .aborted s

/-! ## Observations on request ids, the lock, the reference count and the manager state -/

/-- The token that a call of the Client table hands to the Client. -/
def Call.token : Call → Option BRCryptoClientCallbackState
  | .funcGetBlockNumber callbackState => some callbackState
  | .funcGetTransactions callbackState _ _ _ _ => some callbackState
  | .funcGetTransfers callbackState _ _ _ _ => some callbackState
  | .funcSubmitTransaction callbackState _ _ => some callbackState
  | .funcEstimateTransactionFee callbackState _ _ => some callbackState
  | _ => none

/-- The calls of the announce functions of the three native managers (`bwmAnnounce...`,
`ewmAnnounce...`, `genManagerAnnounce...`). -/
def Call.isAnnounce : Call → Bool
  | .bwmAnnounceBlockNumber _ _ _ => true
  | .bwmAnnounceTransaction _ _ _ _ _ _ => true
  | .bwmAnnounceTransactionComplete _ _ _ => true
  | .bwmAnnounceSubmit _ _ _ _ => true
  | .ewmAnnounceBlockNumber _ _ _ => true
  | .ewmAnnounceLog _ _ _ _ _ _ _ _ _ _ _ _ => true
  | .ewmAnnounceTransaction _ _ _ _ _ _ _ _ _ _ _ _ _ _ _ _ _ _ => true
  | .ewmAnnounceTransactionComplete _ _ _ => true
  | .ewmAnnounceLogComplete _ _ _ => true
  | .ewmAnnounceSubmitTransfer _ _ _ _ _ _ _ => true
  | .ewmAnnounceGasEstimateFailure _ _ _ _ _ => true
  | .ewmAnnounceGasEstimateSuccess _ _ _ _ _ _ => true
  | .genManagerAnnounceBlockNumber _ _ _ => true
  | .genManagerAnnounceTransferComplete _ _ _ => true
  | .genManagerAnnounceSubmit _ _ _ _ => true
  | _ => false

/-- Whether a call carries what the token records: for a call of an announce function of a
native manager, its request id is that of the token, and its context arguments are those of
the token (the transaction hash in `bwmAnnounceSubmit`, the wallet and the transfer in
`ewmAnnounceSubmitTransfer`, the wallet and the cookie in the two gas-estimate functions, the
generic transfer in `genManagerAnnounceSubmit`).  Every other call has no such argument. -/
def Call.carries (callbackState : BRCryptoClientCallbackState) : Call → Bool
  | .bwmAnnounceBlockNumber _ rid _ => decide (rid = callbackState.rid)
  | .bwmAnnounceTransaction _ rid _ _ _ _ => decide (rid = callbackState.rid)
  | .bwmAnnounceTransactionComplete _ rid _ => decide (rid = callbackState.rid)
  | .bwmAnnounceSubmit _ rid txHash _ =>
    decide (rid = callbackState.rid) && decide (txHash = callbackState.txHash)
  | .ewmAnnounceBlockNumber _ _ rid => decide (rid = callbackState.rid)
  | .ewmAnnounceLog _ rid _ _ _ _ _ _ _ _ _ _ => decide (rid = callbackState.rid)
  | .ewmAnnounceTransaction _ rid _ _ _ _ _ _ _ _ _ _ _ _ _ _ _ _ =>
    decide (rid = callbackState.rid)
  | .ewmAnnounceTransactionComplete _ rid _ => decide (rid = callbackState.rid)
  | .ewmAnnounceLogComplete _ rid _ => decide (rid = callbackState.rid)
  | .ewmAnnounceSubmitTransfer _ wid tid _ _ _ rid =>
    decide (rid = callbackState.rid) && decide (wid = callbackState.wid) &&
      decide (tid = callbackState.tid)
  | .ewmAnnounceGasEstimateFailure _ wid cookie _ rid =>
    decide (rid = callbackState.rid) && decide (wid = callbackState.wid) &&
      decide (cookie = callbackState.cookie)
  | .ewmAnnounceGasEstimateSuccess _ wid cookie _ _ rid =>
    decide (rid = callbackState.rid) && decide (wid = callbackState.wid) &&
      decide (cookie = callbackState.cookie)
  | .genManagerAnnounceBlockNumber _ rid _ => decide (rid = callbackState.rid)
  | .genManagerAnnounceTransferComplete _ rid _ => decide (rid = callbackState.rid)
  | .genManagerAnnounceSubmit _ rid tid _ =>
    decide (rid = callbackState.rid) && decide (tid = callbackState.genTid)
  | _ => true

/-- The token that a request is to hand to the Client, in the words of the specification:
"the request kind of that callback's family and operation, the request id, and the backend
context given (the original un-reversed transaction hash for a UTXO submit; wallet and
transfer handles for an account submit; wallet and cookie for an account fee estimate)", and
for a submit of the generic family the wallet and a copy of the transfer; nothing else is
written into the zeroed record.  The requests that make no Client call have none. -/
def BackendRequest.expectedToken : BackendRequest → Option BRCryptoClientCallbackState
  | .getBlockNumberAsBTC _ rid =>
    some { callocCallbackState with type := .CWM_CALLBACK_TYPE_BTC_GET_BLOCK_NUMBER, rid := rid }
  | .getTransactionsAsBTC _ _ _ _ rid =>
    some { callocCallbackState with type := .CWM_CALLBACK_TYPE_BTC_GET_TRANSACTIONS, rid := rid }
  | .submitTransactionAsBTC _ _ _ transactionHash rid =>
    some { callocCallbackState with
           type := .CWM_CALLBACK_TYPE_BTC_SUBMIT_TRANSACTION, txHash := transactionHash,
           rid := rid }
  | .getGasEstimateAsETH _ wid _ cookie _ _ _ _ _ rid =>
    some { callocCallbackState with
           type := .CWM_CALLBACK_TYPE_ETH_ESTIMATE_GAS, wid := wid, cookie := cookie, rid := rid }
  | .submitTransactionAsETH _ wid tid _ _ rid =>
    some { callocCallbackState with
           type := .CWM_CALLBACK_TYPE_ETH_SUBMIT_TRANSACTION, wid := wid, tid := tid, rid := rid }
  | .getTransactionsAsETH _ _ _ _ rid =>
    some { callocCallbackState with type := .CWM_CALLBACK_TYPE_ETH_GET_TRANSACTIONS, rid := rid }
  | .getBlockNumberAsETH _ rid =>
    some { callocCallbackState with type := .CWM_CALLBACK_TYPE_ETH_GET_BLOCK_NUMBER, rid := rid }
  | .getBlockNumberAsGEN _ rid =>
    some { callocCallbackState with type := .CWM_CALLBACK_TYPE_GEN_GET_BLOCK_NUMBER, rid := rid }
  | .getTransactionsAsGEN _ _ _ _ rid =>
    some { callocCallbackState with type := .CWM_CALLBACK_TYPE_GEN_GET_TRANSACTIONS, rid := rid }
  | .getTransfersAsGEN _ _ _ _ rid =>
    some { callocCallbackState with type := .CWM_CALLBACK_TYPE_GEN_GET_TRANSFERS, rid := rid }
  | .submitTransactionAsGEN _ wallet transfer _ _ rid =>
    some { callocCallbackState with
           type := .CWM_CALLBACK_TYPE_GEN_SUBMIT_TRANSACTION, wid := wallet,
           genTid := some transfer, rid := rid }
  | _ => none

/-- The two announces that end a stream of items. -/
def Announce.isComplete : Announce → Bool
  | .getTransactionsComplete _ => true
  | .getTransfersComplete _ => true
  | _ => false

/-- A run of announce calls on one token, one after the other; a failed `assert` ends the
run. -/
def announceAll (natives : Natives) (callbackState : BRCryptoClientCallbackState) :
    Bridge → List Announce → BridgeOutcome
  | s, [] => .returned s
  | s, a :: rest =>
    match announce natives s callbackState a with
    | .returned s' => announceAll natives callbackState s' rest
    | .aborted s' => .aborted s'

/-- Whether every call of `cryptoWalletManagerHandleTransferGEN` in a list of calls is made
while the manager's lock is held: after a `pthread_mutex_lock (&cwm->lock)` and before the
`pthread_mutex_unlock (&cwm->lock)` that follows it.  The first argument tells whether the
lock is held when the list starts. -/
def handledUnderLock : Bool → List Call → Bool
  | _, [] => true
  | _, .pthread_mutex_lock :: rest => handledUnderLock true rest
  | _, .pthread_mutex_unlock :: rest => handledUnderLock false rest
  | held, .cryptoWalletManagerHandleTransferGEN _ :: rest => held && handledUnderLock held rest
  | held, _ :: rest => handledUnderLock held rest

/-- The two returns of the event handlers that come after the weak take and before
`cryptoWalletManagerGive`: `if (NULL == currency) return;` in `cwmWalletEventAsETH`
(line 984, under `WALLET_EVENT_CREATED` for a wallet that the manager does not hold yet and
whose token has no currency in the network) and `if (NULL == wallet) return;` in
`cwmTransactionEventAsETH` (line 1209). -/
def BackendEvent.returnsBeforeGive (context : BRCryptoWalletManager) : BackendEvent → Bool
  | .walletEventAsETH ewm wid event =>
    decide (event.type = .WALLET_EVENT_CREATED) &&
    (cryptoWalletManagerFindWalletAsETH context wid).isNone &&
    (match ewm.walletGetToken wid with
     | some token => (context.network.currencyForTokenETH.lookup token).isNone
     | none => false)
  | .transactionEventAsETH _ wid _ _ => (cryptoWalletManagerFindWalletAsETH context wid).isNone
  | _ => false

/-- The ManagerChanged events of a list of listener events: for each, the old and the new
state it carries. -/
def managerChanged : List ListenerEvent →
    List (BRCryptoWalletManagerState × BRCryptoWalletManagerState)
  | [] => []
  | .walletManagerEvent (.CRYPTO_WALLET_MANAGER_EVENT_CHANGED oldValue newValue) :: rest =>
    (oldValue, newValue) :: managerChanged rest
  | _ :: rest => managerChanged rest

/-! # Theorems

## Lemmas on the store of transfer records -/

theorem getElem?_storeState (store : List BRCryptoTransferRecord) (t t' : Nat)
    (s : BRCryptoTransferState) :
    (storeState store t s)[t']? =
      if t = t' then (store[t']?).map (fun r => { r with state := s }) else store[t']? := by
  unfold storeState
  cases h : store[t]? with
  | none =>
    by_cases e : t = t'
    · subst e; simp [h]
    · simp [e]
  | some r =>
    by_cases e : t = t'
    · subst e
      have hlt : t < store.length := by
        by_contra hc
        have := List.getElem?_eq_none (Nat.le_of_not_lt hc)
        simp [this] at h
      simp [h, List.getElem?_set_self, hlt]
    · simp [e, List.getElem?_set_ne]

theorem stateAt_storeState_same (store : List BRCryptoTransferRecord) (t : Nat)
    (s : BRCryptoTransferState) (r : BRCryptoTransferRecord) (h : store[t]? = some r) :
    stateAt (storeState store t s) t = s := by
  simp [stateAt, getElem?_storeState, h]

theorem stateAt_storeState_ne (store : List BRCryptoTransferRecord) (t t' : Nat)
    (s : BRCryptoTransferState) (h : t ≠ t') :
    stateAt (storeState store t s) t' = stateAt store t' := by
  simp [stateAt, getElem?_storeState, h]

theorem transferHas_storeState (store : List BRCryptoTransferRecord) (t : Nat)
    (s : BRCryptoTransferState) (tid : Nat) :
    transferHas (storeState store t s) tid = transferHas store tid := by
  funext t'
  simp only [transferHas, getElem?_storeState]
  by_cases e : t = t'
  · subst e
    cases store[t]? <;> simp
  · simp [e]

theorem findTransfer_storeState (wallets : List BRCryptoWalletRecord)
    (store : List BRCryptoTransferRecord) (t : Nat) (s : BRCryptoTransferState)
    (wallet tid : Nat) :
    findTransfer wallets (storeState store t s) wallet tid =
      findTransfer wallets store wallet tid := by
  simp [findTransfer, transferHas_storeState]

theorem findTransfer_some (wallets : List BRCryptoWalletRecord)
    (store : List BRCryptoTransferRecord) (wallet tid transfer : Nat)
    (h : findTransfer wallets store wallet tid = some transfer) :
    ∃ r, store[transfer]? = some r ∧ r.tid = tid := by
  unfold findTransfer at h
  split at h
  · have := List.find?_some h
    unfold transferHas at this
    split at this
    · rename_i r hr
      exact ⟨r, hr, by simpa using this⟩
    · simp at this
  · simp at h

theorem findWallet_wid (wallets : List BRCryptoWalletRecord) (wid : Nat)
    (wallet : BRCryptoWalletRecord)
    (h : wallets.find? (fun w => w.wid == wid) = some wallet) : wallet.wid = wid := by
  have := List.find?_some h
  simpa using this

/-- What `cwmTransactionEventAsBTC` does with an "updated" notification for a transfer that
a wallet of a live UTXO manager holds. -/
theorem cwmTransactionEventAsBTC_updated (TX_UNCONFIRMED : Nat)
    (context : BRCryptoWalletManager) (btcManager : BRWalletManager)
    (btcWallet btcTransaction blockHeight timestamp : Nat)
    (wallet : BRCryptoWalletRecord) (transfer : Nat)
    (hLive : context.ref ≠ 0)
    (hType : context.type = .BLOCK_CHAIN_TYPE_BTC)
    (hWallet : cryptoWalletManagerFindWalletAsBTC context btcWallet = some wallet)
    (hTransfer : cryptoWalletFindTransferAsBTC context btcWallet btcTransaction =
      some transfer) :
    cwmTransactionEventAsBTC TX_UNCONFIRMED context btcManager btcWallet btcTransaction
        (.BITCOIN_TRANSACTION_UPDATED blockHeight timestamp) =
      let cwm := ensureNative { context with ref := context.ref + 1 } btcManager.ptr
      let oldState := cryptoTransferGetState context transfer
      if oldState.type ≠ .CRYPTO_TRANSFER_STATE_SUBMITTED ∧
          (0 = timestamp ∨ TX_UNCONFIRMED = blockHeight) then
        .returned (cryptoWalletManagerGive (transferEventCallback
          (cryptoTransferSetState cwm transfer .submitted) btcWallet transfer
          (.CRYPTO_TRANSFER_EVENT_CHANGED oldState .submitted)))
      else if oldState.type ≠ .CRYPTO_TRANSFER_STATE_INCLUDED ∧
          0 ≠ timestamp ∧ TX_UNCONFIRMED ≠ blockHeight then
        .returned (cryptoWalletManagerGive (transferEventCallback
          (cryptoTransferSetState cwm transfer
            (.included blockHeight 0 timestamp
              (cryptoTransferGetEstimatedFeeBasis context transfer) true none))
          btcWallet transfer
          (.CRYPTO_TRANSFER_EVENT_CHANGED oldState
            (.included blockHeight 0 timestamp
              (cryptoTransferGetEstimatedFeeBasis context transfer) true none))))
      else .returned (cryptoWalletManagerGive cwm) := by
  simp only [cryptoWalletManagerFindWalletAsBTC, cryptoWalletFindTransferAsBTC]
    at hWallet hTransfer
  have hw := findWallet_wid _ _ _ hWallet
  simp only [cwmTransactionEventAsBTC, cryptoWalletManagerTakeWeak, if_neg hLive,
    cryptoWalletManagerFindWalletAsBTC, cryptoWalletFindTransferAsBTC, ensureNative, hType,
    hWallet, hw, hTransfer, cryptoTransferGetState, cryptoTransferStateInit,
    cryptoTransferStateIncludedInit, cryptoTransferGetEstimatedFeeBasis, ne_eq,
    not_true_eq_false, if_false]


/-- An "updated" notification that `cwmTransactionEventAsBTC` returns from found the manager
dead and left it alone, or found the wallet and the transfer in a live UTXO manager. -/
theorem cwmTransactionEventAsBTC_updated_returned (TX_UNCONFIRMED : Nat)
    (context cwm' : BRCryptoWalletManager) (btcManager : BRWalletManager)
    (btcWallet btcTransaction blockHeight timestamp : Nat)
    (h : cwmTransactionEventAsBTC TX_UNCONFIRMED context btcManager btcWallet btcTransaction
        (.BITCOIN_TRANSACTION_UPDATED blockHeight timestamp) = .returned cwm') :
    (context.ref = 0 ∧ cwm' = context) ∨
    (context.ref ≠ 0 ∧ context.type = .BLOCK_CHAIN_TYPE_BTC ∧
      ∃ wallet transfer, cryptoWalletManagerFindWalletAsBTC context btcWallet = some wallet ∧
        cryptoWalletFindTransferAsBTC context btcWallet btcTransaction = some transfer) := by
  by_cases hLive : context.ref = 0
  · left
    simp [cwmTransactionEventAsBTC, cryptoWalletManagerTakeWeak, hLive] at h
    exact ⟨hLive, h.symm⟩
  · right
    refine ⟨hLive, ?_⟩
    by_cases hType : context.type = .BLOCK_CHAIN_TYPE_BTC
    · refine ⟨hType, ?_⟩
      cases hW : cryptoWalletManagerFindWalletAsBTC context btcWallet with
      | none =>
        simp only [cryptoWalletManagerFindWalletAsBTC] at hW
        simp [cwmTransactionEventAsBTC, cryptoWalletManagerTakeWeak, hLive, ensureNative,
          cryptoWalletManagerFindWalletAsBTC, hType, hW] at h
      | some wallet =>
        cases hT : cryptoWalletFindTransferAsBTC context btcWallet btcTransaction with
        | none =>
          simp only [cryptoWalletManagerFindWalletAsBTC, cryptoWalletFindTransferAsBTC]
            at hW hT
          have hw := findWallet_wid _ _ _ hW
          simp [cwmTransactionEventAsBTC, cryptoWalletManagerTakeWeak, hLive, ensureNative,
            cryptoWalletManagerFindWalletAsBTC, cryptoWalletFindTransferAsBTC, hType, hW, hw,
            hT] at h
        | some transfer => exact ⟨wallet, transfer, rfl, rfl⟩
    · simp [cwmTransactionEventAsBTC, cryptoWalletManagerTakeWeak, hLive, ensureNative,
        hType] at h

/-- One "updated" notification takes no transfer from Included to Submitted unless it is
unconfirmed. -/
theorem updated_step_regress (TX_UNCONFIRMED : Nat)
    (context cwm' : BRCryptoWalletManager) (btcManager : BRWalletManager)
    (btcWallet btcTransaction blockHeight timestamp : Nat)
    (h : cwmTransactionEventAsBTC TX_UNCONFIRMED context btcManager btcWallet btcTransaction
        (.BITCOIN_TRANSACTION_UPDATED blockHeight timestamp) = .returned cwm')
    (t : Nat)
    (hInc : (cryptoTransferGetState context t).type = .CRYPTO_TRANSFER_STATE_INCLUDED)
    (hSub : (cryptoTransferGetState cwm' t).type = .CRYPTO_TRANSFER_STATE_SUBMITTED) :
    unconfirmed TX_UNCONFIRMED blockHeight timestamp := by
  rcases cwmTransactionEventAsBTC_updated_returned _ _ _ _ _ _ _ _ h with
    ⟨_, rfl⟩ | ⟨hLive, hType, wallet, transfer, hW, hT⟩
  · rw [hInc] at hSub
    cases hSub
  · rw [cwmTransactionEventAsBTC_updated _ _ _ _ _ _ _ wallet transfer hLive hType hW hT] at h
    simp only at h
    split at h
    · rename_i hc
      rcases hc.2 with e | e
      · exact Or.inl e.symm
      · exact Or.inr e.symm
    · exfalso
      split at h
      · rename_i hc
        injection h with h
        subst h
        by_cases e : transfer = t
        · subst e
          exact hc.1 hInc
        · simp [cryptoTransferGetState, cryptoWalletManagerGive, transferEventCallback,
            cryptoTransferSetState, cryptoWalletManagerTake, ensureNative,
            stateAt_storeState_ne _ _ _ _ e] at hSub hInc
          rw [hInc] at hSub
          cases hSub
      · injection h with h
        subst h
        simp [cryptoTransferGetState, cryptoWalletManagerGive, ensureNative] at hSub hInc
        rw [hInc] at hSub
        cases hSub

/-! ## C1: monotonic confirmation -/

/-- C1 (as amended): Monotonic confirmation.  In every run of `cwmTransactionEventAsBTC` over
a finite sequence of "updated" notifications with arbitrary block heights and timestamps, a
step that takes a transfer from Included to Submitted is a step whose notification is
unconfirmed (timestamp 0 or block height `TX_UNCONFIRMED`); no confirmed notification takes
a transfer from Included to Submitted. -/
theorem updated_regresses_only_when_unconfirmed (TX_UNCONFIRMED : Nat)
    (btcManager : BRWalletManager) (btcWallet btcTransaction : Nat)
    (updates : List (Nat × Nat)) (cwm : BRCryptoWalletManager)
    (step : BRCryptoWalletManager × (Nat × Nat) × BRCryptoWalletManager)
    (hStep : step ∈ updatedSteps TX_UNCONFIRMED btcManager btcWallet btcTransaction cwm updates)
    (t : Nat)
    (hInc : (cryptoTransferGetState step.1 t).type = .CRYPTO_TRANSFER_STATE_INCLUDED)
    (hSub : (cryptoTransferGetState step.2.2 t).type = .CRYPTO_TRANSFER_STATE_SUBMITTED) :
    unconfirmed TX_UNCONFIRMED step.2.1.1 step.2.1.2 := by
  induction updates generalizing cwm with
  | nil => simp [updatedSteps] at hStep
  | cons update rest ih =>
    simp only [updatedSteps] at hStep
    split at hStep
    · rename_i cwm' hr
      rcases List.mem_cons.1 hStep with e | hmem
      · subst e
        exact updated_step_regress _ _ _ _ _ _ _ _ hr t hInc hSub
      · exact ih cwm' hmem
    · simp at hStep

/-- The amended C1 at a run of one unconfirmed notification on an Included transfer. -/
theorem updated_regresses_only_when_unconfirmed_witness :
    unconfirmed 2147483647 500 0 :=
  updated_regresses_only_when_unconfirmed 2147483647 sampleBTC 7 42 [(500, 0)]
    (sampleManager .BLOCK_CHAIN_TYPE_BTC sampleIncluded)
    (sampleManager .BLOCK_CHAIN_TYPE_BTC sampleIncluded, (500, 0),
      (cwmTransactionEventAsBTC 2147483647 (sampleManager .BLOCK_CHAIN_TYPE_BTC sampleIncluded)
        sampleBTC 7 42 (.BITCOIN_TRANSACTION_UPDATED 500 0)).cwm)
    (by decide) 0 (by decide) (by decide)

/-- C1 as stated fails: the notification with timestamp 0 takes the Included transfer of the
sample manager to Submitted in a single step. -/
theorem updated_regresses_included_counterexample :
    ∃ step ∈ updatedSteps 2147483647 sampleBTC 7 42
        (sampleManager .BLOCK_CHAIN_TYPE_BTC sampleIncluded) [(500, 0)],
      (cryptoTransferGetState step.1 0).type = .CRYPTO_TRANSFER_STATE_INCLUDED ∧
      (cryptoTransferGetState step.2.2 0).type = .CRYPTO_TRANSFER_STATE_SUBMITTED := by
  decide


/-! ## C2: the two transitions of "updated" -/

/-- C2: for the UTXO "updated" event on a transfer that a wallet of the live manager holds,
with old state `s`: if `s` is not Submitted and the update is unconfirmed, the handler returns
with the transfer Submitted; if `s` is not Included and the update is confirmed, it returns
with the transfer Included with the event's block height, transaction index 0, the event's
timestamp, success, no error and the transfer's estimated fee basis; in both cases the
listener receives exactly one event, TransferChanged carrying `s` and the new state. -/
theorem updated_sets_submitted_or_included (TX_UNCONFIRMED : Nat)
    (context : BRCryptoWalletManager) (btcManager : BRWalletManager)
    (btcWallet btcTransaction blockHeight timestamp : Nat)
    (wallet : BRCryptoWalletRecord) (transfer : Nat)
    (hLive : context.ref ≠ 0)
    (hType : context.type = .BLOCK_CHAIN_TYPE_BTC)
    (hWallet : cryptoWalletManagerFindWalletAsBTC context btcWallet = some wallet)
    (hTransfer : cryptoWalletFindTransferAsBTC context btcWallet btcTransaction =
      some transfer) :
    ((cryptoTransferGetState context transfer).type ≠ .CRYPTO_TRANSFER_STATE_SUBMITTED →
      unconfirmed TX_UNCONFIRMED blockHeight timestamp →
      ∃ cwm', cwmTransactionEventAsBTC TX_UNCONFIRMED context btcManager btcWallet
          btcTransaction (.BITCOIN_TRANSACTION_UPDATED blockHeight timestamp) = .returned cwm' ∧
        cryptoTransferGetState cwm' transfer = .submitted ∧
        cwm'.events = context.events ++
          [⟨.transferEvent btcWallet transfer (.CRYPTO_TRANSFER_EVENT_CHANGED
              (cryptoTransferGetState context transfer) .submitted), context.wallets⟩]) ∧
    ((cryptoTransferGetState context transfer).type ≠ .CRYPTO_TRANSFER_STATE_INCLUDED →
      ¬ unconfirmed TX_UNCONFIRMED blockHeight timestamp →
      ∃ cwm', cwmTransactionEventAsBTC TX_UNCONFIRMED context btcManager btcWallet
          btcTransaction (.BITCOIN_TRANSACTION_UPDATED blockHeight timestamp) = .returned cwm' ∧
        cryptoTransferGetState cwm' transfer =
          .included blockHeight 0 timestamp
            (cryptoTransferGetEstimatedFeeBasis context transfer) true none ∧
        cwm'.events = context.events ++
          [⟨.transferEvent btcWallet transfer (.CRYPTO_TRANSFER_EVENT_CHANGED
              (cryptoTransferGetState context transfer)
              (.included blockHeight 0 timestamp
                (cryptoTransferGetEstimatedFeeBasis context transfer) true none)),
            context.wallets⟩]) := by
  have hEq := cwmTransactionEventAsBTC_updated TX_UNCONFIRMED context btcManager btcWallet
    btcTransaction blockHeight timestamp wallet transfer hLive hType hWallet hTransfer
  simp only at hEq
  obtain ⟨r, hr, _⟩ := findTransfer_some _ _ _ _ _ hTransfer
  constructor
  · intro hs hu
    have hc : (cryptoTransferGetState context transfer).type ≠
        .CRYPTO_TRANSFER_STATE_SUBMITTED ∧ (0 = timestamp ∨ TX_UNCONFIRMED = blockHeight) :=
      ⟨hs, hu.elim (fun e => Or.inl e.symm) (fun e => Or.inr e.symm)⟩
    rw [if_pos hc] at hEq
    refine ⟨_, hEq, ?_, ?_⟩
    · simp [cryptoTransferGetState, cryptoWalletManagerGive, transferEventCallback,
        cryptoTransferSetState, cryptoWalletManagerTake, ensureNative,
        stateAt_storeState_same _ _ _ _ hr]
    · simp [cryptoWalletManagerGive, transferEventCallback, cryptoTransferSetState,
        cryptoWalletManagerTake, ensureNative]
  · intro hs hu
    have hc1 : ¬ ((cryptoTransferGetState context transfer).type ≠
        .CRYPTO_TRANSFER_STATE_SUBMITTED ∧ (0 = timestamp ∨ TX_UNCONFIRMED = blockHeight)) :=
      fun hc => hu (hc.2.elim (fun e => Or.inl e.symm) (fun e => Or.inr e.symm))
    have hc2 : (cryptoTransferGetState context transfer).type ≠
        .CRYPTO_TRANSFER_STATE_INCLUDED ∧ 0 ≠ timestamp ∧ TX_UNCONFIRMED ≠ blockHeight :=
      ⟨hs, fun e => hu (Or.inl e.symm), fun e => hu (Or.inr e.symm)⟩
    rw [if_neg hc1, if_pos hc2] at hEq
    refine ⟨_, hEq, ?_, ?_⟩
    · simp [cryptoTransferGetState, cryptoWalletManagerGive, transferEventCallback,
        cryptoTransferSetState, cryptoWalletManagerTake, ensureNative,
        stateAt_storeState_same _ _ _ _ hr]
    · simp [cryptoWalletManagerGive, transferEventCallback, cryptoTransferSetState,
        cryptoWalletManagerTake, ensureNative]

/-- C2 at the sample manager: an unconfirmed update of an Included transfer, and a confirmed
update of a Submitted one. -/
theorem updated_sets_submitted_or_included_witness :
    (∃ cwm', cwmTransactionEventAsBTC 2147483647
        (sampleManager .BLOCK_CHAIN_TYPE_BTC sampleIncluded) sampleBTC 7 42
        (.BITCOIN_TRANSACTION_UPDATED 2147483647 1000) = .returned cwm' ∧
      cryptoTransferGetState cwm' 0 = .submitted ∧
      cwm'.events = [⟨.transferEvent 7 0 (.CRYPTO_TRANSFER_EVENT_CHANGED sampleIncluded
        .submitted), (sampleManager .BLOCK_CHAIN_TYPE_BTC sampleIncluded).wallets⟩]) ∧
    (∃ cwm', cwmTransactionEventAsBTC 2147483647
        (sampleManager .BLOCK_CHAIN_TYPE_BTC .submitted) sampleBTC 7 42
        (.BITCOIN_TRANSACTION_UPDATED 500 1000) = .returned cwm' ∧
      cryptoTransferGetState cwm' 0 = sampleIncluded ∧
      cwm'.events = [⟨.transferEvent 7 0 (.CRYPTO_TRANSFER_EVENT_CHANGED .submitted
        sampleIncluded), (sampleManager .BLOCK_CHAIN_TYPE_BTC .submitted).wallets⟩]) :=
  ⟨(updated_sets_submitted_or_included 2147483647
      (sampleManager .BLOCK_CHAIN_TYPE_BTC sampleIncluded) sampleBTC 7 42 2147483647 1000
      _ 0 (by decide) rfl rfl rfl).1 (by decide) (Or.inr rfl),
   (updated_sets_submitted_or_included 2147483647
      (sampleManager .BLOCK_CHAIN_TYPE_BTC .submitted) sampleBTC 7 42 500 1000
      _ 0 (by decide) rfl rfl rfl).2 (by decide) (by decide)⟩


/-! ## C3: idempotence of "updated" -/

/-- C3: Idempotence of "updated".  For the UTXO "updated" event on a transfer that a wallet
of the live manager holds, the handler returns, and it leaves the transfer's state unchanged
and emits no listener event if and only if the transfer is already Submitted and the update
is unconfirmed, or already Included and the update is confirmed.  Handling the same update a
second time returns too, changes no transfer and emits nothing, so the two together emit at
most one TransferChanged event. -/
theorem updated_idempotent (TX_UNCONFIRMED : Nat)
    (context : BRCryptoWalletManager) (btcManager : BRWalletManager)
    (btcWallet btcTransaction blockHeight timestamp : Nat)
    (wallet : BRCryptoWalletRecord) (transfer : Nat)
    (hLive : context.ref ≠ 0)
    (hType : context.type = .BLOCK_CHAIN_TYPE_BTC)
    (hWallet : cryptoWalletManagerFindWalletAsBTC context btcWallet = some wallet)
    (hTransfer : cryptoWalletFindTransferAsBTC context btcWallet btcTransaction =
      some transfer) :
    ∃ cwm', cwmTransactionEventAsBTC TX_UNCONFIRMED context btcManager btcWallet
        btcTransaction (.BITCOIN_TRANSACTION_UPDATED blockHeight timestamp) = .returned cwm' ∧
      ((cryptoTransferGetState cwm' transfer = cryptoTransferGetState context transfer ∧
          cwm'.events = context.events) ↔
        (((cryptoTransferGetState context transfer).type = .CRYPTO_TRANSFER_STATE_SUBMITTED ∧
            unconfirmed TX_UNCONFIRMED blockHeight timestamp) ∨
         ((cryptoTransferGetState context transfer).type = .CRYPTO_TRANSFER_STATE_INCLUDED ∧
            ¬ unconfirmed TX_UNCONFIRMED blockHeight timestamp))) ∧
      ∃ cwm'', cwmTransactionEventAsBTC TX_UNCONFIRMED cwm' btcManager btcWallet
          btcTransaction (.BITCOIN_TRANSACTION_UPDATED blockHeight timestamp) =
            .returned cwm'' ∧
        cwm''.transfers = cwm'.transfers ∧ cwm''.events = cwm'.events ∧
        (transferChanged (newEvents context cwm'')).length ≤ 1 := by
  have hEq := cwmTransactionEventAsBTC_updated TX_UNCONFIRMED context btcManager btcWallet
    btcTransaction blockHeight timestamp wallet transfer hLive hType hWallet hTransfer
  simp only at hEq
  obtain ⟨r, hr, _⟩ := findTransfer_some _ _ _ _ _ hTransfer
  have hu : unconfirmed TX_UNCONFIRMED blockHeight timestamp ↔
      (0 = timestamp ∨ TX_UNCONFIRMED = blockHeight) := by
    unfold unconfirmed
    constructor <;> exact fun h => h.elim (fun e => Or.inl e.symm) (fun e => Or.inr e.symm)
  have hu' : ¬ unconfirmed TX_UNCONFIRMED blockHeight timestamp ↔
      (0 ≠ timestamp ∧ TX_UNCONFIRMED ≠ blockHeight) := by
    rw [hu]
    exact not_or
  simp only [cryptoWalletManagerFindWalletAsBTC, cryptoWalletFindTransferAsBTC]
    at hWallet hTransfer
  -- the second run starts from a live manager with the same wallets and native identities
  have second : ∀ cwm' : BRCryptoWalletManager, cwm'.ref ≠ 0 → cwm'.type = context.type →
      cwm'.wallets = context.wallets →
      (∃ s, cwm'.transfers = storeState context.transfers transfer s) ∨
        cwm'.transfers = context.transfers →
      ¬ ((cryptoTransferGetState cwm' transfer).type ≠ .CRYPTO_TRANSFER_STATE_SUBMITTED ∧
          unconfirmed TX_UNCONFIRMED blockHeight timestamp) →
      ¬ ((cryptoTransferGetState cwm' transfer).type ≠ .CRYPTO_TRANSFER_STATE_INCLUDED ∧
          ¬ unconfirmed TX_UNCONFIRMED blockHeight timestamp) →
      ∃ cwm'', cwmTransactionEventAsBTC TX_UNCONFIRMED cwm' btcManager btcWallet
          btcTransaction (.BITCOIN_TRANSACTION_UPDATED blockHeight timestamp) =
            .returned cwm'' ∧
        cwm''.transfers = cwm'.transfers ∧ cwm''.events = cwm'.events := by
    intro cwm' hLive' hType' hW' hT' hc1 hc2
    have hWallet' : cryptoWalletManagerFindWalletAsBTC cwm' btcWallet = some wallet := by
      simp only [cryptoWalletManagerFindWalletAsBTC, hW', hWallet]
    have hTransfer' : cryptoWalletFindTransferAsBTC cwm' btcWallet btcTransaction =
        some transfer := by
      rcases hT' with ⟨s, hs⟩ | hs
      · simp only [cryptoWalletFindTransferAsBTC, hW', hs, findTransfer_storeState, hTransfer]
      · simp only [cryptoWalletFindTransferAsBTC, hW', hs, hTransfer]
    have hEq' := cwmTransactionEventAsBTC_updated TX_UNCONFIRMED cwm' btcManager btcWallet
      btcTransaction blockHeight timestamp wallet transfer hLive' (hType'.trans hType)
      hWallet' hTransfer'
    simp only at hEq'
    rw [if_neg (fun h => hc1 ⟨h.1, hu.2 h.2⟩), if_neg (fun h => hc2 ⟨h.1, hu'.2 h.2⟩)] at hEq'
    exact ⟨_, hEq', by simp [cryptoWalletManagerGive, ensureNative],
      by simp [cryptoWalletManagerGive, ensureNative]⟩
  have stored : ∀ s : BRCryptoTransferState,
      ¬ (s.type ≠ .CRYPTO_TRANSFER_STATE_SUBMITTED ∧
          unconfirmed TX_UNCONFIRMED blockHeight timestamp) →
      ¬ (s.type ≠ .CRYPTO_TRANSFER_STATE_INCLUDED ∧
          ¬ unconfirmed TX_UNCONFIRMED blockHeight timestamp) →
      ∃ cwm'', cwmTransactionEventAsBTC TX_UNCONFIRMED
          (cryptoWalletManagerGive (transferEventCallback (cryptoTransferSetState
            (ensureNative { context with ref := context.ref + 1 } btcManager.ptr) transfer s)
            btcWallet transfer
            (.CRYPTO_TRANSFER_EVENT_CHANGED (cryptoTransferGetState context transfer) s)))
          btcManager btcWallet btcTransaction
          (.BITCOIN_TRANSACTION_UPDATED blockHeight timestamp) = .returned cwm'' ∧
        cwm''.transfers = storeState context.transfers transfer s ∧
        cwm''.events = context.events ++ [⟨.transferEvent btcWallet transfer
          (.CRYPTO_TRANSFER_EVENT_CHANGED (cryptoTransferGetState context transfer) s),
          context.wallets⟩] := by
    intro s h1 h2
    obtain ⟨cwm'', h, ht, he⟩ := second
      (cryptoWalletManagerGive (transferEventCallback (cryptoTransferSetState
        (ensureNative { context with ref := context.ref + 1 } btcManager.ptr) transfer s)
        btcWallet transfer
        (.CRYPTO_TRANSFER_EVENT_CHANGED (cryptoTransferGetState context transfer) s)))
      (by simp [cryptoWalletManagerGive, transferEventCallback, cryptoTransferSetState,
        cryptoWalletManagerTake, ensureNative])
      (by simp [cryptoWalletManagerGive, transferEventCallback, cryptoTransferSetState,
        cryptoWalletManagerTake, ensureNative])
      (by simp [cryptoWalletManagerGive, transferEventCallback, cryptoTransferSetState,
        cryptoWalletManagerTake, ensureNative])
      (Or.inl ⟨s, by
        simp [cryptoWalletManagerGive, transferEventCallback, cryptoTransferSetState,
          cryptoWalletManagerTake, ensureNative]⟩)
      (by simpa [cryptoTransferGetState, cryptoWalletManagerGive, transferEventCallback,
        cryptoTransferSetState, cryptoWalletManagerTake, ensureNative,
        stateAt_storeState_same _ _ _ _ hr] using h1)
      (by simpa [cryptoTransferGetState, cryptoWalletManagerGive, transferEventCallback,
        cryptoTransferSetState, cryptoWalletManagerTake, ensureNative,
        stateAt_storeState_same _ _ _ _ hr] using h2)
    refine ⟨cwm'', h, ?_, ?_⟩
    · rw [ht]
      simp [cryptoWalletManagerGive, transferEventCallback, cryptoTransferSetState,
        cryptoWalletManagerTake, ensureNative]
    · rw [he]
      simp [cryptoWalletManagerGive, transferEventCallback, cryptoTransferSetState,
        cryptoWalletManagerTake, ensureNative]
  by_cases hc1 : (cryptoTransferGetState context transfer).type ≠
      .CRYPTO_TRANSFER_STATE_SUBMITTED ∧ unconfirmed TX_UNCONFIRMED blockHeight timestamp
  · -- the update sets Submitted
    rw [if_pos ⟨hc1.1, hu.1 hc1.2⟩] at hEq
    refine ⟨_, hEq, ?_, ?_⟩
    · constructor
      · intro h
        have := h.2
        simp [cryptoWalletManagerGive, transferEventCallback, cryptoTransferSetState,
          cryptoWalletManagerTake, ensureNative] at this
      · rintro (h | h)
        · exact absurd h.1 hc1.1
        · exact absurd hc1.2 h.2
    · obtain ⟨cwm'', h2, ht, he⟩ := stored .submitted
        (by simp [BRCryptoTransferState.type]) (by simp [hc1.2])
      refine ⟨cwm'', h2, ?_, ?_, ?_⟩
      · rw [ht]
        simp [cryptoWalletManagerGive, transferEventCallback, cryptoTransferSetState,
          cryptoWalletManagerTake, ensureNative]
      · rw [he]
        simp [cryptoWalletManagerGive, transferEventCallback, cryptoTransferSetState,
          cryptoWalletManagerTake, ensureNative]
      · simp [newEvents, newCalls, he, transferChanged]
  · by_cases hc2 : (cryptoTransferGetState context transfer).type ≠
        .CRYPTO_TRANSFER_STATE_INCLUDED ∧ ¬ unconfirmed TX_UNCONFIRMED blockHeight timestamp
    · -- the update sets Included
      rw [if_neg (fun h => hc1 ⟨h.1, hu.2 h.2⟩), if_pos ⟨hc2.1, hu'.1 hc2.2⟩] at hEq
      refine ⟨_, hEq, ?_, ?_⟩
      · constructor
        · intro h
          have := h.2
          simp [cryptoWalletManagerGive, transferEventCallback, cryptoTransferSetState,
            cryptoWalletManagerTake, ensureNative] at this
        · rintro (h | h)
          · exact absurd h.2 hc2.2
          · exact absurd h.1 hc2.1
      · obtain ⟨cwm'', h2, ht, he⟩ := stored
          (.included blockHeight 0 timestamp
            (cryptoTransferGetEstimatedFeeBasis context transfer) true none)
          (by simp [hc2.2]) (by simp [BRCryptoTransferState.type])
        refine ⟨cwm'', h2, ?_, ?_, ?_⟩
        · rw [ht]
          simp [cryptoWalletManagerGive, transferEventCallback, cryptoTransferSetState,
            cryptoWalletManagerTake, ensureNative]
        · rw [he]
          simp [cryptoWalletManagerGive, transferEventCallback, cryptoTransferSetState,
            cryptoWalletManagerTake, ensureNative]
        · simp [newEvents, newCalls, he, transferChanged]
    · -- the update changes nothing
      rw [if_neg (fun h => hc1 ⟨h.1, hu.2 h.2⟩),
        if_neg (fun h => hc2 ⟨h.1, hu'.2 h.2⟩)] at hEq
      refine ⟨_, hEq, ?_, ?_⟩
      · constructor
        · intro _
          by_cases hU : unconfirmed TX_UNCONFIRMED blockHeight timestamp
          · left
            exact ⟨by_contra fun h => hc1 ⟨h, hU⟩, hU⟩
          · right
            exact ⟨by_contra fun h => hc2 ⟨h, hU⟩, hU⟩
        · intro _
          simp [cryptoTransferGetState, cryptoWalletManagerGive, ensureNative]
      · obtain ⟨cwm'', h2, ht, he⟩ := second
          (cryptoWalletManagerGive
            (ensureNative { context with ref := context.ref + 1 } btcManager.ptr))
          (by simpa [cryptoWalletManagerGive, ensureNative] using hLive)
          (by simp [cryptoWalletManagerGive, ensureNative])
          (by simp [cryptoWalletManagerGive, ensureNative])
          (Or.inr (by simp [cryptoWalletManagerGive, ensureNative]))
          (by simpa [cryptoTransferGetState, cryptoWalletManagerGive, ensureNative] using hc1)
          (by simpa [cryptoTransferGetState, cryptoWalletManagerGive, ensureNative] using hc2)
        refine ⟨cwm'', h2, ht, he, ?_⟩
        simp [newEvents, newCalls, he, cryptoWalletManagerGive, ensureNative,
          transferChanged]

/-- C3 at the sample manager: a confirmed update of an Included transfer returns without
emitting a listener event. -/
theorem updated_idempotent_witness :
    ∃ cwm', cwmTransactionEventAsBTC 2147483647
        (sampleManager .BLOCK_CHAIN_TYPE_BTC sampleIncluded) sampleBTC 7 42
        (.BITCOIN_TRANSACTION_UPDATED 501 1001) = .returned cwm' ∧
      cryptoTransferGetState cwm' 0 = sampleIncluded ∧ cwm'.events = [] := by
  obtain ⟨cwm', h, hiff, _⟩ := updated_idempotent 2147483647
    (sampleManager .BLOCK_CHAIN_TYPE_BTC sampleIncluded) sampleBTC 7 42 501 1001 _ 0
    (by decide) rfl rfl rfl
  exact ⟨cwm', h, hiff.2 (Or.inr ⟨by decide, by decide⟩)⟩


/-! ## Lemmas for C5: every handler, every branch -/

theorem storesMatch_walletManagerEventAsBTC (context : BRCryptoWalletManager)
    (btcManager : BRWalletManager) (event : BRWalletManagerEvent) :
    StoresMatchChanged context (cwmWalletManagerEventAsBTC context btcManager event) := by
  left
  unfold cwmWalletManagerEventAsBTC
  by_cases hLive : context.ref = 0
  · simp [cryptoWalletManagerTakeWeak, hLive, Outcome.cwm, newStores, newEvents, newCalls,
      transferChanged]
  · cases event <;>
    simp only [cryptoWalletManagerTakeWeak, if_neg hLive, finishManagerEvent] <;>
    (repeat' split) <;>
    simp [Outcome.cwm, newStores, newEvents, newCalls, transferChanged, ensureNative,
      cryptoWalletManagerGive, walletManagerEventCallback, walletEventCallback,
      cryptoWalletManagerTake, cryptoWalletManagerSetState, cryptoNetworkSetHeight]

theorem storesMatch_walletManagerEventAsETH (context : BRCryptoWalletManager)
    (ewm : BREthereumEWM) (event : BREthereumEWMEvent) :
    StoresMatchChanged context (cwmWalletManagerEventAsETH context ewm event) := by
  left
  unfold cwmWalletManagerEventAsETH
  by_cases hLive : context.ref = 0
  · simp [cryptoWalletManagerTakeWeak, hLive, Outcome.cwm, newStores, newEvents, newCalls,
      transferChanged]
  · cases event <;>
    simp only [cryptoWalletManagerTakeWeak, if_neg hLive, finishManagerEvent] <;>
    (repeat' split) <;>
    simp [Outcome.cwm, newStores, newEvents, newCalls, transferChanged, ensureNative,
      cryptoWalletManagerGive, walletManagerEventCallback, walletEventCallback,
      cryptoWalletManagerTake, cryptoWalletManagerSetState, cryptoNetworkSetHeight]

theorem storesMatch_walletEventAsETH (context : BRCryptoWalletManager)
    (ewm : BREthereumEWM) (wid : Nat) (event : BREthereumWalletEvent) :
    StoresMatchChanged context (cwmWalletEventAsETH context ewm wid event) := by
  left
  unfold cwmWalletEventAsETH
  by_cases hLive : context.ref = 0
  · simp [cryptoWalletManagerTakeWeak, hLive, Outcome.cwm, newStores, newEvents, newCalls,
      transferChanged]
  · simp only [cryptoWalletManagerTakeWeak, if_neg hLive]
    (repeat' split) <;>
    simp [Outcome.cwm, newStores, newEvents, newCalls, transferChanged, ensureNative,
      cryptoWalletManagerGive, walletManagerEventCallback, walletEventCallback,
      cryptoWalletManagerTake, cryptoWalletManagerAddWallet]
    (repeat' split) <;>
    simp [Outcome.cwm, newStores, newEvents, newCalls, transferChanged]


theorem storesMatch_transactionEventAsBTC (TX_UNCONFIRMED : Nat)
    (context : BRCryptoWalletManager) (btcManager : BRWalletManager)
    (btcWallet btcTransaction : Nat) (event : BRTransactionEvent) :
    StoresMatchChanged context (cwmTransactionEventAsBTC TX_UNCONFIRMED context btcManager
      btcWallet btcTransaction event) := by
  unfold StoresMatchChanged
  by_cases hLive : context.ref = 0
  · left
    simp [cwmTransactionEventAsBTC, cryptoWalletManagerTakeWeak, hLive, Outcome.cwm, newStores,
      newEvents, newCalls, transferChanged]
  by_cases hType : context.type = .BLOCK_CHAIN_TYPE_BTC
  swap
  · left
    simp [cwmTransactionEventAsBTC, cryptoWalletManagerTakeWeak, hLive, hType, ensureNative,
      Outcome.cwm, newStores, newEvents, newCalls, transferChanged]
  cases hW : context.wallets.find? (fun w => w.wid == btcWallet) with
  | none =>
    left
    simp [cwmTransactionEventAsBTC, cryptoWalletManagerTakeWeak, hLive, hType, ensureNative,
      cryptoWalletManagerFindWalletAsBTC, hW,
      Outcome.cwm, newStores, newEvents, newCalls, transferChanged]
  | some wallet =>
    have hw := findWallet_wid _ _ _ hW
    cases hT : findTransfer context.wallets context.transfers btcWallet btcTransaction with
    | none =>
      left
      cases event <;>
      simp [cwmTransactionEventAsBTC, cryptoWalletManagerTakeWeak, hLive, hType, ensureNative,
        cryptoWalletManagerFindWalletAsBTC, cryptoWalletFindTransferAsBTC, hW, hw, hT,
        Outcome.cwm, newStores, newEvents, newCalls, transferChanged, cryptoTransferCreate,
        cryptoWalletManagerGive, transferEventCallback, walletEventCallback,
        cryptoWalletManagerTake, cryptoWalletAddTransfer]
    | some t =>
      obtain ⟨r, hr, _⟩ := findTransfer_some _ _ _ _ _ hT
      cases event <;>
      simp only [cwmTransactionEventAsBTC, cryptoWalletManagerTakeWeak, if_neg hLive, hType,
        ensureNative, cryptoWalletManagerFindWalletAsBTC, cryptoWalletFindTransferAsBTC, hW,
        hw, hT, ne_eq, not_true_eq_false, if_false] <;>
      (try split_ifs) <;>
      first
      | (left
         simp [Outcome.cwm, newStores, newEvents, newCalls, transferChanged,
           cryptoWalletManagerGive, transferEventCallback, walletEventCallback,
           cryptoWalletManagerTake, cryptoWalletRemTransfer]
         done)
      | (right
         refine ⟨_, t, rfl, ?_, ?_⟩ <;>
         simp [newStores, newEvents, newCalls, transferChanged,
           cryptoWalletManagerGive, transferEventCallback, walletEventCallback,
           cryptoWalletManagerTake, cryptoTransferSetState, cryptoTransferGetState,
           stateAt_storeState_same _ _ _ _ hr])


theorem storesMatch_walletEventAsBTC (context : BRCryptoWalletManager)
    (btcManager : BRWalletManager) (btcWallet : Nat) (event : BRWalletEvent) :
    StoresMatchChanged context (cwmWalletEventAsBTC context btcManager btcWallet event) := by
  unfold StoresMatchChanged
  by_cases hLive : context.ref = 0
  · left
    simp [cwmWalletEventAsBTC, cryptoWalletManagerTakeWeak, hLive, Outcome.cwm, newStores,
      newEvents, newCalls, transferChanged]
  by_cases hType : context.type = .BLOCK_CHAIN_TYPE_BTC
  swap
  · left
    simp [cwmWalletEventAsBTC, cryptoWalletManagerTakeWeak, hLive, hType, ensureNative,
      Outcome.cwm, newStores, newEvents, newCalls, transferChanged]
  cases hW : context.wallets.find? (fun w => w.wid == btcWallet) with
  | none =>
    left
    simp [cwmWalletEventAsBTC, cryptoWalletManagerTakeWeak, hLive, hType, ensureNative,
      cryptoWalletManagerFindWalletAsBTC, hW,
      Outcome.cwm, newStores, newEvents, newCalls, transferChanged]
  | some wallet =>
    have hw := findWallet_wid _ _ _ hW
    have found : ∀ transaction,
        (∃ t r, findTransfer context.wallets context.transfers btcWallet transaction = some t ∧
          context.transfers[t]? = some r) ∨
        findTransfer context.wallets context.transfers btcWallet transaction = none := by
      intro transaction
      cases hT : findTransfer context.wallets context.transfers btcWallet transaction with
      | none => exact Or.inr rfl
      | some t =>
        obtain ⟨r, hr, _⟩ := findTransfer_some _ _ _ _ _ hT
        exact Or.inl ⟨t, r, rfl, hr⟩
    cases event with
    | BITCOIN_WALLET_TRANSACTION_SUBMIT_SUCCEEDED transaction =>
      rcases found transaction with ⟨t, r, hT, hr⟩ | hT
      · simp only [cwmWalletEventAsBTC, cryptoWalletManagerTakeWeak, if_neg hLive, hType,
          ensureNative, cryptoWalletManagerFindWalletAsBTC, cryptoWalletFindTransferAsBTC, hW,
          hw, hT, ne_eq, not_true_eq_false, if_false]
        split_ifs <;>
        first
        | (left
           simp [Outcome.cwm, newStores, newEvents, newCalls, transferChanged]
           done)
        | (right
           refine ⟨_, t, rfl, ?_, ?_⟩ <;>
           simp [newStores, newEvents, newCalls, transferChanged,
             cryptoWalletManagerGive, transferEventCallback, walletEventCallback,
             cryptoWalletManagerTake, cryptoTransferSetState, cryptoTransferGetState,
             stateAt_storeState_same _ _ _ _ hr])
      · left
        simp [cwmWalletEventAsBTC, cryptoWalletManagerTakeWeak, hLive, hType,
          ensureNative, cryptoWalletManagerFindWalletAsBTC, cryptoWalletFindTransferAsBTC, hW,
          hw, hT, Outcome.cwm, newStores, newEvents, newCalls, transferChanged]
    | BITCOIN_WALLET_TRANSACTION_SUBMIT_FAILED transaction error =>
      rcases found transaction with ⟨t, r, hT, hr⟩ | hT
      · simp only [cwmWalletEventAsBTC, cryptoWalletManagerTakeWeak, if_neg hLive, hType,
          ensureNative, cryptoWalletManagerFindWalletAsBTC, cryptoWalletFindTransferAsBTC, hW,
          hw, hT, ne_eq, not_true_eq_false, if_false]
        right
        refine ⟨_, t, rfl, ?_, ?_⟩ <;>
        simp [newStores, newEvents, newCalls, transferChanged,
          cryptoWalletManagerGive, transferEventCallback, walletEventCallback,
          cryptoWalletManagerTake, cryptoTransferSetState, cryptoTransferGetState,
          stateAt_storeState_same _ _ _ _ hr]
      · left
        simp [cwmWalletEventAsBTC, cryptoWalletManagerTakeWeak, hLive, hType,
          ensureNative, cryptoWalletManagerFindWalletAsBTC, cryptoWalletFindTransferAsBTC, hW,
          hw, hT, Outcome.cwm, newStores, newEvents, newCalls, transferChanged]
    | _ =>
      left
      simp only [cwmWalletEventAsBTC, cryptoWalletManagerTakeWeak, if_neg hLive, hType,
        ensureNative, cryptoWalletManagerFindWalletAsBTC, hW, hw, ne_eq, not_true_eq_false,
        if_false]
      (try split_ifs) <;>
      simp [Outcome.cwm, newStores, newEvents, newCalls, transferChanged,
        cryptoWalletManagerGive, walletManagerEventCallback, walletEventCallback,
        cryptoWalletManagerTake, cryptoWalletManagerRemWallet]

theorem storesMatch_transactionEventAsETH (context : BRCryptoWalletManager)
    (ewm : BREthereumEWM) (wid tid : Nat) (event : BREthereumTransferEvent) :
    StoresMatchChanged context (cwmTransactionEventAsETH context ewm wid tid event) := by
  unfold StoresMatchChanged
  by_cases hLive : context.ref = 0
  · left
    simp [cwmTransactionEventAsETH, cryptoWalletManagerTakeWeak, hLive, Outcome.cwm, newStores,
      newEvents, newCalls, transferChanged]
  cases hW : context.wallets.find? (fun w => w.wid == wid) with
  | none =>
    left
    simp [cwmTransactionEventAsETH, cryptoWalletManagerTakeWeak, hLive, ensureNative,
      cryptoWalletManagerFindWalletAsETH, hW,
      Outcome.cwm, newStores, newEvents, newCalls, transferChanged]
  | some wallet =>
    have hw := findWallet_wid _ _ _ hW
    cases hT : findTransfer context.wallets context.transfers wid tid with
    | none =>
      left
      cases event <;>
      simp [cwmTransactionEventAsETH, cryptoWalletManagerTakeWeak, hLive, ensureNative,
        cryptoWalletManagerFindWalletAsETH, cryptoWalletFindTransferAsETH, hW, hw, hT,
        Outcome.cwm, newStores, newEvents, newCalls, transferChanged, cryptoTransferCreate,
        cryptoWalletManagerGive, transferEventCallback, walletEventCallback,
        cryptoWalletManagerTake, cryptoWalletAddTransfer]
    | some t =>
      obtain ⟨r, hr, _⟩ := findTransfer_some _ _ _ _ _ hT
      cases event <;>
      simp only [cwmTransactionEventAsETH, cryptoWalletManagerTakeWeak, if_neg hLive,
        ensureNative, cryptoWalletManagerFindWalletAsETH, cryptoWalletFindTransferAsETH, hW,
        hw, hT] <;>
      first
      | (left
         simp [Outcome.cwm, newStores, newEvents, newCalls, transferChanged,
           cryptoWalletManagerGive]
         done)
      | (right
         refine ⟨_, t, rfl, ?_, ?_⟩ <;>
         simp [newStores, newEvents, newCalls, transferChanged,
           cryptoWalletManagerGive, transferEventCallback, walletEventCallback,
           cryptoWalletManagerTake, cryptoTransferSetState, cryptoTransferGetState,
           cryptoWalletRemTransfer, stateAt_storeState_same _ _ _ _ hr])


theorem storesMatch_peerEventAsETH (context : BRCryptoWalletManager) (ewm : BREthereumEWM) :
    StoresMatchChanged context (cwmPeerEventAsETH context ewm) := by
  left
  by_cases hLive : context.ref = 0 <;>
  simp [cwmPeerEventAsETH, cryptoWalletManagerTakeWeak, hLive, Outcome.cwm, newStores,
    newEvents, newCalls, transferChanged, ensureNative, cryptoWalletManagerGive]

theorem storesMatch_eventTokenAsETH (context : BRCryptoWalletManager) (ewm : BREthereumEWM)
    (token : Nat) (event : BREthereumTokenEvent) :
    StoresMatchChanged context (cwmEventTokenAsETH context ewm token event) := by
  left
  by_cases hLive : context.ref = 0 <;>
  simp [cwmEventTokenAsETH, cryptoWalletManagerTakeWeak, hLive, Outcome.cwm, newStores,
    newEvents, newCalls, transferChanged, ensureNative, cryptoWalletManagerGive]

/-! ## C5: one TransferChanged per stored state -/

/-- C5: for every event handler of the UTXO and account families and every input, a run that
stores a state in a transfer (`cryptoTransferSetState`) stores exactly one, returns, and
emits exactly one TransferChanged event, for that transfer, whose old state is the state the
transfer held before the handler ran and whose new state is the state it holds afterwards;
a run that stores no state emits no TransferChanged event. -/
theorem transferChanged_matches_stores (TX_UNCONFIRMED : Nat)
    (context : BRCryptoWalletManager) (event : BackendEvent) :
    (newStores context (handleBackendEvent TX_UNCONFIRMED context event).cwm = [] ∧
      transferChanged
        (newEvents context (handleBackendEvent TX_UNCONFIRMED context event).cwm) = []) ∨
    (∃ cwm' t, handleBackendEvent TX_UNCONFIRMED context event = .returned cwm' ∧
      newStores context cwm' = [(t, cryptoTransferGetState cwm' t)] ∧
      transferChanged (newEvents context cwm') =
        [(t, cryptoTransferGetState context t, cryptoTransferGetState cwm' t)]) := by
  cases event with
  | walletManagerEventAsBTC btcManager event =>
    exact storesMatch_walletManagerEventAsBTC context btcManager event
  | walletEventAsBTC btcManager btcWallet event =>
    exact storesMatch_walletEventAsBTC context btcManager btcWallet event
  | transactionEventAsBTC btcManager btcWallet btcTransaction event =>
    exact storesMatch_transactionEventAsBTC TX_UNCONFIRMED context btcManager btcWallet
      btcTransaction event
  | walletManagerEventAsETH ewm event =>
    exact storesMatch_walletManagerEventAsETH context ewm event
  | peerEventAsETH ewm => exact storesMatch_peerEventAsETH context ewm
  | walletEventAsETH ewm wid event => exact storesMatch_walletEventAsETH context ewm wid event
  | eventTokenAsETH ewm token event =>
    exact storesMatch_eventTokenAsETH context ewm token event
  | transactionEventAsETH ewm wid tid event =>
    exact storesMatch_transactionEventAsETH context ewm wid tid event

/-! ## C6: signed, submit succeeded, submit failed (UTXO family) -/

/-- C6: for a transfer that a wallet of the live UTXO manager holds: the backend's "signed"
event on the transfer in Created moves it to Signed; "submit succeeded" on the transfer in
Signed or Created moves it to Submitted; "submit failed" on the transfer in any state moves
it to Errored carrying the error the backend reports. -/
theorem signed_submitted_errored (TX_UNCONFIRMED : Nat)
    (context : BRCryptoWalletManager) (btcManager : BRWalletManager)
    (btcWallet btcTransaction : Nat) (wallet : BRCryptoWalletRecord) (transfer : Nat)
    (hLive : context.ref ≠ 0)
    (hType : context.type = .BLOCK_CHAIN_TYPE_BTC)
    (hWallet : cryptoWalletManagerFindWalletAsBTC context btcWallet = some wallet)
    (hTransfer : cryptoWalletFindTransferAsBTC context btcWallet btcTransaction =
      some transfer) :
    (cryptoTransferGetState context transfer = .created →
      ∃ cwm', cwmTransactionEventAsBTC TX_UNCONFIRMED context btcManager btcWallet
          btcTransaction .BITCOIN_TRANSACTION_SIGNED = .returned cwm' ∧
        cryptoTransferGetState cwm' transfer = .signed) ∧
    (cryptoTransferGetState context transfer = .signed ∨
        cryptoTransferGetState context transfer = .created →
      ∃ cwm', cwmWalletEventAsBTC context btcManager btcWallet
          (.BITCOIN_WALLET_TRANSACTION_SUBMIT_SUCCEEDED btcTransaction) = .returned cwm' ∧
        cryptoTransferGetState cwm' transfer = .submitted) ∧
    (∀ error, ∃ cwm', cwmWalletEventAsBTC context btcManager btcWallet
          (.BITCOIN_WALLET_TRANSACTION_SUBMIT_FAILED btcTransaction error) = .returned cwm' ∧
        cryptoTransferGetState cwm' transfer = .errored error) := by
  simp only [cryptoWalletManagerFindWalletAsBTC, cryptoWalletFindTransferAsBTC]
    at hWallet hTransfer
  have hw := findWallet_wid _ _ _ hWallet
  obtain ⟨r, hr, _⟩ := findTransfer_some _ _ _ _ _ hTransfer
  refine ⟨?_, ?_, ?_⟩
  · intro hs
    simp only [cryptoTransferGetState] at hs
    simp [cwmTransactionEventAsBTC, cryptoWalletManagerTakeWeak, hLive, hType, ensureNative,
      cryptoWalletManagerFindWalletAsBTC, cryptoWalletFindTransferAsBTC, hWallet, hw,
      hTransfer, cryptoTransferGetState, hs, BRCryptoTransferState.type,
      cryptoTransferStateInit, cryptoWalletManagerGive, transferEventCallback,
      cryptoWalletManagerTake, cryptoTransferSetState, stateAt_storeState_same _ _ _ _ hr]
  · intro hs
    simp only [cryptoTransferGetState] at hs
    rcases hs with hs | hs <;>
    simp [cwmWalletEventAsBTC, cryptoWalletManagerTakeWeak, hLive, hType, ensureNative,
      cryptoWalletManagerFindWalletAsBTC, cryptoWalletFindTransferAsBTC, hWallet, hw,
      hTransfer, cryptoTransferGetState, hs, BRCryptoTransferState.type,
      cryptoTransferStateInit, cryptoWalletManagerGive, transferEventCallback,
      cryptoWalletManagerTake, cryptoTransferSetState, stateAt_storeState_same _ _ _ _ hr]
  · intro error
    simp [cwmWalletEventAsBTC, cryptoWalletManagerTakeWeak, hLive, hType, ensureNative,
      cryptoWalletManagerFindWalletAsBTC, cryptoWalletFindTransferAsBTC, hWallet, hw,
      hTransfer, cryptoTransferGetState, cryptoTransferStateErroredInit,
      cryptoWalletManagerGive, transferEventCallback,
      cryptoWalletManagerTake, cryptoTransferSetState, stateAt_storeState_same _ _ _ _ hr]

/-- C6 at the sample manager: Created to Signed, Signed to Submitted, Included to Errored. -/
theorem signed_submitted_errored_witness :
    (∃ cwm', cwmTransactionEventAsBTC 2147483647
        (sampleManager .BLOCK_CHAIN_TYPE_BTC .created) sampleBTC 7 42
        .BITCOIN_TRANSACTION_SIGNED = .returned cwm' ∧
      cryptoTransferGetState cwm' 0 = .signed) ∧
    (∃ cwm', cwmWalletEventAsBTC (sampleManager .BLOCK_CHAIN_TYPE_BTC .signed) sampleBTC 7
        (.BITCOIN_WALLET_TRANSACTION_SUBMIT_SUCCEEDED 42) = .returned cwm' ∧
      cryptoTransferGetState cwm' 0 = .submitted) ∧
    (∃ cwm', cwmWalletEventAsBTC (sampleManager .BLOCK_CHAIN_TYPE_BTC sampleIncluded)
        sampleBTC 7 (.BITCOIN_WALLET_TRANSACTION_SUBMIT_FAILED 42 (.posix 5)) =
          .returned cwm' ∧
      cryptoTransferGetState cwm' 0 = .errored (.posix 5)) :=
  ⟨(signed_submitted_errored 2147483647 (sampleManager .BLOCK_CHAIN_TYPE_BTC .created)
      sampleBTC 7 42 _ 0 (by decide) rfl rfl rfl).1 rfl,
   (signed_submitted_errored 2147483647 (sampleManager .BLOCK_CHAIN_TYPE_BTC .signed)
      sampleBTC 7 42 _ 0 (by decide) rfl rfl rfl).2.1 (Or.inl rfl),
   (signed_submitted_errored 2147483647 (sampleManager .BLOCK_CHAIN_TYPE_BTC sampleIncluded)
      sampleBTC 7 42 _ 0 (by decide) rfl rfl rfl).2.2 (.posix 5)⟩

/-! ## C7: deletion -/

/-- C7 (the code departs from it): at the sample UTXO manager, whose transfer is Included,
the handler of BITCOIN_TRANSACTION_DELETED returns after announcing WalletTransferDeleted and
TransferDeleted and removing the transfer from the wallet, having stored no state: the
transfer is still Included, not Deleted.  The account-family handler of
TRANSFER_EVENT_DELETED, run on the same manager, does leave it Deleted. -/
theorem deleted_utxo_keeps_state :
    (∃ cwm', cwmTransactionEventAsBTC 2147483647
        (sampleManager .BLOCK_CHAIN_TYPE_BTC sampleIncluded) sampleBTC 7 42
        .BITCOIN_TRANSACTION_DELETED = .returned cwm' ∧
      newEvents (sampleManager .BLOCK_CHAIN_TYPE_BTC sampleIncluded) cwm' =
        [.walletEvent 7 (.CRYPTO_WALLET_EVENT_TRANSFER_DELETED 0),
         .transferEvent 7 0 .CRYPTO_TRANSFER_EVENT_DELETED] ∧
      cwm'.wallets.map (fun w => w.transfers) = [[]] ∧
      newStores (sampleManager .BLOCK_CHAIN_TYPE_BTC sampleIncluded) cwm' = [] ∧
      cryptoTransferGetState cwm' 0 = sampleIncluded) ∧
    (∃ cwm', cwmTransactionEventAsETH
        (sampleManager .BLOCK_CHAIN_TYPE_ETH sampleIncluded) sampleETH 7 42
        .TRANSFER_EVENT_DELETED = .returned cwm' ∧
      cryptoTransferGetState cwm' 0 = .deleted) :=
  ⟨⟨_, rfl, by decide, by decide, by decide, by decide⟩, ⟨_, rfl, by decide⟩⟩


/-! ## Lemmas for C4: what each handler does to the stored states -/

theorem stateAt_storeState_valid (store : List BRCryptoTransferRecord) (t0 t : Nat)
    (s : BRCryptoTransferState) (r : BRCryptoTransferRecord) (h : store[t0]? = some r) :
    stateAt (storeState store t0 s) t = if t0 = t then s else stateAt store t := by
  by_cases e : t0 = t
  · subst e
    simp [stateAt_storeState_same _ _ _ _ h]
  · simp [e, stateAt_storeState_ne _ _ _ _ e]

theorem stateAt_append_created (store : List BRCryptoTransferRecord) (t : Nat)
    (tid unit unitForFee : Nat) (feeBasis : Option BRCryptoFeeBasis) :
    stateAt (store ++ [⟨tid, unit, unitForFee, .created, feeBasis⟩]) t = stateAt store t := by
  unfold stateAt
  rcases Nat.lt_trichotomy t store.length with h | h | h
  · simp [List.getElem?_append_left h]
  · subst h
    simp
  · have h1 : store.length ≤ t := Nat.le_of_lt h
    rw [List.getElem?_append_right h1, List.getElem?_eq_none h1]
    have : t - store.length ≠ 0 := by omega
    cases hk : t - store.length with
    | zero => exact absurd hk this
    | succ k => simp

theorem transfers_walletManagerEventAsBTC (context : BRCryptoWalletManager)
    (btcManager : BRWalletManager) (event : BRWalletManagerEvent) :
    (cwmWalletManagerEventAsBTC context btcManager event).cwm.transfers =
      context.transfers := by
  unfold cwmWalletManagerEventAsBTC
  by_cases hLive : context.ref = 0
  · simp [cryptoWalletManagerTakeWeak, hLive, Outcome.cwm]
  · cases event <;>
    simp only [cryptoWalletManagerTakeWeak, if_neg hLive, finishManagerEvent] <;>
    (repeat' split) <;>
    simp [Outcome.cwm, ensureNative,
      cryptoWalletManagerGive, walletManagerEventCallback, walletEventCallback,
      cryptoWalletManagerTake, cryptoWalletManagerSetState, cryptoNetworkSetHeight]

theorem transfers_walletManagerEventAsETH (context : BRCryptoWalletManager)
    (ewm : BREthereumEWM) (event : BREthereumEWMEvent) :
    (cwmWalletManagerEventAsETH context ewm event).cwm.transfers = context.transfers := by
  unfold cwmWalletManagerEventAsETH
  by_cases hLive : context.ref = 0
  · simp [cryptoWalletManagerTakeWeak, hLive, Outcome.cwm]
  · cases event <;>
    simp only [cryptoWalletManagerTakeWeak, if_neg hLive, finishManagerEvent] <;>
    (repeat' split) <;>
    simp [Outcome.cwm, ensureNative,
      cryptoWalletManagerGive, walletManagerEventCallback, walletEventCallback,
      cryptoWalletManagerTake, cryptoWalletManagerSetState, cryptoNetworkSetHeight]

theorem transfers_walletEventAsETH (context : BRCryptoWalletManager)
    (ewm : BREthereumEWM) (wid : Nat) (event : BREthereumWalletEvent) :
    (cwmWalletEventAsETH context ewm wid event).cwm.transfers = context.transfers := by
  unfold cwmWalletEventAsETH
  by_cases hLive : context.ref = 0
  · simp [cryptoWalletManagerTakeWeak, hLive, Outcome.cwm]
  · simp only [cryptoWalletManagerTakeWeak, if_neg hLive]
    (repeat' split) <;>
    simp [Outcome.cwm, ensureNative,
      cryptoWalletManagerGive, walletManagerEventCallback, walletEventCallback,
      cryptoWalletManagerTake, cryptoWalletManagerAddWallet]
    (repeat' split) <;>
    simp [Outcome.cwm]

theorem transfers_peerEventAsETH (context : BRCryptoWalletManager) (ewm : BREthereumEWM) :
    (cwmPeerEventAsETH context ewm).cwm.transfers = context.transfers := by
  by_cases hLive : context.ref = 0 <;>
  simp [cwmPeerEventAsETH, cryptoWalletManagerTakeWeak, hLive, Outcome.cwm, ensureNative,
    cryptoWalletManagerGive]

theorem transfers_eventTokenAsETH (context : BRCryptoWalletManager) (ewm : BREthereumEWM)
    (token : Nat) (event : BREthereumTokenEvent) :
    (cwmEventTokenAsETH context ewm token event).cwm.transfers = context.transfers := by
  by_cases hLive : context.ref = 0 <;>
  simp [cwmEventTokenAsETH, cryptoWalletManagerTakeWeak, hLive, Outcome.cwm, ensureNative,
    cryptoWalletManagerGive]

theorem afterIncluded_of_transfers_eq (TX_UNCONFIRMED : Nat) (event : BackendEvent)
    (context : BRCryptoWalletManager) (out : Outcome)
    (h : out.cwm.transfers = context.transfers) (cwm' : BRCryptoWalletManager) (t : Nat)
    (hOut : out = .returned cwm')
    (hInc : (cryptoTransferGetState context t).type = .CRYPTO_TRANSFER_STATE_INCLUDED) :
    AfterIncluded TX_UNCONFIRMED event (cryptoTransferGetState cwm' t) := by
  subst hOut
  left
  simp only [Outcome.cwm] at h
  simpa [cryptoTransferGetState, h] using hInc


theorem afterIncluded_transactionEventAsBTC (TX_UNCONFIRMED : Nat)
    (context : BRCryptoWalletManager) (btcManager : BRWalletManager)
    (btcWallet btcTransaction : Nat) (event : BRTransactionEvent)
    (cwm' : BRCryptoWalletManager) (t : Nat)
    (hOut : cwmTransactionEventAsBTC TX_UNCONFIRMED context btcManager btcWallet
      btcTransaction event = .returned cwm')
    (hInc : (cryptoTransferGetState context t).type = .CRYPTO_TRANSFER_STATE_INCLUDED) :
    AfterIncluded TX_UNCONFIRMED
      (.transactionEventAsBTC btcManager btcWallet btcTransaction event)
      (cryptoTransferGetState cwm' t) := by
  unfold AfterIncluded
  simp only [cryptoTransferGetState] at hInc ⊢
  by_cases hLive : context.ref = 0
  · simp [cwmTransactionEventAsBTC, cryptoWalletManagerTakeWeak, hLive] at hOut
    subst hOut
    exact Or.inl hInc
  by_cases hType : context.type = .BLOCK_CHAIN_TYPE_BTC
  swap
  · simp [cwmTransactionEventAsBTC, cryptoWalletManagerTakeWeak, hLive, hType, ensureNative]
      at hOut
  cases hW : context.wallets.find? (fun w => w.wid == btcWallet) with
  | none =>
    simp [cwmTransactionEventAsBTC, cryptoWalletManagerTakeWeak, hLive, hType, ensureNative,
      cryptoWalletManagerFindWalletAsBTC, hW] at hOut
  | some wallet =>
    have hw := findWallet_wid _ _ _ hW
    cases hT : findTransfer context.wallets context.transfers btcWallet btcTransaction with
    | none =>
      cases event <;>
      simp [cwmTransactionEventAsBTC, cryptoWalletManagerTakeWeak, hLive, hType, ensureNative,
        cryptoWalletManagerFindWalletAsBTC, cryptoWalletFindTransferAsBTC, hW, hw, hT,
        cryptoTransferCreate, cryptoWalletManagerGive, transferEventCallback,
        walletEventCallback, cryptoWalletManagerTake, cryptoWalletAddTransfer] at hOut <;>
      subst hOut <;>
      left <;>
      simpa [stateAt_append_created] using hInc
    | some t0 =>
      obtain ⟨r, hr, _⟩ := findTransfer_some _ _ _ _ _ hT
      cases event <;>
      simp only [cwmTransactionEventAsBTC, cryptoWalletManagerTakeWeak, if_neg hLive, hType,
        ensureNative, cryptoWalletManagerFindWalletAsBTC, cryptoWalletFindTransferAsBTC, hW,
        hw, hT, ne_eq, not_true_eq_false, if_false] at hOut <;>
      (try split_ifs at hOut) <;>
      (try cases hOut) <;>
      simp only [cryptoWalletManagerGive, transferEventCallback, walletEventCallback,
        cryptoWalletManagerTake, cryptoTransferSetState, cryptoWalletRemTransfer,
        stateAt_storeState_valid _ _ _ _ _ hr, cryptoTransferStateInit,
        cryptoTransferStateIncludedInit, BackendEvent.reportsSigned,
        BackendEvent.reportsSubmitted] <;>
      (try split_ifs) <;>
      simp_all [BRCryptoTransferState.type, unconfirmed, cryptoTransferGetState] <;>
      omega


theorem afterIncluded_walletEventAsBTC (TX_UNCONFIRMED : Nat)
    (context : BRCryptoWalletManager) (btcManager : BRWalletManager)
    (btcWallet : Nat) (event : BRWalletEvent)
    (cwm' : BRCryptoWalletManager) (t : Nat)
    (hOut : cwmWalletEventAsBTC context btcManager btcWallet event = .returned cwm')
    (hInc : (cryptoTransferGetState context t).type = .CRYPTO_TRANSFER_STATE_INCLUDED) :
    AfterIncluded TX_UNCONFIRMED (.walletEventAsBTC btcManager btcWallet event)
      (cryptoTransferGetState cwm' t) := by
  unfold AfterIncluded
  simp only [cryptoTransferGetState] at hInc ⊢
  by_cases hLive : context.ref = 0
  · simp [cwmWalletEventAsBTC, cryptoWalletManagerTakeWeak, hLive] at hOut
    subst hOut
    exact Or.inl hInc
  by_cases hType : context.type = .BLOCK_CHAIN_TYPE_BTC
  swap
  · simp [cwmWalletEventAsBTC, cryptoWalletManagerTakeWeak, hLive, hType, ensureNative]
      at hOut
  cases hW : context.wallets.find? (fun w => w.wid == btcWallet) with
  | none =>
    simp [cwmWalletEventAsBTC, cryptoWalletManagerTakeWeak, hLive, hType, ensureNative,
      cryptoWalletManagerFindWalletAsBTC, hW] at hOut
  | some wallet =>
    have hw := findWallet_wid _ _ _ hW
    have found : ∀ transaction,
        (∃ t0 r, findTransfer context.wallets context.transfers btcWallet transaction =
            some t0 ∧ context.transfers[t0]? = some r) ∨
        findTransfer context.wallets context.transfers btcWallet transaction = none := by
      intro transaction
      cases hT : findTransfer context.wallets context.transfers btcWallet transaction with
      | none => exact Or.inr rfl
      | some t0 =>
        obtain ⟨r, hr, _⟩ := findTransfer_some _ _ _ _ _ hT
        exact Or.inl ⟨t0, r, rfl, hr⟩
    cases event with
    | BITCOIN_WALLET_TRANSACTION_SUBMIT_SUCCEEDED transaction =>
      rcases found transaction with ⟨t0, r, hT, hr⟩ | hT
      · simp only [cwmWalletEventAsBTC, cryptoWalletManagerTakeWeak, if_neg hLive, hType,
          ensureNative, cryptoWalletManagerFindWalletAsBTC, cryptoWalletFindTransferAsBTC, hW,
          hw, hT, ne_eq, not_true_eq_false, if_false] at hOut
        split_ifs at hOut <;>
        cases hOut <;>
        simp only [cryptoWalletManagerGive, transferEventCallback,
          cryptoWalletManagerTake, cryptoTransferSetState,
          stateAt_storeState_valid _ _ _ _ _ hr, cryptoTransferStateInit,
          BackendEvent.reportsSigned, BackendEvent.reportsSubmitted] <;>
        split_ifs <;>
        simp_all [BRCryptoTransferState.type]
      · simp [cwmWalletEventAsBTC, cryptoWalletManagerTakeWeak, hLive, hType,
          ensureNative, cryptoWalletManagerFindWalletAsBTC, cryptoWalletFindTransferAsBTC, hW,
          hw, hT] at hOut
    | BITCOIN_WALLET_TRANSACTION_SUBMIT_FAILED transaction error =>
      rcases found transaction with ⟨t0, r, hT, hr⟩ | hT
      · simp only [cwmWalletEventAsBTC, cryptoWalletManagerTakeWeak, if_neg hLive, hType,
          ensureNative, cryptoWalletManagerFindWalletAsBTC, cryptoWalletFindTransferAsBTC, hW,
          hw, hT, ne_eq, not_true_eq_false, if_false] at hOut
        cases hOut
        simp only [cryptoWalletManagerGive, transferEventCallback,
          cryptoWalletManagerTake, cryptoTransferSetState,
          stateAt_storeState_valid _ _ _ _ _ hr, cryptoTransferStateErroredInit]
        split_ifs <;>
        simp_all [BRCryptoTransferState.type]
      · simp [cwmWalletEventAsBTC, cryptoWalletManagerTakeWeak, hLive, hType,
          ensureNative, cryptoWalletManagerFindWalletAsBTC, cryptoWalletFindTransferAsBTC, hW,
          hw, hT] at hOut
    | _ =>
      simp only [cwmWalletEventAsBTC, cryptoWalletManagerTakeWeak, if_neg hLive, hType,
        ensureNative, cryptoWalletManagerFindWalletAsBTC, hW, hw, ne_eq, not_true_eq_false,
        if_false] at hOut
      (try split_ifs at hOut) <;>
      cases hOut <;>
      left <;>
      simpa [cryptoWalletManagerGive, walletManagerEventCallback, walletEventCallback,
        cryptoWalletManagerTake, cryptoWalletManagerRemWallet] using hInc

theorem afterIncluded_transactionEventAsETH (TX_UNCONFIRMED : Nat)
    (context : BRCryptoWalletManager) (ewm : BREthereumEWM)
    (wid tid : Nat) (event : BREthereumTransferEvent)
    (cwm' : BRCryptoWalletManager) (t : Nat)
    (hOut : cwmTransactionEventAsETH context ewm wid tid event = .returned cwm')
    (hInc : (cryptoTransferGetState context t).type = .CRYPTO_TRANSFER_STATE_INCLUDED) :
    AfterIncluded TX_UNCONFIRMED (.transactionEventAsETH ewm wid tid event)
      (cryptoTransferGetState cwm' t) := by
  unfold AfterIncluded
  simp only [cryptoTransferGetState] at hInc ⊢
  by_cases hLive : context.ref = 0
  · simp [cwmTransactionEventAsETH, cryptoWalletManagerTakeWeak, hLive] at hOut
    subst hOut
    exact Or.inl hInc
  cases hW : context.wallets.find? (fun w => w.wid == wid) with
  | none =>
    simp [cwmTransactionEventAsETH, cryptoWalletManagerTakeWeak, hLive, ensureNative,
      cryptoWalletManagerFindWalletAsETH, hW] at hOut
    subst hOut
    exact Or.inl hInc
  | some wallet =>
    have hw := findWallet_wid _ _ _ hW
    cases hT : findTransfer context.wallets context.transfers wid tid with
    | none =>
      cases event <;>
      simp [cwmTransactionEventAsETH, cryptoWalletManagerTakeWeak, hLive, ensureNative,
        cryptoWalletManagerFindWalletAsETH, cryptoWalletFindTransferAsETH, hW, hw, hT,
        cryptoTransferCreate, cryptoWalletManagerGive, transferEventCallback,
        walletEventCallback, cryptoWalletManagerTake, cryptoWalletAddTransfer] at hOut
      subst hOut
      left
      simpa [stateAt_append_created] using hInc
    | some t0 =>
      obtain ⟨r, hr, _⟩ := findTransfer_some _ _ _ _ _ hT
      cases event <;>
      simp only [cwmTransactionEventAsETH, cryptoWalletManagerTakeWeak, if_neg hLive,
        ensureNative, cryptoWalletManagerFindWalletAsETH, cryptoWalletFindTransferAsETH, hW,
        hw, hT] at hOut <;>
      cases hOut <;>
      simp only [cryptoWalletManagerGive, transferEventCallback, walletEventCallback,
        cryptoWalletManagerTake, cryptoTransferSetState, cryptoWalletRemTransfer,
        stateAt_storeState_valid _ _ _ _ _ hr, cryptoTransferStateInit,
        cryptoTransferStateIncludedInit, cryptoTransferStateErroredInit,
        BackendEvent.reportsSigned, BackendEvent.reportsSubmitted] <;>
      (try split_ifs) <;>
      simp_all [BRCryptoTransferState.type]

/-! ## C4: what may follow Included -/

/-- C4 (as amended): once a transfer's state is Included, every backend event handled by the
bridge (all event handlers of the UTXO and account families) that returns leaves its state
Included (possibly with other confirmation data), Errored or Deleted, with these exceptions:
an unconfirmed "updated", a UTXO "submit succeeded" and an account-family "submitted" event
may leave it Submitted, and a "signed" event may leave it Signed. -/
theorem included_followed_by (TX_UNCONFIRMED : Nat) (context : BRCryptoWalletManager)
    (event : BackendEvent) (cwm' : BRCryptoWalletManager) (t : Nat)
    (hOut : handleBackendEvent TX_UNCONFIRMED context event = .returned cwm')
    (hInc : (cryptoTransferGetState context t).type = .CRYPTO_TRANSFER_STATE_INCLUDED) :
    AfterIncluded TX_UNCONFIRMED event (cryptoTransferGetState cwm' t) := by
  cases event with
  | walletManagerEventAsBTC btcManager event =>
    exact afterIncluded_of_transfers_eq _ _ _ _
      (transfers_walletManagerEventAsBTC context btcManager event) _ _ hOut hInc
  | walletEventAsBTC btcManager btcWallet event =>
    exact afterIncluded_walletEventAsBTC _ _ _ _ _ _ _ hOut hInc
  | transactionEventAsBTC btcManager btcWallet btcTransaction event =>
    exact afterIncluded_transactionEventAsBTC _ _ _ _ _ _ _ _ hOut hInc
  | walletManagerEventAsETH ewm event =>
    exact afterIncluded_of_transfers_eq _ _ _ _
      (transfers_walletManagerEventAsETH context ewm event) _ _ hOut hInc
  | peerEventAsETH ewm =>
    exact afterIncluded_of_transfers_eq _ _ _ _
      (transfers_peerEventAsETH context ewm) _ _ hOut hInc
  | walletEventAsETH ewm wid event =>
    exact afterIncluded_of_transfers_eq _ _ _ _
      (transfers_walletEventAsETH context ewm wid event) _ _ hOut hInc
  | eventTokenAsETH ewm token event =>
    exact afterIncluded_of_transfers_eq _ _ _ _
      (transfers_eventTokenAsETH context ewm token event) _ _ hOut hInc
  | transactionEventAsETH ewm wid tid event =>
    exact afterIncluded_transactionEventAsETH _ _ _ _ _ _ _ _ hOut hInc

/-- The amended C4 at the sample manager, for the account-family "errored" event. -/
theorem included_followed_by_witness :
    AfterIncluded 2147483647 (.transactionEventAsETH sampleETH 7 42 .TRANSFER_EVENT_ERRORED)
      (.errored .unknown) :=
  included_followed_by 2147483647 (sampleManager .BLOCK_CHAIN_TYPE_ETH sampleIncluded)
    (.transactionEventAsETH sampleETH 7 42 .TRANSFER_EVENT_ERRORED)
    (handleBackendEvent 2147483647 (sampleManager .BLOCK_CHAIN_TYPE_ETH sampleIncluded)
      (.transactionEventAsETH sampleETH 7 42 .TRANSFER_EVENT_ERRORED)).cwm 0
    (by decide) (by decide)

/-- C4 as stated fails: at the sample managers, whose transfer is Included, the UTXO "submit
succeeded" event leaves the transfer Submitted, the UTXO and the account-family "signed"
events leave it Signed and the account-family "submitted" event leaves it Submitted; none
of them is an "updated" event. -/
theorem included_regresses_counterexample :
    (cryptoTransferGetState (sampleManager .BLOCK_CHAIN_TYPE_BTC sampleIncluded) 0).type =
      .CRYPTO_TRANSFER_STATE_INCLUDED ∧
    (∃ cwm', cwmWalletEventAsBTC (sampleManager .BLOCK_CHAIN_TYPE_BTC sampleIncluded) sampleBTC
        7 (.BITCOIN_WALLET_TRANSACTION_SUBMIT_SUCCEEDED 42) = .returned cwm' ∧
      cryptoTransferGetState cwm' 0 = .submitted) ∧
    (∃ cwm', cwmTransactionEventAsBTC 2147483647
        (sampleManager .BLOCK_CHAIN_TYPE_BTC sampleIncluded) sampleBTC 7 42
        .BITCOIN_TRANSACTION_SIGNED = .returned cwm' ∧
      cryptoTransferGetState cwm' 0 = .signed) ∧
    (∃ cwm', cwmTransactionEventAsETH (sampleManager .BLOCK_CHAIN_TYPE_ETH sampleIncluded)
        sampleETH 7 42 .TRANSFER_EVENT_SIGNED = .returned cwm' ∧
      cryptoTransferGetState cwm' 0 = .signed) ∧
    (∃ cwm', cwmTransactionEventAsETH (sampleManager .BLOCK_CHAIN_TYPE_ETH sampleIncluded)
        sampleETH 7 42 .TRANSFER_EVENT_SUBMITTED = .returned cwm' ∧
      cryptoTransferGetState cwm' 0 = .submitted) :=
  ⟨by decide, ⟨_, rfl, by decide⟩, ⟨_, rfl, by decide⟩, ⟨_, rfl, by decide⟩,
    ⟨_, rfl, by decide⟩⟩


/-! ## Lemmas on a wallet list and on a new transfer -/

theorem mem_modifyWallet (wid : Nat) (f : BRCryptoWalletRecord → BRCryptoWalletRecord)
    (ws : List BRCryptoWalletRecord) (w' : BRCryptoWalletRecord)
    (h : w' ∈ modifyWallet wid f ws) :
    w' ∈ ws ∨ ∃ w, ws.find? (fun w => w.wid == wid) = some w ∧ w' = f w := by
  induction ws with
  | nil => simp [modifyWallet] at h
  | cons a as ih =>
    by_cases e : a.wid = wid
    · simp only [modifyWallet, e, beq_self_eq_true, if_true, List.mem_cons] at h
      rcases h with h | h
      · right
        exact ⟨a, by simp [List.find?, e], h⟩
      · left
        exact List.mem_cons_of_mem _ h
    · have e' : (a.wid == wid) = false := by simpa using e
      simp only [modifyWallet, e', Bool.false_eq_true, if_false, List.mem_cons] at h
      rcases h with h | h
      · left
        rw [h]
        exact List.mem_cons_self _ _
      · rcases ih h with h | ⟨w, hw, hw'⟩
        · left
          exact List.mem_cons_of_mem _ h
        · right
          exact ⟨w, by simpa [List.find?, e'] using hw, hw'⟩

theorem find_modifyWallet (wid : Nat) (f : BRCryptoWalletRecord → BRCryptoWalletRecord)
    (hf : ∀ w, (f w).wid = w.wid) (ws : List BRCryptoWalletRecord) (w : BRCryptoWalletRecord)
    (h : ws.find? (fun w => w.wid == wid) = some w) :
    (modifyWallet wid f ws).find? (fun w => w.wid == wid) = some (f w) := by
  induction ws with
  | nil => simp at h
  | cons a as ih =>
    by_cases e : a.wid = wid
    · simp only [List.find?, e, beq_self_eq_true] at h
      cases h
      simp [modifyWallet, e, List.find?, hf]
    · have e' : (a.wid == wid) = false := by simpa using e
      simp only [List.find?, e'] at h
      simp [modifyWallet, e', List.find?, ih h]

theorem nativeId_append_of_lt (store : List BRCryptoTransferRecord)
    (r : BRCryptoTransferRecord) (t : Nat) (h : t < store.length) :
    nativeId (store ++ [r]) t = nativeId store t := by
  simp [nativeId, List.getElem?_append_left h]

theorem transferHas_append_of_lt (store : List BRCryptoTransferRecord)
    (r : BRCryptoTransferRecord) (tid t : Nat) (h : t < store.length) :
    transferHas (store ++ [r]) tid t = transferHas store tid t := by
  simp [transferHas, List.getElem?_append_left h]

theorem transferHas_eq_false_iff (store : List BRCryptoTransferRecord) (tid t : Nat) :
    transferHas store tid t = false ↔ nativeId store t ≠ some tid := by
  unfold transferHas nativeId
  cases store[t]? <;> simp

theorem findTransfer_none (wallets : List BRCryptoWalletRecord)
    (store : List BRCryptoTransferRecord) (wallet tid : Nat) (w : BRCryptoWalletRecord)
    (hW : wallets.find? (fun w => w.wid == wallet) = some w)
    (h : findTransfer wallets store wallet tid = none) :
    ∀ t ∈ w.transfers, transferHas store tid t = false := by
  simp only [findTransfer, hW] at h
  intro t ht
  have := List.find?_eq_none.1 h t ht
  simpa using this

/-- Adding a transfer for a native transaction that the wallet does not hold keeps every
address valid and the native identities of every wallet distinct. -/
theorem addTransfer_invariant (ws : List BRCryptoWalletRecord)
    (store : List BRCryptoTransferRecord) (wid tid : Nat) (r : BRCryptoTransferRecord)
    (w0 : BRCryptoWalletRecord) (hr : r.tid = tid)
    (hV : ∀ w ∈ ws, ∀ t ∈ w.transfers, t < store.length)
    (hN : ∀ w ∈ ws, (w.transfers.map (nativeId store)).Nodup)
    (hW : ws.find? (fun w => w.wid == wid) = some w0)
    (hT : findTransfer ws store wid tid = none) :
    (∀ w ∈ modifyWallet wid (addTransfer store.length) ws,
      ∀ t ∈ w.transfers, t < (store ++ [r]).length) ∧
    (∀ w ∈ modifyWallet wid (addTransfer store.length) ws,
      (w.transfers.map (nativeId (store ++ [r]))).Nodup) := by
  have hw0 : w0 ∈ ws := List.mem_of_find?_eq_some hW
  have hfresh : store.length ∉ w0.transfers := fun h => Nat.lt_irrefl _ (hV w0 hw0 _ h)
  have hadd : addTransfer store.length w0 =
      { w0 with transfers := w0.transfers ++ [store.length] } := by
    simp [addTransfer, hfresh]
  have hmap : ∀ w ∈ ws, w.transfers.map (nativeId (store ++ [r])) =
      w.transfers.map (nativeId store) := by
    intro w hw
    apply List.map_congr_left
    intro t ht
    exact nativeId_append_of_lt _ _ _ (hV w hw t ht)
  constructor
  · intro w hw t ht
    rcases mem_modifyWallet _ _ _ _ hw with h | ⟨w1, hw1, rfl⟩
    · have := hV w h t ht
      simp only [List.length_append, List.length_singleton]
      omega
    · rw [hW] at hw1
      cases hw1
      rw [hadd] at ht
      simp only [List.mem_append, List.mem_singleton] at ht
      simp only [List.length_append, List.length_singleton]
      rcases ht with ht | ht
      · have := hV w0 hw0 t ht
        omega
      · omega
  · intro w hw
    rcases mem_modifyWallet _ _ _ _ hw with h | ⟨w1, hw1, rfl⟩
    · rw [hmap w h]
      exact hN w h
    · rw [hW] at hw1
      cases hw1
      rw [hadd]
      simp only [List.map_append, List.map_cons, List.map_nil]
      rw [hmap w0 hw0]
      have hnew : nativeId (store ++ [r]) store.length = some tid := by
        simp [nativeId, hr]
      rw [hnew]
      apply List.Nodup.append (hN w0 hw0) (List.nodup_singleton _)
      intro x hx hx'
      simp only [List.mem_singleton] at hx'
      subst hx'
      obtain ⟨t, ht, hta⟩ := List.mem_map.1 hx
      have := findTransfer_none _ _ _ _ _ hW hT t ht
      exact (transferHas_eq_false_iff _ _ _).1 this hta


theorem addTransfer_wid (transfer : Nat) (w : BRCryptoWalletRecord) :
    (addTransfer transfer w).wid = w.wid := by
  unfold addTransfer
  split <;> rfl

/-- What the UTXO handler does with a "created" or "added" event for a native transaction
that the wallet does not hold yet. -/
theorem cwmTransactionEventAsBTC_new (TX_UNCONFIRMED : Nat)
    (context : BRCryptoWalletManager) (btcManager : BRWalletManager)
    (btcWallet btcTransaction : Nat) (event : BRTransactionEvent)
    (wallet : BRCryptoWalletRecord)
    (hLive : context.ref ≠ 0)
    (hType : context.type = .BLOCK_CHAIN_TYPE_BTC)
    (hWallet : cryptoWalletManagerFindWalletAsBTC context btcWallet = some wallet)
    (hTransfer : cryptoWalletFindTransferAsBTC context btcWallet btcTransaction = none)
    (hEvent : event = .BITCOIN_TRANSACTION_CREATED ∨ event = .BITCOIN_TRANSACTION_ADDED) :
    ∃ cwm', cwmTransactionEventAsBTC TX_UNCONFIRMED context btcManager btcWallet
        btcTransaction event = .returned cwm' ∧
      cwm'.transfers = context.transfers ++
        [⟨btcTransaction, wallet.unit, wallet.unitForFee, .created,
          btcManager.transactionFeeBasis btcTransaction⟩] ∧
      cwm'.wallets =
        modifyWallet btcWallet (addTransfer context.transfers.length) context.wallets ∧
      cwm'.events = context.events ++
        [⟨.transferEvent btcWallet context.transfers.length .CRYPTO_TRANSFER_EVENT_CREATED,
            context.wallets⟩,
         ⟨.walletEvent btcWallet
            (.CRYPTO_WALLET_EVENT_TRANSFER_ADDED context.transfers.length), cwm'.wallets⟩] ∧
      cwm'.ref = context.ref + 2 ∧ cwm'.type = context.type := by
  simp only [cryptoWalletManagerFindWalletAsBTC, cryptoWalletFindTransferAsBTC]
    at hWallet hTransfer
  have hw := findWallet_wid _ _ _ hWallet
  rcases hEvent with rfl | rfl <;>
  simp [cwmTransactionEventAsBTC, cryptoWalletManagerTakeWeak, hLive, hType, ensureNative,
    cryptoWalletManagerFindWalletAsBTC, cryptoWalletFindTransferAsBTC, hWallet, hw, hTransfer,
    cryptoTransferCreate, cryptoWalletManagerGive, transferEventCallback,
    walletEventCallback, cryptoWalletManagerTake, cryptoWalletAddTransfer]

/-- What the account-family handler does with a "created" event for a native transfer that
the wallet does not hold yet. -/
theorem cwmTransactionEventAsETH_new (context : BRCryptoWalletManager) (ewm : BREthereumEWM)
    (wid tid : Nat) (wallet : BRCryptoWalletRecord)
    (hLive : context.ref ≠ 0)
    (hWallet : cryptoWalletManagerFindWalletAsETH context wid = some wallet)
    (hTransfer : cryptoWalletFindTransferAsETH context wid tid = none) :
    ∃ cwm', cwmTransactionEventAsETH context ewm wid tid .TRANSFER_EVENT_CREATED =
        .returned cwm' ∧
      cwm'.transfers = context.transfers ++
        [⟨tid, wallet.unit, wallet.unitForFee, .created, none⟩] ∧
      cwm'.wallets = modifyWallet wid (addTransfer context.transfers.length) context.wallets ∧
      cwm'.events = context.events ++
        [⟨.transferEvent wid context.transfers.length .CRYPTO_TRANSFER_EVENT_CREATED,
            context.wallets⟩,
         ⟨.walletEvent wid (.CRYPTO_WALLET_EVENT_TRANSFER_ADDED context.transfers.length),
            cwm'.wallets⟩,
         ⟨.walletEvent wid
            (.CRYPTO_WALLET_EVENT_BALANCE_UPDATED (cryptoWalletGetBalance cwm' wid)),
            cwm'.wallets⟩] ∧
      cwm'.ref = context.ref + 3 ∧ cwm'.type = context.type := by
  simp only [cryptoWalletManagerFindWalletAsETH, cryptoWalletFindTransferAsETH]
    at hWallet hTransfer
  have hw := findWallet_wid _ _ _ hWallet
  simp [cwmTransactionEventAsETH, cryptoWalletManagerTakeWeak, hLive, ensureNative,
    cryptoWalletManagerFindWalletAsETH, cryptoWalletFindTransferAsETH, hWallet, hw, hTransfer,
    cryptoTransferCreate, cryptoWalletManagerGive, transferEventCallback,
    walletEventCallback, cryptoWalletManagerTake, cryptoWalletAddTransfer,
    cryptoWalletGetBalance]


/-- After a transfer for `tid` was added at the next free address to a wallet that held none
for `tid`, the lookup by native identity finds it, and it is the only one. -/
theorem findTransfer_after_add (ws : List BRCryptoWalletRecord)
    (store : List BRCryptoTransferRecord) (wid tid : Nat) (r : BRCryptoTransferRecord)
    (w0 : BRCryptoWalletRecord) (hr : r.tid = tid)
    (hV : ∀ w ∈ ws, ∀ t ∈ w.transfers, t < store.length)
    (hW : ws.find? (fun w => w.wid == wid) = some w0)
    (hT : findTransfer ws store wid tid = none) :
    (modifyWallet wid (addTransfer store.length) ws).find? (fun w => w.wid == wid) =
      some { w0 with transfers := w0.transfers ++ [store.length] } ∧
    findTransfer (modifyWallet wid (addTransfer store.length) ws) (store ++ [r]) wid tid =
      some store.length ∧
    (w0.transfers ++ [store.length]).filter (transferHas (store ++ [r]) tid) =
      [store.length] := by
  have hw0 : w0 ∈ ws := List.mem_of_find?_eq_some hW
  have hfresh : store.length ∉ w0.transfers := fun h => Nat.lt_irrefl _ (hV w0 hw0 _ h)
  have hadd : addTransfer store.length w0 =
      { w0 with transfers := w0.transfers ++ [store.length] } := by
    simp [addTransfer, hfresh]
  have hfind := find_modifyWallet wid (addTransfer store.length) (addTransfer_wid _) ws w0 hW
  rw [hadd] at hfind
  have hold : ∀ t ∈ w0.transfers, transferHas (store ++ [r]) tid t = false := by
    intro t ht
    rw [transferHas_append_of_lt _ _ _ _ (hV w0 hw0 t ht)]
    exact findTransfer_none _ _ _ _ _ hW hT t ht
  have hnew : transferHas (store ++ [r]) tid store.length = true := by
    simp [transferHas, hr]
  refine ⟨hfind, ?_, ?_⟩
  · simp only [findTransfer, hfind, List.find?_append]
    have : w0.transfers.find? (transferHas (store ++ [r]) tid) = none :=
      List.find?_eq_none.2 (fun t ht => by simp [hold t ht])
    simp [this, List.find?, hnew]
  · rw [List.filter_append]
    have : w0.transfers.filter (transferHas (store ++ [r]) tid) = [] :=
      List.filter_eq_nil_iff.2 (fun t ht => by simp [hold t ht])
    simp [this, List.filter, hnew]

/-! ## C9: manager creation ordering -/

/-- C9: on the backend's manager-created event (BITCOIN_WALLET_MANAGER_CREATED for a UTXO
manager, EWM_EVENT_CREATED) with a live manager in which the native manager's wallet is
found, the handler returns and the listener receives exactly three events, in this order and
with nothing in between or after: ManagerCreated, WalletCreated for the primary wallet
(`cwm->wallet`), ManagerWalletAdded for the primary wallet. -/
theorem manager_created_ordering (context : BRCryptoWalletManager)
    (hLive : context.ref ≠ 0) :
    (∀ (btcManager : BRWalletManager) (wallet : BRCryptoWalletRecord),
      context.type = .BLOCK_CHAIN_TYPE_BTC →
      cryptoWalletManagerFindWalletAsBTC context btcManager.wallet = some wallet →
      ∃ cwm', cwmWalletManagerEventAsBTC context btcManager .BITCOIN_WALLET_MANAGER_CREATED =
          .returned cwm' ∧
        cwm'.events.map (fun c => c.event) = context.events.map (fun c => c.event) ++
          [.walletManagerEvent .CRYPTO_WALLET_MANAGER_EVENT_CREATED,
           .walletEvent context.wallet .CRYPTO_WALLET_EVENT_CREATED,
           .walletManagerEvent (.CRYPTO_WALLET_MANAGER_EVENT_WALLET_ADDED context.wallet)]) ∧
    (∀ (ewm : BREthereumEWM) (wallet : BRCryptoWalletRecord),
      cryptoWalletManagerFindWalletAsETH context ewm.wallet = some wallet →
      ∃ cwm', cwmWalletManagerEventAsETH context ewm .EWM_EVENT_CREATED = .returned cwm' ∧
        cwm'.events.map (fun c => c.event) = context.events.map (fun c => c.event) ++
          [.walletManagerEvent .CRYPTO_WALLET_MANAGER_EVENT_CREATED,
           .walletEvent context.wallet .CRYPTO_WALLET_EVENT_CREATED,
           .walletManagerEvent (.CRYPTO_WALLET_MANAGER_EVENT_WALLET_ADDED context.wallet)]) := by
  constructor
  · intro btcManager wallet hType hWallet
    simp only [cryptoWalletManagerFindWalletAsBTC] at hWallet
    simp [cwmWalletManagerEventAsBTC, cryptoWalletManagerTakeWeak, hLive, hType, ensureNative,
      cryptoWalletManagerFindWalletAsBTC, hWallet, finishManagerEvent,
      cryptoWalletManagerGive, walletManagerEventCallback, walletEventCallback,
      cryptoWalletManagerTake]
  · intro ewm wallet hWallet
    simp only [cryptoWalletManagerFindWalletAsETH] at hWallet
    simp [cwmWalletManagerEventAsETH, cryptoWalletManagerTakeWeak, hLive, ensureNative,
      cryptoWalletManagerFindWalletAsETH, hWallet, finishManagerEvent,
      cryptoWalletManagerGive, walletManagerEventCallback, walletEventCallback,
      cryptoWalletManagerTake]

/-- C9 at the sample managers of the two families. -/
theorem manager_created_ordering_witness :
    (∃ cwm', cwmWalletManagerEventAsBTC (sampleManager .BLOCK_CHAIN_TYPE_BTC .created)
        sampleBTC .BITCOIN_WALLET_MANAGER_CREATED = .returned cwm' ∧
      cwm'.events.map (fun c => c.event) =
        [.walletManagerEvent .CRYPTO_WALLET_MANAGER_EVENT_CREATED,
         .walletEvent 7 .CRYPTO_WALLET_EVENT_CREATED,
         .walletManagerEvent (.CRYPTO_WALLET_MANAGER_EVENT_WALLET_ADDED 7)]) ∧
    (∃ cwm', cwmWalletManagerEventAsETH (sampleManager .BLOCK_CHAIN_TYPE_ETH .created)
        sampleETH .EWM_EVENT_CREATED = .returned cwm' ∧
      cwm'.events.map (fun c => c.event) =
        [.walletManagerEvent .CRYPTO_WALLET_MANAGER_EVENT_CREATED,
         .walletEvent 7 .CRYPTO_WALLET_EVENT_CREATED,
         .walletManagerEvent (.CRYPTO_WALLET_MANAGER_EVENT_WALLET_ADDED 7)]) :=
  ⟨(manager_created_ordering (sampleManager .BLOCK_CHAIN_TYPE_BTC .created) (by decide)).1
      sampleBTC _ rfl rfl,
   (manager_created_ordering (sampleManager .BLOCK_CHAIN_TYPE_ETH .created) (by decide)).2
      sampleETH _ rfl⟩


/-! ## C10: new transfer ordering -/

/-- C10: when a backend event (BITCOIN_TRANSACTION_CREATED, BITCOIN_TRANSACTION_ADDED,
TRANSFER_EVENT_CREATED) reveals a native transaction for which the wallet of the live manager
holds no transfer, the handler returns having created a transfer in state Created for it,
and the listener receives: TransferCreated, during which no wallet of the manager contains
the transfer; then, the transfer now being in the wallet's Transfer set, WalletTransferAdded
for it; then, in the account family, one WalletBalanceUpdated, and in the UTXO family nothing
further. -/
theorem new_transfer_ordering (TX_UNCONFIRMED : Nat) (context : BRCryptoWalletManager)
    (wallet : BRCryptoWalletRecord) (hLive : context.ref ≠ 0)
    (hValid : TransfersValid context) :
    (∀ (btcManager : BRWalletManager) (btcWallet btcTransaction : Nat)
        (event : BRTransactionEvent),
      context.type = .BLOCK_CHAIN_TYPE_BTC →
      cryptoWalletManagerFindWalletAsBTC context btcWallet = some wallet →
      cryptoWalletFindTransferAsBTC context btcWallet btcTransaction = none →
      event = .BITCOIN_TRANSACTION_CREATED ∨ event = .BITCOIN_TRANSACTION_ADDED →
      ∃ cwm' wallet', cwmTransactionEventAsBTC TX_UNCONFIRMED context btcManager btcWallet
          btcTransaction event = .returned cwm' ∧
        nativeId cwm'.transfers context.transfers.length = some btcTransaction ∧
        cryptoTransferGetState cwm' context.transfers.length = .created ∧
        cwm'.events = context.events ++
          [⟨.transferEvent btcWallet context.transfers.length .CRYPTO_TRANSFER_EVENT_CREATED,
              context.wallets⟩,
           ⟨.walletEvent btcWallet
              (.CRYPTO_WALLET_EVENT_TRANSFER_ADDED context.transfers.length),
              cwm'.wallets⟩] ∧
        (∀ w ∈ context.wallets, context.transfers.length ∉ w.transfers) ∧
        cryptoWalletManagerFindWalletAsBTC cwm' btcWallet = some wallet' ∧
        wallet'.transfers = wallet.transfers ++ [context.transfers.length]) ∧
    (∀ (ewm : BREthereumEWM) (wid tid : Nat),
      cryptoWalletManagerFindWalletAsETH context wid = some wallet →
      cryptoWalletFindTransferAsETH context wid tid = none →
      ∃ cwm' wallet', cwmTransactionEventAsETH context ewm wid tid .TRANSFER_EVENT_CREATED =
          .returned cwm' ∧
        nativeId cwm'.transfers context.transfers.length = some tid ∧
        cryptoTransferGetState cwm' context.transfers.length = .created ∧
        cwm'.events = context.events ++
          [⟨.transferEvent wid context.transfers.length .CRYPTO_TRANSFER_EVENT_CREATED,
              context.wallets⟩,
           ⟨.walletEvent wid (.CRYPTO_WALLET_EVENT_TRANSFER_ADDED context.transfers.length),
              cwm'.wallets⟩,
           ⟨.walletEvent wid
              (.CRYPTO_WALLET_EVENT_BALANCE_UPDATED (cryptoWalletGetBalance cwm' wid)),
              cwm'.wallets⟩] ∧
        (∀ w ∈ context.wallets, context.transfers.length ∉ w.transfers) ∧
        cryptoWalletManagerFindWalletAsETH cwm' wid = some wallet' ∧
        wallet'.transfers = wallet.transfers ++ [context.transfers.length]) := by
  have hfresh : ∀ w ∈ context.wallets, context.transfers.length ∉ w.transfers :=
    fun w hw h => Nat.lt_irrefl _ (hValid w hw _ h)
  constructor
  · intro btcManager btcWallet btcTransaction event hType hWallet hTransfer hEvent
    obtain ⟨cwm', hOut, hT', hW', hE', _, _⟩ := cwmTransactionEventAsBTC_new TX_UNCONFIRMED
      context btcManager btcWallet btcTransaction event wallet hLive hType hWallet hTransfer
      hEvent
    simp only [cryptoWalletManagerFindWalletAsBTC, cryptoWalletFindTransferAsBTC]
      at hWallet hTransfer
    obtain ⟨hfind, _, _⟩ := findTransfer_after_add context.wallets context.transfers btcWallet
      btcTransaction ⟨btcTransaction, wallet.unit, wallet.unitForFee, .created,
        btcManager.transactionFeeBasis btcTransaction⟩ wallet rfl hValid hWallet hTransfer
    refine ⟨cwm', { wallet with transfers := wallet.transfers ++ [context.transfers.length] },
      hOut, ?_, ?_, hE', hfresh, ?_, rfl⟩
    · simp [nativeId, hT']
    · simp [cryptoTransferGetState, stateAt, hT']
    · simp only [cryptoWalletManagerFindWalletAsBTC, hW', hfind]
  · intro ewm wid tid hWallet hTransfer
    obtain ⟨cwm', hOut, hT', hW', hE', _, _⟩ := cwmTransactionEventAsETH_new context ewm wid
      tid wallet hLive hWallet hTransfer
    simp only [cryptoWalletManagerFindWalletAsETH, cryptoWalletFindTransferAsETH]
      at hWallet hTransfer
    obtain ⟨hfind, _, _⟩ := findTransfer_after_add context.wallets context.transfers wid
      tid ⟨tid, wallet.unit, wallet.unitForFee, .created, none⟩ wallet rfl hValid hWallet
      hTransfer
    refine ⟨cwm', { wallet with transfers := wallet.transfers ++ [context.transfers.length] },
      hOut, ?_, ?_, hE', hfresh, ?_, rfl⟩
    · simp [nativeId, hT']
    · simp [cryptoTransferGetState, stateAt, hT']
    · simp only [cryptoWalletManagerFindWalletAsETH, hW', hfind]

/-- C10 at the sample managers, for the native transaction 43, which wallet 7 does not hold:
the new transfer gets address 1. -/
theorem new_transfer_ordering_witness :
    (∃ cwm', cwmTransactionEventAsBTC 2147483647 (sampleManager .BLOCK_CHAIN_TYPE_BTC .created)
        sampleBTC 7 43 .BITCOIN_TRANSACTION_ADDED = .returned cwm' ∧
      cwm'.events.map (fun c => (c.event, c.wallets.map (fun w => w.transfers))) =
        [(.transferEvent 7 1 .CRYPTO_TRANSFER_EVENT_CREATED, [[0]]),
         (.walletEvent 7 (.CRYPTO_WALLET_EVENT_TRANSFER_ADDED 1), [[0, 1]])]) ∧
    (∃ cwm', cwmTransactionEventAsETH (sampleManager .BLOCK_CHAIN_TYPE_ETH .created)
        sampleETH 7 43 .TRANSFER_EVENT_CREATED = .returned cwm' ∧
      cwm'.events.map (fun c => (c.event, c.wallets.map (fun w => w.transfers))) =
        [(.transferEvent 7 1 .CRYPTO_TRANSFER_EVENT_CREATED, [[0]]),
         (.walletEvent 7 (.CRYPTO_WALLET_EVENT_TRANSFER_ADDED 1), [[0, 1]]),
         (.walletEvent 7 (.CRYPTO_WALLET_EVENT_BALANCE_UPDATED (cryptoAmountCreate 11 false 0)),
           [[0, 1]])]) := by
  obtain ⟨h1, h2⟩ := new_transfer_ordering 2147483647
    (sampleManager .BLOCK_CHAIN_TYPE_BTC .created)
    { wid := 7, unit := 11, unitForFee := 11, balance := cryptoAmountCreate 11 false 0,
      transfers := [0] } (by decide) (by decide)
  obtain ⟨cwm1, _, hOut1, _⟩ := h1 sampleBTC 7 43 .BITCOIN_TRANSACTION_ADDED rfl rfl rfl
    (Or.inr rfl)
  refine ⟨⟨cwm1, hOut1, ?_⟩, ⟨_, rfl, by decide⟩⟩
  have : cwm1 = (cwmTransactionEventAsBTC 2147483647
      (sampleManager .BLOCK_CHAIN_TYPE_BTC .created) sampleBTC 7 43
      .BITCOIN_TRANSACTION_ADDED).cwm := by
    rw [hOut1]
    rfl
  rw [this]
  decide


/-! ## C8: no duplicate transfers -/

/-- A "created" or "added" event of the UTXO family that the handler returns from left the
wallets and the transfer records alone, or added a transfer for a native transaction that
the wallet did not hold. -/
theorem cwmTransactionEventAsBTC_new_returned (TX_UNCONFIRMED : Nat)
    (context cwm' : BRCryptoWalletManager) (btcManager : BRWalletManager)
    (btcWallet btcTransaction : Nat) (event : BRTransactionEvent)
    (hEvent : event = .BITCOIN_TRANSACTION_CREATED ∨ event = .BITCOIN_TRANSACTION_ADDED)
    (h : cwmTransactionEventAsBTC TX_UNCONFIRMED context btcManager btcWallet btcTransaction
      event = .returned cwm') :
    (cwm'.wallets = context.wallets ∧ cwm'.transfers = context.transfers) ∨
    (∃ wallet r, r.tid = btcTransaction ∧
      context.wallets.find? (fun w => w.wid == btcWallet) = some wallet ∧
      findTransfer context.wallets context.transfers btcWallet btcTransaction = none ∧
      cwm'.transfers = context.transfers ++ [r] ∧
      cwm'.wallets =
        modifyWallet btcWallet (addTransfer context.transfers.length) context.wallets) := by
  by_cases hLive : context.ref = 0
  · left
    simp [cwmTransactionEventAsBTC, cryptoWalletManagerTakeWeak, hLive] at h
    subst h
    exact ⟨rfl, rfl⟩
  by_cases hType : context.type = .BLOCK_CHAIN_TYPE_BTC
  swap
  · simp [cwmTransactionEventAsBTC, cryptoWalletManagerTakeWeak, hLive, hType, ensureNative]
      at h
  cases hW : context.wallets.find? (fun w => w.wid == btcWallet) with
  | none =>
    simp [cwmTransactionEventAsBTC, cryptoWalletManagerTakeWeak, hLive, hType, ensureNative,
      cryptoWalletManagerFindWalletAsBTC, hW] at h
  | some wallet =>
    cases hT : findTransfer context.wallets context.transfers btcWallet btcTransaction with
    | none =>
      right
      obtain ⟨c, hOut, hT', hW', _⟩ := cwmTransactionEventAsBTC_new TX_UNCONFIRMED context
        btcManager btcWallet btcTransaction event wallet hLive hType
        (by simpa [cryptoWalletManagerFindWalletAsBTC] using hW)
        (by simpa [cryptoWalletFindTransferAsBTC] using hT) hEvent
      rw [hOut] at h
      cases h
      exact ⟨wallet, _, rfl, rfl, rfl, hT', hW'⟩
    | some t0 =>
      left
      have hw := findWallet_wid _ _ _ hW
      rcases hEvent with rfl | rfl <;>
      simp [cwmTransactionEventAsBTC, cryptoWalletManagerTakeWeak, hLive, hType, ensureNative,
        cryptoWalletManagerFindWalletAsBTC, cryptoWalletFindTransferAsBTC, hW, hw, hT,
        cryptoWalletManagerGive] at h
      subst h
      exact ⟨rfl, rfl⟩

/-- The same for the "created" event of the account family. -/
theorem cwmTransactionEventAsETH_new_returned (context cwm' : BRCryptoWalletManager)
    (ewm : BREthereumEWM) (wid tid : Nat)
    (h : cwmTransactionEventAsETH context ewm wid tid .TRANSFER_EVENT_CREATED =
      .returned cwm') :
    (cwm'.wallets = context.wallets ∧ cwm'.transfers = context.transfers) ∨
    (∃ wallet r, r.tid = tid ∧
      context.wallets.find? (fun w => w.wid == wid) = some wallet ∧
      findTransfer context.wallets context.transfers wid tid = none ∧
      cwm'.transfers = context.transfers ++ [r] ∧
      cwm'.wallets = modifyWallet wid (addTransfer context.transfers.length) context.wallets) := by
  by_cases hLive : context.ref = 0
  · left
    simp [cwmTransactionEventAsETH, cryptoWalletManagerTakeWeak, hLive] at h
    subst h
    exact ⟨rfl, rfl⟩
  cases hW : context.wallets.find? (fun w => w.wid == wid) with
  | none =>
    left
    simp [cwmTransactionEventAsETH, cryptoWalletManagerTakeWeak, hLive, ensureNative,
      cryptoWalletManagerFindWalletAsETH, hW] at h
    subst h
    exact ⟨rfl, rfl⟩
  | some wallet =>
    cases hT : findTransfer context.wallets context.transfers wid tid with
    | none =>
      right
      obtain ⟨c, hOut, hT', hW', _⟩ := cwmTransactionEventAsETH_new context ewm wid tid wallet
        hLive (by simpa [cryptoWalletManagerFindWalletAsETH] using hW)
        (by simpa [cryptoWalletFindTransferAsETH] using hT)
      rw [hOut] at h
      cases h
      exact ⟨wallet, _, rfl, rfl, rfl, hT', hW'⟩
    | some t0 =>
      have hw := findWallet_wid _ _ _ hW
      simp [cwmTransactionEventAsETH, cryptoWalletManagerTakeWeak, hLive, ensureNative,
        cryptoWalletManagerFindWalletAsETH, cryptoWalletFindTransferAsETH, hW, hw, hT] at h

theorem invariant_of_new_returned (context cwm' : BRCryptoWalletManager) (wid tid : Nat)
    (hValid : TransfersValid context) (hDistinct : NoDuplicateTransfers context)
    (h : (cwm'.wallets = context.wallets ∧ cwm'.transfers = context.transfers) ∨
      (∃ wallet r, r.tid = tid ∧
        context.wallets.find? (fun w => w.wid == wid) = some wallet ∧
        findTransfer context.wallets context.transfers wid tid = none ∧
        cwm'.transfers = context.transfers ++ [r] ∧
        cwm'.wallets =
          modifyWallet wid (addTransfer context.transfers.length) context.wallets)) :
    TransfersValid cwm' ∧ NoDuplicateTransfers cwm' := by
  unfold TransfersValid NoDuplicateTransfers at *
  rcases h with ⟨hW, hT⟩ | ⟨wallet, r, hr, hW, hT, hT', hW'⟩
  · rw [hW, hT]
    exact ⟨hValid, hDistinct⟩
  · rw [hW', hT']
    exact addTransfer_invariant _ _ _ _ r wallet hr hValid hDistinct hW hT

/-- C8: No duplicate transfers.  If every wallet of the manager holds valid transfers with
pairwise distinct native identities, it still does after any backend created or added event
that the handler returns from (BITCOIN_TRANSACTION_CREATED, BITCOIN_TRANSACTION_ADDED,
TRANSFER_EVENT_CREATED).  Announcing BITCOIN_TRANSACTION_ADDED to a live UTXO manager for a
native transaction that the wallet already holds returns, adds no transfer and emits no
event at all.  Announcing it twice for a native transaction that the wallet does not hold
returns twice and leaves the wallet with exactly one transfer for it. -/
theorem no_duplicate_transfers (TX_UNCONFIRMED : Nat) (context : BRCryptoWalletManager)
    (hValid : TransfersValid context) (hDistinct : NoDuplicateTransfers context) :
    (∀ (btcManager : BRWalletManager) (ewm : BREthereumEWM) (wallet transaction : Nat)
        (cwm' : BRCryptoWalletManager),
      cwmTransactionEventAsBTC TX_UNCONFIRMED context btcManager wallet transaction
          .BITCOIN_TRANSACTION_CREATED = .returned cwm' ∨
        cwmTransactionEventAsBTC TX_UNCONFIRMED context btcManager wallet transaction
          .BITCOIN_TRANSACTION_ADDED = .returned cwm' ∨
        cwmTransactionEventAsETH context ewm wallet transaction .TRANSFER_EVENT_CREATED =
          .returned cwm' →
      TransfersValid cwm' ∧ NoDuplicateTransfers cwm') ∧
    (∀ (btcManager : BRWalletManager) (btcWallet btcTransaction : Nat)
        (wallet : BRCryptoWalletRecord),
      context.ref ≠ 0 → context.type = .BLOCK_CHAIN_TYPE_BTC →
      cryptoWalletManagerFindWalletAsBTC context btcWallet = some wallet →
      ((∀ transfer,
        cryptoWalletFindTransferAsBTC context btcWallet btcTransaction = some transfer →
        ∃ cwm', cwmTransactionEventAsBTC TX_UNCONFIRMED context btcManager btcWallet
            btcTransaction .BITCOIN_TRANSACTION_ADDED = .returned cwm' ∧
          cwm'.wallets = context.wallets ∧ cwm'.transfers = context.transfers ∧
          cwm'.events = context.events) ∧
       (cryptoWalletFindTransferAsBTC context btcWallet btcTransaction = none →
        ∃ cwm' cwm'' wallet'', cwmTransactionEventAsBTC TX_UNCONFIRMED context btcManager
            btcWallet btcTransaction .BITCOIN_TRANSACTION_ADDED = .returned cwm' ∧
          cwmTransactionEventAsBTC TX_UNCONFIRMED cwm' btcManager btcWallet btcTransaction
            .BITCOIN_TRANSACTION_ADDED = .returned cwm'' ∧
          cryptoWalletManagerFindWalletAsBTC cwm'' btcWallet = some wallet'' ∧
          wallet''.transfers = wallet.transfers ++ [context.transfers.length] ∧
          wallet''.transfers.filter (transferHas cwm''.transfers btcTransaction) =
            [context.transfers.length] ∧
          cwm''.transfers.length = context.transfers.length + 1))) := by
  refine ⟨?_, ?_⟩
  · intro btcManager ewm wallet transaction cwm' h
    rcases h with h | h | h
    · exact invariant_of_new_returned _ _ wallet transaction hValid hDistinct
        (cwmTransactionEventAsBTC_new_returned _ _ _ _ _ _ _ (Or.inl rfl) h)
    · exact invariant_of_new_returned _ _ wallet transaction hValid hDistinct
        (cwmTransactionEventAsBTC_new_returned _ _ _ _ _ _ _ (Or.inr rfl) h)
    · exact invariant_of_new_returned _ _ wallet transaction hValid hDistinct
        (cwmTransactionEventAsETH_new_returned _ _ _ _ _ h)
  · intro btcManager btcWallet btcTransaction wallet hLive hType hWallet
    have held : ∀ (c : BRCryptoWalletManager) (w : BRCryptoWalletRecord) (transfer : Nat),
        c.ref ≠ 0 → c.type = .BLOCK_CHAIN_TYPE_BTC →
        cryptoWalletManagerFindWalletAsBTC c btcWallet = some w →
        cryptoWalletFindTransferAsBTC c btcWallet btcTransaction = some transfer →
        ∃ cwm', cwmTransactionEventAsBTC TX_UNCONFIRMED c btcManager btcWallet
            btcTransaction .BITCOIN_TRANSACTION_ADDED = .returned cwm' ∧
          cwm'.wallets = c.wallets ∧ cwm'.transfers = c.transfers ∧
          cwm'.events = c.events := by
      intro c w transfer hL hTy hW hT
      simp only [cryptoWalletManagerFindWalletAsBTC, cryptoWalletFindTransferAsBTC] at hW hT
      have hw := findWallet_wid _ _ _ hW
      simp [cwmTransactionEventAsBTC, cryptoWalletManagerTakeWeak, hL, hTy, ensureNative,
        cryptoWalletManagerFindWalletAsBTC, cryptoWalletFindTransferAsBTC, hW, hw, hT,
        cryptoWalletManagerGive]
    refine ⟨fun transfer hT => held context wallet transfer hLive hType hWallet hT, ?_⟩
    intro hT
    obtain ⟨cwm', hOut, hT', hW', hE', hRef, hTy⟩ := cwmTransactionEventAsBTC_new
      TX_UNCONFIRMED context btcManager btcWallet btcTransaction .BITCOIN_TRANSACTION_ADDED
      wallet hLive hType hWallet hT (Or.inr rfl)
    simp only [cryptoWalletManagerFindWalletAsBTC, cryptoWalletFindTransferAsBTC]
      at hWallet hT
    obtain ⟨hfind, hfound, hfilter⟩ := findTransfer_after_add context.wallets
      context.transfers btcWallet btcTransaction
      ⟨btcTransaction, wallet.unit, wallet.unitForFee, .created,
        btcManager.transactionFeeBasis btcTransaction⟩ wallet rfl hValid hWallet hT
    obtain ⟨cwm'', hOut', hW'', hT'', _⟩ := held cwm'
      { wallet with transfers := wallet.transfers ++ [context.transfers.length] }
      context.transfers.length
      (by omega) (hTy.trans hType)
      (by simp only [cryptoWalletManagerFindWalletAsBTC, hW', hfind])
      (by simp only [cryptoWalletFindTransferAsBTC, hW', hT', hfound])
    refine ⟨cwm', cwm'',
      { wallet with transfers := wallet.transfers ++ [context.transfers.length] },
      hOut, hOut', ?_, rfl, ?_, ?_⟩
    · simp only [cryptoWalletManagerFindWalletAsBTC, hW'', hW', hfind]
    · rw [hT'', hT']
      exact hfilter
    · rw [hT'', hT']
      simp

/-- C8 at the sample manager: the invariant after BITCOIN_TRANSACTION_ADDED for the native
transaction 43, which wallet 7 does not hold. -/
theorem no_duplicate_transfers_witness :
    TransfersValid (cwmTransactionEventAsBTC 2147483647
      (sampleManager .BLOCK_CHAIN_TYPE_BTC .created) sampleBTC 7 43
      .BITCOIN_TRANSACTION_ADDED).cwm ∧
    NoDuplicateTransfers (cwmTransactionEventAsBTC 2147483647
      (sampleManager .BLOCK_CHAIN_TYPE_BTC .created) sampleBTC 7 43
      .BITCOIN_TRANSACTION_ADDED).cwm :=
  (no_duplicate_transfers 2147483647 (sampleManager .BLOCK_CHAIN_TYPE_BTC .created)
    (by decide) (by decide)).1
    sampleBTC sampleETH 7 43 _ (Or.inr (Or.inl (by decide)))

/-! ## Lemmas on the wallets of a manager -/

theorem findTransfer_mem (wallets : List BRCryptoWalletRecord)
    (store : List BRCryptoTransferRecord) (wid tid transfer : Nat)
    (wallet : BRCryptoWalletRecord)
    (hW : wallets.find? (fun w => w.wid == wid) = some wallet)
    (h : findTransfer wallets store wid tid = some transfer) :
    transfer ∈ wallet.transfers := by
  simp only [findTransfer, hW] at h
  exact List.mem_of_find?_eq_some h

theorem any_of_find (wallets : List BRCryptoWalletRecord) (wid : Nat)
    (wallet : BRCryptoWalletRecord)
    (h : wallets.find? (fun w => w.wid == wid) = some wallet) :
    wallets.any (fun w => w.wid == wid) = true := by
  rw [List.any_eq_true]
  exact ⟨wallet, List.mem_of_find?_eq_some h, by simpa using List.find?_some h⟩

theorem any_of_find_none (wallets : List BRCryptoWalletRecord) (wid : Nat)
    (h : wallets.find? (fun w => w.wid == wid) = none) :
    wallets.any (fun w => w.wid == wid) = false := by
  rw [List.any_eq_false]
  intro w hw
  exact List.find?_eq_none.1 h w hw

theorem removeWallet_any (wid : Nat) (ws : List BRCryptoWalletRecord)
    (h : (ws.map (fun w => w.wid)).Nodup) :
    (removeWallet wid ws).any (fun w => w.wid == wid) = false := by
  induction ws with
  | nil => simp [removeWallet]
  | cons a as ih =>
    simp only [List.map_cons, List.nodup_cons] at h
    by_cases e : a.wid = wid
    · simp only [removeWallet, e, beq_self_eq_true, if_true]
      rw [List.any_eq_false]
      intro w hw
      have : w.wid ≠ a.wid := fun hEq => h.1 (hEq ▸ List.mem_map_of_mem _ hw)
      simpa [e] using this
    · have e' : (a.wid == wid) = false := by simpa using e
      simp [removeWallet, e', ih h.2]

theorem removeWallet_mem (wid : Nat) (ws : List BRCryptoWalletRecord)
    (w : BRCryptoWalletRecord) (hw : w ∈ ws) (hne : w.wid ≠ wid) :
    w ∈ removeWallet wid ws := by
  induction ws with
  | nil => simp at hw
  | cons a as ih =>
    by_cases e : a.wid = wid
    · simp only [removeWallet, e, beq_self_eq_true, if_true]
      rcases List.mem_cons.1 hw with h | h
      · exact absurd (h ▸ e) hne
      · exact h
    · have e' : (a.wid == wid) = false := by simpa using e
      simp only [removeWallet, e', Bool.false_eq_true, if_false, List.mem_cons]
      rcases List.mem_cons.1 hw with h | h
      · exact Or.inl h
      · exact Or.inr (ih h)

/-! ## C11: transfer deletion ordering -/

/-- C11: when the backend reports a transfer deleted (BITCOIN_TRANSACTION_DELETED,
TRANSFER_EVENT_DELETED) to a live manager whose wallet holds the transfer, the handler returns
and the transfer leaves the wallet's Transfer set.  In the UTXO family the listener receives
exactly WalletTransferDeleted, during which the wallets are those from before the event (the
transfer still in the set), and then TransferDeleted, the transfer removed.  In the account
family the transfer is removed first: WalletTransferDeleted, WalletBalanceUpdated,
TransferChanged (to Deleted) and TransferDeleted all find the wallets as they are after the
removal. -/
theorem transfer_deleted_ordering (TX_UNCONFIRMED : Nat) (context : BRCryptoWalletManager)
    (wallet : BRCryptoWalletRecord) (transfer : Nat) (hLive : context.ref ≠ 0) :
    (∀ (btcManager : BRWalletManager) (btcWallet btcTransaction : Nat),
      context.type = .BLOCK_CHAIN_TYPE_BTC →
      cryptoWalletManagerFindWalletAsBTC context btcWallet = some wallet →
      cryptoWalletFindTransferAsBTC context btcWallet btcTransaction = some transfer →
      ∃ cwm', cwmTransactionEventAsBTC TX_UNCONFIRMED context btcManager btcWallet
          btcTransaction .BITCOIN_TRANSACTION_DELETED = .returned cwm' ∧
        transfer ∈ wallet.transfers ∧
        cryptoWalletManagerFindWalletAsBTC cwm' btcWallet =
          some { wallet with transfers := wallet.transfers.erase transfer } ∧
        newCalls context cwm' =
          [⟨.walletEvent btcWallet (.CRYPTO_WALLET_EVENT_TRANSFER_DELETED transfer),
              context.wallets⟩,
           ⟨.transferEvent btcWallet transfer .CRYPTO_TRANSFER_EVENT_DELETED,
              cwm'.wallets⟩]) ∧
    (∀ (ewm : BREthereumEWM) (wid tid : Nat),
      cryptoWalletManagerFindWalletAsETH context wid = some wallet →
      cryptoWalletFindTransferAsETH context wid tid = some transfer →
      ∃ cwm', cwmTransactionEventAsETH context ewm wid tid .TRANSFER_EVENT_DELETED =
          .returned cwm' ∧
        transfer ∈ wallet.transfers ∧
        cryptoWalletManagerFindWalletAsETH cwm' wid =
          some { wallet with transfers := wallet.transfers.erase transfer } ∧
        newCalls context cwm' =
          [⟨.walletEvent wid (.CRYPTO_WALLET_EVENT_TRANSFER_DELETED transfer), cwm'.wallets⟩,
           ⟨.walletEvent wid
              (.CRYPTO_WALLET_EVENT_BALANCE_UPDATED (cryptoWalletGetBalance cwm' wid)),
              cwm'.wallets⟩,
           ⟨.transferEvent wid transfer
              (.CRYPTO_TRANSFER_EVENT_CHANGED (cryptoTransferGetState context transfer)
                .deleted), cwm'.wallets⟩,
           ⟨.transferEvent wid transfer .CRYPTO_TRANSFER_EVENT_DELETED, cwm'.wallets⟩]) := by
  constructor
  · intro btcManager btcWallet btcTransaction hType hWallet hTransfer
    simp only [cryptoWalletManagerFindWalletAsBTC, cryptoWalletFindTransferAsBTC]
      at hWallet hTransfer
    have hwid := findWallet_wid _ _ _ hWallet
    have hmem := findTransfer_mem _ _ _ _ _ _ hWallet hTransfer
    have hfind := find_modifyWallet btcWallet
      (fun w => { w with transfers := w.transfers.erase transfer }) (fun _ => rfl)
      context.wallets wallet hWallet
    have hOut : cwmTransactionEventAsBTC TX_UNCONFIRMED context btcManager btcWallet
        btcTransaction .BITCOIN_TRANSACTION_DELETED = .returned (cryptoWalletManagerGive
          (transferEventCallback (cryptoWalletRemTransfer (walletEventCallback
            (ensureNative { context with ref := context.ref + 1 } btcManager.ptr) btcWallet
            (.CRYPTO_WALLET_EVENT_TRANSFER_DELETED transfer)) btcWallet transfer) btcWallet
            transfer .CRYPTO_TRANSFER_EVENT_DELETED)) := by
      simp [cwmTransactionEventAsBTC, cryptoWalletManagerTakeWeak, if_neg hLive, hType,
        ensureNative, cryptoWalletManagerFindWalletAsBTC, hWallet,
        cryptoWalletFindTransferAsBTC, hwid, hTransfer]
    refine ⟨_, hOut, hmem, ?_, ?_⟩
    · simpa [cryptoWalletManagerFindWalletAsBTC, cryptoWalletManagerGive, ensureNative,
        transferEventCallback, cryptoWalletRemTransfer, walletEventCallback,
        cryptoWalletManagerTake] using hfind
    · simp [newCalls, cryptoWalletManagerGive, transferEventCallback, ensureNative,
        cryptoWalletRemTransfer, walletEventCallback, cryptoWalletManagerTake]
  · intro ewm wid tid hWallet hTransfer
    simp only [cryptoWalletManagerFindWalletAsETH, cryptoWalletFindTransferAsETH]
      at hWallet hTransfer
    have hwid := findWallet_wid _ _ _ hWallet
    have hmem := findTransfer_mem _ _ _ _ _ _ hWallet hTransfer
    have hfind := find_modifyWallet wid
      (fun w => { w with transfers := w.transfers.erase transfer }) (fun _ => rfl)
      context.wallets wallet hWallet
    have hOut : cwmTransactionEventAsETH context ewm wid tid .TRANSFER_EVENT_DELETED =
        .returned (cryptoWalletManagerGive (transferEventCallback (transferEventCallback
          (cryptoTransferSetState (walletEventCallback (walletEventCallback
            (cryptoWalletRemTransfer
              (ensureNative { context with ref := context.ref + 1 } ewm.ptr) wid transfer)
            wid (.CRYPTO_WALLET_EVENT_TRANSFER_DELETED transfer)) wid
            (.CRYPTO_WALLET_EVENT_BALANCE_UPDATED (cryptoWalletGetBalance
              (cryptoWalletRemTransfer
                (ensureNative { context with ref := context.ref + 1 } ewm.ptr) wid transfer)
              wid))) transfer .deleted) wid transfer
            (.CRYPTO_TRANSFER_EVENT_CHANGED (cryptoTransferGetState context transfer) .deleted))
          wid transfer .CRYPTO_TRANSFER_EVENT_DELETED)) := by
      simp [cwmTransactionEventAsETH, cryptoWalletManagerTakeWeak, if_neg hLive,
        ensureNative, cryptoWalletManagerFindWalletAsETH, hWallet,
        cryptoWalletFindTransferAsETH, hwid, hTransfer, cryptoTransferStateInit,
        cryptoWalletGetBalance, walletEventCallback, cryptoWalletManagerTake,
        cryptoWalletRemTransfer, cryptoTransferGetState]
    refine ⟨_, hOut, hmem, ?_, ?_⟩
    · simpa [cryptoWalletManagerFindWalletAsETH, cryptoWalletManagerGive, ensureNative,
        transferEventCallback, cryptoWalletRemTransfer, walletEventCallback,
        cryptoWalletManagerTake, cryptoTransferSetState] using hfind
    · simp [newCalls, cryptoWalletManagerGive, transferEventCallback, ensureNative,
        cryptoWalletRemTransfer, walletEventCallback, cryptoWalletManagerTake,
        cryptoTransferSetState, cryptoTransferGetState, cryptoTransferStateInit,
        cryptoWalletGetBalance]

/-- C11 at the sample managers, whose wallet 7 holds the transfer 0 for the native
transaction 42: each listener call with the Transfer sets it finds. -/
theorem transfer_deleted_ordering_witness :
    (∃ cwm', cwmTransactionEventAsBTC 2147483647
        (sampleManager .BLOCK_CHAIN_TYPE_BTC sampleIncluded) sampleBTC 7 42
        .BITCOIN_TRANSACTION_DELETED = .returned cwm' ∧
      (newCalls (sampleManager .BLOCK_CHAIN_TYPE_BTC sampleIncluded) cwm').map
          (fun c => (c.event, c.wallets.map (fun w => w.transfers))) =
        [(.walletEvent 7 (.CRYPTO_WALLET_EVENT_TRANSFER_DELETED 0), [[0]]),
         (.transferEvent 7 0 .CRYPTO_TRANSFER_EVENT_DELETED, [[]])]) ∧
    (∃ cwm', cwmTransactionEventAsETH (sampleManager .BLOCK_CHAIN_TYPE_ETH sampleIncluded)
        sampleETH 7 42 .TRANSFER_EVENT_DELETED = .returned cwm' ∧
      (newCalls (sampleManager .BLOCK_CHAIN_TYPE_ETH sampleIncluded) cwm').map
          (fun c => (c.event, c.wallets.map (fun w => w.transfers))) =
        [(.walletEvent 7 (.CRYPTO_WALLET_EVENT_TRANSFER_DELETED 0), [[]]),
         (.walletEvent 7 (.CRYPTO_WALLET_EVENT_BALANCE_UPDATED (cryptoAmountCreate 11 false 0)),
           [[]]),
         (.transferEvent 7 0 (.CRYPTO_TRANSFER_EVENT_CHANGED sampleIncluded .deleted), [[]]),
         (.transferEvent 7 0 .CRYPTO_TRANSFER_EVENT_DELETED, [[]])]) := by
  obtain ⟨h1, _⟩ := transfer_deleted_ordering 2147483647
    (sampleManager .BLOCK_CHAIN_TYPE_BTC sampleIncluded)
    ⟨7, 11, 11, cryptoAmountCreate 11 false 0, [0]⟩ 0 (by decide)
  obtain ⟨cwm1, hOut1, _⟩ := h1 sampleBTC 7 42 rfl rfl rfl
  obtain ⟨_, h2⟩ := transfer_deleted_ordering 2147483647
    (sampleManager .BLOCK_CHAIN_TYPE_ETH sampleIncluded)
    ⟨7, 11, 11, cryptoAmountCreate 11 false 0, [0]⟩ 0 (by decide)
  obtain ⟨cwm2, hOut2, _⟩ := h2 sampleETH 7 42 rfl rfl
  have e1 : cwm1 = (cwmTransactionEventAsBTC 2147483647
      (sampleManager .BLOCK_CHAIN_TYPE_BTC sampleIncluded) sampleBTC 7 42
      .BITCOIN_TRANSACTION_DELETED).cwm := by
    rw [hOut1]
    rfl
  have e2 : cwm2 = (cwmTransactionEventAsETH
      (sampleManager .BLOCK_CHAIN_TYPE_ETH sampleIncluded) sampleETH 7 42
      .TRANSFER_EVENT_DELETED).cwm := by
    rw [hOut2]
    rfl
  refine ⟨⟨cwm1, hOut1, ?_⟩, ⟨cwm2, hOut2, ?_⟩⟩
  · rw [e1]
    decide
  · rw [e2]
    decide

/-! ## C12: newly observed wallet ordering -/

/-- C12: on the account family's wallet-created event for a live manager.  If the manager
holds no wallet for the native wallet, the native wallet has a token, the token has a currency
in the network, and the network has a default unit for that currency and for its own
currency, the handler returns, the new wallet is the last of the manager's wallets, and the
listener receives exactly WalletCreated and then ManagerWalletAdded for it, both finding the
wallet in the manager.  If the manager holds the wallet already, the handler returns with the
wallets unchanged and no event.  In every case the events are none at all or exactly these
two in this order. -/
theorem new_wallet_ordering (context : BRCryptoWalletManager) (ewm : BREthereumEWM)
    (wid : Nat) (event : BREthereumWalletEvent) (hLive : context.ref ≠ 0)
    (hEvent : event.type = .WALLET_EVENT_CREATED) :
    (∀ token currency unit feeUnit : Nat,
      cryptoWalletManagerFindWalletAsETH context wid = none →
      ewm.walletGetToken wid = some token →
      context.network.currencyForTokenETH.lookup token = some currency →
      context.network.unitAsDefault.lookup currency = some unit →
      context.network.unitAsDefault.lookup context.network.currency = some feeUnit →
      ∃ cwm', cwmWalletEventAsETH context ewm wid event = .returned cwm' ∧
        cwm'.wallets = context.wallets ++ [cryptoWalletCreateAsETH unit feeUnit wid] ∧
        newCalls context cwm' =
          [⟨.walletEvent wid .CRYPTO_WALLET_EVENT_CREATED, cwm'.wallets⟩,
           ⟨.walletManagerEvent (.CRYPTO_WALLET_MANAGER_EVENT_WALLET_ADDED wid),
              cwm'.wallets⟩]) ∧
    (∀ wallet : BRCryptoWalletRecord,
      cryptoWalletManagerFindWalletAsETH context wid = some wallet →
      ∃ cwm', cwmWalletEventAsETH context ewm wid event = .returned cwm' ∧
        cwm'.wallets = context.wallets ∧ newCalls context cwm' = []) ∧
    (newEvents context (cwmWalletEventAsETH context ewm wid event).cwm = [] ∨
      newEvents context (cwmWalletEventAsETH context ewm wid event).cwm =
        [.walletEvent wid .CRYPTO_WALLET_EVENT_CREATED,
         .walletManagerEvent (.CRYPTO_WALLET_MANAGER_EVENT_WALLET_ADDED wid)]) := by
  refine ⟨?_, ?_, ?_⟩
  · intro token currency unit feeUnit hWallet hToken hCurrency hUnit hFeeUnit
    simp only [cryptoWalletManagerFindWalletAsETH] at hWallet
    have hHas := any_of_find_none _ _ hWallet
    have hOut : cwmWalletEventAsETH context ewm wid event = .returned
        (cryptoWalletManagerGive (walletManagerEventCallback (walletEventCallback
          { ensureNative { context with ref := context.ref + 1 } ewm.ptr with
            wallets := context.wallets ++ [cryptoWalletCreateAsETH unit feeUnit wid] }
          wid .CRYPTO_WALLET_EVENT_CREATED)
          (.CRYPTO_WALLET_MANAGER_EVENT_WALLET_ADDED wid))) := by
      simp [cwmWalletEventAsETH, cryptoWalletManagerTakeWeak, if_neg hLive, hEvent,
        ensureNative, cryptoWalletManagerFindWalletAsETH, hWallet, hToken, hCurrency, hUnit,
        hFeeUnit, cryptoWalletManagerAddWallet, cryptoWalletManagerHasWallet, hHas,
        cryptoWalletCreateAsETH]
    refine ⟨_, hOut, ?_, ?_⟩
    · simp [cryptoWalletManagerGive, walletManagerEventCallback, walletEventCallback,
        cryptoWalletManagerTake]
    · simp [newCalls, cryptoWalletManagerGive, walletManagerEventCallback,
        walletEventCallback, cryptoWalletManagerTake, ensureNative]
  · intro wallet hWallet
    simp only [cryptoWalletManagerFindWalletAsETH] at hWallet
    have hOut : cwmWalletEventAsETH context ewm wid event = .returned
        (cryptoWalletManagerGive
          (ensureNative { context with ref := context.ref + 1 } ewm.ptr)) := by
      simp [cwmWalletEventAsETH, cryptoWalletManagerTakeWeak, if_neg hLive, hEvent,
        ensureNative, cryptoWalletManagerFindWalletAsETH, hWallet]
    refine ⟨_, hOut, ?_, ?_⟩
    · simp [cryptoWalletManagerGive, ensureNative]
    · simp [newCalls, cryptoWalletManagerGive, ensureNative]
  · cases hW : context.wallets.find? (fun w => w.wid == wid) with
    | some wallet =>
      left
      simp [cwmWalletEventAsETH, cryptoWalletManagerTakeWeak, if_neg hLive, hEvent,
        ensureNative, cryptoWalletManagerFindWalletAsETH, hW, Outcome.cwm, newEvents,
        newCalls, cryptoWalletManagerGive]
    | none =>
      have hHas := any_of_find_none _ _ hW
      cases hToken : ewm.walletGetToken wid with
      | none =>
        left
        simp [cwmWalletEventAsETH, cryptoWalletManagerTakeWeak, if_neg hLive, hEvent,
          ensureNative, cryptoWalletManagerFindWalletAsETH, hW, hToken, Outcome.cwm,
          newEvents, newCalls]
      | some token =>
        cases hCurrency : context.network.currencyForTokenETH.lookup token with
        | none =>
          left
          simp [cwmWalletEventAsETH, cryptoWalletManagerTakeWeak, if_neg hLive, hEvent,
            ensureNative, cryptoWalletManagerFindWalletAsETH, hW, hToken, hCurrency,
            Outcome.cwm, newEvents, newCalls]
        | some currency =>
          cases hUnit : context.network.unitAsDefault.lookup currency with
          | none =>
            left
            simp [cwmWalletEventAsETH, cryptoWalletManagerTakeWeak, if_neg hLive, hEvent,
              ensureNative, cryptoWalletManagerFindWalletAsETH, hW, hToken, hCurrency,
              hUnit, Outcome.cwm, newEvents, newCalls]
          | some unit =>
            cases hFee : context.network.unitAsDefault.lookup context.network.currency with
            | none =>
              left
              simp [cwmWalletEventAsETH, cryptoWalletManagerTakeWeak, if_neg hLive, hEvent,
                ensureNative, cryptoWalletManagerFindWalletAsETH, hW, hToken, hCurrency,
                hUnit, hFee, Outcome.cwm, newEvents, newCalls]
            | some feeUnit =>
              right
              simp [cwmWalletEventAsETH, cryptoWalletManagerTakeWeak, if_neg hLive, hEvent,
                ensureNative, cryptoWalletManagerFindWalletAsETH, hW, hToken, hCurrency,
                hUnit, hFee, Outcome.cwm, newEvents, newCalls, cryptoWalletManagerGive,
                walletManagerEventCallback, walletEventCallback, cryptoWalletManagerTake,
                cryptoWalletManagerAddWallet, cryptoWalletManagerHasWallet, hHas,
                cryptoWalletCreateAsETH]

/-- C12 at the sample account manager: the native wallet 8 (token 5, currency 2) is new,
the native wallet 7 is held. -/
theorem new_wallet_ordering_witness :
    (∃ cwm', cwmWalletEventAsETH (sampleManager .BLOCK_CHAIN_TYPE_ETH .created) sampleETH 8
        ⟨.WALLET_EVENT_CREATED, .SUCCESS, 0, 0, 0⟩ = .returned cwm' ∧
      cwm'.wallets.map (fun w => w.wid) = [7, 8] ∧
      newEvents (sampleManager .BLOCK_CHAIN_TYPE_ETH .created) cwm' =
        [.walletEvent 8 .CRYPTO_WALLET_EVENT_CREATED,
         .walletManagerEvent (.CRYPTO_WALLET_MANAGER_EVENT_WALLET_ADDED 8)]) ∧
    (∃ cwm', cwmWalletEventAsETH (sampleManager .BLOCK_CHAIN_TYPE_ETH .created) sampleETH 7
        ⟨.WALLET_EVENT_CREATED, .SUCCESS, 0, 0, 0⟩ = .returned cwm' ∧
      newEvents (sampleManager .BLOCK_CHAIN_TYPE_ETH .created) cwm' = []) := by
  obtain ⟨h1, _, _⟩ := new_wallet_ordering (sampleManager .BLOCK_CHAIN_TYPE_ETH .created)
    sampleETH 8 ⟨.WALLET_EVENT_CREATED, .SUCCESS, 0, 0, 0⟩ (by decide) rfl
  obtain ⟨cwm1, hOut1, hW1, hC1⟩ := h1 5 2 21 11 rfl rfl rfl rfl rfl
  obtain ⟨_, h2, _⟩ := new_wallet_ordering (sampleManager .BLOCK_CHAIN_TYPE_ETH .created)
    sampleETH 7 ⟨.WALLET_EVENT_CREATED, .SUCCESS, 0, 0, 0⟩ (by decide) rfl
  obtain ⟨cwm2, hOut2, _, hC2⟩ := h2 _ rfl
  refine ⟨⟨cwm1, hOut1, ?_, ?_⟩, ⟨cwm2, hOut2, ?_⟩⟩
  · rw [hW1]
    decide
  · rw [newEvents, hC1]
    rfl
  · rw [newEvents, hC2]
    rfl

/-! ## C13: balance and fee change ordering -/

/-- C13: for a native balance-updated or fee-updated wallet event
(BITCOIN_WALLET_BALANCE_UPDATED, BITCOIN_WALLET_FEE_PER_KB_UPDATED,
WALLET_EVENT_BALANCE_UPDATED, WALLET_EVENT_DEFAULT_GAS_LIMIT_UPDATED,
WALLET_EVENT_DEFAULT_GAS_PRICE_UPDATED) on a wallet that a live manager holds, the handler
returns with the wallets unchanged and the listener receives exactly two events: first
WalletBalanceUpdated (balance events, carrying the announced balance) or
WalletFeeBasisUpdated (fee events, carrying the fee basis in the wallet's fee unit) for that
wallet, then ManagerWalletChanged for the same wallet. -/
theorem balance_fee_ordering (context : BRCryptoWalletManager)
    (wallet : BRCryptoWalletRecord) (hLive : context.ref ≠ 0) :
    (∀ (btcManager : BRWalletManager) (btcWallet : Nat),
      context.type = .BLOCK_CHAIN_TYPE_BTC →
      cryptoWalletManagerFindWalletAsBTC context btcWallet = some wallet →
      (∀ satoshi : Nat, ∃ cwm', cwmWalletEventAsBTC context btcManager btcWallet
          (.BITCOIN_WALLET_BALANCE_UPDATED satoshi) = .returned cwm' ∧
        cwm'.wallets = context.wallets ∧
        newEvents context cwm' =
          [.walletEvent btcWallet (.CRYPTO_WALLET_EVENT_BALANCE_UPDATED
              (cryptoAmountCreateInteger (castInt64 satoshi)
                ((context.network.unitAsBase.lookup context.network.currency).getD 0))),
           .walletManagerEvent (.CRYPTO_WALLET_MANAGER_EVENT_WALLET_CHANGED btcWallet)]) ∧
      (∀ value : Nat, ∃ cwm', cwmWalletEventAsBTC context btcManager btcWallet
          (.BITCOIN_WALLET_FEE_PER_KB_UPDATED value) = .returned cwm' ∧
        cwm'.wallets = context.wallets ∧
        newEvents context cwm' =
          [.walletEvent btcWallet (.CRYPTO_WALLET_EVENT_FEE_BASIS_UPDATED
              (cryptoFeeBasisCreateAsBTC wallet.unitForFee (castUInt32 value) 1000)),
           .walletManagerEvent (.CRYPTO_WALLET_MANAGER_EVENT_WALLET_CHANGED btcWallet)])) ∧
    (∀ (ewm : BREthereumEWM) (wid : Nat) (event : BREthereumWalletEvent),
      cryptoWalletManagerFindWalletAsETH context wid = some wallet →
      (event.type = .WALLET_EVENT_BALANCE_UPDATED →
        ∃ cwm', cwmWalletEventAsETH context ewm wid event = .returned cwm' ∧
          cwm'.wallets = context.wallets ∧
          newEvents context cwm' =
            [.walletEvent wid (.CRYPTO_WALLET_EVENT_BALANCE_UPDATED
                (cryptoAmountCreate wallet.unit false
                  (match ewm.walletGetBalance wid with
                    | .AMOUNT_ETHER valueInWEI => valueInWEI
                    | .AMOUNT_TOKEN valueAsInteger => valueAsInteger))),
             .walletManagerEvent (.CRYPTO_WALLET_MANAGER_EVENT_WALLET_CHANGED wid)]) ∧
      (event.type = .WALLET_EVENT_DEFAULT_GAS_LIMIT_UPDATED ∨
          event.type = .WALLET_EVENT_DEFAULT_GAS_PRICE_UPDATED →
        ∃ cwm', cwmWalletEventAsETH context ewm wid event = .returned cwm' ∧
          cwm'.wallets = context.wallets ∧
          newEvents context cwm' =
            [.walletEvent wid (.CRYPTO_WALLET_EVENT_FEE_BASIS_UPDATED
                (cryptoFeeBasisCreateAsETH wallet.unitForFee
                  (ewm.walletGetDefaultGasLimit wid) (ewm.walletGetDefaultGasPrice wid))),
             .walletManagerEvent (.CRYPTO_WALLET_MANAGER_EVENT_WALLET_CHANGED wid)])) := by
  constructor
  · intro btcManager btcWallet hType hWallet
    simp only [cryptoWalletManagerFindWalletAsBTC] at hWallet
    have hwid := findWallet_wid _ _ _ hWallet
    constructor
    · intro satoshi
      simp [cwmWalletEventAsBTC, cryptoWalletManagerTakeWeak, if_neg hLive, hType,
        ensureNative, cryptoWalletManagerFindWalletAsBTC, hWallet, hwid, newEvents, newCalls,
        cryptoWalletManagerGive, walletManagerEventCallback, walletEventCallback,
        cryptoWalletManagerTake]
    · intro value
      simp [cwmWalletEventAsBTC, cryptoWalletManagerTakeWeak, if_neg hLive, hType,
        ensureNative, cryptoWalletManagerFindWalletAsBTC, hWallet, hwid, newEvents, newCalls,
        cryptoWalletManagerGive, walletManagerEventCallback, walletEventCallback,
        cryptoWalletManagerTake]
  · intro ewm wid event hWallet
    simp only [cryptoWalletManagerFindWalletAsETH] at hWallet
    have hwid := findWallet_wid _ _ _ hWallet
    constructor
    · intro hEvent
      cases hBalance : ewm.walletGetBalance wid <;>
      simp [cwmWalletEventAsETH, cryptoWalletManagerTakeWeak, if_neg hLive, hEvent,
        ensureNative, cryptoWalletManagerFindWalletAsETH, hWallet, hwid, newEvents, newCalls,
        cryptoWalletManagerGive, walletManagerEventCallback, walletEventCallback,
        cryptoWalletManagerTake, hBalance]
    · intro hEvent
      rcases hEvent with hEvent | hEvent <;>
      simp [cwmWalletEventAsETH, cryptoWalletManagerTakeWeak, if_neg hLive, hEvent,
        ensureNative, cryptoWalletManagerFindWalletAsETH, hWallet, hwid, newEvents, newCalls,
        cryptoWalletManagerGive, walletManagerEventCallback, walletEventCallback,
        cryptoWalletManagerTake]

/-- C13 at the sample managers: a balance of 5000 satoshi in the UTXO family, a new default
gas price in the account family. -/
theorem balance_fee_ordering_witness :
    (∃ cwm', cwmWalletEventAsBTC (sampleManager .BLOCK_CHAIN_TYPE_BTC .created) sampleBTC 7
        (.BITCOIN_WALLET_BALANCE_UPDATED 5000) = .returned cwm' ∧
      newEvents (sampleManager .BLOCK_CHAIN_TYPE_BTC .created) cwm' =
        [.walletEvent 7 (.CRYPTO_WALLET_EVENT_BALANCE_UPDATED (cryptoAmountCreate 10 false 5000)),
         .walletManagerEvent (.CRYPTO_WALLET_MANAGER_EVENT_WALLET_CHANGED 7)]) ∧
    (∃ cwm', cwmWalletEventAsETH (sampleManager .BLOCK_CHAIN_TYPE_ETH .created) sampleETH 7
        ⟨.WALLET_EVENT_DEFAULT_GAS_PRICE_UPDATED, .SUCCESS, 0, 0, 0⟩ = .returned cwm' ∧
      newEvents (sampleManager .BLOCK_CHAIN_TYPE_ETH .created) cwm' =
        [.walletEvent 7 (.CRYPTO_WALLET_EVENT_FEE_BASIS_UPDATED (.asETH 11 21000 2)),
         .walletManagerEvent (.CRYPTO_WALLET_MANAGER_EVENT_WALLET_CHANGED 7)]) := by
  obtain ⟨h1, _⟩ := balance_fee_ordering (sampleManager .BLOCK_CHAIN_TYPE_BTC .created)
    ⟨7, 11, 11, cryptoAmountCreate 11 false 0, [0]⟩ (by decide)
  obtain ⟨cwm1, hOut1, _, hE1⟩ := (h1 sampleBTC 7 rfl rfl).1 5000
  obtain ⟨_, h2⟩ := balance_fee_ordering (sampleManager .BLOCK_CHAIN_TYPE_ETH .created)
    ⟨7, 11, 11, cryptoAmountCreate 11 false 0, [0]⟩ (by decide)
  obtain ⟨cwm2, hOut2, _, hE2⟩ := (h2 sampleETH 7
    ⟨.WALLET_EVENT_DEFAULT_GAS_PRICE_UPDATED, .SUCCESS, 0, 0, 0⟩ rfl).2 (Or.inr rfl)
  refine ⟨⟨cwm1, hOut1, ?_⟩, ⟨cwm2, hOut2, ?_⟩⟩
  · rw [hE1]
    decide
  · rw [hE2]
    rfl

/-! ## C14: wallet deletion ordering -/

/-- C14: when the backend reports the deletion of a wallet that a live manager holds
(BITCOIN_WALLET_DELETED, WALLET_EVENT_DELETED), the handler returns and the listener receives
exactly two events: ManagerWalletDeleted for that wallet and then WalletDeleted for that
wallet. -/
theorem wallet_deleted_ordering (context : BRCryptoWalletManager)
    (wallet : BRCryptoWalletRecord) (hLive : context.ref ≠ 0) :
    (∀ (btcManager : BRWalletManager) (btcWallet : Nat),
      context.type = .BLOCK_CHAIN_TYPE_BTC →
      cryptoWalletManagerFindWalletAsBTC context btcWallet = some wallet →
      ∃ cwm', cwmWalletEventAsBTC context btcManager btcWallet .BITCOIN_WALLET_DELETED =
          .returned cwm' ∧
        newEvents context cwm' =
          [.walletManagerEvent (.CRYPTO_WALLET_MANAGER_EVENT_WALLET_DELETED btcWallet),
           .walletEvent btcWallet .CRYPTO_WALLET_EVENT_DELETED]) ∧
    (∀ (ewm : BREthereumEWM) (wid : Nat) (event : BREthereumWalletEvent),
      event.type = .WALLET_EVENT_DELETED →
      cryptoWalletManagerFindWalletAsETH context wid = some wallet →
      ∃ cwm', cwmWalletEventAsETH context ewm wid event = .returned cwm' ∧
        newEvents context cwm' =
          [.walletManagerEvent (.CRYPTO_WALLET_MANAGER_EVENT_WALLET_DELETED wid),
           .walletEvent wid .CRYPTO_WALLET_EVENT_DELETED]) := by
  constructor
  · intro btcManager btcWallet hType hWallet
    simp only [cryptoWalletManagerFindWalletAsBTC] at hWallet
    have hwid := findWallet_wid _ _ _ hWallet
    have hHas := any_of_find _ _ _ hWallet
    simp [cwmWalletEventAsBTC, cryptoWalletManagerTakeWeak, if_neg hLive, hType,
      ensureNative, cryptoWalletManagerFindWalletAsBTC, hWallet, hwid, newEvents, newCalls,
      cryptoWalletManagerGive, walletManagerEventCallback, walletEventCallback,
      cryptoWalletManagerTake, cryptoWalletManagerHasWallet, hHas,
      cryptoWalletManagerRemWallet]
  · intro ewm wid event hEvent hWallet
    simp only [cryptoWalletManagerFindWalletAsETH] at hWallet
    have hwid := findWallet_wid _ _ _ hWallet
    simp [cwmWalletEventAsETH, cryptoWalletManagerTakeWeak, if_neg hLive, hEvent,
      ensureNative, cryptoWalletManagerFindWalletAsETH, hWallet, hwid, newEvents, newCalls,
      cryptoWalletManagerGive, walletManagerEventCallback, walletEventCallback,
      cryptoWalletManagerTake]

/-- C14 at the sample managers, for the wallet 7. -/
theorem wallet_deleted_ordering_witness :
    (∃ cwm', cwmWalletEventAsBTC (sampleManager .BLOCK_CHAIN_TYPE_BTC .created) sampleBTC 7
        .BITCOIN_WALLET_DELETED = .returned cwm' ∧
      newEvents (sampleManager .BLOCK_CHAIN_TYPE_BTC .created) cwm' =
        [.walletManagerEvent (.CRYPTO_WALLET_MANAGER_EVENT_WALLET_DELETED 7),
         .walletEvent 7 .CRYPTO_WALLET_EVENT_DELETED]) ∧
    (∃ cwm', cwmWalletEventAsETH (sampleManager .BLOCK_CHAIN_TYPE_ETH .created) sampleETH 7
        ⟨.WALLET_EVENT_DELETED, .SUCCESS, 0, 0, 0⟩ = .returned cwm' ∧
      newEvents (sampleManager .BLOCK_CHAIN_TYPE_ETH .created) cwm' =
        [.walletManagerEvent (.CRYPTO_WALLET_MANAGER_EVENT_WALLET_DELETED 7),
         .walletEvent 7 .CRYPTO_WALLET_EVENT_DELETED]) :=
  ⟨(wallet_deleted_ordering (sampleManager .BLOCK_CHAIN_TYPE_BTC .created)
      ⟨7, 11, 11, cryptoAmountCreate 11 false 0, [0]⟩ (by decide)).1 sampleBTC 7 rfl rfl,
   (wallet_deleted_ordering (sampleManager .BLOCK_CHAIN_TYPE_ETH .created)
      ⟨7, 11, 11, cryptoAmountCreate 11 false 0, [0]⟩ (by decide)).2 sampleETH 7
      ⟨.WALLET_EVENT_DELETED, .SUCCESS, 0, 0, 0⟩ rfl rfl⟩

/-! ## C15: a deleted wallet leaves the manager -/

/-- C15: on the backend's wallet-deleted event for a wallet that a live manager holds.  The
UTXO handler returns with the wallet removed from the manager's wallets: the first wallet of
that native handle is gone (where native handles are distinct, the manager has the wallet no
more) and every other wallet is still there.  The account handler returns with the
manager's wallets unchanged: the manager still has the wallet. -/
theorem wallet_deleted_removal (context : BRCryptoWalletManager)
    (wallet : BRCryptoWalletRecord) (hLive : context.ref ≠ 0) :
    (∀ (btcManager : BRWalletManager) (btcWallet : Nat),
      context.type = .BLOCK_CHAIN_TYPE_BTC →
      cryptoWalletManagerFindWalletAsBTC context btcWallet = some wallet →
      ∃ cwm', cwmWalletEventAsBTC context btcManager btcWallet .BITCOIN_WALLET_DELETED =
          .returned cwm' ∧
        cwm'.wallets = removeWallet btcWallet context.wallets ∧
        ((context.wallets.map (fun w => w.wid)).Nodup →
          cryptoWalletManagerHasWallet cwm' btcWallet = false) ∧
        (∀ w ∈ context.wallets, w.wid ≠ btcWallet → w ∈ cwm'.wallets)) ∧
    (∀ (ewm : BREthereumEWM) (wid : Nat) (event : BREthereumWalletEvent),
      event.type = .WALLET_EVENT_DELETED →
      cryptoWalletManagerFindWalletAsETH context wid = some wallet →
      ∃ cwm', cwmWalletEventAsETH context ewm wid event = .returned cwm' ∧
        cwm'.wallets = context.wallets ∧
        cryptoWalletManagerHasWallet cwm' wid = true) := by
  constructor
  · intro btcManager btcWallet hType hWallet
    simp only [cryptoWalletManagerFindWalletAsBTC] at hWallet
    have hwid := findWallet_wid _ _ _ hWallet
    have hHas := any_of_find _ _ _ hWallet
    have hOut : cwmWalletEventAsBTC context btcManager btcWallet .BITCOIN_WALLET_DELETED =
        .returned (cryptoWalletManagerGive (walletEventCallback (walletManagerEventCallback
          (cryptoWalletManagerRemWallet
            (ensureNative { context with ref := context.ref + 1 } btcManager.ptr) btcWallet)
          (.CRYPTO_WALLET_MANAGER_EVENT_WALLET_DELETED btcWallet)) btcWallet
          .CRYPTO_WALLET_EVENT_DELETED)) := by
      simp [cwmWalletEventAsBTC, cryptoWalletManagerTakeWeak, if_neg hLive, hType,
        ensureNative, cryptoWalletManagerFindWalletAsBTC, hWallet, hwid,
        cryptoWalletManagerHasWallet, hHas]
    have hWallets : (cryptoWalletManagerGive (walletEventCallback (walletManagerEventCallback
          (cryptoWalletManagerRemWallet
            (ensureNative { context with ref := context.ref + 1 } btcManager.ptr) btcWallet)
          (.CRYPTO_WALLET_MANAGER_EVENT_WALLET_DELETED btcWallet)) btcWallet
          .CRYPTO_WALLET_EVENT_DELETED)).wallets = removeWallet btcWallet context.wallets := by
      simp [cryptoWalletManagerGive, walletManagerEventCallback, walletEventCallback,
        cryptoWalletManagerTake, cryptoWalletManagerRemWallet, ensureNative]
    refine ⟨_, hOut, hWallets, ?_, ?_⟩
    · intro hNodup
      rw [cryptoWalletManagerHasWallet, hWallets]
      exact removeWallet_any _ _ hNodup
    · intro w hw hne
      rw [hWallets]
      exact removeWallet_mem _ _ _ hw hne
  · intro ewm wid event hEvent hWallet
    simp only [cryptoWalletManagerFindWalletAsETH] at hWallet
    have hwid := findWallet_wid _ _ _ hWallet
    have hHas := any_of_find _ _ _ hWallet
    simp only [cwmWalletEventAsETH, cryptoWalletManagerTakeWeak, if_neg hLive, hEvent,
      ensureNative, cryptoWalletManagerFindWalletAsETH, hWallet, hwid]
    exact ⟨_, rfl, rfl, hHas⟩

/-- C15 at the sample managers: the UTXO manager ends with no wallet, the account manager
still holds the wallet 7. -/
theorem wallet_deleted_removal_witness :
    (∃ cwm', cwmWalletEventAsBTC (sampleManager .BLOCK_CHAIN_TYPE_BTC .created) sampleBTC 7
        .BITCOIN_WALLET_DELETED = .returned cwm' ∧ cwm'.wallets = []) ∧
    (∃ cwm', cwmWalletEventAsETH (sampleManager .BLOCK_CHAIN_TYPE_ETH .created) sampleETH 7
        ⟨.WALLET_EVENT_DELETED, .SUCCESS, 0, 0, 0⟩ = .returned cwm' ∧
      cwm'.wallets = (sampleManager .BLOCK_CHAIN_TYPE_ETH .created).wallets ∧
      cryptoWalletManagerHasWallet cwm' 7 = true) := by
  obtain ⟨h1, _⟩ := wallet_deleted_removal (sampleManager .BLOCK_CHAIN_TYPE_BTC .created)
    ⟨7, 11, 11, cryptoAmountCreate 11 false 0, [0]⟩ (by decide)
  obtain ⟨cwm1, hOut1, hW1, _⟩ := h1 sampleBTC 7 rfl rfl
  obtain ⟨_, h2⟩ := wallet_deleted_removal (sampleManager .BLOCK_CHAIN_TYPE_ETH .created)
    ⟨7, 11, 11, cryptoAmountCreate 11 false 0, [0]⟩ (by decide)
  exact ⟨⟨cwm1, hOut1, by rw [hW1]; rfl⟩,
    h2 sampleETH 7 ⟨.WALLET_EVENT_DELETED, .SUCCESS, 0, 0, 0⟩ rfl rfl⟩

/-! ## Lemmas on the calls of the announce functions -/

theorem handleTransferGEN_foldl (natives : Natives)
    (g : BRGenericTransfer → BRGenericTransfer) (transfers : List BRGenericTransfer)
    (s : Bridge) :
    (transfers.foldl (fun s t => cryptoWalletManagerHandleTransferGEN natives s (g t)) s).calls
      = s.calls ++ transfers.map (fun t => Call.cryptoWalletManagerHandleTransferGEN (g t)) := by
  induction transfers generalizing s with
  | nil => simp
  | cons t ts ih =>
    simp only [List.foldl_cons, ih, List.map_cons]
    simp [cryptoWalletManagerHandleTransferGEN]

theorem released_handle (state : BRCryptoClientCallbackState)
    (g : BRGenericTransfer → BRGenericTransfer) (transfers : List BRGenericTransfer) :
    released state
      (transfers.map (fun t => Call.cryptoWalletManagerHandleTransferGEN (g t))) = 0 := by
  induction transfers with
  | nil => rfl
  | cons t ts ih =>
    simp only [released, List.map_cons, List.countP_cons] at ih ⊢
    simp [ih, Call.isFreeOf]

theorem released_append (state : BRCryptoClientCallbackState) (xs ys : List Call) :
    released state (xs ++ ys) = released state xs + released state ys := by
  simp [released]

/-- An item announce never releases the token, however it ends. -/
theorem item_never_releases (natives : Natives) (s : Bridge)
    (callbackState : BRCryptoClientCallbackState) (a : Announce) (h : a.isItem = true) :
    released callbackState (newBridgeCalls s (announce natives s callbackState a).bridge) = 0 := by
  cases a <;> simp only [Announce.isItem, Bool.false_eq_true] at h
  case getTransactionsItem status transaction timestamp blockHeight =>
    simp only [announce, cwmAnnounceGetTransactionsItem, Bridge.onManager, Bridge.call,
      cryptoWalletManagerTake, cryptoWalletManagerGive]
    cases s.cwm.type
    · simp only []
      split_ifs <;>
      simp [BridgeOutcome.bridge, newBridgeCalls, released, Call.isFreeOf]
    · simp [BridgeOutcome.bridge, newBridgeCalls, released]
    · simp only []
      split_ifs
      · simp [BridgeOutcome.bridge, newBridgeCalls, released]
      · cases natives.genManagerRecoverTransfersFromRawTransaction transaction timestamp
          blockHeight (decide (BRCryptoTransferStateType.CRYPTO_TRANSFER_STATE_ERRORED = status))
        · simp [BridgeOutcome.bridge, newBridgeCalls, released, Call.isFreeOf]
        · rename_i transfers
          have := handleTransferGEN_foldl natives id transfers
          simp only [id] at this
          simp only [BridgeOutcome.bridge, newBridgeCalls, this, List.append_assoc,
            List.drop_left, released_append, released_handle callbackState id]
          simp [released, Call.isFreeOf]
  case getTransactionsItemGEN status transaction timestamp blockHeight =>
    simp only [announce, cwmAnnounceGetTransactionsItemGEN, Bridge.onManager, Bridge.call,
      cryptoWalletManagerTake, cryptoWalletManagerGive]
    cases natives.genManagerRecoverTransfersFromRawTransaction transaction timestamp
      blockHeight false
    · simp [BridgeOutcome.bridge, newBridgeCalls, released, Call.isFreeOf]
    · rename_i transfers
      have := handleTransferGEN_foldl natives (fun genTransfer =>
        genTransferSetState genTransfer (cwmAnnounceGetTransferStateGEN natives genTransfer
          status timestamp blockHeight)) transfers
      simp only [BridgeOutcome.bridge, newBridgeCalls, this, List.append_assoc,
        List.drop_left, released_append, released_handle callbackState]
      simp [released, Call.isFreeOf]
  case getTransferItem item =>
    simp only [announce, cwmAnnounceGetTransferItem]
    by_cases hK : (BRCryptoCWMCallbackType.CWM_CALLBACK_TYPE_GEN_GET_TRANSFERS =
        callbackState.type ∨
      BRCryptoCWMCallbackType.CWM_CALLBACK_TYPE_ETH_GET_TRANSACTIONS = callbackState.type)
    · rw [if_neg (not_not.2 hK)]
      simp only [Bridge.onManager, Bridge.call, cryptoWalletManagerTake,
        cryptoWalletManagerGive, cryptoWalletManagerHandleTransferGEN]
      cases natives.cryptoNetworkGetCurrencyForUids s.cwm.network item.currency with
      | none => simp [BridgeOutcome.bridge, newBridgeCalls, released]
      | some walletCurrency =>
        rcases hK with hK | hK
        · simp only [← hK]
          cases natives.cryptoWalletManagerGetWalletForCurrency
            { s.cwm with ref := s.cwm.ref + 1 } walletCurrency <;>
          simp [BridgeOutcome.bridge, newBridgeCalls, released, Call.isFreeOf]
        · simp only [← hK]
          cases natives.cryptoCurrencyGetIssuer walletCurrency <;>
          simp [BridgeOutcome.bridge, newBridgeCalls, released, Call.isFreeOf]
    · rw [if_pos hK]
      simp [BridgeOutcome.bridge, newBridgeCalls, released]

theorem resultGEN_calls (natives : Natives) (s : Bridge)
    (callbackState : BRCryptoClientCallbackState) (error : Int)
    (hType : callbackState.type = .CWM_CALLBACK_TYPE_GEN_SUBMIT_TRANSACTION) :
    ∃ s', cwmAnnounceSubmitTransferResultGEN natives s callbackState error = .returned s' ∧
      ∃ extra, s'.calls = s.calls ++ extra ∧ released callbackState extra = 0 := by
  unfold cwmAnnounceSubmitTransferResultGEN
  rw [if_neg (by simp [hType])]
  simp only [Bridge.call, cryptoWalletManagerSetTransferStateGEN]
  split
  · exact ⟨_, rfl, _, List.append_assoc _ _ _, by simp [released, Call.isFreeOf]⟩
  · exact ⟨_, rfl, _, rfl, by simp [released, Call.isFreeOf]⟩

theorem estimateSuccess_released (natives : Natives) (s : Bridge)
    (callbackState : BRCryptoClientCallbackState) (strHash : String) (costUnits : Nat)
    (hType : callbackState.type = .CWM_CALLBACK_TYPE_ETH_ESTIMATE_GAS) :
    ∃ s', cwmAnnounceEstimateTransactionFeeSuccess natives s callbackState strHash costUnits =
        .returned s' ∧ released callbackState (newBridgeCalls s s') = 1 := by
  unfold cwmAnnounceEstimateTransactionFeeSuccess
  simp only [hType]
  split
  · exact ⟨_, rfl, by simp [newBridgeCalls, released, Call.isFreeOf, Bridge.onManager,
      Bridge.call, cwmClientCallbackStateRelease, hType]⟩
  · exact ⟨_, rfl, by simp [newBridgeCalls, released, Call.isFreeOf, Bridge.onManager,
      Bridge.call, cwmClientCallbackStateRelease, hType]⟩

/-- An announce other than the item announces that returns has released the token
once. -/
theorem nonitem_releases_once (natives : Natives) (s s' : Bridge)
    (callbackState : BRCryptoClientCallbackState) (a : Announce) (h : a.isItem = false)
    (hOut : announce natives s callbackState a = .returned s') :
    released callbackState (newBridgeCalls s s') = 1 := by
  cases a <;> simp only [Announce.isItem, Bool.true_eq_false] at h
  case submitTransferSuccess hash =>
    cases hT : callbackState.type
    case CWM_CALLBACK_TYPE_GEN_SUBMIT_TRANSACTION =>
      cases hM : s.cwm.type
      case BLOCK_CHAIN_TYPE_GEN =>
        obtain ⟨s1, h1, extra, hcalls, hrel⟩ := resultGEN_calls natives
          (s.onManager cryptoWalletManagerTake) callbackState 0 hT
        have hM' : (s.onManager cryptoWalletManagerTake).cwm.type = .BLOCK_CHAIN_TYPE_GEN := hM
        simp only [announce, cwmAnnounceSubmitTransferSuccess, hT, hM', h1] at hOut
        simp only [reduceCtorEq, or_true, not_true_eq_false, if_false, ne_eq,
          BridgeOutcome.returned.injEq] at hOut
        subst hOut
        simp only [newBridgeCalls, cwmClientCallbackStateRelease, hT, Bridge.call,
          Bridge.onManager, hcalls, List.append_assoc, List.drop_left, released_append, hrel]
        simp [released, Call.isFreeOf]
      all_goals
        simp [announce, cwmAnnounceSubmitTransferSuccess, hT, hM, Bridge.onManager,
          cryptoWalletManagerTake] at hOut
    all_goals
      cases hM : s.cwm.type <;>
      simp [announce, cwmAnnounceSubmitTransferSuccess, cwmClientCallbackStateRelease,
        Bridge.onManager, Bridge.call, hT, hM, cryptoWalletManagerTake,
        cryptoWalletManagerGive] at hOut <;>
      (try subst hOut) <;>
      simp [newBridgeCalls, released, Call.isFreeOf]
  case submitTransferFailure =>
    cases hT : callbackState.type
    case CWM_CALLBACK_TYPE_GEN_SUBMIT_TRANSACTION =>
      cases hM : s.cwm.type
      case BLOCK_CHAIN_TYPE_GEN =>
        obtain ⟨s1, h1, extra, hcalls, hrel⟩ := resultGEN_calls natives
          (s.onManager cryptoWalletManagerTake) callbackState natives.EIO hT
        have hM' : (s.onManager cryptoWalletManagerTake).cwm.type = .BLOCK_CHAIN_TYPE_GEN := hM
        simp only [announce, cwmAnnounceSubmitTransferFailure, hT, hM', h1] at hOut
        simp only [reduceCtorEq, or_true, not_true_eq_false, if_false, ne_eq, false_and,
          and_self, if_true, BridgeOutcome.returned.injEq] at hOut
        subst hOut
        simp only [newBridgeCalls, cwmClientCallbackStateRelease, hT, Bridge.call,
          Bridge.onManager, hcalls, List.append_assoc, List.drop_left, released_append, hrel]
        simp [released, Call.isFreeOf]
      all_goals
        simp [announce, cwmAnnounceSubmitTransferFailure, hT, hM, Bridge.onManager,
          cryptoWalletManagerTake] at hOut
    all_goals
      cases hM : s.cwm.type <;>
      simp [announce, cwmAnnounceSubmitTransferFailure, cwmClientCallbackStateRelease,
        Bridge.onManager, Bridge.call, hT, hM, cryptoWalletManagerTake,
        cryptoWalletManagerGive] at hOut <;>
      (try subst hOut) <;>
      simp [newBridgeCalls, released, Call.isFreeOf]
  case estimateTransactionFeeSuccess strHash costUnits =>
    cases hT : callbackState.type
    case CWM_CALLBACK_TYPE_ETH_ESTIMATE_GAS =>
      obtain ⟨s1, hEq, hc⟩ := estimateSuccess_released natives s callbackState strHash
        costUnits hT
      simp only [announce, hEq, BridgeOutcome.returned.injEq] at hOut
      subst hOut
      exact hc
    all_goals
      simp [announce, cwmAnnounceEstimateTransactionFeeSuccess, hT] at hOut
  all_goals
    cases hT : callbackState.type <;> cases hM : s.cwm.type <;>
    simp [announce, cwmAnnounceGetBlockNumberSuccess, cwmAnnounceGetBlockNumberFailure,
      cwmAnnounceGetTransactionsComplete, cwmAnnounceGetTransfersComplete,
      cwmAnnounceEstimateTransactionFeeSuccess, cwmAnnounceEstimateTransactionFeeFailure,
      cwmClientCallbackStateRelease, Bridge.onManager, Bridge.call, hT, hM,
      cryptoWalletManagerTake, cryptoWalletManagerGive, cryptoNetworkSetHeight,
      walletManagerEventCallback, walletEventCallback] at hOut <;>
    (try subst hOut) <;>
    simp [newBridgeCalls, released, Call.isFreeOf]

/-- An announce other than the item announces returns when the kind of the token is one it
answers and the family of that kind is the family of the manager. -/
theorem nonitem_returns (natives : Natives) (s : Bridge)
    (callbackState : BRCryptoClientCallbackState) (a : Announce) (h : a.isItem = false)
    (hKind : callbackState.type ∈ a.kinds) (hFamily : familyOf callbackState.type = s.cwm.type) :
    ∃ s', announce natives s callbackState a = .returned s' := by
  cases a <;> simp only [Announce.isItem, Bool.true_eq_false] at h
  case submitTransferSuccess hash =>
    cases hT : callbackState.type <;> simp [Announce.kinds, hT] at hKind
    case CWM_CALLBACK_TYPE_GEN_SUBMIT_TRANSACTION =>
      have hM : s.cwm.type = .BLOCK_CHAIN_TYPE_GEN := by rw [← hFamily, hT]; rfl
      obtain ⟨s1, h1, _⟩ := resultGEN_calls natives
        (s.onManager cryptoWalletManagerTake) callbackState 0 hT
      have hM' : (s.onManager cryptoWalletManagerTake).cwm.type = .BLOCK_CHAIN_TYPE_GEN := hM
      simp [announce, cwmAnnounceSubmitTransferSuccess, hT, hM', h1]
    all_goals
      simp only [hT, familyOf] at hFamily
      simp [announce, cwmAnnounceSubmitTransferSuccess, hT, ← hFamily, Bridge.onManager,
        cryptoWalletManagerTake]
  case submitTransferFailure =>
    cases hT : callbackState.type <;> simp [Announce.kinds, hT] at hKind
    case CWM_CALLBACK_TYPE_GEN_SUBMIT_TRANSACTION =>
      have hM : s.cwm.type = .BLOCK_CHAIN_TYPE_GEN := by rw [← hFamily, hT]; rfl
      obtain ⟨s1, h1, _⟩ := resultGEN_calls natives
        (s.onManager cryptoWalletManagerTake) callbackState natives.EIO hT
      have hM' : (s.onManager cryptoWalletManagerTake).cwm.type = .BLOCK_CHAIN_TYPE_GEN := hM
      simp [announce, cwmAnnounceSubmitTransferFailure, hT, hM', h1]
    all_goals
      simp only [hT, familyOf] at hFamily
      simp [announce, cwmAnnounceSubmitTransferFailure, hT, ← hFamily, Bridge.onManager,
        cryptoWalletManagerTake]
  case estimateTransactionFeeSuccess strHash costUnits =>
    cases hT : callbackState.type <;> simp [Announce.kinds, hT] at hKind
    obtain ⟨s1, hEq, _⟩ := estimateSuccess_released natives s callbackState strHash costUnits hT
    exact ⟨s1, hEq⟩
  all_goals
    cases hT : callbackState.type <;> simp [Announce.kinds, hT] at hKind <;>
    simp only [hT, familyOf] at hFamily <;>
    simp [announce, cwmAnnounceGetBlockNumberSuccess, cwmAnnounceGetBlockNumberFailure,
      cwmAnnounceGetTransactionsComplete, cwmAnnounceGetTransfersComplete,
      cwmAnnounceEstimateTransactionFeeFailure, hT, ← hFamily, Bridge.onManager,
      cryptoWalletManagerTake]

/-- The announce functions that compare the family of the manager with the kind of the token
abort, having made no call, when the two differ. -/
theorem checked_family_aborts (natives : Natives) (s : Bridge)
    (callbackState : BRCryptoClientCallbackState) (a : Announce)
    (hChecks : a.checksFamily = true)
    (hFamily : familyOf callbackState.type ≠ s.cwm.type) :
    ∃ s', announce natives s callbackState a = .aborted s' ∧ s'.calls = s.calls ∧
      s'.cwm.events = s.cwm.events := by
  cases a <;> simp only [Announce.checksFamily, Bool.false_eq_true] at hChecks
  all_goals
    cases hT : callbackState.type <;> cases hM : s.cwm.type <;>
    simp only [hT, hM, familyOf, ne_eq, not_true_eq_false] at hFamily <;>
    simp [announce, cwmAnnounceGetTransactionsItem, cwmAnnounceGetTransactionsComplete,
      cwmAnnounceGetTransfersComplete, cwmAnnounceSubmitTransferSuccess,
      cwmAnnounceSubmitTransferFailure, hT, hM, Bridge.onManager, cryptoWalletManagerTake]

theorem dead_event (TX_UNCONFIRMED : Nat) (cwm : BRCryptoWalletManager) (event : BackendEvent)
    (hDead : cwm.ref = 0) : handleBackendEvent TX_UNCONFIRMED cwm event = .returned cwm := by
  cases event <;>
  simp [handleBackendEvent, cwmWalletManagerEventAsBTC, cwmWalletEventAsBTC,
    cwmTransactionEventAsBTC, cwmWalletManagerEventAsETH, cwmPeerEventAsETH,
    cwmWalletEventAsETH, cwmEventTokenAsETH, cwmTransactionEventAsETH,
    cryptoWalletManagerTakeWeak, hDead]

/-! ## C16: which announce releases the token -/

/-- C16: the three item announces (transactions-item, transactions-item of the generic
family, transfer-item) never release the token they are given, however the call ends.  Every
other announce (block-number success and failure, transactions-complete, transfers-complete,
submit success and failure, estimate-fee success and failure) has released the token exactly
once whenever it returns, and does return when the kind of the token is one it answers and
the family of that kind is the family of the manager. -/
theorem announce_releases_token (natives : Natives) (s : Bridge)
    (callbackState : BRCryptoClientCallbackState) (a : Announce) :
    (a.isItem = true →
      released callbackState
        (newBridgeCalls s (announce natives s callbackState a).bridge) = 0) ∧
    (a.isItem = false →
      (∀ s', announce natives s callbackState a = .returned s' →
        released callbackState (newBridgeCalls s s') = 1) ∧
      (callbackState.type ∈ a.kinds → familyOf callbackState.type = s.cwm.type →
        ∃ s', announce natives s callbackState a = .returned s')) :=
  ⟨item_never_releases natives s callbackState a,
   fun h => ⟨fun s' hOut => nonitem_releases_once natives s s' callbackState a h hOut,
     nonitem_returns natives s callbackState a h⟩⟩

/-- C16 at the samples: transactions-complete releases a UTXO token once; transfer-item of
the generic family does not release its token. -/
theorem announce_releases_token_witness :
    (∃ s', cwmAnnounceGetTransactionsComplete (sampleBridge .BLOCK_CHAIN_TYPE_BTC 1)
        (sampleToken .CWM_CALLBACK_TYPE_BTC_GET_TRANSACTIONS) true = .returned s' ∧
      released (sampleToken .CWM_CALLBACK_TYPE_BTC_GET_TRANSACTIONS)
        (newBridgeCalls (sampleBridge .BLOCK_CHAIN_TYPE_BTC 1) s') = 1) ∧
    released (sampleToken .CWM_CALLBACK_TYPE_GEN_GET_TRANSFERS)
      (newBridgeCalls (sampleBridge .BLOCK_CHAIN_TYPE_GEN 1)
        (cwmAnnounceGetTransferItem sampleNatives (sampleBridge .BLOCK_CHAIN_TYPE_GEN 1)
          (sampleToken .CWM_CALLBACK_TYPE_GEN_GET_TRANSFERS)
          ⟨.CRYPTO_TRANSFER_STATE_INCLUDED, some "h", some "u", some "a", some "b",
            some "100", some "eth", some "10", 1000, 500, 6, 0, none, []⟩).bridge) = 0 := by
  have h1 := (announce_releases_token sampleNatives (sampleBridge .BLOCK_CHAIN_TYPE_BTC 1)
    (sampleToken .CWM_CALLBACK_TYPE_BTC_GET_TRANSACTIONS) (.getTransactionsComplete true)).2 rfl
  obtain ⟨s', hOut⟩ := h1.2 (by decide) rfl
  exact ⟨⟨s', hOut, h1.1 s' hOut⟩,
    (announce_releases_token sampleNatives (sampleBridge .BLOCK_CHAIN_TYPE_GEN 1)
      (sampleToken .CWM_CALLBACK_TYPE_GEN_GET_TRANSFERS)
      (.getTransferItem ⟨.CRYPTO_TRANSFER_STATE_INCLUDED, some "h", some "u", some "a",
        some "b", some "100", some "eth", some "10", 1000, 500, 6, 0, none, []⟩)).1 rfl⟩

/-- Against C16 as stated: announce-transactions-item with a token of the accepted kind on
a live UTXO manager returns after one call of `bwmAnnounceTransaction` and has not released
the token. -/
theorem item_keeps_token_counterexample :
    ∃ s', cwmAnnounceGetTransactionsItem sampleNatives (sampleBridge .BLOCK_CHAIN_TYPE_BTC 1)
        (sampleToken .CWM_CALLBACK_TYPE_BTC_GET_TRANSACTIONS) .CRYPTO_TRANSFER_STATE_INCLUDED
        [1, 2, 3] 1000 500 = .returned s' ∧
      s'.calls = [.bwmAnnounceTransaction (some 100) 3 [1, 2, 3] 1000 500 false] ∧
      released (sampleToken .CWM_CALLBACK_TYPE_BTC_GET_TRANSACTIONS) s'.calls = 0 :=
  ⟨_, rfl, rfl, rfl⟩

/-! ## C17: a token of the wrong kind is fatal -/

/-- C17: whenever the kind recorded in the token is not one of the request kinds that the
announce function answers, the call aborts having made no call out of the bridge (no backend
announce function among them), emitted no listener event and changed no wallet and no
transfer.  (`cwmAnnounceGetTransactionsItemGEN` answers every kind: it is not among the
operations of the claim.) -/
theorem kind_mismatch_aborts (natives : Natives) (s : Bridge)
    (callbackState : BRCryptoClientCallbackState) (a : Announce)
    (hKind : callbackState.type ∉ a.kinds) :
    ∃ s', announce natives s callbackState a = .aborted s' ∧ s'.calls = s.calls ∧
      s'.cwm.events = s.cwm.events ∧ s'.cwm.wallets = s.cwm.wallets ∧
      s'.cwm.transfers = s.cwm.transfers := by
  cases a
  case getTransactionsItem status transaction timestamp blockHeight =>
    cases hT : callbackState.type <;> simp [Announce.kinds, hT] at hKind <;>
    cases hM : s.cwm.type <;>
    simp [announce, cwmAnnounceGetTransactionsItem, hT, hM, Bridge.onManager,
      cryptoWalletManagerTake]
  case getTransactionsItemGEN status transaction timestamp blockHeight =>
    cases hT : callbackState.type <;> simp [Announce.kinds, hT] at hKind
  all_goals
    cases hT : callbackState.type <;> simp [Announce.kinds, hT] at hKind <;>
    simp [announce, cwmAnnounceGetBlockNumberSuccess, cwmAnnounceGetBlockNumberFailure,
      cwmAnnounceGetTransactionsComplete, cwmAnnounceGetTransferItem,
      cwmAnnounceGetTransfersComplete, cwmAnnounceSubmitTransferSuccess,
      cwmAnnounceSubmitTransferFailure, cwmAnnounceEstimateTransactionFeeSuccess,
      cwmAnnounceEstimateTransactionFeeFailure, hT, Bridge.onManager,
      cryptoWalletManagerTake]

/-- C17 at the samples: a submit token passed to announce-block-number, and a block-number
token passed to announce-estimate-fee-failure. -/
theorem kind_mismatch_aborts_witness :
    (∃ s', cwmAnnounceGetBlockNumberSuccess (sampleBridge .BLOCK_CHAIN_TYPE_BTC 1)
        (sampleToken .CWM_CALLBACK_TYPE_BTC_SUBMIT_TRANSACTION) 600 = .aborted s' ∧
      s'.calls = (sampleBridge .BLOCK_CHAIN_TYPE_BTC 1).calls ∧
      s'.cwm.events = (sampleBridge .BLOCK_CHAIN_TYPE_BTC 1).cwm.events ∧
      s'.cwm.wallets = (sampleBridge .BLOCK_CHAIN_TYPE_BTC 1).cwm.wallets ∧
      s'.cwm.transfers = (sampleBridge .BLOCK_CHAIN_TYPE_BTC 1).cwm.transfers) ∧
    (∃ s', cwmAnnounceEstimateTransactionFeeFailure (sampleBridge .BLOCK_CHAIN_TYPE_ETH 1)
        (sampleToken .CWM_CALLBACK_TYPE_ETH_GET_BLOCK_NUMBER) none = .aborted s' ∧
      s'.calls = (sampleBridge .BLOCK_CHAIN_TYPE_ETH 1).calls ∧
      s'.cwm.events = (sampleBridge .BLOCK_CHAIN_TYPE_ETH 1).cwm.events ∧
      s'.cwm.wallets = (sampleBridge .BLOCK_CHAIN_TYPE_ETH 1).cwm.wallets ∧
      s'.cwm.transfers = (sampleBridge .BLOCK_CHAIN_TYPE_ETH 1).cwm.transfers) :=
  ⟨kind_mismatch_aborts sampleNatives (sampleBridge .BLOCK_CHAIN_TYPE_BTC 1)
      (sampleToken .CWM_CALLBACK_TYPE_BTC_SUBMIT_TRANSACTION) (.getBlockNumberSuccess 600)
      (by decide),
   kind_mismatch_aborts sampleNatives (sampleBridge .BLOCK_CHAIN_TYPE_ETH 1)
      (sampleToken .CWM_CALLBACK_TYPE_ETH_GET_BLOCK_NUMBER)
      (.estimateTransactionFeeFailure none) (by decide)⟩

/-! ## C18: a token of another family -/

/-- C18: when the family of the token's request kind differs from the family tag of the
manager.  Transactions-item, transactions-complete, transfers-complete and submit success and
failure abort without any call and any event.  The others do not look at the family tag:
announce-block-number-success with a block-number token returns after calling the announce
function of the token's family on `cwm->u` (and for a generic token emits
ManagerBlockHeightUpdated); announce-transactions-item of the generic family returns after
calling `genManagerRecoverTransfersFromRawTransaction` on `cwm->u`, whatever the token; the
estimate-fee announces with an estimate token return after calling a gas-estimate function of
the native account manager on `cwm->u`. -/
theorem family_mismatch (natives : Natives) (s : Bridge)
    (callbackState : BRCryptoClientCallbackState)
    (hFamily : familyOf callbackState.type ≠ s.cwm.type) :
    (∀ a : Announce, a.checksFamily = true →
      ∃ s', announce natives s callbackState a = .aborted s' ∧ s'.calls = s.calls ∧
        s'.cwm.events = s.cwm.events) ∧
    (∀ blockNumber : Nat,
      (callbackState.type = .CWM_CALLBACK_TYPE_BTC_GET_BLOCK_NUMBER →
        ∃ s', cwmAnnounceGetBlockNumberSuccess s callbackState blockNumber = .returned s' ∧
          newBridgeCalls s s' =
            [.bwmAnnounceBlockNumber s.cwm.u callbackState.rid blockNumber,
             .free callbackState]) ∧
      (callbackState.type = .CWM_CALLBACK_TYPE_ETH_GET_BLOCK_NUMBER →
        ∃ s', cwmAnnounceGetBlockNumberSuccess s callbackState blockNumber = .returned s' ∧
          newBridgeCalls s s' =
            [.ewmAnnounceBlockNumber s.cwm.u blockNumber callbackState.rid,
             .free callbackState]) ∧
      (callbackState.type = .CWM_CALLBACK_TYPE_GEN_GET_BLOCK_NUMBER →
        ∃ s', cwmAnnounceGetBlockNumberSuccess s callbackState blockNumber = .returned s' ∧
          newBridgeCalls s s' =
            [.genManagerAnnounceBlockNumber s.cwm.u callbackState.rid blockNumber,
             .free callbackState] ∧
          newEvents s.cwm s'.cwm = [.walletManagerEvent
            (.CRYPTO_WALLET_MANAGER_EVENT_BLOCK_HEIGHT_UPDATED blockNumber)])) ∧
    (∀ (status : BRCryptoTransferStateType) (transaction : List Nat)
        (timestamp blockHeight : Nat),
      ∃ s', cwmAnnounceGetTransactionsItemGEN natives s callbackState status transaction
          timestamp blockHeight = .returned s' ∧
        (newBridgeCalls s s').head? = some (.genManagerRecoverTransfersFromRawTransaction
          s.cwm.u transaction timestamp blockHeight false)) ∧
    (callbackState.type = .CWM_CALLBACK_TYPE_ETH_ESTIMATE_GAS →
      (∀ hash : Option String,
        ∃ s', cwmAnnounceEstimateTransactionFeeFailure s callbackState hash = .returned s' ∧
          newBridgeCalls s s' =
            [.ewmAnnounceGasEstimateFailure s.cwm.u callbackState.wid callbackState.cookie
               ERROR_FAILED callbackState.rid,
             .free callbackState]) ∧
      (∀ (strHash : String) (costUnits : Nat),
        ∃ s' c, cwmAnnounceEstimateTransactionFeeSuccess natives s callbackState strHash
            costUnits = .returned s' ∧
          newBridgeCalls s s' = [c, .free callbackState] ∧
          (c = .ewmAnnounceGasEstimateFailure s.cwm.u callbackState.wid callbackState.cookie
                ERROR_FAILED callbackState.rid ∨
           ∃ transfer, c = .ewmAnnounceGasEstimateSuccess s.cwm.u callbackState.wid
                callbackState.cookie (toString (costUnits % 2 ^ 64))
                (natives.ewmTransferGetGasPrice transfer) callbackState.rid))) := by
  refine ⟨fun a h => checked_family_aborts natives s callbackState a h hFamily, ?_, ?_, ?_⟩
  · intro blockNumber
    refine ⟨?_, ?_, ?_⟩ <;> intro hT <;>
    simp [cwmAnnounceGetBlockNumberSuccess, hT, Bridge.onManager, Bridge.call,
      cwmClientCallbackStateRelease, cryptoWalletManagerTake, cryptoWalletManagerGive,
      cryptoNetworkSetHeight, walletManagerEventCallback, newBridgeCalls, newEvents,
      newCalls]
  · intro status transaction timestamp blockHeight
    simp only [cwmAnnounceGetTransactionsItemGEN, Bridge.onManager, Bridge.call,
      cryptoWalletManagerTake, cryptoWalletManagerGive]
    cases natives.genManagerRecoverTransfersFromRawTransaction transaction timestamp
      blockHeight false with
    | none => exact ⟨_, rfl, by simp [newBridgeCalls]⟩
    | some transfers =>
      have := handleTransferGEN_foldl natives (fun genTransfer =>
        genTransferSetState genTransfer (cwmAnnounceGetTransferStateGEN natives genTransfer
          status timestamp blockHeight)) transfers
      exact ⟨_, rfl, by simp [newBridgeCalls, this]⟩
  · intro hT
    constructor
    · intro hash
      simp [cwmAnnounceEstimateTransactionFeeFailure, hT, Bridge.onManager, Bridge.call,
        cwmClientCallbackStateRelease, cryptoWalletManagerTake, cryptoWalletManagerGive,
        newBridgeCalls]
    · intro strHash costUnits
      unfold cwmAnnounceEstimateTransactionFeeSuccess
      simp only [hT]
      split
      · rename_i transfer _ _
        refine ⟨_, .ewmAnnounceGasEstimateSuccess s.cwm.u callbackState.wid
          callbackState.cookie (toString (costUnits % 2 ^ 64))
          (natives.ewmTransferGetGasPrice transfer) callbackState.rid, rfl, ?_,
          Or.inr ⟨transfer, rfl⟩⟩
        simp [newBridgeCalls, Bridge.onManager, Bridge.call, cwmClientCallbackStateRelease,
          hT, cryptoWalletManagerTake]
      · refine ⟨_, .ewmAnnounceGasEstimateFailure s.cwm.u callbackState.wid
          callbackState.cookie ERROR_FAILED callbackState.rid, rfl, ?_, Or.inl rfl⟩
        have hlen : ¬ ((toString (costUnits % 2 ^ 64)).length : Int) < 0 :=
          not_lt.2 (Int.natCast_nonneg _)
        simp [newBridgeCalls, Bridge.onManager, Bridge.call, cwmClientCallbackStateRelease,
          hT, cryptoWalletManagerTake, hlen]

/-- C18 at a sample account manager with UTXO tokens: transactions-complete aborts,
announce-block-number-success returns having called `bwmAnnounceBlockNumber`. -/
theorem family_mismatch_witness :
    (∃ s', cwmAnnounceGetTransactionsComplete (sampleBridge .BLOCK_CHAIN_TYPE_ETH 1)
        (sampleToken .CWM_CALLBACK_TYPE_BTC_GET_TRANSACTIONS) true = .aborted s' ∧
      s'.calls = (sampleBridge .BLOCK_CHAIN_TYPE_ETH 1).calls ∧
      s'.cwm.events = (sampleBridge .BLOCK_CHAIN_TYPE_ETH 1).cwm.events) ∧
    (∃ s', cwmAnnounceGetBlockNumberSuccess (sampleBridge .BLOCK_CHAIN_TYPE_ETH 1)
        (sampleToken .CWM_CALLBACK_TYPE_BTC_GET_BLOCK_NUMBER) 600 = .returned s' ∧
      newBridgeCalls (sampleBridge .BLOCK_CHAIN_TYPE_ETH 1) s' =
        [.bwmAnnounceBlockNumber (some 100) 3 600,
         .free (sampleToken .CWM_CALLBACK_TYPE_BTC_GET_BLOCK_NUMBER)]) :=
  ⟨(family_mismatch sampleNatives (sampleBridge .BLOCK_CHAIN_TYPE_ETH 1)
      (sampleToken .CWM_CALLBACK_TYPE_BTC_GET_TRANSACTIONS) (by decide)).1
      (.getTransactionsComplete true) rfl,
   ((family_mismatch sampleNatives (sampleBridge .BLOCK_CHAIN_TYPE_ETH 1)
      (sampleToken .CWM_CALLBACK_TYPE_BTC_GET_BLOCK_NUMBER) (by decide)).2.1 600).1 rfl⟩

/-! ## C19: backend callbacks on a dead manager -/

/-- C19: on a manager whose reference count is zero.  Every event callback and every
request callback other than `cwmGetTransfersAsGEN` and `cwmGetNonceAsETH` returns with the
bridge unchanged: no Client call, no token, no listener event, no change of the manager, its
wallets or its transfers.  `cwmGetNonceAsETH` never touches the manager and only answers the
native manager.  `cwmGetTransfersAsGEN` takes the manager by `cryptoWalletManagerTake`: it
returns having created a token and called the Client's `funcGetTransfers`, the count
left at one. -/
theorem dead_manager_callbacks (TX_UNCONFIRMED : Nat) (natives : Natives) (context : Bridge)
    (hDead : context.cwm.ref = 0) :
    (∀ callback : BackendCallback,
      callback.isGetTransfersAsGEN = false → callback.isGetNonceAsETH = false →
      handleBackendCallback TX_UNCONFIRMED natives context callback = .returned context) ∧
    (∀ (ewm : BREthereumEWM) (address : String) (rid : Int),
      ∃ s', cwmGetNonceAsETH natives context ewm address rid = .returned s' ∧
        s'.cwm = context.cwm ∧
        newBridgeCalls context s' = [.ewmSignalAnnounceNonce ewm.ptr
          (natives.ewmWalletGetAddress ewm.wallet)
          (natives.ewmWalletGetTransferNonce ewm.wallet) rid]) ∧
    (∀ (manager : Nat) (address : Option String) (begBlockNumber endBlockNumber : Nat)
        (rid : Int),
      ∃ s', cwmGetTransfersAsGEN context manager address begBlockNumber endBlockNumber rid =
          .returned s' ∧
        s'.cwm.ref = 1 ∧
        newBridgeCalls context s' =
          [.calloc { callocCallbackState with
              type := .CWM_CALLBACK_TYPE_GEN_GET_TRANSFERS
              rid := rid },
           .funcGetTransfers { callocCallbackState with
              type := .CWM_CALLBACK_TYPE_GEN_GET_TRANSFERS
              rid := rid } [address] "__native__" begBlockNumber endBlockNumber]) := by
  refine ⟨?_, ?_, ?_⟩
  · intro callback h1 h2
    cases callback with
    | event event =>
      simp [handleBackendCallback, dead_event TX_UNCONFIRMED context.cwm event hDead,
        Outcome.withCalls]
    | request request =>
      cases request <;>
      simp only [BackendCallback.isGetTransfersAsGEN, BackendCallback.isGetNonceAsETH,
        Bool.true_eq_false] at h1 h2 <;>
      simp [handleBackendCallback, handleBackendRequest, cwmGetBlockNumberAsBTC,
        cwmGetTransactionsAsBTC, cwmSubmitTransactionAsBTC, cwmGetBalanceAsETH,
        cwmGetGasPriceAsETH, cwmGetGasEstimateAsETH, cwmSubmitTransactionAsETH,
        cwmGetTransactionsAsETH, cwmGetLogsAsETH, cwmGetBlocksAsETH, cwmGetTokensAsETH,
        cwmGetBlockNumberAsETH, cwmGetBlockNumberAsGEN, cwmGetTransactionsAsGEN,
        cwmSubmitTransactionAsGEN, cryptoWalletManagerTakeWeak, hDead]
  · intro ewm address rid
    exact ⟨_, rfl, rfl, by simp [newBridgeCalls, Bridge.call]⟩
  · intro manager address begBlockNumber endBlockNumber rid
    refine ⟨_, rfl, ?_, ?_⟩
    · simp [Bridge.onManager, Bridge.call, funcGetTransfers, cryptoWalletManagerTake,
        cryptoWalletManagerGive, hDead]
    · simp [newBridgeCalls, Bridge.onManager, Bridge.call, funcGetTransfers]

/-- C19 at the sample managers with count zero: `cwmGetBlockNumberAsBTC` changes nothing,
`cwmGetTransfersAsGEN` calls the Client. -/
theorem dead_manager_callbacks_witness :
    cwmGetBlockNumberAsBTC (sampleBridge .BLOCK_CHAIN_TYPE_BTC 0) sampleBTC 3 =
      .returned (sampleBridge .BLOCK_CHAIN_TYPE_BTC 0) ∧
    (∃ s', cwmGetTransfersAsGEN (sampleBridge .BLOCK_CHAIN_TYPE_GEN 0) 100 (some "r123") 0 500 3
        = .returned s' ∧
      s'.cwm.ref = 1 ∧
      newBridgeCalls (sampleBridge .BLOCK_CHAIN_TYPE_GEN 0) s' =
        [.calloc (sampleToken .CWM_CALLBACK_TYPE_GEN_GET_TRANSFERS),
         .funcGetTransfers (sampleToken .CWM_CALLBACK_TYPE_GEN_GET_TRANSFERS) [some "r123"]
           "__native__" 0 500]) :=
  ⟨(dead_manager_callbacks 2147483647 sampleNatives (sampleBridge .BLOCK_CHAIN_TYPE_BTC 0)
      rfl).1 (.request (.getBlockNumberAsBTC sampleBTC 3)) rfl rfl,
   (dead_manager_callbacks 2147483647 sampleNatives (sampleBridge .BLOCK_CHAIN_TYPE_GEN 0)
      rfl).2.2 100 (some "r123") 0 500 3⟩

/-! ## Lemmas on the request ids and contexts of the calls -/

theorem request_tokens (natives : Natives) (context : Bridge) (request : BackendRequest)
    (hLive : context.cwm.ref ≠ 0) :
    ∀ s', handleBackendRequest natives context request = .returned s' →
      (newBridgeCalls context s').filterMap Call.token = request.expectedToken.toList := by
  cases request
  case getLogsAsETH ewm contract address event begBlockNumber endBlockNumber rid =>
    cases hM : context.cwm.type <;>
    simp [handleBackendRequest, cwmGetLogsAsETH, cwmAnnounceGetTransfersComplete,
      cryptoWalletManagerTakeWeak, hLive, hM, Bridge.onManager, Bridge.call,
      cryptoWalletManagerTake, cryptoWalletManagerGive, cwmClientCallbackStateRelease,
      newBridgeCalls, Call.token, BackendRequest.expectedToken]
  case getGasEstimateAsETH ewm wid tid cookie sender receiver amount price data rid =>
    cases hEnc : (natives.ewmTransferGetRLPEncoding wid tid).2 <;>
    simp [handleBackendRequest, cwmGetGasEstimateAsETH, cryptoWalletManagerTakeWeak, hLive,
      hEnc, funcEstimateTransactionFee, Bridge.onManager, Bridge.call,
      cryptoWalletManagerTake, cryptoWalletManagerGive, newBridgeCalls, Call.token,
      BackendRequest.expectedToken]
  all_goals
    simp [handleBackendRequest, cwmGetBlockNumberAsBTC, cwmGetTransactionsAsBTC,
      cwmSubmitTransactionAsBTC, cwmGetBalanceAsETH, cwmGetGasPriceAsETH,
      cwmSubmitTransactionAsETH, cwmGetTransactionsAsETH, cwmGetBlocksAsETH,
      cwmGetTokensAsETH, cwmGetBlockNumberAsETH, cwmGetNonceAsETH, cwmGetBlockNumberAsGEN,
      cwmGetTransactionsAsGEN, cwmGetTransfersAsGEN, cwmSubmitTransactionAsGEN,
      cryptoWalletManagerTakeWeak, hLive, funcGetBlockNumber, funcGetTransactions,
      funcGetTransfers, funcSubmitTransaction, funcEstimateTransactionFee, Bridge.onManager,
      Bridge.call, cryptoWalletManagerTake, cryptoWalletManagerGive, newBridgeCalls,
      Call.token, BackendRequest.expectedToken, genTransferCopy]

theorem carries_handles (callbackState : BRCryptoClientCallbackState)
    (g : BRGenericTransfer → BRGenericTransfer) (transfers : List BRGenericTransfer) :
    (transfers.map (fun t => Call.cryptoWalletManagerHandleTransferGEN (g t))).all
      (Call.carries callbackState) = true := by
  induction transfers with
  | nil => rfl
  | cons t ts ih => simp [Call.carries]

theorem resultGEN_carries (natives : Natives) (s : Bridge)
    (callbackState : BRCryptoClientCallbackState) (error : Int) :
    ∃ extra, (cwmAnnounceSubmitTransferResultGEN natives s callbackState error).bridge.calls =
        s.calls ++ extra ∧ extra.all (Call.carries callbackState) = true ∧
      ((∃ s', cwmAnnounceSubmitTransferResultGEN natives s callbackState error =
          .returned s') → extra.countP Call.isAnnounce = 1) := by
  unfold cwmAnnounceSubmitTransferResultGEN
  by_cases hK : BRCryptoCWMCallbackType.CWM_CALLBACK_TYPE_GEN_SUBMIT_TRANSACTION ≠
      callbackState.type
  · rw [if_pos hK]
    exact ⟨[], by simp [BridgeOutcome.bridge], rfl, fun ⟨s', h⟩ => by simp at h⟩
  · rw [if_neg hK]
    simp only [Bridge.call, cryptoWalletManagerSetTransferStateGEN]
    split
    · exact ⟨_, List.append_assoc _ _ _, by simp [Call.carries],
        fun _ => by simp [Call.isAnnounce]⟩
    · exact ⟨_, rfl, by simp [Call.carries], fun _ => by simp [Call.isAnnounce]⟩

theorem announce_carries (natives : Natives) (s : Bridge)
    (callbackState : BRCryptoClientCallbackState) (a : Announce) :
    (newBridgeCalls s (announce natives s callbackState a).bridge).all
      (Call.carries callbackState) = true := by
  cases a
  case getTransactionsItem status transaction timestamp blockHeight =>
    simp only [announce, cwmAnnounceGetTransactionsItem, Bridge.onManager, Bridge.call,
      cryptoWalletManagerTake, cryptoWalletManagerGive]
    cases s.cwm.type
    · simp only []
      split_ifs <;>
      simp [BridgeOutcome.bridge, newBridgeCalls, Call.carries]
    · simp [BridgeOutcome.bridge, newBridgeCalls]
    · simp only []
      split_ifs
      · simp [BridgeOutcome.bridge, newBridgeCalls]
      · cases natives.genManagerRecoverTransfersFromRawTransaction transaction timestamp
          blockHeight (decide (BRCryptoTransferStateType.CRYPTO_TRANSFER_STATE_ERRORED = status))
        · simp [BridgeOutcome.bridge, newBridgeCalls, Call.carries]
        · rename_i transfers
          have := handleTransferGEN_foldl natives id transfers
          simp only [id] at this
          have h := carries_handles callbackState id transfers
          simp only [id] at h
          simp only [BridgeOutcome.bridge, newBridgeCalls, this, List.append_assoc,
            List.drop_left, List.all_append, h]
          simp [Call.carries]
  case getTransactionsItemGEN status transaction timestamp blockHeight =>
    simp only [announce, cwmAnnounceGetTransactionsItemGEN, Bridge.onManager, Bridge.call,
      cryptoWalletManagerTake, cryptoWalletManagerGive]
    cases natives.genManagerRecoverTransfersFromRawTransaction transaction timestamp
      blockHeight false
    · simp [BridgeOutcome.bridge, newBridgeCalls, Call.carries]
    · rename_i transfers
      have := handleTransferGEN_foldl natives (fun genTransfer =>
        genTransferSetState genTransfer (cwmAnnounceGetTransferStateGEN natives genTransfer
          status timestamp blockHeight)) transfers
      simp only [BridgeOutcome.bridge, newBridgeCalls, this, List.append_assoc,
        List.drop_left, List.all_append, carries_handles callbackState]
      simp [Call.carries]
  case getTransferItem item =>
    simp only [announce, cwmAnnounceGetTransferItem]
    by_cases hK : (BRCryptoCWMCallbackType.CWM_CALLBACK_TYPE_GEN_GET_TRANSFERS =
        callbackState.type ∨
      BRCryptoCWMCallbackType.CWM_CALLBACK_TYPE_ETH_GET_TRANSACTIONS = callbackState.type)
    · rw [if_neg (not_not.2 hK)]
      simp only [Bridge.onManager, Bridge.call, cryptoWalletManagerTake,
        cryptoWalletManagerGive, cryptoWalletManagerHandleTransferGEN]
      cases natives.cryptoNetworkGetCurrencyForUids s.cwm.network item.currency with
      | none => simp [BridgeOutcome.bridge, newBridgeCalls]
      | some walletCurrency =>
        rcases hK with hK | hK
        · simp only [← hK]
          cases natives.cryptoWalletManagerGetWalletForCurrency
            { s.cwm with ref := s.cwm.ref + 1 } walletCurrency <;>
          simp [BridgeOutcome.bridge, newBridgeCalls, Call.carries]
        · simp only [← hK]
          cases natives.cryptoCurrencyGetIssuer walletCurrency <;>
          simp [BridgeOutcome.bridge, newBridgeCalls, Call.carries]
    · rw [if_pos hK]
      simp [BridgeOutcome.bridge, newBridgeCalls]
  case submitTransferSuccess hash =>
    cases hT : callbackState.type
    case CWM_CALLBACK_TYPE_GEN_SUBMIT_TRANSACTION =>
      cases hM : s.cwm.type
      case BLOCK_CHAIN_TYPE_GEN =>
        obtain ⟨extra, hcalls, hall, _⟩ := resultGEN_carries natives
          (s.onManager cryptoWalletManagerTake) callbackState 0
        have hM' : (s.onManager cryptoWalletManagerTake).cwm.type = .BLOCK_CHAIN_TYPE_GEN := hM
        simp only [announce, cwmAnnounceSubmitTransferSuccess, hT, hM']
        cases hR : cwmAnnounceSubmitTransferResultGEN natives
            (s.onManager cryptoWalletManagerTake) callbackState 0 with
        | returned s1 =>
          simp only [hR, BridgeOutcome.bridge] at hcalls
          simp [BridgeOutcome.bridge, newBridgeCalls, cwmClientCallbackStateRelease, hT,
            Bridge.call, Bridge.onManager, hcalls, hall, Call.carries]
        | aborted s1 =>
          simp only [hR, BridgeOutcome.bridge] at hcalls
          simp [BridgeOutcome.bridge, newBridgeCalls, hcalls, hall, Bridge.onManager]
      all_goals
        simp [announce, cwmAnnounceSubmitTransferSuccess, hT, hM, Bridge.onManager,
          cryptoWalletManagerTake, BridgeOutcome.bridge, newBridgeCalls]
    all_goals
      cases hM : s.cwm.type <;>
      simp [announce, cwmAnnounceSubmitTransferSuccess, cwmClientCallbackStateRelease,
        Bridge.onManager, Bridge.call, hT, hM, cryptoWalletManagerTake,
        cryptoWalletManagerGive, BridgeOutcome.bridge, newBridgeCalls, Call.carries]
  case submitTransferFailure =>
    cases hT : callbackState.type
    case CWM_CALLBACK_TYPE_GEN_SUBMIT_TRANSACTION =>
      cases hM : s.cwm.type
      case BLOCK_CHAIN_TYPE_GEN =>
        obtain ⟨extra, hcalls, hall, _⟩ := resultGEN_carries natives
          (s.onManager cryptoWalletManagerTake) callbackState natives.EIO
        have hM' : (s.onManager cryptoWalletManagerTake).cwm.type = .BLOCK_CHAIN_TYPE_GEN := hM
        simp only [announce, cwmAnnounceSubmitTransferFailure, hT, hM']
        cases hR : cwmAnnounceSubmitTransferResultGEN natives
            (s.onManager cryptoWalletManagerTake) callbackState natives.EIO with
        | returned s1 =>
          simp only [hR, BridgeOutcome.bridge] at hcalls
          simp [BridgeOutcome.bridge, newBridgeCalls, cwmClientCallbackStateRelease, hT,
            Bridge.call, Bridge.onManager, hcalls, hall, Call.carries]
        | aborted s1 =>
          simp only [hR, BridgeOutcome.bridge] at hcalls
          simp [BridgeOutcome.bridge, newBridgeCalls, hcalls, hall, Bridge.onManager]
      all_goals
        simp [announce, cwmAnnounceSubmitTransferFailure, hT, hM, Bridge.onManager,
          cryptoWalletManagerTake, BridgeOutcome.bridge, newBridgeCalls]
    all_goals
      cases hM : s.cwm.type <;>
      simp [announce, cwmAnnounceSubmitTransferFailure, cwmClientCallbackStateRelease,
        Bridge.onManager, Bridge.call, hT, hM, cryptoWalletManagerTake,
        cryptoWalletManagerGive, BridgeOutcome.bridge, newBridgeCalls, Call.carries]
  case estimateTransactionFeeSuccess strHash costUnits =>
    cases hT : callbackState.type <;>
    simp only [announce, cwmAnnounceEstimateTransactionFeeSuccess, hT] <;>
    (try split) <;>
    simp [BridgeOutcome.bridge, newBridgeCalls, Call.carries, Bridge.onManager, Bridge.call,
      cwmClientCallbackStateRelease, hT]
  all_goals
    cases hT : callbackState.type <;> cases hM : s.cwm.type <;>
    simp [announce, cwmAnnounceGetBlockNumberSuccess, cwmAnnounceGetBlockNumberFailure,
      cwmAnnounceGetTransactionsComplete, cwmAnnounceGetTransfersComplete,
      cwmAnnounceEstimateTransactionFeeFailure,
      cwmClientCallbackStateRelease, Bridge.onManager, Bridge.call, hT, hM,
      cryptoWalletManagerTake, cryptoWalletManagerGive, cryptoNetworkSetHeight,
      walletManagerEventCallback, walletEventCallback, BridgeOutcome.bridge, newBridgeCalls,
      Call.carries]

theorem announce_once (natives : Natives) (s s' : Bridge)
    (callbackState : BRCryptoClientCallbackState) (a : Announce) (h : a.isItem = false)
    (hNot : a ≠ .getBlockNumberFailure)
    (hOut : announce natives s callbackState a = .returned s') :
    (newBridgeCalls s s').countP Call.isAnnounce = 1 := by
  cases a <;> simp only [Announce.isItem, Bool.true_eq_false] at h
  case getBlockNumberFailure => exact absurd rfl hNot
  case submitTransferSuccess hash =>
    cases hT : callbackState.type
    case CWM_CALLBACK_TYPE_GEN_SUBMIT_TRANSACTION =>
      cases hM : s.cwm.type
      case BLOCK_CHAIN_TYPE_GEN =>
        obtain ⟨extra, hcalls, _, hone⟩ := resultGEN_carries natives
          (s.onManager cryptoWalletManagerTake) callbackState 0
        have hM' : (s.onManager cryptoWalletManagerTake).cwm.type = .BLOCK_CHAIN_TYPE_GEN := hM
        simp only [announce, cwmAnnounceSubmitTransferSuccess, hT, hM'] at hOut
        cases hR : cwmAnnounceSubmitTransferResultGEN natives
            (s.onManager cryptoWalletManagerTake) callbackState 0 with
        | returned s1 =>
          simp only [hR, BridgeOutcome.bridge] at hcalls
          have hone' := hone ⟨s1, hR⟩
          simp only [hR, reduceCtorEq, or_true, not_true_eq_false, if_false, ne_eq,
            BridgeOutcome.returned.injEq] at hOut
          subst hOut
          simp [newBridgeCalls, cwmClientCallbackStateRelease, hT, Bridge.call,
            Bridge.onManager, hcalls, hone', Call.isAnnounce]
        | aborted s1 => simp [hR] at hOut
      all_goals
        simp [announce, cwmAnnounceSubmitTransferSuccess, hT, hM, Bridge.onManager,
          cryptoWalletManagerTake] at hOut
    all_goals
      cases hM : s.cwm.type <;>
      simp [announce, cwmAnnounceSubmitTransferSuccess, cwmClientCallbackStateRelease,
        Bridge.onManager, Bridge.call, hT, hM, cryptoWalletManagerTake,
        cryptoWalletManagerGive] at hOut <;>
      (try subst hOut) <;>
      simp [newBridgeCalls, Call.isAnnounce]
  case submitTransferFailure =>
    cases hT : callbackState.type
    case CWM_CALLBACK_TYPE_GEN_SUBMIT_TRANSACTION =>
      cases hM : s.cwm.type
      case BLOCK_CHAIN_TYPE_GEN =>
        obtain ⟨extra, hcalls, _, hone⟩ := resultGEN_carries natives
          (s.onManager cryptoWalletManagerTake) callbackState natives.EIO
        have hM' : (s.onManager cryptoWalletManagerTake).cwm.type = .BLOCK_CHAIN_TYPE_GEN := hM
        simp only [announce, cwmAnnounceSubmitTransferFailure, hT, hM'] at hOut
        cases hR : cwmAnnounceSubmitTransferResultGEN natives
            (s.onManager cryptoWalletManagerTake) callbackState natives.EIO with
        | returned s1 =>
          simp only [hR, BridgeOutcome.bridge] at hcalls
          have hone' := hone ⟨s1, hR⟩
          simp only [hR, reduceCtorEq, or_true, not_true_eq_false, if_false, ne_eq, false_and,
            and_self, if_true, BridgeOutcome.returned.injEq] at hOut
          subst hOut
          simp [newBridgeCalls, cwmClientCallbackStateRelease, hT, Bridge.call,
            Bridge.onManager, hcalls, hone', Call.isAnnounce]
        | aborted s1 => simp [hR] at hOut
      all_goals
        simp [announce, cwmAnnounceSubmitTransferFailure, hT, hM, Bridge.onManager,
          cryptoWalletManagerTake] at hOut
    all_goals
      cases hM : s.cwm.type <;>
      simp [announce, cwmAnnounceSubmitTransferFailure, cwmClientCallbackStateRelease,
        Bridge.onManager, Bridge.call, hT, hM, cryptoWalletManagerTake,
        cryptoWalletManagerGive] at hOut <;>
      (try subst hOut) <;>
      simp [newBridgeCalls, Call.isAnnounce]
  case estimateTransactionFeeSuccess strHash costUnits =>
    cases hT : callbackState.type <;>
    simp only [announce, cwmAnnounceEstimateTransactionFeeSuccess, hT, reduceCtorEq] at hOut
    simp only [BridgeOutcome.returned.injEq] at hOut
    subst hOut
    split <;>
    simp [newBridgeCalls, Call.isAnnounce, Bridge.onManager, Bridge.call,
      cwmClientCallbackStateRelease, hT]
  all_goals
    cases hT : callbackState.type <;> cases hM : s.cwm.type <;>
    simp [announce, cwmAnnounceGetBlockNumberSuccess,
      cwmAnnounceGetTransactionsComplete, cwmAnnounceGetTransfersComplete,
      cwmAnnounceEstimateTransactionFeeFailure,
      cwmClientCallbackStateRelease, Bridge.onManager, Bridge.call, hT, hM,
      cryptoWalletManagerTake, cryptoWalletManagerGive, cryptoNetworkSetHeight,
      walletManagerEventCallback, walletEventCallback] at hOut <;>
    (try subst hOut) <;>
    simp [newBridgeCalls, Call.isAnnounce]

theorem request_returns (natives : Natives) (context : Bridge) (request : BackendRequest)
    (hLive : context.cwm.ref ≠ 0) (t : BRCryptoClientCallbackState)
    (hToken : request.expectedToken = some t)
    (hEncoded : ∀ ewm wid tid cookie sender receiver amount price data rid,
      request = .getGasEstimateAsETH ewm wid tid cookie sender receiver amount price data rid →
      (natives.ewmTransferGetRLPEncoding wid tid).2 = true) :
    ∃ s', handleBackendRequest natives context request = .returned s' := by
  cases request
  case getGasEstimateAsETH ewm wid tid cookie sender receiver amount price data rid =>
    have hEnc := hEncoded ewm wid tid cookie sender receiver amount price data rid rfl
    simp [handleBackendRequest, cwmGetGasEstimateAsETH, cryptoWalletManagerTakeWeak, hLive,
      hEnc]
  all_goals
    first
    | (simp [BackendRequest.expectedToken] at hToken; done)
    | simp [handleBackendRequest, cwmGetBlockNumberAsBTC, cwmGetTransactionsAsBTC,
        cwmSubmitTransactionAsBTC, cwmSubmitTransactionAsETH, cwmGetTransactionsAsETH,
        cwmGetBlockNumberAsETH, cwmGetBlockNumberAsGEN, cwmGetTransactionsAsGEN,
        cwmGetTransfersAsGEN, cwmSubmitTransactionAsGEN, cryptoWalletManagerTakeWeak, hLive]

/-! ## Lemmas on the native announce calls of the item announces and of block-number-failure -/

theorem isAnnounce_handles (g : BRGenericTransfer → BRGenericTransfer)
    (transfers : List BRGenericTransfer) :
    (transfers.map (fun t => Call.cryptoWalletManagerHandleTransferGEN (g t))).countP
      Call.isAnnounce = 0 := by
  induction transfers with
  | nil => rfl
  | cons t ts ih =>
    simp only [List.map_cons, List.countP_cons] at ih ⊢
    simp [ih, Call.isAnnounce]

theorem blockNumberFailure_quiet (s : Bridge) (callbackState : BRCryptoClientCallbackState) :
    (cwmAnnounceGetBlockNumberFailure s callbackState).bridge.cwm = s.cwm ∧
    (newBridgeCalls s (cwmAnnounceGetBlockNumberFailure s callbackState).bridge).countP
      Call.isAnnounce = 0 := by
  cases hT : callbackState.type <;>
  simp [cwmAnnounceGetBlockNumberFailure, BridgeOutcome.bridge, newBridgeCalls,
    cwmClientCallbackStateRelease, Bridge.call, hT, Call.isAnnounce]

theorem transactionsItemGEN_no_announce (natives : Natives) (s : Bridge)
    (callbackState : BRCryptoClientCallbackState) (status : BRCryptoTransferStateType)
    (transaction : List Nat) (timestamp blockHeight : Nat) :
    (newBridgeCalls s (cwmAnnounceGetTransactionsItemGEN natives s callbackState status
      transaction timestamp blockHeight).bridge).countP Call.isAnnounce = 0 ∧
    (newBridgeCalls s (cwmAnnounceGetTransactionsItemGEN natives s callbackState status
      transaction timestamp blockHeight).bridge).head? =
      some (.genManagerRecoverTransfersFromRawTransaction s.cwm.u transaction timestamp
        blockHeight false) := by
  simp only [cwmAnnounceGetTransactionsItemGEN, Bridge.onManager, Bridge.call,
    cryptoWalletManagerTake, cryptoWalletManagerGive]
  cases natives.genManagerRecoverTransfersFromRawTransaction transaction timestamp
    blockHeight false
  · simp [BridgeOutcome.bridge, newBridgeCalls, Call.isAnnounce]
  · rename_i transfers
    have := handleTransferGEN_foldl natives (fun genTransfer =>
      genTransferSetState genTransfer (cwmAnnounceGetTransferStateGEN natives genTransfer
        status timestamp blockHeight)) transfers
    simp only [BridgeOutcome.bridge, newBridgeCalls, this, List.append_assoc,
      List.drop_left, List.countP_append, isAnnounce_handles]
    simp [Call.isAnnounce]

theorem transactionsItem_generic_no_announce (natives : Natives) (s : Bridge)
    (callbackState : BRCryptoClientCallbackState) (status : BRCryptoTransferStateType)
    (transaction : List Nat) (timestamp blockHeight : Nat)
    (hType : s.cwm.type = .BLOCK_CHAIN_TYPE_GEN) :
    (newBridgeCalls s (cwmAnnounceGetTransactionsItem natives s callbackState status
      transaction timestamp blockHeight).bridge).countP Call.isAnnounce = 0 := by
  simp only [cwmAnnounceGetTransactionsItem, Bridge.onManager, Bridge.call,
    cryptoWalletManagerTake, cryptoWalletManagerGive, hType]
  split_ifs
  · simp [BridgeOutcome.bridge, newBridgeCalls]
  · cases natives.genManagerRecoverTransfersFromRawTransaction transaction timestamp
      blockHeight (decide (BRCryptoTransferStateType.CRYPTO_TRANSFER_STATE_ERRORED = status))
    · simp [BridgeOutcome.bridge, newBridgeCalls, Call.isAnnounce]
    · rename_i transfers
      have := handleTransferGEN_foldl natives id transfers
      simp only [id] at this
      have h := isAnnounce_handles id transfers
      simp only [id] at h
      simp only [BridgeOutcome.bridge, newBridgeCalls, this, List.append_assoc,
        List.drop_left, List.countP_append, h]
      simp [Call.isAnnounce]

theorem transactionsItem_utxo_call (natives : Natives) (s : Bridge)
    (callbackState : BRCryptoClientCallbackState) (status : BRCryptoTransferStateType)
    (transaction : List Nat) (timestamp blockHeight : Nat)
    (hKind : callbackState.type = .CWM_CALLBACK_TYPE_BTC_GET_TRANSACTIONS)
    (hType : s.cwm.type = .BLOCK_CHAIN_TYPE_BTC) :
    ∃ s', cwmAnnounceGetTransactionsItem natives s callbackState status transaction timestamp
        blockHeight = .returned s' ∧ s'.cwm = s.cwm ∧
      newBridgeCalls s s' =
        [.bwmAnnounceTransaction s.cwm.u callbackState.rid transaction timestamp blockHeight
          (decide (BRCryptoTransferStateType.CRYPTO_TRANSFER_STATE_ERRORED = status))] := by
  have hOut : cwmAnnounceGetTransactionsItem natives s callbackState status transaction
      timestamp blockHeight = .returned
        { cwm := { s.cwm with ref := s.cwm.ref + 1 - 1 },
          calls := s.calls ++ [.bwmAnnounceTransaction s.cwm.u callbackState.rid transaction
            timestamp blockHeight
            (decide (BRCryptoTransferStateType.CRYPTO_TRANSFER_STATE_ERRORED = status))] } := by
    simp only [cwmAnnounceGetTransactionsItem, Bridge.onManager, cryptoWalletManagerTake,
      hType, hKind, ne_eq, not_true_eq_false, if_false]
    rfl
  exact ⟨_, hOut, by simp, by simp [newBridgeCalls]⟩

theorem transferItem_generic_no_announce (natives : Natives) (s : Bridge)
    (callbackState : BRCryptoClientCallbackState) (item : TransferItem)
    (hKind : callbackState.type = .CWM_CALLBACK_TYPE_GEN_GET_TRANSFERS) :
    (newBridgeCalls s (cwmAnnounceGetTransferItem natives s callbackState item).bridge).countP
      Call.isAnnounce = 0 := by
  unfold cwmAnnounceGetTransferItem
  rw [if_neg (by simp [hKind])]
  simp only [Bridge.onManager, Bridge.call, cryptoWalletManagerTake,
    cryptoWalletManagerGive, cryptoWalletManagerHandleTransferGEN, hKind]
  cases natives.cryptoNetworkGetCurrencyForUids s.cwm.network item.currency with
  | none => simp [BridgeOutcome.bridge, newBridgeCalls]
  | some walletCurrency =>
    simp only []
    cases natives.cryptoWalletManagerGetWalletForCurrency
      { s.cwm with ref := s.cwm.ref + 1 } walletCurrency <;>
    simp [BridgeOutcome.bridge, newBridgeCalls, Call.isAnnounce]

theorem transferItem_account_call (natives : Natives) (s : Bridge)
    (callbackState : BRCryptoClientCallbackState) (item : TransferItem)
    (hKind : callbackState.type = .CWM_CALLBACK_TYPE_ETH_GET_TRANSACTIONS) :
    ∃ s', cwmAnnounceGetTransferItem natives s callbackState item = .returned s' ∧
      s'.cwm = s.cwm ∧
      (newBridgeCalls s s').countP Call.isAnnounce =
        if natives.cryptoNetworkGetCurrencyForUids s.cwm.network item.currency = none
          then 0 else 1 := by
  unfold cwmAnnounceGetTransferItem
  rw [if_neg (by simp [hKind])]
  simp only [Bridge.onManager, Bridge.call, cryptoWalletManagerTake,
    cryptoWalletManagerGive, hKind]
  cases natives.cryptoNetworkGetCurrencyForUids s.cwm.network item.currency with
  | none => exact ⟨_, rfl, rfl, by simp [newBridgeCalls]⟩
  | some walletCurrency =>
    cases hI : natives.cryptoCurrencyGetIssuer walletCurrency <;>
    simp [hI, newBridgeCalls, Call.isAnnounce]

/-- C21, amended: every request callback that calls the Client, on a live manager, returns
(the gas-estimate request when the transfer encodes) having handed to the Client exactly one
token, which is the zeroed record with the request kind of the callback's family and
operation, the request id of the call, and the context of the call written into it: the
transaction hash as given, not reversed, for a UTXO submit; the wallet and the transfer for
an account submit; the wallet and the cookie for an account gas estimate; the wallet and a
copy of the transfer for a generic submit.  And whenever a token is passed to an announce
function, every call of an announce function of the native manager that the announce makes
carries the request id recorded in the token and, where it takes them, the recorded hash,
wallet, transfer or cookie.  An announce other than the item announces and
block-number-failure that returns has made exactly one such call; so has transactions-item
of the UTXO family, and transfer-item of the account family for a known currency.  No such
call, and so none with the request id, is made by block-number-failure, by the two
transactions-item announces on a manager of the generic family, by transfer-item with a
token of the generic family, and by transfer-item of the account family for an unknown
currency. -/
theorem request_response_correlation (natives : Natives) :
    (∀ (context : Bridge) (request : BackendRequest), context.cwm.ref ≠ 0 →
      (∀ s1, handleBackendRequest natives context request = .returned s1 →
        (newBridgeCalls context s1).filterMap Call.token = request.expectedToken.toList) ∧
      (∀ t, request.expectedToken = some t →
        (∀ ewm wid tid cookie sender receiver amount price data rid,
          request =
            .getGasEstimateAsETH ewm wid tid cookie sender receiver amount price data rid →
          (natives.ewmTransferGetRLPEncoding wid tid).2 = true) →
        ∃ s1, handleBackendRequest natives context request = .returned s1)) ∧
    (∀ (s : Bridge) (callbackState : BRCryptoClientCallbackState) (a : Announce),
      (newBridgeCalls s (announce natives s callbackState a).bridge).all
        (Call.carries callbackState) = true) ∧
    (∀ (s s' : Bridge) (callbackState : BRCryptoClientCallbackState) (a : Announce),
      a.isItem = false → a ≠ .getBlockNumberFailure →
      announce natives s callbackState a = .returned s' →
      (newBridgeCalls s s').countP Call.isAnnounce = 1) ∧
    (∀ (s : Bridge) (callbackState : BRCryptoClientCallbackState),
      (newBridgeCalls s (cwmAnnounceGetBlockNumberFailure s callbackState).bridge).countP
        Call.isAnnounce = 0 ∧
      (∀ status transaction timestamp blockHeight,
        (newBridgeCalls s (cwmAnnounceGetTransactionsItemGEN natives s callbackState status
          transaction timestamp blockHeight).bridge).countP Call.isAnnounce = 0 ∧
        (s.cwm.type = .BLOCK_CHAIN_TYPE_GEN →
          (newBridgeCalls s (cwmAnnounceGetTransactionsItem natives s callbackState status
            transaction timestamp blockHeight).bridge).countP Call.isAnnounce = 0) ∧
        (callbackState.type = .CWM_CALLBACK_TYPE_BTC_GET_TRANSACTIONS →
          s.cwm.type = .BLOCK_CHAIN_TYPE_BTC →
          ∃ s', cwmAnnounceGetTransactionsItem natives s callbackState status transaction
              timestamp blockHeight = .returned s' ∧
            newBridgeCalls s s' =
              [.bwmAnnounceTransaction s.cwm.u callbackState.rid transaction timestamp
                blockHeight
                (decide
                  (BRCryptoTransferStateType.CRYPTO_TRANSFER_STATE_ERRORED = status))])) ∧
      (∀ item : TransferItem,
        (callbackState.type = .CWM_CALLBACK_TYPE_GEN_GET_TRANSFERS →
          (newBridgeCalls s
            (cwmAnnounceGetTransferItem natives s callbackState item).bridge).countP
              Call.isAnnounce = 0) ∧
        (callbackState.type = .CWM_CALLBACK_TYPE_ETH_GET_TRANSACTIONS →
          ∃ s', cwmAnnounceGetTransferItem natives s callbackState item = .returned s' ∧
            (newBridgeCalls s s').countP Call.isAnnounce =
              if natives.cryptoNetworkGetCurrencyForUids s.cwm.network item.currency = none
                then 0 else 1))) :=
  ⟨fun context request hLive =>
      ⟨request_tokens natives context request hLive,
       fun t hToken hEncoded => request_returns natives context request hLive t hToken
         hEncoded⟩,
   announce_carries natives,
   fun s s' callbackState a => announce_once natives s s' callbackState a,
   fun s callbackState =>
     ⟨(blockNumberFailure_quiet s callbackState).2,
      fun status transaction timestamp blockHeight =>
        ⟨(transactionsItemGEN_no_announce natives s callbackState status transaction
            timestamp blockHeight).1,
         transactionsItem_generic_no_announce natives s callbackState status transaction
           timestamp blockHeight,
         fun hKind hType =>
           (transactionsItem_utxo_call natives s callbackState status transaction timestamp
             blockHeight hKind hType).imp fun _ h => ⟨h.1, h.2.2⟩⟩,
      fun item =>
        ⟨transferItem_generic_no_announce natives s callbackState item,
         fun hKind =>
           (transferItem_account_call natives s callbackState item hKind).imp
             fun _ h => ⟨h.1, h.2.2⟩⟩⟩⟩

/-- C21 at the samples: the UTXO submit request 9 for the transaction hash `[1, 2]` hands the
Client a token holding the kind, the request id 9 and the hash `[1, 2]`; announcing the
success of the submit with that token calls `bwmAnnounceSubmit` once, with the request id 9
and the hash `[1, 2]`, and then releases the token. -/
theorem request_response_correlation_witness :
    (newBridgeCalls (sampleBridge .BLOCK_CHAIN_TYPE_BTC 1)
      (cwmSubmitTransactionAsBTC (sampleBridge .BLOCK_CHAIN_TYPE_BTC 1) sampleBTC 7 [1, 2, 3]
        [1, 2] 9).bridge).filterMap Call.token =
      [{ callocCallbackState with
         type := .CWM_CALLBACK_TYPE_BTC_SUBMIT_TRANSACTION, txHash := [1, 2], rid := 9 }] ∧
    newBridgeCalls
      (cwmSubmitTransactionAsBTC (sampleBridge .BLOCK_CHAIN_TYPE_BTC 1) sampleBTC 7 [1, 2, 3]
        [1, 2] 9).bridge
      (announce sampleNatives
        (cwmSubmitTransactionAsBTC (sampleBridge .BLOCK_CHAIN_TYPE_BTC 1) sampleBTC 7
          [1, 2, 3] [1, 2] 9).bridge
        { callocCallbackState with
          type := .CWM_CALLBACK_TYPE_BTC_SUBMIT_TRANSACTION, txHash := [1, 2], rid := 9 }
        (.submitTransferSuccess none)).bridge =
      [.bwmAnnounceSubmit (some 100) 9 [1, 2] 0,
       .free { callocCallbackState with
               type := .CWM_CALLBACK_TYPE_BTC_SUBMIT_TRANSACTION, txHash := [1, 2],
               rid := 9 }] ∧
    (newBridgeCalls
      (cwmSubmitTransactionAsBTC (sampleBridge .BLOCK_CHAIN_TYPE_BTC 1) sampleBTC 7 [1, 2, 3]
        [1, 2] 9).bridge
      (announce sampleNatives
        (cwmSubmitTransactionAsBTC (sampleBridge .BLOCK_CHAIN_TYPE_BTC 1) sampleBTC 7
          [1, 2, 3] [1, 2] 9).bridge
        { callocCallbackState with
          type := .CWM_CALLBACK_TYPE_BTC_SUBMIT_TRANSACTION, txHash := [1, 2], rid := 9 }
        (.submitTransferSuccess none)).bridge).all
      (Call.carries
        { callocCallbackState with
          type := .CWM_CALLBACK_TYPE_BTC_SUBMIT_TRANSACTION, txHash := [1, 2], rid := 9 }) =
      true :=
  ⟨((request_response_correlation sampleNatives).1 (sampleBridge .BLOCK_CHAIN_TYPE_BTC 1)
      (.submitTransactionAsBTC sampleBTC 7 [1, 2, 3] [1, 2] 9) (by decide)).1 _ rfl,
   rfl,
   (request_response_correlation sampleNatives).2.1 _ _ _⟩

/-- Against C21 as stated.  The request for transfers of the generic family with the request
id 9 hands the Client a token of the generic transfers kind holding 9; announcing a transfer
item with that token returns after two calls, `genManagerRecoverTransfer` and
`cryptoWalletManagerHandleTransferGEN`, neither of which is an announce function of the
native manager or takes a request id.  And the request for the block number of the UTXO
family with the request id 9 hands the Client a token holding 9; announcing the failure with
that token makes one call, the release of the token. -/
theorem request_response_correlation_counterexample :
    ((newBridgeCalls (sampleBridge .BLOCK_CHAIN_TYPE_GEN 1)
        (cwmGetTransfersAsGEN (sampleBridge .BLOCK_CHAIN_TYPE_GEN 1) 100 (some "r123") 0 500
          9).bridge).filterMap Call.token =
        [{ callocCallbackState with
           type := .CWM_CALLBACK_TYPE_GEN_GET_TRANSFERS, rid := 9 }] ∧
      ∃ s', cwmAnnounceGetTransferItem sampleNatives
          (cwmGetTransfersAsGEN (sampleBridge .BLOCK_CHAIN_TYPE_GEN 1) 100 (some "r123") 0
            500 9).bridge
          { callocCallbackState with type := .CWM_CALLBACK_TYPE_GEN_GET_TRANSFERS, rid := 9 }
          ⟨.CRYPTO_TRANSFER_STATE_INCLUDED, some "h", some "u", some "a", some "b",
            some "100", some "eth", some "10", 1000, 500, 6, 0, none, []⟩ = .returned s' ∧
        newBridgeCalls
          (cwmGetTransfersAsGEN (sampleBridge .BLOCK_CHAIN_TYPE_GEN 1) 100 (some "r123") 0
            500 9).bridge s' =
          [.genManagerRecoverTransfer (some 100) 7 (some "h") (some "u") (some "a")
             (some "b") (some "100") (some "eth") (some "10") 1000 500 false,
           .cryptoWalletManagerHandleTransferGEN
             { ref := 42, feeBasis := { pricePerCostFactor := 10, costFactor := 1 },
               state := .included 500 (2 ^ 64 - 1) 1000
                 { pricePerCostFactor := 10, costFactor := 1 } true none,
               attributes := [] }] ∧
        (newBridgeCalls
          (cwmGetTransfersAsGEN (sampleBridge .BLOCK_CHAIN_TYPE_GEN 1) 100 (some "r123") 0
            500 9).bridge s').countP Call.isAnnounce = 0) ∧
    ((newBridgeCalls (sampleBridge .BLOCK_CHAIN_TYPE_BTC 1)
        (cwmGetBlockNumberAsBTC (sampleBridge .BLOCK_CHAIN_TYPE_BTC 1) sampleBTC
          9).bridge).filterMap Call.token =
        [{ callocCallbackState with
           type := .CWM_CALLBACK_TYPE_BTC_GET_BLOCK_NUMBER, rid := 9 }] ∧
      ∃ s', cwmAnnounceGetBlockNumberFailure
          (cwmGetBlockNumberAsBTC (sampleBridge .BLOCK_CHAIN_TYPE_BTC 1) sampleBTC 9).bridge
          { callocCallbackState with type := .CWM_CALLBACK_TYPE_BTC_GET_BLOCK_NUMBER, rid := 9 }
          = .returned s' ∧
        newBridgeCalls
          (cwmGetBlockNumberAsBTC (sampleBridge .BLOCK_CHAIN_TYPE_BTC 1) sampleBTC 9).bridge
          s' =
          [.free { callocCallbackState with
                   type := .CWM_CALLBACK_TYPE_BTC_GET_BLOCK_NUMBER, rid := 9 }]) :=
  ⟨⟨rfl, _, rfl, rfl, rfl⟩, ⟨rfl, _, rfl, rfl⟩⟩

/-! ## C22: the balance event of announce-transfers-complete -/

/-- C22: for a token of the generic transfers kind on a manager of the generic family,
announce-transfers-complete with either success flag, whatever was announced before it,
returns, leaves the wallets of the manager (their Transfer sets and balances) and the
transfer records as they were, and makes exactly one listener call: WalletBalanceUpdated for
the primary wallet, carrying the balance of that wallet as read at that moment, which is
also its balance afterwards.  For a token of an account-family kind (transactions or logs)
it makes no listener call at all, however it ends. -/
theorem balance_idempotence (s : Bridge) (callbackState : BRCryptoClientCallbackState)
    (success : Bool) :
    (callbackState.type = .CWM_CALLBACK_TYPE_GEN_GET_TRANSFERS →
      s.cwm.type = .BLOCK_CHAIN_TYPE_GEN →
      ∃ s', cwmAnnounceGetTransfersComplete s callbackState success = .returned s' ∧
        s'.cwm.wallets = s.cwm.wallets ∧ s'.cwm.transfers = s.cwm.transfers ∧
        s'.cwm.wallet = s.cwm.wallet ∧
        newCalls s.cwm s'.cwm =
          [{ event := .walletEvent s.cwm.wallet
               (.CRYPTO_WALLET_EVENT_BALANCE_UPDATED
                 (cryptoWalletGetBalance s.cwm s.cwm.wallet)),
             wallets := s.cwm.wallets }] ∧
        cryptoWalletGetBalance s'.cwm s'.cwm.wallet =
          cryptoWalletGetBalance s.cwm s.cwm.wallet) ∧
    (callbackState.type = .CWM_CALLBACK_TYPE_ETH_GET_TRANSACTIONS ∨
        callbackState.type = .CWM_CALLBACK_TYPE_ETH_GET_LOGS →
      newCalls s.cwm (cwmAnnounceGetTransfersComplete s callbackState success).bridge.cwm =
        []) := by
  refine ⟨fun hKind hType => ?_, fun hKind => ?_⟩
  · have hOut : cwmAnnounceGetTransfersComplete s callbackState success = .returned
        { cwm := { s.cwm with
                   ref := s.cwm.ref + 1 + 1 - 1
                   events := s.cwm.events ++
                     [{ event := .walletEvent s.cwm.wallet
                          (.CRYPTO_WALLET_EVENT_BALANCE_UPDATED
                            (cryptoWalletGetBalance s.cwm s.cwm.wallet)),
                        wallets := s.cwm.wallets }] },
          calls := s.calls ++
            [.genManagerAnnounceTransferComplete s.cwm.u callbackState.rid success,
             .free callbackState] } := by
      simp [cwmAnnounceGetTransfersComplete, hKind, hType, Bridge.onManager, Bridge.call,
        cryptoWalletManagerTake, cryptoWalletManagerGive, cwmClientCallbackStateRelease,
        walletEventCallback, cryptoWalletGetBalance]
    exact ⟨_, hOut, rfl, rfl, rfl, by simp [newCalls], rfl⟩
  · rcases hKind with hKind | hKind <;> cases hM : s.cwm.type <;>
    simp [cwmAnnounceGetTransfersComplete, hKind, hM, Bridge.onManager, Bridge.call,
      cryptoWalletManagerTake, cryptoWalletManagerGive, cwmClientCallbackStateRelease,
      BridgeOutcome.bridge, newCalls]

/-- C22 at the samples: on the generic sample manager, whose primary wallet 7 holds the
balance 0 of unit 11, announce-transfers-complete with success = false and no item before
it emits one WalletBalanceUpdated for wallet 7 with that balance. -/
theorem balance_idempotence_witness :
    ∃ s', cwmAnnounceGetTransfersComplete (sampleBridge .BLOCK_CHAIN_TYPE_GEN 1)
        (sampleToken .CWM_CALLBACK_TYPE_GEN_GET_TRANSFERS) false = .returned s' ∧
      newEvents (sampleBridge .BLOCK_CHAIN_TYPE_GEN 1).cwm s'.cwm =
        [.walletEvent 7 (.CRYPTO_WALLET_EVENT_BALANCE_UPDATED
          (cryptoAmountCreate 11 false 0))] := by
  obtain ⟨s', hOut, _, _, _, hCalls, _⟩ := (balance_idempotence
    (sampleBridge .BLOCK_CHAIN_TYPE_GEN 1) (sampleToken .CWM_CALLBACK_TYPE_GEN_GET_TRANSFERS)
    false).1 rfl rfl
  exact ⟨s', hOut, by rw [newEvents, hCalls]; rfl⟩

/-! ## C23: what the failure announces hand to the native manager -/

/-- C23, amended: with a token of a kind it answers and a manager of that kind's family,
announce-transactions-complete and announce-transfers-complete with success = false and
announce-estimate-fee-failure return after exactly one call of a function of the native
manager, carrying the token's request id and the failure indication (success = false, or the
generic failure status), followed by the release of the token.  Announce-block-number-failure
calls no function of the native manager: it only releases the token and leaves the manager
record as it was.  None of the four changes a wallet or a transfer record. -/
theorem query_failures (s : Bridge) (callbackState : BRCryptoClientCallbackState) :
    ((callbackState.type = .CWM_CALLBACK_TYPE_BTC_GET_BLOCK_NUMBER ∨
        callbackState.type = .CWM_CALLBACK_TYPE_ETH_GET_BLOCK_NUMBER ∨
        callbackState.type = .CWM_CALLBACK_TYPE_GEN_GET_BLOCK_NUMBER) →
      ∃ s', cwmAnnounceGetBlockNumberFailure s callbackState = .returned s' ∧
        s'.cwm = s.cwm ∧ newBridgeCalls s s' = [.free callbackState]) ∧
    (callbackState.type = .CWM_CALLBACK_TYPE_BTC_GET_TRANSACTIONS →
      s.cwm.type = .BLOCK_CHAIN_TYPE_BTC →
      ∃ s', cwmAnnounceGetTransactionsComplete s callbackState false = .returned s' ∧
        s'.cwm.wallets = s.cwm.wallets ∧ s'.cwm.transfers = s.cwm.transfers ∧
        newBridgeCalls s s' =
          [.bwmAnnounceTransactionComplete s.cwm.u callbackState.rid false,
           .free callbackState]) ∧
    (callbackState.type = .CWM_CALLBACK_TYPE_GEN_GET_TRANSACTIONS →
      s.cwm.type = .BLOCK_CHAIN_TYPE_GEN →
      ∃ s', cwmAnnounceGetTransactionsComplete s callbackState false = .returned s' ∧
        s'.cwm.wallets = s.cwm.wallets ∧ s'.cwm.transfers = s.cwm.transfers ∧
        newBridgeCalls s s' =
          [.genManagerAnnounceTransferComplete s.cwm.u callbackState.rid false,
           .free callbackState]) ∧
    (callbackState.type = .CWM_CALLBACK_TYPE_GEN_GET_TRANSFERS →
      s.cwm.type = .BLOCK_CHAIN_TYPE_GEN →
      ∃ s', cwmAnnounceGetTransfersComplete s callbackState false = .returned s' ∧
        s'.cwm.wallets = s.cwm.wallets ∧ s'.cwm.transfers = s.cwm.transfers ∧
        newBridgeCalls s s' =
          [.genManagerAnnounceTransferComplete s.cwm.u callbackState.rid false,
           .free callbackState]) ∧
    (callbackState.type = .CWM_CALLBACK_TYPE_ETH_GET_TRANSACTIONS →
      s.cwm.type = .BLOCK_CHAIN_TYPE_ETH →
      ∃ s', cwmAnnounceGetTransfersComplete s callbackState false = .returned s' ∧
        s'.cwm.wallets = s.cwm.wallets ∧ s'.cwm.transfers = s.cwm.transfers ∧
        newBridgeCalls s s' =
          [.ewmAnnounceTransactionComplete s.cwm.u callbackState.rid false,
           .free callbackState]) ∧
    (callbackState.type = .CWM_CALLBACK_TYPE_ETH_GET_LOGS →
      s.cwm.type = .BLOCK_CHAIN_TYPE_ETH →
      ∃ s', cwmAnnounceGetTransfersComplete s callbackState false = .returned s' ∧
        s'.cwm.wallets = s.cwm.wallets ∧ s'.cwm.transfers = s.cwm.transfers ∧
        newBridgeCalls s s' =
          [.ewmAnnounceLogComplete s.cwm.u callbackState.rid false,
           .free callbackState]) ∧
    (callbackState.type = .CWM_CALLBACK_TYPE_ETH_ESTIMATE_GAS →
      ∀ hash, ∃ s',
        cwmAnnounceEstimateTransactionFeeFailure s callbackState hash = .returned s' ∧
        s'.cwm.wallets = s.cwm.wallets ∧ s'.cwm.transfers = s.cwm.transfers ∧
        newBridgeCalls s s' =
          [.ewmAnnounceGasEstimateFailure s.cwm.u callbackState.wid callbackState.cookie
             ERROR_FAILED callbackState.rid,
           .free callbackState]) := by
  refine ⟨fun hKind => ?_, fun hKind hType => ?_, fun hKind hType => ?_, fun hKind hType => ?_,
    fun hKind hType => ?_, fun hKind hType => ?_, fun hKind hash => ?_⟩
  · have hOut : cwmAnnounceGetBlockNumberFailure s callbackState = .returned
        { cwm := s.cwm, calls := s.calls ++ [.free callbackState] } := by
      rcases hKind with hKind | hKind | hKind <;>
      simp [cwmAnnounceGetBlockNumberFailure, hKind, cwmClientCallbackStateRelease,
        Bridge.call]
    exact ⟨_, hOut, rfl, by simp [newBridgeCalls]⟩
  · obtain ⟨s', hOut⟩ : ∃ s', cwmAnnounceGetTransactionsComplete s callbackState false =
        .returned s' ∧ s'.cwm.wallets = s.cwm.wallets ∧ s'.cwm.transfers = s.cwm.transfers ∧
        s'.calls = s.calls ++
          [.bwmAnnounceTransactionComplete s.cwm.u callbackState.rid false,
           .free callbackState] := by
      simp [cwmAnnounceGetTransactionsComplete, hKind, hType, Bridge.onManager, Bridge.call,
        cryptoWalletManagerTake, cryptoWalletManagerGive, cwmClientCallbackStateRelease]
    exact ⟨s', hOut.1, hOut.2.1, hOut.2.2.1, by simp [newBridgeCalls, hOut.2.2.2]⟩
  · obtain ⟨s', hOut⟩ : ∃ s', cwmAnnounceGetTransactionsComplete s callbackState false =
        .returned s' ∧ s'.cwm.wallets = s.cwm.wallets ∧ s'.cwm.transfers = s.cwm.transfers ∧
        s'.calls = s.calls ++
          [.genManagerAnnounceTransferComplete s.cwm.u callbackState.rid false,
           .free callbackState] := by
      simp [cwmAnnounceGetTransactionsComplete, hKind, hType, Bridge.onManager, Bridge.call,
        cryptoWalletManagerTake, cryptoWalletManagerGive, cwmClientCallbackStateRelease]
    exact ⟨s', hOut.1, hOut.2.1, hOut.2.2.1, by simp [newBridgeCalls, hOut.2.2.2]⟩
  · obtain ⟨s', hOut⟩ : ∃ s', cwmAnnounceGetTransfersComplete s callbackState false =
        .returned s' ∧ s'.cwm.wallets = s.cwm.wallets ∧ s'.cwm.transfers = s.cwm.transfers ∧
        s'.calls = s.calls ++
          [.genManagerAnnounceTransferComplete s.cwm.u callbackState.rid false,
           .free callbackState] := by
      simp [cwmAnnounceGetTransfersComplete, hKind, hType, Bridge.onManager, Bridge.call,
        cryptoWalletManagerTake, cryptoWalletManagerGive, cwmClientCallbackStateRelease,
        walletEventCallback]
    exact ⟨s', hOut.1, hOut.2.1, hOut.2.2.1, by simp [newBridgeCalls, hOut.2.2.2]⟩
  · obtain ⟨s', hOut⟩ : ∃ s', cwmAnnounceGetTransfersComplete s callbackState false =
        .returned s' ∧ s'.cwm.wallets = s.cwm.wallets ∧ s'.cwm.transfers = s.cwm.transfers ∧
        s'.calls = s.calls ++
          [.ewmAnnounceTransactionComplete s.cwm.u callbackState.rid false,
           .free callbackState] := by
      simp [cwmAnnounceGetTransfersComplete, hKind, hType, Bridge.onManager, Bridge.call,
        cryptoWalletManagerTake, cryptoWalletManagerGive, cwmClientCallbackStateRelease]
    exact ⟨s', hOut.1, hOut.2.1, hOut.2.2.1, by simp [newBridgeCalls, hOut.2.2.2]⟩
  · obtain ⟨s', hOut⟩ : ∃ s', cwmAnnounceGetTransfersComplete s callbackState false =
        .returned s' ∧ s'.cwm.wallets = s.cwm.wallets ∧ s'.cwm.transfers = s.cwm.transfers ∧
        s'.calls = s.calls ++
          [.ewmAnnounceLogComplete s.cwm.u callbackState.rid false,
           .free callbackState] := by
      simp [cwmAnnounceGetTransfersComplete, hKind, hType, Bridge.onManager, Bridge.call,
        cryptoWalletManagerTake, cryptoWalletManagerGive, cwmClientCallbackStateRelease]
    exact ⟨s', hOut.1, hOut.2.1, hOut.2.2.1, by simp [newBridgeCalls, hOut.2.2.2]⟩
  · have hOut : cwmAnnounceEstimateTransactionFeeFailure s callbackState hash = .returned
        { cwm := s.cwm,
          calls := s.calls ++
            [.ewmAnnounceGasEstimateFailure s.cwm.u callbackState.wid callbackState.cookie
               ERROR_FAILED callbackState.rid,
             .free callbackState] } := by
      simp [cwmAnnounceEstimateTransactionFeeFailure, hKind, Bridge.onManager, Bridge.call,
        cryptoWalletManagerTake, cryptoWalletManagerGive, cwmClientCallbackStateRelease]
    exact ⟨_, hOut, rfl, rfl, by simp [newBridgeCalls]⟩

/-- C23 at the samples: announce-transactions-complete with success = false on the UTXO
sample manager hands the failure of request 3 to the native manager once, then releases the
token. -/
theorem query_failures_witness :
    ∃ s', cwmAnnounceGetTransactionsComplete (sampleBridge .BLOCK_CHAIN_TYPE_BTC 1)
        (sampleToken .CWM_CALLBACK_TYPE_BTC_GET_TRANSACTIONS) false = .returned s' ∧
      newBridgeCalls (sampleBridge .BLOCK_CHAIN_TYPE_BTC 1) s' =
        [.bwmAnnounceTransactionComplete (some 100) 3 false,
         .free (sampleToken .CWM_CALLBACK_TYPE_BTC_GET_TRANSACTIONS)] := by
  obtain ⟨s', hOut, _, _, hCalls⟩ := (query_failures (sampleBridge .BLOCK_CHAIN_TYPE_BTC 1)
    (sampleToken .CWM_CALLBACK_TYPE_BTC_GET_TRANSACTIONS)).2.1 rfl rfl
  exact ⟨s', hOut, hCalls⟩

/-- Against C23 as stated: announce-block-number-failure with a token of the UTXO
block-number kind on the live UTXO sample manager returns having made one call, the release
of the token; no function of the native manager is called. -/
theorem block_number_failure_counterexample :
    ∃ s', cwmAnnounceGetBlockNumberFailure (sampleBridge .BLOCK_CHAIN_TYPE_BTC 1)
        (sampleToken .CWM_CALLBACK_TYPE_BTC_GET_BLOCK_NUMBER) = .returned s' ∧
      s'.calls = [.free (sampleToken .CWM_CALLBACK_TYPE_BTC_GET_BLOCK_NUMBER)] ∧
      s'.calls.countP Call.isAnnounce = 0 :=
  ⟨_, rfl, rfl, rfl⟩

/-! ## C24: the error flag of an announced transfer of the account family -/

theorem cwmParseUInt64_eq (natives : Natives) (string : Option String) (error : Bool) :
    cwmParseUInt64 natives string error =
      ((string.map natives.strtoull).getD 0, error || string.isNone) := by
  cases string <;> simp [cwmParseUInt64]

theorem cwmParseUInt256_eq (natives : Natives) (string : Option String) (error : Bool) :
    cwmParseUInt256 natives string error =
      ((string.bind natives.uint256CreateParse).getD 0,
       error || (string.bind natives.uint256CreateParse).isNone) := by
  cases string with
  | none => simp [cwmParseUInt256]
  | some text => cases h : natives.uint256CreateParse text <;> simp [cwmParseUInt256, h]

/-- C24: announce-transfer-item with a token of the account transactions kind and a known
currency never aborts and makes exactly one call of the native manager.  For the native
currency (no issuer) the call is `ewmAnnounceTransaction`, and its error flag is set exactly
when the amount or the gas price is missing or does not parse as a 256-bit number, or the
gas limit, the gas used or the nonce is missing, or the announced status is errored.  The
texts of the gas limit, the gas used and the nonce are never examined: when the three are
present, whatever they hold, and the amount and the gas price parse and the status is not
errored, the item is announced with the flag clear.  For the currency of a token (an issuer)
the call is `ewmAnnounceLog`, which has no error flag.  The call depends on the item only,
so a following item is announced as if it were the first. -/
theorem transfer_item_error_flag (natives : Natives) (s : Bridge)
    (callbackState : BRCryptoClientCallbackState) (item : TransferItem) (walletCurrency : Nat)
    (hKind : callbackState.type = .CWM_CALLBACK_TYPE_ETH_GET_TRANSACTIONS)
    (hCurrency : natives.cryptoNetworkGetCurrencyForUids s.cwm.network item.currency =
      some walletCurrency) :
    (natives.cryptoCurrencyGetIssuer walletCurrency = none →
      ∃ s', cwmAnnounceGetTransferItem natives s callbackState item = .returned s' ∧
        s'.cwm = s.cwm ∧
        newBridgeCalls s s' =
          [.ewmAnnounceTransaction s.cwm.u callbackState.rid item.hash item.sender
             item.receiver none
             ((item.amount.bind natives.uint256CreateParse).getD 0)
             (((cwmLookupAttributeValueForKey "gasLimit" item.attributes).map
               natives.strtoull).getD 0)
             (((cwmLookupAttributeValueForKey "gasPrice" item.attributes).bind
               natives.uint256CreateParse).getD 0)
             ""
             (((cwmLookupAttributeValueForKey "nonce" item.attributes).map
               natives.strtoull).getD 0)
             (((cwmLookupAttributeValueForKey "gasUsed" item.attributes).map
               natives.strtoull).getD 0)
             item.blockNumber item.blockHash item.blockConfirmations
             item.blockTransactionIndex item.blockTimestamp
             ((item.amount.bind natives.uint256CreateParse).isNone ||
              (cwmLookupAttributeValueForKey "gasLimit" item.attributes).isNone ||
              (cwmLookupAttributeValueForKey "gasUsed" item.attributes).isNone ||
              ((cwmLookupAttributeValueForKey "gasPrice" item.attributes).bind
                natives.uint256CreateParse).isNone ||
              (cwmLookupAttributeValueForKey "nonce" item.attributes).isNone ||
              decide (BRCryptoTransferStateType.CRYPTO_TRANSFER_STATE_ERRORED =
                item.status))] ∧
        (∀ amount gasPrice gasLimit gasUsed nonce,
          item.amount.bind natives.uint256CreateParse = some amount →
          (cwmLookupAttributeValueForKey "gasPrice" item.attributes).bind
            natives.uint256CreateParse = some gasPrice →
          cwmLookupAttributeValueForKey "gasLimit" item.attributes = some gasLimit →
          cwmLookupAttributeValueForKey "gasUsed" item.attributes = some gasUsed →
          cwmLookupAttributeValueForKey "nonce" item.attributes = some nonce →
          item.status ≠ .CRYPTO_TRANSFER_STATE_ERRORED →
          newBridgeCalls s s' =
            [.ewmAnnounceTransaction s.cwm.u callbackState.rid item.hash item.sender
               item.receiver none amount (natives.strtoull gasLimit) gasPrice ""
               (natives.strtoull nonce) (natives.strtoull gasUsed) item.blockNumber
               item.blockHash item.blockConfirmations item.blockTransactionIndex
               item.blockTimestamp false])) ∧
    (∀ contract, natives.cryptoCurrencyGetIssuer walletCurrency = some contract →
      ∃ s', cwmAnnounceGetTransferItem natives s callbackState item = .returned s' ∧
        s'.cwm = s.cwm ∧
        newBridgeCalls s s' =
          [.ewmAnnounceLog s.cwm.u callbackState.rid item.hash contract
             [natives.ethEventGetSelector,
              natives.ethEventERC20TransferEncodeAddress item.sender,
              natives.ethEventERC20TransferEncodeAddress item.receiver]
             item.amount
             (((cwmLookupAttributeValueForKey "gasPrice" item.attributes).bind
               natives.uint256CreateParse).getD 0)
             (((cwmLookupAttributeValueForKey "gasUsed" item.attributes).map
               natives.strtoull).getD 0)
             0 item.blockNumber item.blockTransactionIndex item.blockTimestamp]) := by
  have hCurrency' : natives.cryptoNetworkGetCurrencyForUids
      (s.onManager cryptoWalletManagerTake).cwm.network item.currency =
        some walletCurrency := hCurrency
  refine ⟨fun hIssuer => ?_, fun contract hIssuer => ?_⟩
  · have hOut : cwmAnnounceGetTransferItem natives s callbackState item = .returned
        { cwm := s.cwm,
          calls := s.calls ++
          [.ewmAnnounceTransaction s.cwm.u callbackState.rid item.hash item.sender
             item.receiver none
             ((item.amount.bind natives.uint256CreateParse).getD 0)
             (((cwmLookupAttributeValueForKey "gasLimit" item.attributes).map
               natives.strtoull).getD 0)
             (((cwmLookupAttributeValueForKey "gasPrice" item.attributes).bind
               natives.uint256CreateParse).getD 0)
             ""
             (((cwmLookupAttributeValueForKey "nonce" item.attributes).map
               natives.strtoull).getD 0)
             (((cwmLookupAttributeValueForKey "gasUsed" item.attributes).map
               natives.strtoull).getD 0)
             item.blockNumber item.blockHash item.blockConfirmations
             item.blockTransactionIndex item.blockTimestamp
             ((item.amount.bind natives.uint256CreateParse).isNone ||
              (cwmLookupAttributeValueForKey "gasLimit" item.attributes).isNone ||
              (cwmLookupAttributeValueForKey "gasUsed" item.attributes).isNone ||
              ((cwmLookupAttributeValueForKey "gasPrice" item.attributes).bind
                natives.uint256CreateParse).isNone ||
              (cwmLookupAttributeValueForKey "nonce" item.attributes).isNone ||
              decide (BRCryptoTransferStateType.CRYPTO_TRANSFER_STATE_ERRORED =
                item.status))] } := by
      unfold cwmAnnounceGetTransferItem
      rw [if_neg (by simp [hKind])]
      simp only [hCurrency', hKind, hIssuer, cwmParseUInt64_eq, cwmParseUInt256_eq]
      simp [Bridge.onManager, Bridge.call, cryptoWalletManagerTake, cryptoWalletManagerGive]
    refine ⟨_, hOut, rfl, by simp [newBridgeCalls], ?_⟩
    intro amount gasPrice gasLimit gasUsed nonce hA hP hL hU hN hS
    simp [newBridgeCalls, hA, hP, hL, hU, hN, Ne.symm hS]
  · have hOut : cwmAnnounceGetTransferItem natives s callbackState item = .returned
        { cwm := s.cwm,
          calls := s.calls ++
          [.ewmAnnounceLog s.cwm.u callbackState.rid item.hash contract
             [natives.ethEventGetSelector,
              natives.ethEventERC20TransferEncodeAddress item.sender,
              natives.ethEventERC20TransferEncodeAddress item.receiver]
             item.amount
             (((cwmLookupAttributeValueForKey "gasPrice" item.attributes).bind
               natives.uint256CreateParse).getD 0)
             (((cwmLookupAttributeValueForKey "gasUsed" item.attributes).map
               natives.strtoull).getD 0)
             0 item.blockNumber item.blockTransactionIndex item.blockTimestamp] } := by
      unfold cwmAnnounceGetTransferItem
      rw [if_neg (by simp [hKind])]
      simp only [hCurrency', hKind, hIssuer, cwmParseUInt64_eq, cwmParseUInt256_eq]
      simp [Bridge.onManager, Bridge.call, cryptoWalletManagerTake, cryptoWalletManagerGive]
    exact ⟨_, hOut, rfl, by simp [newBridgeCalls]⟩

/-- C24 at a sample: an item of the native currency whose amount and gas price are well
formed and whose gas limit, gas used and nonce are present but hold no number (`strtoull`
gives 0 for each) is announced to the native manager with zeros for the three and the error
flag clear. -/
theorem transfer_item_error_flag_witness :
    ∃ s', cwmAnnounceGetTransferItem
        { sampleNatives with
          strtoull := fun _ => 0
          uint256CreateParse := fun text =>
            if text = "100" then some 100 else if text = "2" then some 2 else none }
        (sampleBridge .BLOCK_CHAIN_TYPE_ETH 1)
        (sampleToken .CWM_CALLBACK_TYPE_ETH_GET_TRANSACTIONS)
        ⟨.CRYPTO_TRANSFER_STATE_INCLUDED, some "h", some "u", some "a", some "b",
          some "100", some "eth", some "10", 1000, 500, 6, 0, none,
          [("gasLimit", some "abc"), ("gasUsed", some ""), ("gasPrice", some "2"),
           ("nonce", some "x1")]⟩ = .returned s' ∧
      s'.calls =
        [.ewmAnnounceTransaction (some 100) 3 (some "h") (some "a") (some "b") none 100 0 2
           "" 0 0 500 none 6 0 1000 false] := by
  obtain ⟨s', hOut, _, _, hClear⟩ := (transfer_item_error_flag
    { sampleNatives with
      strtoull := fun _ => 0
      uint256CreateParse := fun text =>
        if text = "100" then some 100 else if text = "2" then some 2 else none }
    (sampleBridge .BLOCK_CHAIN_TYPE_ETH 1)
    (sampleToken .CWM_CALLBACK_TYPE_ETH_GET_TRANSACTIONS)
    ⟨.CRYPTO_TRANSFER_STATE_INCLUDED, some "h", some "u", some "a", some "b",
      some "100", some "eth", some "10", 1000, 500, 6, 0, none,
      [("gasLimit", some "abc"), ("gasUsed", some ""), ("gasPrice", some "2"),
       ("nonce", some "x1")]⟩ 1 rfl rfl).1 rfl
  exact ⟨s', hOut, hClear 100 2 "abc" "" "x1" rfl
    (by simp [cwmLookupAttributeValueForKey, String.map_eq])
    (by simp [cwmLookupAttributeValueForKey, String.map_eq])
    (by simp [cwmLookupAttributeValueForKey, String.map_eq])
    (by simp [cwmLookupAttributeValueForKey, String.map_eq])
    (by decide)⟩

/-! ## C25: the announce of a fee estimate -/

/-- C25: for a token of the account estimate kind, announce-estimate-fee-success never
aborts, and leaves the manager record as it was.  Whatever `sprintf` does with the cost: if
the conversion fails (a negative result), the native manager receives exactly one
gas-estimate failure, for the token's wallet, cookie and request id and with the
numeric-parse status, and no success; if it succeeds and the token's wallet has no transfer
with the announced originating hash, exactly one gas-estimate failure with the generic
failure status and no success; otherwise exactly one gas-estimate success, for the token's
wallet, cookie and request id, whose estimate is the text written for the cost units and
whose price is the gas price of that transfer, and no failure.  Each time the token is then
released.  With the `sprintf` of the C library the text is the decimal rendering of the cost
units and the conversion never fails. -/
theorem estimate_fee_success (natives : Natives) (s : Bridge)
    (callbackState : BRCryptoClientCallbackState) (strHash : String) (costUnits : Nat)
    (hKind : callbackState.type = .CWM_CALLBACK_TYPE_ETH_ESTIMATE_GAS) :
    (∀ sprintf : Nat → String × Int,
      ∃ s', cwmAnnounceEstimateTransactionFeeSuccessWith sprintf natives s callbackState
          strHash costUnits = .returned s' ∧ s'.cwm = s.cwm ∧
        ((sprintf costUnits).2 < 0 →
          newBridgeCalls s s' =
            [.ewmAnnounceGasEstimateFailure s.cwm.u callbackState.wid callbackState.cookie
               ERROR_NUMERIC_PARSE callbackState.rid,
             .free callbackState]) ∧
        (¬ (sprintf costUnits).2 < 0 →
          natives.ewmWalletGetTransferByOriginatingTransactionHash callbackState.wid strHash =
            none →
          newBridgeCalls s s' =
            [.ewmAnnounceGasEstimateFailure s.cwm.u callbackState.wid callbackState.cookie
               ERROR_FAILED callbackState.rid,
             .free callbackState]) ∧
        (¬ (sprintf costUnits).2 < 0 → ∀ transfer,
          natives.ewmWalletGetTransferByOriginatingTransactionHash callbackState.wid strHash =
            some transfer →
          newBridgeCalls s s' =
            [.ewmAnnounceGasEstimateSuccess s.cwm.u callbackState.wid callbackState.cookie
               (sprintf costUnits).1 (natives.ewmTransferGetGasPrice transfer)
               callbackState.rid,
             .free callbackState])) ∧
    cwmAnnounceEstimateTransactionFeeSuccess natives s callbackState strHash costUnits =
      cwmAnnounceEstimateTransactionFeeSuccessWith
        (fun cost => (toString (cost % 2 ^ 64), ((toString (cost % 2 ^ 64)).length : Int)))
        natives s callbackState strHash costUnits ∧
    (costUnits < 2 ^ 64 → toString (costUnits % 2 ^ 64) = toString costUnits) ∧
    ¬ ((toString (costUnits % 2 ^ 64)).length : Int) < 0 := by
  refine ⟨fun sprintf => ?_, rfl, fun hCost => by rw [Nat.mod_eq_of_lt hCost],
    not_lt.2 (Int.natCast_nonneg _)⟩
  by_cases hErr : (sprintf costUnits).2 < 0
  · have hdec : decide ((sprintf costUnits).2 < 0) = true := decide_eq_true hErr
    have hOut : cwmAnnounceEstimateTransactionFeeSuccessWith sprintf natives s callbackState
        strHash costUnits = .returned
          { cwm := s.cwm,
            calls := s.calls ++
              [.ewmAnnounceGasEstimateFailure s.cwm.u callbackState.wid callbackState.cookie
                 ERROR_NUMERIC_PARSE callbackState.rid,
               .free callbackState] } := by
      unfold cwmAnnounceEstimateTransactionFeeSuccessWith
      simp only [hKind, hdec]
      cases natives.ewmWalletGetTransferByOriginatingTransactionHash callbackState.wid
        strHash <;>
      simp [Bridge.onManager, Bridge.call, cryptoWalletManagerTake, cryptoWalletManagerGive,
        cwmClientCallbackStateRelease, hKind]
    exact ⟨_, hOut, rfl, fun _ => by simp [newBridgeCalls], fun h => absurd hErr h,
      fun h => absurd hErr h⟩
  · have hdec : decide ((sprintf costUnits).2 < 0) = false := decide_eq_false hErr
    cases hT : natives.ewmWalletGetTransferByOriginatingTransactionHash callbackState.wid
      strHash with
    | none =>
      have hOut : cwmAnnounceEstimateTransactionFeeSuccessWith sprintf natives s callbackState
          strHash costUnits = .returned
            { cwm := s.cwm,
              calls := s.calls ++
                [.ewmAnnounceGasEstimateFailure s.cwm.u callbackState.wid
                   callbackState.cookie ERROR_FAILED callbackState.rid,
                 .free callbackState] } := by
        unfold cwmAnnounceEstimateTransactionFeeSuccessWith
        simp only [hKind, hT, hdec]
        simp [Bridge.onManager, Bridge.call, cryptoWalletManagerTake,
          cryptoWalletManagerGive, cwmClientCallbackStateRelease, hKind]
      exact ⟨_, hOut, rfl, fun h => absurd h hErr, fun _ _ => by simp [newBridgeCalls],
        fun _ transfer h => by simp at h⟩
    | some transfer =>
      have hOut : cwmAnnounceEstimateTransactionFeeSuccessWith sprintf natives s callbackState
          strHash costUnits = .returned
            { cwm := s.cwm,
              calls := s.calls ++
                [.ewmAnnounceGasEstimateSuccess s.cwm.u callbackState.wid
                   callbackState.cookie (sprintf costUnits).1
                   (natives.ewmTransferGetGasPrice transfer) callbackState.rid,
                 .free callbackState] } := by
        unfold cwmAnnounceEstimateTransactionFeeSuccessWith
        simp only [hKind, hT, hdec]
        simp [Bridge.onManager, Bridge.call, cryptoWalletManagerTake,
          cryptoWalletManagerGive, cwmClientCallbackStateRelease, hKind]
      refine ⟨_, hOut, rfl, fun h => absurd h hErr, fun _ h => by simp at h,
        fun _ transfer' h => ?_⟩
      simp only [Option.some.injEq] at h
      subst h
      simp [newBridgeCalls]

/-- C25 at the samples: the estimate of 21000 cost units for a hash that the wallet holds a
transfer for goes to the native manager as one gas-estimate success with the texts of the
estimate and of the transfer's gas price, followed by the release of the token. -/
theorem estimate_fee_success_witness :
    ∃ s', cwmAnnounceEstimateTransactionFeeSuccess sampleNatives
        (sampleBridge .BLOCK_CHAIN_TYPE_ETH 1)
        (sampleToken .CWM_CALLBACK_TYPE_ETH_ESTIMATE_GAS) "0xabc" 21000 = .returned s' ∧
      newBridgeCalls (sampleBridge .BLOCK_CHAIN_TYPE_ETH 1) s' =
        [.ewmAnnounceGasEstimateSuccess (some 100) 0 0 (toString 21000) "2" 3,
         .free (sampleToken .CWM_CALLBACK_TYPE_ETH_ESTIMATE_GAS)] := by
  obtain ⟨hWith, hEq, _, hLen⟩ := estimate_fee_success sampleNatives
    (sampleBridge .BLOCK_CHAIN_TYPE_ETH 1) (sampleToken .CWM_CALLBACK_TYPE_ETH_ESTIMATE_GAS)
    "0xabc" 21000 rfl
  obtain ⟨s', hOut, _, _, _, hSome⟩ := hWith
    (fun cost => (toString (cost % 2 ^ 64), ((toString (cost % 2 ^ 64)).length : Int)))
  exact ⟨s', hEq.trans hOut, hSome hLen 42 rfl⟩

/-! ## C26: the state of a generic transfer that stands for an announced status -/

/-- C26: `cwmAnnounceGetTransferStateGEN` maps an announced status, timestamp `t` and block
height `h` of the generic family as follows: included gives `Included{h, unknown
transaction index, t, the transfer's own fee basis, success = true, no error}`; created,
signed, submitted and deleted give the state of the same name; errored gives `Errored` when
`h` is `BLOCK_HEIGHT_UNBOUND` and otherwise `Included` at `(h, t)` with success = false.  And
announce-transfer-item with a token of the generic transfers kind, a known currency and a
wallet for it returns after handing to `cryptoWalletManagerHandleTransferGEN` a transfer in
exactly that state. -/
theorem generic_state_mapping (natives : Natives) :
    (∀ (transfer : BRGenericTransfer) (t h : Nat),
      cwmAnnounceGetTransferStateGEN natives transfer .CRYPTO_TRANSFER_STATE_INCLUDED t h =
        .included h natives.GENERIC_TRANSFER_TRANSACTION_INDEX_UNKNOWN t transfer.feeBasis
          true none ∧
      cwmAnnounceGetTransferStateGEN natives transfer .CRYPTO_TRANSFER_STATE_CREATED t h =
        .other .GENERIC_TRANSFER_STATE_CREATED ∧
      cwmAnnounceGetTransferStateGEN natives transfer .CRYPTO_TRANSFER_STATE_SIGNED t h =
        .other .GENERIC_TRANSFER_STATE_SIGNED ∧
      cwmAnnounceGetTransferStateGEN natives transfer .CRYPTO_TRANSFER_STATE_SUBMITTED t h =
        .other .GENERIC_TRANSFER_STATE_SUBMITTED ∧
      cwmAnnounceGetTransferStateGEN natives transfer .CRYPTO_TRANSFER_STATE_DELETED t h =
        .other .GENERIC_TRANSFER_STATE_DELETED ∧
      (h = natives.BLOCK_HEIGHT_UNBOUND →
        cwmAnnounceGetTransferStateGEN natives transfer .CRYPTO_TRANSFER_STATE_ERRORED t h =
          .errored .GENERIC_TRANSFER_SUBMIT_ERROR_ONE) ∧
      (h ≠ natives.BLOCK_HEIGHT_UNBOUND →
        cwmAnnounceGetTransferStateGEN natives transfer .CRYPTO_TRANSFER_STATE_ERRORED t h =
          .included h natives.GENERIC_TRANSFER_TRANSACTION_INDEX_UNKNOWN t transfer.feeBasis
            false none)) ∧
    (∀ (s : Bridge) (callbackState : BRCryptoClientCallbackState) (item : TransferItem)
      (walletCurrency genWallet : Nat),
      callbackState.type = .CWM_CALLBACK_TYPE_GEN_GET_TRANSFERS →
      natives.cryptoNetworkGetCurrencyForUids s.cwm.network item.currency =
        some walletCurrency →
      natives.cryptoWalletManagerGetWalletForCurrency (cryptoWalletManagerTake s.cwm)
        walletCurrency = some genWallet →
      ∃ s' genTransfer,
        cwmAnnounceGetTransferItem natives s callbackState item = .returned s' ∧
        s'.calls.getLast? = some (.cryptoWalletManagerHandleTransferGEN genTransfer) ∧
        genTransfer.state = cwmAnnounceGetTransferStateGEN natives
          (natives.genManagerRecoverTransfer genWallet item.hash item.uids item.sender
            item.receiver item.amount item.currency item.fee item.blockTimestamp
            item.blockNumber
            (decide (BRCryptoTransferStateType.CRYPTO_TRANSFER_STATE_ERRORED = item.status)))
          item.status item.blockTimestamp item.blockNumber) := by
  refine ⟨?_, ?_⟩
  · intro transfer t h
    refine ⟨rfl, rfl, rfl, rfl, rfl, ?_, ?_⟩
    · intro hU
      simp [cwmAnnounceGetTransferStateGEN, hU, genTransferStateCreateErrored]
    · intro hU
      simp [cwmAnnounceGetTransferStateGEN, Ne.symm hU, genTransferStateCreateIncluded,
        genTransferGetFeeBasis]
  · intro s callbackState item walletCurrency genWallet hKind hCurrency hWallet
    have hCurrency' : natives.cryptoNetworkGetCurrencyForUids
        (s.onManager cryptoWalletManagerTake).cwm.network item.currency =
          some walletCurrency := hCurrency
    have hWallet' : natives.cryptoWalletManagerGetWalletForCurrency
        (s.onManager cryptoWalletManagerTake).cwm walletCurrency = some genWallet := hWallet
    unfold cwmAnnounceGetTransferItem
    rw [if_neg (by simp [hKind])]
    simp only [hCurrency', hKind, hWallet']
    refine ⟨_, _, rfl, List.getLast?_concat _, ?_⟩
    by_cases hA : item.attributes.length > 0
    · rw [if_pos hA]
      simp [genTransferSetAttributes, genTransferSetState]
    · rw [if_neg hA]
      simp [genTransferSetState]

/-- C26 at the scenario of the specification: a transfer of the generic family announced as
included at block 500 with timestamp 1000 is handed on in the state `Included{500, unknown
index, 1000, its own fee basis, success, no error}`; and an errored announce at the unbound
block height gives `Errored`. -/
theorem generic_state_mapping_witness :
    (∃ s' genTransfer,
      cwmAnnounceGetTransferItem sampleNatives (sampleBridge .BLOCK_CHAIN_TYPE_GEN 1)
        (sampleToken .CWM_CALLBACK_TYPE_GEN_GET_TRANSFERS)
        ⟨.CRYPTO_TRANSFER_STATE_INCLUDED, some "h", some "u", some "a", some "b",
          some "100", some "eth", some "10", 1000, 500, 6, 0, none, []⟩ = .returned s' ∧
      s'.calls.getLast? = some (.cryptoWalletManagerHandleTransferGEN genTransfer) ∧
      genTransfer.state = .included 500 (2 ^ 64 - 1) 1000
        { pricePerCostFactor := 10, costFactor := 1 } true none) ∧
    cwmAnnounceGetTransferStateGEN sampleNatives
      { ref := 42, feeBasis := { pricePerCostFactor := 10, costFactor := 1 },
        state := .other .GENERIC_TRANSFER_STATE_CREATED, attributes := [] }
      .CRYPTO_TRANSFER_STATE_ERRORED 1000 (2 ^ 64 - 1) =
        .errored .GENERIC_TRANSFER_SUBMIT_ERROR_ONE := by
  obtain ⟨s', genTransfer, hOut, hLast, hState⟩ :=
    (generic_state_mapping sampleNatives).2 (sampleBridge .BLOCK_CHAIN_TYPE_GEN 1)
      (sampleToken .CWM_CALLBACK_TYPE_GEN_GET_TRANSFERS)
      ⟨.CRYPTO_TRANSFER_STATE_INCLUDED, some "h", some "u", some "a", some "b",
        some "100", some "eth", some "10", 1000, 500, 6, 0, none, []⟩ 1 7 rfl rfl rfl
  exact ⟨⟨s', genTransfer, hOut, hLast, hState.trans rfl⟩,
    ((generic_state_mapping sampleNatives).1 _ 1000 (2 ^ 64 - 1)).2.2.2.2.2.1 rfl⟩

/-! ## C27: the lock around `cryptoWalletManagerHandleTransferGEN` -/

theorem handledUnderLock_handles (g : BRGenericTransfer → BRGenericTransfer)
    (transfers : List BRGenericTransfer) (rest : List Call) :
    handledUnderLock true
      (transfers.map (fun t => Call.cryptoWalletManagerHandleTransferGEN (g t)) ++ rest) =
      handledUnderLock true rest := by
  induction transfers with
  | nil => rfl
  | cons t ts ih => simpa [handledUnderLock] using ih

/-- C27: in `cwmAnnounceGetTransactionsItem` and `cwmAnnounceGetTransactionsItemGEN` every
call of `cryptoWalletManagerHandleTransferGEN` is made after `pthread_mutex_lock
(&cwm->lock)` and before the `pthread_mutex_unlock (&cwm->lock)` that follows it, however the
call ends; the second of the two, when the native manager recovers transfers from the raw
transaction, makes exactly the calls recover, lock, one handle for each recovered transfer,
unlock.  In `cwmAnnounceGetTransferItem` it is not so: with a token of the generic transfers
kind, a known currency and a wallet for it, the function returns after exactly two calls,
`genManagerRecoverTransfer` and `cryptoWalletManagerHandleTransferGEN`, and the second is
made with the lock not held. -/
theorem lock_discipline (natives : Natives) (s : Bridge)
    (callbackState : BRCryptoClientCallbackState) :
    (∀ status transaction timestamp blockHeight,
      handledUnderLock false (newBridgeCalls s
        (cwmAnnounceGetTransactionsItem natives s callbackState status transaction timestamp
          blockHeight).bridge) = true) ∧
    (∀ status transaction timestamp blockHeight,
      handledUnderLock false (newBridgeCalls s
        (cwmAnnounceGetTransactionsItemGEN natives s callbackState status transaction
          timestamp blockHeight).bridge) = true ∧
      ∀ transfers,
        natives.genManagerRecoverTransfersFromRawTransaction transaction timestamp
          blockHeight false = some transfers →
        newBridgeCalls s
          (cwmAnnounceGetTransactionsItemGEN natives s callbackState status transaction
            timestamp blockHeight).bridge =
          [.genManagerRecoverTransfersFromRawTransaction s.cwm.u transaction timestamp
             blockHeight false,
           .pthread_mutex_lock] ++
          transfers.map (fun genTransfer => Call.cryptoWalletManagerHandleTransferGEN
            (genTransferSetState genTransfer
              (cwmAnnounceGetTransferStateGEN natives genTransfer status timestamp
                blockHeight))) ++
          [.pthread_mutex_unlock]) ∧
    (∀ (item : TransferItem) (walletCurrency genWallet : Nat),
      callbackState.type = .CWM_CALLBACK_TYPE_GEN_GET_TRANSFERS →
      natives.cryptoNetworkGetCurrencyForUids s.cwm.network item.currency =
        some walletCurrency →
      natives.cryptoWalletManagerGetWalletForCurrency (cryptoWalletManagerTake s.cwm)
        walletCurrency = some genWallet →
      ∃ s' genTransfer,
        cwmAnnounceGetTransferItem natives s callbackState item = .returned s' ∧
        newBridgeCalls s s' =
          [.genManagerRecoverTransfer s.cwm.u genWallet item.hash item.uids item.sender
             item.receiver item.amount item.currency item.fee item.blockTimestamp
             item.blockNumber
             (decide (BRCryptoTransferStateType.CRYPTO_TRANSFER_STATE_ERRORED = item.status)),
           .cryptoWalletManagerHandleTransferGEN genTransfer] ∧
        handledUnderLock false (newBridgeCalls s s') = false) := by
  refine ⟨?_, ?_, ?_⟩
  · intro status transaction timestamp blockHeight
    simp only [cwmAnnounceGetTransactionsItem, Bridge.onManager, Bridge.call,
      cryptoWalletManagerTake, cryptoWalletManagerGive]
    cases s.cwm.type
    · simp only []
      split_ifs <;>
      simp [BridgeOutcome.bridge, newBridgeCalls, handledUnderLock]
    · simp [BridgeOutcome.bridge, newBridgeCalls, handledUnderLock]
    · simp only []
      split_ifs
      · simp [BridgeOutcome.bridge, newBridgeCalls, handledUnderLock]
      · cases natives.genManagerRecoverTransfersFromRawTransaction transaction timestamp
          blockHeight (decide (BRCryptoTransferStateType.CRYPTO_TRANSFER_STATE_ERRORED = status))
        · simp [BridgeOutcome.bridge, newBridgeCalls, handledUnderLock]
        · rename_i transfers
          have := handleTransferGEN_foldl natives id transfers
          simp only [id] at this
          simp only [BridgeOutcome.bridge, newBridgeCalls, this, List.append_assoc,
            List.drop_left]
          have h := handledUnderLock_handles id transfers [Call.pthread_mutex_unlock]
          simp only [id] at h
          simp [handledUnderLock, h]
  · intro status transaction timestamp blockHeight
    simp only [cwmAnnounceGetTransactionsItemGEN, Bridge.onManager, Bridge.call,
      cryptoWalletManagerTake, cryptoWalletManagerGive]
    cases natives.genManagerRecoverTransfersFromRawTransaction transaction timestamp
      blockHeight false
    · simp [BridgeOutcome.bridge, newBridgeCalls, handledUnderLock]
    · rename_i transfers
      have := handleTransferGEN_foldl natives (fun genTransfer =>
        genTransferSetState genTransfer (cwmAnnounceGetTransferStateGEN natives genTransfer
          status timestamp blockHeight)) transfers
      simp only [BridgeOutcome.bridge, newBridgeCalls, this, List.append_assoc,
        List.drop_left]
      have h := handledUnderLock_handles (fun genTransfer =>
        genTransferSetState genTransfer (cwmAnnounceGetTransferStateGEN natives genTransfer
          status timestamp blockHeight)) transfers [Call.pthread_mutex_unlock]
      refine ⟨by simp [handledUnderLock, h], fun transfers' hEq => ?_⟩
      simp only [Option.some.injEq] at hEq
      subst hEq
      simp
  · intro item walletCurrency genWallet hKind hCurrency hWallet
    have hCurrency' : natives.cryptoNetworkGetCurrencyForUids
        (s.onManager cryptoWalletManagerTake).cwm.network item.currency =
          some walletCurrency := hCurrency
    have hWallet' : natives.cryptoWalletManagerGetWalletForCurrency
        (s.onManager cryptoWalletManagerTake).cwm walletCurrency = some genWallet := hWallet
    have hCalls : ∀ (t : BRGenericTransfer) (c : Call),
        newBridgeCalls s
          ((cryptoWalletManagerHandleTransferGEN natives
            ((s.onManager cryptoWalletManagerTake).call c) t).onManager
              cryptoWalletManagerGive) =
          [c, .cryptoWalletManagerHandleTransferGEN t] := by
      intro t c
      simp [newBridgeCalls, cryptoWalletManagerHandleTransferGEN, Bridge.onManager,
        Bridge.call]
    unfold cwmAnnounceGetTransferItem
    rw [if_neg (by simp [hKind])]
    simp only [hCurrency', hKind, hWallet']
    refine ⟨_, _, rfl, hCalls _ _, ?_⟩
    rw [hCalls]
    rfl

/-- C27 at the samples: announce-transfer-item of the generic family on the live generic
sample manager hands the recovered transfer to `cryptoWalletManagerHandleTransferGEN` with
no `pthread_mutex_lock` among its calls. -/
theorem lock_discipline_witness :
    ∃ s' genTransfer,
      cwmAnnounceGetTransferItem sampleNatives (sampleBridge .BLOCK_CHAIN_TYPE_GEN 1)
        (sampleToken .CWM_CALLBACK_TYPE_GEN_GET_TRANSFERS)
        ⟨.CRYPTO_TRANSFER_STATE_INCLUDED, some "h", some "u", some "a", some "b",
          some "100", some "eth", some "10", 1000, 500, 6, 0, none, []⟩ = .returned s' ∧
      s'.calls =
        [.genManagerRecoverTransfer (some 100) 7 (some "h") (some "u") (some "a") (some "b")
           (some "100") (some "eth") (some "10") 1000 500 false,
         .cryptoWalletManagerHandleTransferGEN genTransfer] ∧
      handledUnderLock false s'.calls = false := by
  obtain ⟨s', genTransfer, hOut, hCalls, hLock⟩ :=
    (lock_discipline sampleNatives (sampleBridge .BLOCK_CHAIN_TYPE_GEN 1)
      (sampleToken .CWM_CALLBACK_TYPE_GEN_GET_TRANSFERS)).2.2
      ⟨.CRYPTO_TRANSFER_STATE_INCLUDED, some "h", some "u", some "a", some "b",
        some "100", some "eth", some "10", 1000, 500, 6, 0, none, []⟩ 1 7 rfl rfl rfl
  exact ⟨s', genTransfer, hOut, hCalls, hLock⟩

/-! ## Lemmas on runs of announces -/

theorem item_extends_calls (natives : Natives) (s : Bridge)
    (callbackState : BRCryptoClientCallbackState) (a : Announce) (h : a.isItem = true) :
    ∃ extra, (announce natives s callbackState a).bridge.calls = s.calls ++ extra := by
  cases a <;> simp only [Announce.isItem, Bool.false_eq_true] at h
  case getTransactionsItem status transaction timestamp blockHeight =>
    simp only [announce, cwmAnnounceGetTransactionsItem, Bridge.onManager, Bridge.call,
      cryptoWalletManagerTake, cryptoWalletManagerGive]
    cases s.cwm.type
    · simp only []
      split_ifs
      · exact ⟨[], by simp [BridgeOutcome.bridge]⟩
      · exact ⟨_, rfl⟩
    · exact ⟨[], by simp [BridgeOutcome.bridge]⟩
    · simp only []
      split_ifs
      · exact ⟨[], by simp [BridgeOutcome.bridge]⟩
      · cases natives.genManagerRecoverTransfersFromRawTransaction transaction timestamp
          blockHeight (decide (BRCryptoTransferStateType.CRYPTO_TRANSFER_STATE_ERRORED = status))
        · exact ⟨_, rfl⟩
        · rename_i transfers
          have := handleTransferGEN_foldl natives id transfers
          simp only [id] at this
          simp only [BridgeOutcome.bridge, this, List.append_assoc]
          exact ⟨_, rfl⟩
  case getTransactionsItemGEN status transaction timestamp blockHeight =>
    simp only [announce, cwmAnnounceGetTransactionsItemGEN, Bridge.onManager, Bridge.call,
      cryptoWalletManagerTake, cryptoWalletManagerGive]
    cases natives.genManagerRecoverTransfersFromRawTransaction transaction timestamp
      blockHeight false
    · exact ⟨_, rfl⟩
    · rename_i transfers
      have := handleTransferGEN_foldl natives (fun genTransfer =>
        genTransferSetState genTransfer (cwmAnnounceGetTransferStateGEN natives genTransfer
          status timestamp blockHeight)) transfers
      simp only [BridgeOutcome.bridge, this, List.append_assoc]
      exact ⟨_, rfl⟩
  case getTransferItem item =>
    simp only [announce, cwmAnnounceGetTransferItem]
    by_cases hK : (BRCryptoCWMCallbackType.CWM_CALLBACK_TYPE_GEN_GET_TRANSFERS =
        callbackState.type ∨
      BRCryptoCWMCallbackType.CWM_CALLBACK_TYPE_ETH_GET_TRANSACTIONS = callbackState.type)
    · rw [if_neg (not_not.2 hK)]
      simp only [Bridge.onManager, Bridge.call, cryptoWalletManagerTake,
        cryptoWalletManagerGive, cryptoWalletManagerHandleTransferGEN]
      cases natives.cryptoNetworkGetCurrencyForUids s.cwm.network item.currency with
      | none => exact ⟨[], by simp [BridgeOutcome.bridge]⟩
      | some walletCurrency =>
        rcases hK with hK | hK
        · simp only [← hK]
          cases natives.cryptoWalletManagerGetWalletForCurrency
            { s.cwm with ref := s.cwm.ref + 1 } walletCurrency
          · exact ⟨[], by simp [BridgeOutcome.bridge]⟩
          · exact ⟨_, List.append_assoc _ _ _⟩
        · simp only [← hK]
          cases natives.cryptoCurrencyGetIssuer walletCurrency <;> exact ⟨_, rfl⟩
    · rw [if_pos hK]
      exact ⟨[], by simp [BridgeOutcome.bridge]⟩

theorem announceAll_append (natives : Natives) (callbackState : BRCryptoClientCallbackState)
    (xs ys : List Announce) (s : Bridge) :
    announceAll natives callbackState s (xs ++ ys) =
      match announceAll natives callbackState s xs with
      | .returned s1 => announceAll natives callbackState s1 ys
      | .aborted s1 => .aborted s1 := by
  induction xs generalizing s with
  | nil => rfl
  | cons a rest ih =>
    simp only [List.cons_append, announceAll]
    cases announce natives s callbackState a with
    | returned s1 => exact ih s1
    | aborted s1 => rfl

theorem items_never_release (natives : Natives)
    (callbackState : BRCryptoClientCallbackState) (items : List Announce)
    (hItems : ∀ a ∈ items, a.isItem = true) (s : Bridge) :
    ∃ extra, (announceAll natives callbackState s items).bridge.calls = s.calls ++ extra ∧
      released callbackState extra = 0 := by
  induction items generalizing s with
  | nil => exact ⟨[], by simp [announceAll, BridgeOutcome.bridge], rfl⟩
  | cons a rest ih =>
    have hA := hItems a (List.mem_cons_self _ _)
    obtain ⟨e1, h1⟩ := item_extends_calls natives s callbackState a hA
    have hR1 := item_never_releases natives s callbackState a hA
    simp only [newBridgeCalls, h1, List.drop_left] at hR1
    simp only [announceAll]
    cases hOut : announce natives s callbackState a with
    | returned s1 =>
      simp only [hOut, BridgeOutcome.bridge] at h1
      obtain ⟨e2, h2, hR2⟩ := ih (fun b hb => hItems b (List.mem_cons_of_mem _ hb)) s1
      exact ⟨e1 ++ e2, by simp only [h2, h1, List.append_assoc],
        by rw [released_append, hR1, hR2]⟩
    | aborted s1 =>
      simp only [hOut, BridgeOutcome.bridge] at h1
      exact ⟨e1, h1, hR1⟩

theorem utxo_items_return (natives : Natives) (callbackState : BRCryptoClientCallbackState)
    (hKind : callbackState.type = .CWM_CALLBACK_TYPE_BTC_GET_TRANSACTIONS)
    (items : List Announce)
    (hItems : ∀ a ∈ items, ∃ status transaction timestamp blockHeight,
      a = .getTransactionsItem status transaction timestamp blockHeight) (s : Bridge)
    (hType : s.cwm.type = .BLOCK_CHAIN_TYPE_BTC) :
    ∃ s1, announceAll natives callbackState s items = .returned s1 ∧
      s1.cwm.type = .BLOCK_CHAIN_TYPE_BTC := by
  induction items generalizing s with
  | nil => exact ⟨s, rfl, hType⟩
  | cons a rest ih =>
    obtain ⟨status, transaction, timestamp, blockHeight, hA⟩ := hItems a (List.mem_cons_self _ _)
    subst hA
    have hOut : announce natives s callbackState
        (.getTransactionsItem status transaction timestamp blockHeight) = .returned
          { cwm := { s.cwm with ref := s.cwm.ref + 1 - 1 },
            calls := s.calls ++ [.bwmAnnounceTransaction s.cwm.u callbackState.rid transaction
              timestamp blockHeight
              (decide (BRCryptoTransferStateType.CRYPTO_TRANSFER_STATE_ERRORED = status))] } := by
      simp only [announce, cwmAnnounceGetTransactionsItem, Bridge.onManager,
        cryptoWalletManagerTake, hType, hKind, ne_eq, not_true_eq_false, if_false]
      rfl
    simp only [announceAll, hOut]
    exact ih (fun b hb => hItems b (List.mem_cons_of_mem _ hb)) _ hType

theorem account_items_return (natives : Natives) (callbackState : BRCryptoClientCallbackState)
    (hKind : callbackState.type = .CWM_CALLBACK_TYPE_ETH_GET_TRANSACTIONS)
    (items : List Announce)
    (hItems : ∀ a ∈ items, ∃ item, a = .getTransferItem item) (s : Bridge)
    (hType : s.cwm.type = .BLOCK_CHAIN_TYPE_ETH) :
    ∃ s1, announceAll natives callbackState s items = .returned s1 ∧
      s1.cwm.type = .BLOCK_CHAIN_TYPE_ETH := by
  induction items generalizing s with
  | nil => exact ⟨s, rfl, hType⟩
  | cons a rest ih =>
    obtain ⟨item, hA⟩ := hItems a (List.mem_cons_self _ _)
    subst hA
    obtain ⟨s1, hOut, hType1⟩ : ∃ s1, announce natives s callbackState (.getTransferItem item) =
        .returned s1 ∧ s1.cwm.type = .BLOCK_CHAIN_TYPE_ETH := by
      simp only [announce, cwmAnnounceGetTransferItem]
      rw [if_neg (by simp [hKind])]
      simp only [Bridge.onManager, Bridge.call, cryptoWalletManagerTake,
        cryptoWalletManagerGive, hKind]
      cases natives.cryptoNetworkGetCurrencyForUids s.cwm.network item.currency with
      | none => exact ⟨_, rfl, hType⟩
      | some walletCurrency =>
        cases hI : natives.cryptoCurrencyGetIssuer walletCurrency <;> simp [hI, hType]
    simp only [announceAll, hOut]
    exact ih (fun b hb => hItems b (List.mem_cons_of_mem _ hb)) _ hType1

theorem complete_extends_calls (natives : Natives) (s s' : Bridge)
    (callbackState : BRCryptoClientCallbackState) (a : Announce) (h : a.isComplete = true)
    (hOut : announce natives s callbackState a = .returned s') :
    ∃ extra, s'.calls = s.calls ++ extra := by
  cases a <;> simp only [Announce.isComplete, Bool.false_eq_true] at h
  all_goals
    cases hT : callbackState.type <;> cases hM : s.cwm.type <;>
    simp [announce, cwmAnnounceGetTransactionsComplete, cwmAnnounceGetTransfersComplete,
      cwmClientCallbackStateRelease, Bridge.onManager, Bridge.call, hT, hM,
      cryptoWalletManagerTake, cryptoWalletManagerGive, walletEventCallback] at hOut <;>
    subst hOut <;>
    exact ⟨_, rfl⟩

/-! ## C28: a stream of items and its end -/

/-- C28: a run of item announces (transactions-item, transactions-item of the generic family,
transfer-item) on one token never releases the token, however long the run is and however
it ends.  When such a run of `n ≥ 0` items followed by one complete announce
(transactions-complete or transfers-complete) on the same token returns, the token has been
released exactly once in the whole run, and that release is made by the complete call: none
before it, one in it.  And such a run does return in the UTXO family (any number of
transactions-item announces followed by transactions-complete, on a token of the UTXO
transactions kind and a manager of the UTXO family) and in the account family (any number of
transfer-item announces followed by transfers-complete, on a token of the account
transactions kind and a manager of the account family). -/
theorem streaming_releases_once (natives : Natives) (s : Bridge)
    (callbackState : BRCryptoClientCallbackState) (items : List Announce)
    (complete : Announce) (hItems : ∀ a ∈ items, a.isItem = true)
    (hComplete : complete.isComplete = true) :
    released callbackState
      (newBridgeCalls s (announceAll natives callbackState s items).bridge) = 0 ∧
    (∀ s', announceAll natives callbackState s (items ++ [complete]) = .returned s' →
      ∃ s1, announceAll natives callbackState s items = .returned s1 ∧
        announce natives s1 callbackState complete = .returned s' ∧
        released callbackState (newBridgeCalls s s1) = 0 ∧
        released callbackState (newBridgeCalls s1 s') = 1 ∧
        released callbackState (newBridgeCalls s s') = 1) ∧
    (callbackState.type = .CWM_CALLBACK_TYPE_BTC_GET_TRANSACTIONS →
      s.cwm.type = .BLOCK_CHAIN_TYPE_BTC →
      (∀ a ∈ items, ∃ status transaction timestamp blockHeight,
        a = .getTransactionsItem status transaction timestamp blockHeight) →
      ∀ success, ∃ s', announceAll natives callbackState s
        (items ++ [.getTransactionsComplete success]) = .returned s') ∧
    (callbackState.type = .CWM_CALLBACK_TYPE_ETH_GET_TRANSACTIONS →
      s.cwm.type = .BLOCK_CHAIN_TYPE_ETH →
      (∀ a ∈ items, ∃ item, a = .getTransferItem item) →
      ∀ success, ∃ s', announceAll natives callbackState s
        (items ++ [.getTransfersComplete success]) = .returned s') := by
  obtain ⟨extra, hCalls, hRel⟩ := items_never_release natives callbackState items hItems s
  have hNot : complete.isItem = false := by
    cases complete <;> simp [Announce.isComplete] at hComplete <;> rfl
  refine ⟨by simp [newBridgeCalls, hCalls, hRel], fun s' hOut => ?_, ?_, ?_⟩
  · rw [announceAll_append] at hOut
    cases hRun : announceAll natives callbackState s items with
    | aborted s1 => simp [hRun] at hOut
    | returned s1 =>
      simp only [hRun, BridgeOutcome.bridge] at hCalls
      simp only [hRun, announceAll] at hOut
      cases hC : announce natives s1 callbackState complete with
      | aborted s2 => simp [hC] at hOut
      | returned s2 =>
        simp only [hC, BridgeOutcome.returned.injEq] at hOut
        subst hOut
        have hOne := nonitem_releases_once natives s1 s2 callbackState complete hNot hC
        have hZero : released callbackState (newBridgeCalls s s1) = 0 := by
          simp [newBridgeCalls, hCalls, hRel]
        refine ⟨s1, rfl, hC, hZero, hOne, ?_⟩
        obtain ⟨e, hE⟩ := complete_extends_calls natives s1 s2 callbackState complete
          hComplete hC
        have hOne' : released callbackState e = 1 := by
          simpa [newBridgeCalls, hE] using hOne
        simp only [newBridgeCalls, hE, hCalls, List.append_assoc, List.drop_left,
          released_append, hRel, hOne']
  · intro hKind hType hUtxo success
    obtain ⟨s1, hRun, hType1⟩ := utxo_items_return natives callbackState hKind items hUtxo s
      hType
    obtain ⟨s', hOut⟩ := nonitem_returns natives s1 callbackState
      (.getTransactionsComplete success) rfl (by simp [Announce.kinds, hKind])
      (by rw [hKind, hType1]; rfl)
    exact ⟨s', by rw [announceAll_append, hRun]; simp [announceAll, hOut]⟩
  · intro hKind hType hAccount success
    obtain ⟨s1, hRun, hType1⟩ := account_items_return natives callbackState hKind items
      hAccount s hType
    obtain ⟨s', hOut⟩ := nonitem_returns natives s1 callbackState
      (.getTransfersComplete success) rfl (by simp [Announce.kinds, hKind])
      (by rw [hKind, hType1]; rfl)
    exact ⟨s', by rw [announceAll_append, hRun]; simp [announceAll, hOut]⟩

/-- C28 at the samples: two transactions-item announces followed by transactions-complete on
a token of the UTXO transactions kind and the live UTXO sample manager return, and the token
is released once in the whole run, none of it by the two items. -/
theorem streaming_releases_once_witness :
    released (sampleToken .CWM_CALLBACK_TYPE_BTC_GET_TRANSACTIONS)
      (newBridgeCalls (sampleBridge .BLOCK_CHAIN_TYPE_BTC 1)
        (announceAll sampleNatives (sampleToken .CWM_CALLBACK_TYPE_BTC_GET_TRANSACTIONS)
          (sampleBridge .BLOCK_CHAIN_TYPE_BTC 1)
          [.getTransactionsItem .CRYPTO_TRANSFER_STATE_INCLUDED [1, 2, 3] 1000 500,
           .getTransactionsItem .CRYPTO_TRANSFER_STATE_INCLUDED [4, 5, 6] 1001 501]).bridge) =
        0 ∧
    ∃ s', announceAll sampleNatives (sampleToken .CWM_CALLBACK_TYPE_BTC_GET_TRANSACTIONS)
        (sampleBridge .BLOCK_CHAIN_TYPE_BTC 1)
        ([.getTransactionsItem .CRYPTO_TRANSFER_STATE_INCLUDED [1, 2, 3] 1000 500,
          .getTransactionsItem .CRYPTO_TRANSFER_STATE_INCLUDED [4, 5, 6] 1001 501] ++
         [.getTransactionsComplete true]) = .returned s' ∧
      released (sampleToken .CWM_CALLBACK_TYPE_BTC_GET_TRANSACTIONS)
        (newBridgeCalls (sampleBridge .BLOCK_CHAIN_TYPE_BTC 1) s') = 1 := by
  obtain ⟨hZero, hOnce, hReturns, _⟩ := streaming_releases_once sampleNatives
    (sampleBridge .BLOCK_CHAIN_TYPE_BTC 1) (sampleToken .CWM_CALLBACK_TYPE_BTC_GET_TRANSACTIONS)
    [.getTransactionsItem .CRYPTO_TRANSFER_STATE_INCLUDED [1, 2, 3] 1000 500,
     .getTransactionsItem .CRYPTO_TRANSFER_STATE_INCLUDED [4, 5, 6] 1001 501]
    (.getTransactionsComplete true)
    (by simp [Announce.isItem]) rfl
  obtain ⟨s', hOut⟩ := hReturns rfl rfl (by simp) true
  obtain ⟨_, _, _, _, _, hOne⟩ := hOnce s' hOut
  exact ⟨hZero, s', hOut, hOne⟩

/-! ## Lemmas on the reference count: every handler, every branch -/

theorem refs_walletManagerEventAsBTC (context : BRCryptoWalletManager)
    (btcManager : BRWalletManager) (event : BRWalletManagerEvent) (hLive : context.ref ≠ 0) :
    ∀ cwm', cwmWalletManagerEventAsBTC context btcManager event = .returned cwm' →
      cwm'.ref = context.ref + (newCalls context cwm').length := by
  unfold cwmWalletManagerEventAsBTC
  cases event <;>
  simp only [cryptoWalletManagerTakeWeak, if_neg hLive, finishManagerEvent] <;>
  (repeat' split) <;>
  simp [newCalls, ensureNative, cryptoWalletManagerGive, walletManagerEventCallback,
    walletEventCallback, cryptoWalletManagerTake, cryptoWalletManagerSetState,
    cryptoNetworkSetHeight]

theorem refs_walletManagerEventAsETH (context : BRCryptoWalletManager)
    (ewm : BREthereumEWM) (event : BREthereumEWMEvent) (hLive : context.ref ≠ 0) :
    ∀ cwm', cwmWalletManagerEventAsETH context ewm event = .returned cwm' →
      cwm'.ref = context.ref + (newCalls context cwm').length := by
  unfold cwmWalletManagerEventAsETH
  cases event <;>
  simp only [cryptoWalletManagerTakeWeak, if_neg hLive, finishManagerEvent] <;>
  (repeat' split) <;>
  simp [newCalls, ensureNative, cryptoWalletManagerGive, walletManagerEventCallback,
    walletEventCallback, cryptoWalletManagerTake, cryptoWalletManagerSetState,
    cryptoNetworkSetHeight]


theorem refs_walletEventAsBTC (context : BRCryptoWalletManager)
    (btcManager : BRWalletManager) (btcWallet : Nat) (event : BRWalletEvent)
    (hLive : context.ref ≠ 0) :
    ∀ cwm', cwmWalletEventAsBTC context btcManager btcWallet event = .returned cwm' →
      cwm'.ref = context.ref + (newCalls context cwm').length := by
  unfold cwmWalletEventAsBTC
  cases event <;>
  simp only [cryptoWalletManagerTakeWeak, if_neg hLive] <;>
  (repeat' split) <;>
  simp [newCalls, ensureNative, cryptoWalletManagerGive, walletManagerEventCallback,
    walletEventCallback, transferEventCallback, cryptoWalletManagerTake,
    cryptoTransferSetState, cryptoWalletManagerRemWallet]

theorem refs_transactionEventAsBTC (TX_UNCONFIRMED : Nat) (context : BRCryptoWalletManager)
    (btcManager : BRWalletManager) (btcWallet btcTransaction : Nat)
    (event : BRTransactionEvent) (hLive : context.ref ≠ 0) :
    ∀ cwm', cwmTransactionEventAsBTC TX_UNCONFIRMED context btcManager btcWallet
        btcTransaction event = .returned cwm' →
      cwm'.ref = context.ref + (newCalls context cwm').length := by
  unfold cwmTransactionEventAsBTC
  cases event <;>
  simp only [cryptoWalletManagerTakeWeak, if_neg hLive] <;>
  (repeat' split) <;>
  simp [newCalls, ensureNative, cryptoWalletManagerGive, walletManagerEventCallback,
    walletEventCallback, transferEventCallback, cryptoWalletManagerTake,
    cryptoTransferSetState, cryptoTransferCreate, cryptoWalletAddTransfer,
    cryptoWalletRemTransfer]

theorem refs_peerEventAsETH (context : BRCryptoWalletManager) (ewm : BREthereumEWM)
    (hLive : context.ref ≠ 0) :
    ∀ cwm', cwmPeerEventAsETH context ewm = .returned cwm' →
      cwm'.ref = context.ref + (newCalls context cwm').length := by
  simp [cwmPeerEventAsETH, cryptoWalletManagerTakeWeak, hLive, newCalls, ensureNative,
    cryptoWalletManagerGive]

theorem refs_eventTokenAsETH (context : BRCryptoWalletManager) (ewm : BREthereumEWM)
    (token : Nat) (event : BREthereumTokenEvent) (hLive : context.ref ≠ 0) :
    ∀ cwm', cwmEventTokenAsETH context ewm token event = .returned cwm' →
      cwm'.ref = context.ref + (newCalls context cwm').length := by
  simp [cwmEventTokenAsETH, cryptoWalletManagerTakeWeak, hLive, newCalls, ensureNative,
    cryptoWalletManagerGive]

theorem refs_transactionEventAsETH (context : BRCryptoWalletManager) (ewm : BREthereumEWM)
    (wid tid : Nat) (event : BREthereumTransferEvent) (hLive : context.ref ≠ 0) :
    ∀ cwm', cwmTransactionEventAsETH context ewm wid tid event = .returned cwm' →
      cwm'.ref = context.ref + (newCalls context cwm').length +
        (if (cryptoWalletManagerFindWalletAsETH context wid).isNone then 1 else 0) := by
  cases hW : context.wallets.find? (fun w => w.wid == wid) with
  | none =>
    simp [cwmTransactionEventAsETH, cryptoWalletManagerTakeWeak, hLive, ensureNative,
      cryptoWalletManagerFindWalletAsETH, hW, newCalls]
  | some wallet =>
    have hw := findWallet_wid _ _ _ hW
    cases hT : findTransfer context.wallets context.transfers wid tid <;>
    cases event <;>
    simp [cwmTransactionEventAsETH, cryptoWalletManagerTakeWeak, hLive, ensureNative,
      cryptoWalletManagerFindWalletAsETH, cryptoWalletFindTransferAsETH, hW, hw, hT,
      newCalls, cryptoTransferCreate, cryptoWalletManagerGive, transferEventCallback,
      walletEventCallback, cryptoWalletManagerTake, cryptoWalletAddTransfer,
      cryptoTransferSetState, cryptoWalletRemTransfer]


theorem refs_walletEventAsETH (context : BRCryptoWalletManager) (ewm : BREthereumEWM)
    (wid : Nat) (event : BREthereumWalletEvent) (hLive : context.ref ≠ 0) :
    ∀ cwm', cwmWalletEventAsETH context ewm wid event = .returned cwm' →
      cwm'.ref = context.ref + (newCalls context cwm').length +
        (if (BackendEvent.walletEventAsETH ewm wid event).returnsBeforeGive context
          then 1 else 0) := by
  cases hW : context.wallets.find? (fun w => w.wid == wid) with
  | some wallet =>
    have hR : (BackendEvent.walletEventAsETH ewm wid event).returnsBeforeGive context =
        false := by
      simp [BackendEvent.returnsBeforeGive, cryptoWalletManagerFindWalletAsETH, hW]
    rw [hR]
    simp only [Bool.false_eq_true, if_false, add_zero]
    cases hE : event.type <;>
    simp only [cwmWalletEventAsETH, cryptoWalletManagerTakeWeak, if_neg hLive, ensureNative,
      cryptoWalletManagerFindWalletAsETH, hW, hE] <;>
    (try split_ifs) <;>
    simp [newCalls, cryptoWalletManagerGive, walletManagerEventCallback,
      walletEventCallback, cryptoWalletManagerTake]
  | none =>
    have hAny := any_of_find_none _ _ hW
    cases hE : event.type
    case WALLET_EVENT_CREATED =>
      cases hTok : ewm.walletGetToken wid with
      | none =>
        simp [cwmWalletEventAsETH, cryptoWalletManagerTakeWeak, hLive, ensureNative,
          cryptoWalletManagerFindWalletAsETH, hW, hE, hTok]
      | some token =>
        cases hCur : context.network.currencyForTokenETH.lookup token with
        | none =>
          simp [cwmWalletEventAsETH, cryptoWalletManagerTakeWeak, hLive, ensureNative,
            cryptoWalletManagerFindWalletAsETH, hW, hE, hTok, hCur,
            BackendEvent.returnsBeforeGive, newCalls]
        | some currency =>
          cases hU : context.network.unitAsDefault.lookup currency <;>
          cases hF : context.network.unitAsDefault.lookup context.network.currency <;>
          simp [cwmWalletEventAsETH, cryptoWalletManagerTakeWeak, hLive, ensureNative,
            cryptoWalletManagerFindWalletAsETH, hW, hE, hTok, hCur, hU, hF,
            BackendEvent.returnsBeforeGive, newCalls, cryptoWalletManagerAddWallet,
            cryptoWalletManagerHasWallet, cryptoWalletCreateAsETH, hAny,
            cryptoWalletManagerGive, walletManagerEventCallback, walletEventCallback,
            cryptoWalletManagerTake]
    all_goals
      simp [cwmWalletEventAsETH, cryptoWalletManagerTakeWeak, hLive, ensureNative,
        cryptoWalletManagerFindWalletAsETH, hW, hE, BackendEvent.returnsBeforeGive, newCalls,
        cryptoWalletManagerGive]


theorem refs_request (natives : Natives) (context : Bridge) (request : BackendRequest)
    (hLive : context.cwm.ref ≠ 0) :
    ∀ s', handleBackendRequest natives context request = .returned s' →
      s'.cwm.ref = context.cwm.ref + (newCalls context.cwm s'.cwm).length +
        (newBridgeCalls context s').countP Call.isClient := by
  cases request
  case getLogsAsETH ewm contract address event begBlockNumber endBlockNumber rid =>
    cases hM : context.cwm.type <;>
    simp [handleBackendRequest, cwmGetLogsAsETH, cwmAnnounceGetTransfersComplete,
      cryptoWalletManagerTakeWeak, hLive, hM, Bridge.onManager, Bridge.call,
      cryptoWalletManagerTake, cryptoWalletManagerGive, cwmClientCallbackStateRelease,
      newCalls, newBridgeCalls, Call.isClient]
  case getGasEstimateAsETH ewm wid tid cookie sender receiver amount price data rid =>
    cases hEnc : (natives.ewmTransferGetRLPEncoding wid tid).2 <;>
    simp [handleBackendRequest, cwmGetGasEstimateAsETH, cryptoWalletManagerTakeWeak, hLive,
      hEnc, funcEstimateTransactionFee, Bridge.onManager, Bridge.call,
      cryptoWalletManagerTake, cryptoWalletManagerGive, newCalls, newBridgeCalls,
      Call.isClient]
  all_goals
    simp [handleBackendRequest, cwmGetBlockNumberAsBTC, cwmGetTransactionsAsBTC,
      cwmSubmitTransactionAsBTC, cwmGetBalanceAsETH, cwmGetGasPriceAsETH,
      cwmSubmitTransactionAsETH, cwmGetTransactionsAsETH, cwmGetBlocksAsETH,
      cwmGetTokensAsETH, cwmGetBlockNumberAsETH, cwmGetNonceAsETH, cwmGetBlockNumberAsGEN,
      cwmGetTransactionsAsGEN, cwmGetTransfersAsGEN, cwmSubmitTransactionAsGEN,
      cryptoWalletManagerTakeWeak, hLive, funcGetBlockNumber, funcGetTransactions,
      funcGetTransfers, funcSubmitTransaction, funcEstimateTransactionFee, Bridge.onManager,
      Bridge.call, cryptoWalletManagerTake, cryptoWalletManagerGive, newCalls,
      newBridgeCalls, Call.isClient]

/-! ## C29: the reference count after a callback -/

/-- C29: on a live manager, when a callback returns, the reference count of the manager is
the count before the callback plus one for each listener call and each Client call that the
callback made, except after the two returns that precede `cryptoWalletManagerGive`: the
return of `cwmWalletEventAsETH` on a created wallet whose token has no currency in the
network, and the return of `cwmTransactionEventAsETH` when the manager holds no wallet for
the native wallet.  There the callback has made no listener call and the count is one more
than before: the reference of the weak take is not given back. -/
theorem reference_balance (TX_UNCONFIRMED : Nat) (natives : Natives) (context : Bridge)
    (hLive : context.cwm.ref ≠ 0) :
    (∀ event cwm', handleBackendEvent TX_UNCONFIRMED context.cwm event = .returned cwm' →
      cwm'.ref = context.cwm.ref + (newCalls context.cwm cwm').length +
        (if event.returnsBeforeGive context.cwm then 1 else 0)) ∧
    (∀ request s', handleBackendRequest natives context request = .returned s' →
      s'.cwm.ref = context.cwm.ref + (newCalls context.cwm s'.cwm).length +
        (newBridgeCalls context s').countP Call.isClient) ∧
    (∀ (ewm : BREthereumEWM) (wid tid : Nat) (event : BREthereumTransferEvent),
      cryptoWalletManagerFindWalletAsETH context.cwm wid = none →
      ∃ cwm', cwmTransactionEventAsETH context.cwm ewm wid tid event = .returned cwm' ∧
        newCalls context.cwm cwm' = [] ∧ cwm'.ref = context.cwm.ref + 1) ∧
    (∀ (ewm : BREthereumEWM) (wid token : Nat) (event : BREthereumWalletEvent),
      event.type = .WALLET_EVENT_CREATED →
      cryptoWalletManagerFindWalletAsETH context.cwm wid = none →
      ewm.walletGetToken wid = some token →
      context.cwm.network.currencyForTokenETH.lookup token = none →
      ∃ cwm', cwmWalletEventAsETH context.cwm ewm wid event = .returned cwm' ∧
        newCalls context.cwm cwm' = [] ∧ cwm'.ref = context.cwm.ref + 1) := by
  refine ⟨fun event cwm' hOut => ?_, fun request s' hOut => ?_,
    fun ewm wid tid event hW => ?_, fun ewm wid token event hE hW hTok hCur => ?_⟩
  · cases event with
    | walletManagerEventAsBTC btcManager event =>
      simpa [BackendEvent.returnsBeforeGive] using
        refs_walletManagerEventAsBTC context.cwm btcManager event hLive cwm' hOut
    | walletEventAsBTC btcManager btcWallet event =>
      simpa [BackendEvent.returnsBeforeGive] using
        refs_walletEventAsBTC context.cwm btcManager btcWallet event hLive cwm' hOut
    | transactionEventAsBTC btcManager btcWallet btcTransaction event =>
      simpa [BackendEvent.returnsBeforeGive] using
        refs_transactionEventAsBTC TX_UNCONFIRMED context.cwm btcManager btcWallet
          btcTransaction event hLive cwm' hOut
    | walletManagerEventAsETH ewm event =>
      simpa [BackendEvent.returnsBeforeGive] using
        refs_walletManagerEventAsETH context.cwm ewm event hLive cwm' hOut
    | peerEventAsETH ewm =>
      simpa [BackendEvent.returnsBeforeGive] using
        refs_peerEventAsETH context.cwm ewm hLive cwm' hOut
    | walletEventAsETH ewm wid event =>
      exact refs_walletEventAsETH context.cwm ewm wid event hLive cwm' hOut
    | eventTokenAsETH ewm token event =>
      simpa [BackendEvent.returnsBeforeGive] using
        refs_eventTokenAsETH context.cwm ewm token event hLive cwm' hOut
    | transactionEventAsETH ewm wid tid event =>
      exact refs_transactionEventAsETH context.cwm ewm wid tid event hLive cwm' hOut
  · exact refs_request natives context request hLive s' hOut
  · have hW' : context.cwm.wallets.find? (fun w => w.wid == wid) = none := hW
    have hOut : cwmTransactionEventAsETH context.cwm ewm wid tid event = .returned
        (ensureNative { context.cwm with ref := context.cwm.ref + 1 } ewm.ptr) := by
      simp [cwmTransactionEventAsETH, cryptoWalletManagerTakeWeak, hLive, ensureNative,
        cryptoWalletManagerFindWalletAsETH, hW']
    exact ⟨_, hOut, by simp [newCalls, ensureNative], rfl⟩
  · have hW' : context.cwm.wallets.find? (fun w => w.wid == wid) = none := hW
    have hOut : cwmWalletEventAsETH context.cwm ewm wid event = .returned
        (ensureNative { context.cwm with ref := context.cwm.ref + 1 } ewm.ptr) := by
      simp [cwmWalletEventAsETH, cryptoWalletManagerTakeWeak, hLive, ensureNative,
        cryptoWalletManagerFindWalletAsETH, hW', hE, hTok, hCur]
    exact ⟨_, hOut, by simp [newCalls, ensureNative], rfl⟩

/-- C29 at the samples: the account sample manager, with reference count 1, holds the
native wallet 7 only; after the native transfer event created for transfer 42 of the native
wallet 8 the handler has returned, no listener call was made, and the count is 2. -/
theorem reference_balance_witness :
    ∃ cwm', cwmTransactionEventAsETH (sampleBridge .BLOCK_CHAIN_TYPE_ETH 1).cwm sampleETH 8 42
        .TRANSFER_EVENT_CREATED = .returned cwm' ∧
      newCalls (sampleBridge .BLOCK_CHAIN_TYPE_ETH 1).cwm cwm' = [] ∧ cwm'.ref = 2 := by
  obtain ⟨cwm', hOut, hCalls, hRef⟩ := (reference_balance 0 sampleNatives
    (sampleBridge .BLOCK_CHAIN_TYPE_ETH 1) (by decide)).2.2.1 sampleETH 8 42
    .TRANSFER_EVENT_CREATED rfl
  exact ⟨cwm', hOut, hCalls, hRef⟩

/-! ## C30: the state of the manager and its ManagerChanged events -/

/-- C30: on a live manager of the UTXO family, each of the native manager events connected,
disconnected, sync-started and sync-stopped makes the handler return after exactly one
ManagerChanged event whose old state is the state recorded in the manager before the handler
ran and whose new state is the state recorded in it when the handler returns.  In the
account family it is not so.  On the native event changed the handler emits ManagerChanged
with the images of the native old and new state, whatever state the manager records, and
leaves the recorded state as it was; on network-unavailable the old state of the event is
the recorded one, but the new state of the event is the plain disconnected state, while the
state recorded is disconnected with the reason unknown. -/
theorem manager_state_tracks (context : BRCryptoWalletManager) (hLive : context.ref ≠ 0) :
    (context.type = .BLOCK_CHAIN_TYPE_BTC →
      ∀ (btcManager : BRWalletManager),
        (∃ cwm', cwmWalletManagerEventAsBTC context btcManager
            .BITCOIN_WALLET_MANAGER_CONNECTED = .returned cwm' ∧
          managerChanged (newEvents context cwm') = [(context.state, cwm'.state)] ∧
          cwm'.state =
            cryptoWalletManagerStateInit .CRYPTO_WALLET_MANAGER_STATE_CONNECTED) ∧
        (∀ reason, ∃ cwm', cwmWalletManagerEventAsBTC context btcManager
            (.BITCOIN_WALLET_MANAGER_DISCONNECTED reason) = .returned cwm' ∧
          managerChanged (newEvents context cwm') = [(context.state, cwm'.state)] ∧
          cwm'.state = cryptoWalletManagerStateDisconnectedInit reason) ∧
        (∃ cwm', cwmWalletManagerEventAsBTC context btcManager
            .BITCOIN_WALLET_MANAGER_SYNC_STARTED = .returned cwm' ∧
          managerChanged (newEvents context cwm') = [(context.state, cwm'.state)] ∧
          cwm'.state =
            cryptoWalletManagerStateInit .CRYPTO_WALLET_MANAGER_STATE_SYNCING) ∧
        (∀ reason, ∃ cwm', cwmWalletManagerEventAsBTC context btcManager
            (.BITCOIN_WALLET_MANAGER_SYNC_STOPPED reason) = .returned cwm' ∧
          managerChanged (newEvents context cwm') = [(context.state, cwm'.state)] ∧
          cwm'.state =
            cryptoWalletManagerStateInit .CRYPTO_WALLET_MANAGER_STATE_CONNECTED)) ∧
    (∀ (ewm : BREthereumEWM) (oldState newState : BREthereumEWMState),
      (newState = .EWM_STATE_SYNCING → oldState = .EWM_STATE_CONNECTED) →
      (oldState = .EWM_STATE_SYNCING → newState = .EWM_STATE_CONNECTED) →
      ∃ cwm', cwmWalletManagerEventAsETH context ewm
          (.EWM_EVENT_CHANGED oldState newState) = .returned cwm' ∧
        managerChanged (newEvents context cwm') =
          [(cwmStateFromETH oldState, cwmStateFromETH newState)] ∧
        cwm'.state = context.state) ∧
    (∀ (ewm : BREthereumEWM),
      ∃ cwm', cwmWalletManagerEventAsETH context ewm .EWM_EVENT_NETWORK_UNAVAILABLE =
          .returned cwm' ∧
        managerChanged (newEvents context cwm') =
          [(context.state,
            cryptoWalletManagerStateInit .CRYPTO_WALLET_MANAGER_STATE_DISCONNECTED)] ∧
        cwm'.state =
          cryptoWalletManagerStateDisconnectedInit cryptoWalletManagerDisconnectReasonUnknown ∧
        cwm'.state ≠
          cryptoWalletManagerStateInit .CRYPTO_WALLET_MANAGER_STATE_DISCONNECTED) := by
  refine ⟨fun hType btcManager => ⟨?_, fun reason => ?_, ?_, fun reason => ?_⟩,
    fun ewm oldState newState hNew hOld => ?_, fun ewm => ?_⟩
  · simp [cwmWalletManagerEventAsBTC, cryptoWalletManagerTakeWeak, hLive, hType, ensureNative,
      finishManagerEvent, walletManagerEventCallback, cryptoWalletManagerTake,
      cryptoWalletManagerGive, cryptoWalletManagerSetState, newEvents, newCalls,
      managerChanged]
  · simp [cwmWalletManagerEventAsBTC, cryptoWalletManagerTakeWeak, hLive, hType, ensureNative,
      finishManagerEvent, walletManagerEventCallback, cryptoWalletManagerTake,
      cryptoWalletManagerGive, cryptoWalletManagerSetState, newEvents, newCalls,
      managerChanged]
  · simp [cwmWalletManagerEventAsBTC, cryptoWalletManagerTakeWeak, hLive, hType, ensureNative,
      finishManagerEvent, walletManagerEventCallback, cryptoWalletManagerTake,
      cryptoWalletManagerGive, cryptoWalletManagerSetState, newEvents, newCalls,
      managerChanged]
  · simp [cwmWalletManagerEventAsBTC, cryptoWalletManagerTakeWeak, hLive, hType, ensureNative,
      finishManagerEvent, walletManagerEventCallback, cryptoWalletManagerTake,
      cryptoWalletManagerGive, cryptoWalletManagerSetState, newEvents, newCalls,
      managerChanged]
  · cases oldState <;> cases newState <;>
    simp at hNew hOld <;>
    simp [cwmWalletManagerEventAsETH, cryptoWalletManagerTakeWeak, hLive, ensureNative,
      finishManagerEvent, walletManagerEventCallback, cryptoWalletManagerTake,
      cryptoWalletManagerGive, newEvents, newCalls, managerChanged]
  · simp [cwmWalletManagerEventAsETH, cryptoWalletManagerTakeWeak, hLive, ensureNative,
      finishManagerEvent, walletManagerEventCallback, cryptoWalletManagerTake,
      cryptoWalletManagerGive, cryptoWalletManagerSetState, newEvents, newCalls,
      managerChanged, cryptoWalletManagerStateInit, cryptoWalletManagerStateDisconnectedInit]

/-- C30 at the samples: the account sample manager records the state connected; on the
native event changed from connected to syncing the handler emits ManagerChanged from
connected to syncing and returns with the state connected still recorded. -/
theorem manager_state_tracks_witness :
    ∃ cwm', cwmWalletManagerEventAsETH (sampleManager .BLOCK_CHAIN_TYPE_ETH .created)
        sampleETH (.EWM_EVENT_CHANGED .EWM_STATE_CONNECTED .EWM_STATE_SYNCING) =
          .returned cwm' ∧
      managerChanged (newEvents (sampleManager .BLOCK_CHAIN_TYPE_ETH .created) cwm') =
        [(cryptoWalletManagerStateInit .CRYPTO_WALLET_MANAGER_STATE_CONNECTED,
          cryptoWalletManagerStateInit .CRYPTO_WALLET_MANAGER_STATE_SYNCING)] ∧
      cwm'.state = cryptoWalletManagerStateInit .CRYPTO_WALLET_MANAGER_STATE_CONNECTED := by
  obtain ⟨cwm', hOut, hEvents, hState⟩ :=
    (manager_state_tracks (sampleManager .BLOCK_CHAIN_TYPE_ETH .created) (by decide)).2.1
      sampleETH .EWM_STATE_CONNECTED .EWM_STATE_SYNCING (fun _ => rfl) (fun h => by simp at h)
  exact ⟨cwm', hOut, hEvents, hState⟩

end WalletKit
